import Mathlib

/-!
# CodingSnake: the server tick engine and its command buffer

A shallow embedding of `server/src/managers/GameManager.cpp`.  The manager is a
record of its fields and every member function is a pure function on that record.
The classes `Point`, `Direction`, `Snake`, `Player`, `GameState` and `MapManager`
are used by the manager but their sources are not part of the repository snapshot;
their members are modelled from the specification and marked as such.

Locks, logging, performance gauges and wall-clock timestamps have no effect on the
values studied here and are left out.  `std::map` and `std::unordered_map` are
association lists with unique keys; iteration order is the list order.
-/

namespace snake

/-! ## Data model -/

/-- Modelled from the spec: the server class `Point` (models/Point.h is missing), an
integer pair `(x, y)` with equality. -/
structure Point where
  x : Int
  y : Int
deriving DecidableEq, Repr

/-- Modelled from the spec: the enum `Direction` (models/Direction.h is missing),
one of Up, Down, Left, Right, None. -/
inductive Direction where
  | UP
  | DOWN
  | LEFT
  | RIGHT
  | NONE
deriving DecidableEq, Repr

/-- Modelled from the spec: `DirectionUtils::isOpposite` (missing), true exactly for the
pairs Up/Down and Left/Right, the reversals of a facing. -/
def DirectionUtils.isOpposite : Direction → Direction → Bool
  | .UP, .DOWN => true
  | .DOWN, .UP => true
  | .LEFT, .RIGHT => true
  | .RIGHT, .LEFT => true
  | _, _ => false

/-- Modelled from the spec: the class `Snake` (models/Snake.h is missing): ordered body
cells with index 0 the head, current facing, length, remaining invincibility rounds and
the alive flag. -/
structure Snake where
  blocks : List Point
  direction : Direction
  length : Int
  invincibleRounds : Int
  alive : Bool
deriving DecidableEq, Repr

/-- Modelled from the spec: `Snake::getHead` (missing), the cell at index 0 of the body;
the origin stands in for the head of an empty body. -/
def Snake.getHead (s : Snake) : Point :=
  s.blocks.headD ⟨0, 0⟩

/-- The `switch` of `GameManager::processMovements` (lines 322-338): the head moved one
cell in the facing direction; Up is `y - 1`, Down is `y + 1`, Left is `x - 1`, Right is
`x + 1`. -/
def nextHeadOf (head : Point) : Direction → Point
  | .UP => { head with y := head.y - 1 }
  | .DOWN => { head with y := head.y + 1 }
  | .LEFT => { head with x := head.x - 1 }
  | .RIGHT => { head with x := head.x + 1 }
  | .NONE => head

/-- Modelled from the spec: `Snake::collidesWithSelf` (missing), whether the given cell
equals any existing body cell, the current tail included. -/
def Snake.collidesWithSelf (s : Snake) (p : Point) : Bool :=
  decide (p ∈ s.blocks)

/-- Modelled from the spec: the result record of `Snake::moveWithDelta` (missing); the
fields are the ones `GameManager::processMovements` reads. -/
structure MoveResult where
  moved : Bool
  newHead : Point
  tailRemoved : Bool
  removedTail : Point
deriving DecidableEq, Repr

/-- Modelled from the spec: `Snake::moveWithDelta` (missing): prepend next-head to the
body; if the snake is not growing (the body would exceed `length`), pop the tail.  A
snake without a facing or without cells does not move. -/
def Snake.moveWithDelta (s : Snake) : Snake × MoveResult :=
  if s.direction = Direction.NONE ∨ s.blocks = [] then
    (s, { moved := false, newHead := s.getHead, tailRemoved := false, removedTail := ⟨0, 0⟩ })
  else
    let newHead := nextHeadOf s.getHead s.direction
    let grown := newHead :: s.blocks
    if s.length < (grown.length : Int) then
      ({ s with blocks := grown.dropLast },
        { moved := true, newHead := newHead, tailRemoved := true,
          removedTail := s.blocks.getLastD ⟨0, 0⟩ })
    else
      ({ s with blocks := grown },
        { moved := true, newHead := newHead, tailRemoved := false, removedTail := ⟨0, 0⟩ })

/-- Modelled from the spec: `Snake::grow` (missing): the length grows by one, so that the
next move does not pop the tail. -/
def Snake.grow (s : Snake) : Snake :=
  { s with length := s.length + 1 }

/-- Modelled from the spec: the class `Player` (models/Player.h is missing): identity
(id, uid, display name, colour), the in-game flag and the snake it owns. -/
structure Player where
  id : String
  uid : String
  name : String
  inGame : Bool
  snake : Snake
  color : String := "#FFFFFF"
deriving DecidableEq, Repr

/-- Modelled from the spec: `Player::setInGame` (missing), a plain setter. -/
def Player.setInGame (p : Player) (b : Bool) : Player :=
  { p with inGame := b }

/-- Modelled from the spec: insertion into a container with set semantics (at most one
copy of each element), used for the food set and the sets of the delta journal. -/
def setInsert {α : Type} [DecidableEq α] (x : α) (l : List α) : List α :=
  if x ∈ l then l else l ++ [x]

/-- Modelled from the spec: the class `GameState` (models/GameState.h is missing): the
players in iteration order, the set of food cells, the round number and the delta
journal (joined players, died players, added foods, removed foods). -/
structure GameState where
  players : List Player
  foods : List Point
  currentRound : Int
  joinedPlayers : List String
  diedPlayers : List String
  addedFoods : List Point
  removedFoods : List Point
deriving DecidableEq, Repr

/-- Modelled from the spec: `GameState::getPlayer` (missing), the player registered under
an id, if any. -/
def getPlayer (ps : List Player) (pid : String) : Option Player :=
  ps.find? (fun p => decide (p.id = pid))

/-- A write through the shared pointer returned by `getPlayer`: the player registered
under the id is replaced by its image, every other player is untouched. -/
def modifyPlayer (f : Player → Player) (pid : String) : List Player → List Player
  | [] => []
  | p :: ps => if p.id = pid then f p :: ps else p :: modifyPlayer f pid ps

/-- Modelled from the spec: `GameState::hasFoodAt` (missing), membership in the food set. -/
def hasFoodAt (foods : List Point) (p : Point) : Bool :=
  decide (p ∈ foods)

/-- Modelled from the spec: `GameState::addFood` (missing), insertion into the food set. -/
def addFood (foods : List Point) (p : Point) : List Point :=
  setInsert p foods

/-- Modelled from the spec: `GameState::removeFood` (missing), removal from the food set. -/
def removeFood (foods : List Point) (p : Point) : List Point :=
  foods.filter (fun q => decide (q ≠ p))

/-- Modelled from the spec: `GameState::clearDeltaTracking` (missing): the four sets of
the delta journal are emptied. -/
def GameState.clearDeltaTracking (g : GameState) : GameState :=
  { g with joinedPlayers := [], diedPlayers := [], addedFoods := [], removedFoods := [] }

/-- Modelled from the spec: `GameState::incrementRound` (missing): R becomes R + 1. -/
def GameState.incrementRound (g : GameState) : GameState :=
  { g with currentRound := g.currentRound + 1 }

/-- A call of the leaderboard collaborator: `updateOnRound(uid, name, round, length,
foodDelta, killDelta)` or `updateOnDeath(uid, name, round, finalLength)`. -/
inductive LbEvent where
  | onRound (uid name : String) (round length food kills : Int)
  | onDeath (uid name : String) (round finalLength : Int)
deriving DecidableEq, Repr

/-- The values of `MapManager::CollisionType` that `checkCollisions` uses. -/
inductive CollisionType where
  | NONE
  | WALL
  | SELF
  | OTHER_SNAKE
deriving DecidableEq, Repr

/-- A `std::unordered_map<Point, int>` of reference counts. -/
abbrev CountMap := List (Point × Int)

/-- The lookup `find(p)`: the stored count, or nothing when the key is absent. -/
def CountMap.find : CountMap → Point → Option Int
  | [], _ => none
  | (q, c) :: r, p => if q = p then some c else CountMap.find r p

/-- The statement `m[p] += 1`: an absent key is created with count 0 first. -/
def CountMap.incr : CountMap → Point → CountMap
  | [], p => [(p, 1)]
  | (q, c) :: r, p => if q = p then (q, c + 1) :: r else (q, c) :: CountMap.incr r p

/-- The decrement of lines 360-366 and 612-617: a present key loses one and is erased
when its count is no longer positive. -/
def CountMap.decr : CountMap → Point → CountMap
  | [], _ => []
  | (q, c) :: r, p =>
    if q = p then (if c - 1 ≤ 0 then r else (q, c - 1) :: r)
    else (q, c) :: CountMap.decr r p

/-- The configuration and the collaborators the manager reads: map size, food density
(the `double` is an exact fraction `num / den`), the result of
`MapManager::generateFoodFast` (missing, random) as a function of its arguments, and the
initial snake length. -/
structure Env where
  mapWidth : Int
  mapHeight : Int
  foodDensityNum : Int
  foodDensityDen : Int
  generateFoodFast : Int → CountMap → List Point → List Point
  initialSnakeLength : Int := 3

/-- The fields of `GameManager` (GameManager.h lines 63-83); `hasLeaderboard` says that
`leaderboardManager_` is not null, `lbEvents` logs the calls made to it and `running` is
the flag `running_`. -/
structure GameManager where
  gameState : GameState
  currentMoves : List (String × Direction)
  nextMoves : List (String × Direction)
  pendingSelfCollisions : List String
  occupiedCounts : CountMap
  hasLeaderboard : Bool
  lbEvents : List LbEvent
  running : Bool := false
deriving DecidableEq, Repr

/-! ## The command buffer -/

/-- The lookup `currentMoves_.find(playerId)` of a `std::map<std::string, Direction>`. -/
def findMove : List (String × Direction) → String → Option Direction
  | [], _ => none
  | (k, d) :: r, pid => if k = pid then some d else findMove r pid

/-- `GameManager::submitMove` (lines 139-153): the returned flag and the manager after
the call. -/
def GameManager.submitMove (m : GameManager) (playerId : String) (direction : Direction) :
    Bool × GameManager :=
  if (findMove m.currentMoves playerId).isSome then
    (false, m)
  else
    (true, { m with currentMoves := m.currentMoves ++ [(playerId, direction)] })

/-- Step 0 of `GameManager::tick` (lines 97-104): `nextMoves_ = std::move(currentMoves_)`
and `currentMoves_.clear()`. -/
def GameManager.swapMoves (m : GameManager) : GameManager :=
  { m with nextMoves := m.currentMoves, currentMoves := [] }

/-- Step 0.5 of `GameManager::tick` (lines 107-110). -/
def GameManager.clearDelta (m : GameManager) : GameManager :=
  { m with gameState := m.gameState.clearDeltaTracking }

/-! ## processMovements -/

/-- One iteration of the first loop of `processMovements` (lines 289-308). -/
def applyDirection (ps : List Player) (cmd : String × Direction) : List Player :=
  match getPlayer ps cmd.1 with
  | none => ps
  | some player =>
    if player.inGame = false then ps
    else if player.snake.direction ≠ Direction.NONE ∧
        DirectionUtils.isOpposite player.snake.direction cmd.2 = true then ps
    else modifyPlayer (fun q => { q with snake := { q.snake with direction := cmd.2 } }) cmd.1 ps

/-- The first loop of `processMovements`: every pending command in turn. -/
def applyDirections (ps : List Player) (moves : List (String × Direction)) : List Player :=
  moves.foldl applyDirection ps

/-- The test of the second loop of `processMovements` (lines 311-343): the player is in
game, has a facing, and its next head is a cell of its body before the move. -/
def predictsSelfCollision (p : Player) : Bool :=
  p.inGame && decide (p.snake.direction ≠ Direction.NONE) &&
    p.snake.collidesWithSelf (nextHeadOf p.snake.getHead p.snake.direction)

/-- The second loop of `processMovements`: the ids put into `pendingSelfCollisions_`. -/
def predictSelfCollisions (ps : List Player) : List String :=
  (ps.filter predictsSelfCollision).map Player.id

/-- The occupancy update of lines 354-368 for one move result. -/
def applyMoveResult (occ : CountMap) (r : MoveResult) : CountMap :=
  if r.moved then
    let occ1 := CountMap.incr occ r.newHead
    if r.tailRemoved then CountMap.decr occ1 r.removedTail else occ1
  else occ

/-- The snake of one player after the third loop of `processMovements`. -/
def movePlayer (p : Player) : Player :=
  if p.inGame = false then p
  else if p.snake.direction ≠ Direction.NONE then { p with snake := p.snake.moveWithDelta.1 }
  else p

/-- The third loop of `processMovements` (lines 346-371): every in-game snake with a
facing moves, and the occupancy index follows. -/
def movePhase : List Player → CountMap → List Player × CountMap
  | [], occ => ([], occ)
  | p :: ps, occ =>
    let occ1 :=
      if p.inGame = false then occ
      else if p.snake.direction ≠ Direction.NONE then
        applyMoveResult occ p.snake.moveWithDelta.2
      else occ
    let rest := movePhase ps occ1
    (movePlayer p :: rest.1, rest.2)

/-- `GameManager::processMovements` (lines 281-376). -/
def GameManager.processMovements (m : GameManager) : GameManager :=
  let ps1 := applyDirections m.gameState.players m.nextMoves
  let moved := movePhase ps1 m.occupiedCounts
  { m with
    gameState := { m.gameState with players := moved.1 }
    pendingSelfCollisions := predictSelfCollisions ps1
    occupiedCounts := moved.2
    nextMoves := [] }

/-! ## checkCollisions -/

/-- Modelled from the spec: `MapManager::isValidPosition` (missing): the cell lies in
`[0, W) x [0, H)`. -/
def isValidPosition (env : Env) (p : Point) : Bool :=
  decide (0 ≤ p.x) && decide (p.x < env.mapWidth) && decide (0 ≤ p.y) &&
    decide (p.y < env.mapHeight)

/-- Modelled from the spec: `MapManager::isOutOfBounds` (missing): the cell lies outside
`[0, W) x [0, H)`. -/
def isOutOfBounds (env : Env) (p : Point) : Bool :=
  !isValidPosition env p

/-- The filter shared by the two index loops of `checkCollisions` (lines 386-393 and
401-408): in-game players that are not invincible. -/
def isObstacle (p : Player) : Bool :=
  p.inGame && !decide (0 < p.snake.invincibleRounds)

/-- The statement `occupancyByPlayer[block].push_back(id)` (line 395). -/
def pushOccupant : List (Point × List String) → Point → String → List (Point × List String)
  | [], p, pid => [(p, [pid])]
  | (q, ids) :: r, p, pid =>
    if q = p then (q, ids ++ [pid]) :: r else (q, ids) :: pushOccupant r p pid

/-- The lookup `occupancyByPlayer.find(head)` (line 457). -/
def findOccupants : List (Point × List String) → Point → Option (List String)
  | [], _ => none
  | (q, ids) :: r, p => if q = p then some ids else findOccupants r p

/-- The first index loop of `checkCollisions` (lines 385-397). -/
def buildOccupancyByPlayer (ps : List Player) : List (Point × List String) :=
  (ps.filter isObstacle).foldl
    (fun acc p => p.snake.blocks.foldl (fun a b => pushOccupant a b p.id) acc) []

/-- The second index loop of `checkCollisions` (lines 400-412). -/
def buildValidOccupiedCounts (ps : List Player) : CountMap :=
  (ps.filter isObstacle).foldl (fun acc p => p.snake.blocks.foldl CountMap.incr acc) []

/-- The classification of lines 432-443 for one in-game, non-invincible player. -/
def classifyCollision (env : Env) (valid : CountMap) (pending : List String) (p : Player) :
    CollisionType :=
  if isOutOfBounds env p.snake.getHead = true then CollisionType.WALL
  else if p.id ∈ pending then CollisionType.SELF
  else
    match CountMap.find valid p.snake.getHead with
    | some c => if 1 < c then CollisionType.OTHER_SNAKE else CollisionType.NONE
    | none => CollisionType.NONE

/-- The detection loop of `checkCollisions` (lines 415-448): the vector `collisions`. -/
def detectCollisions (env : Env) (m : GameManager) : List (String × CollisionType) :=
  let valid := buildValidOccupiedCounts m.gameState.players
  m.gameState.players.filterMap (fun p =>
    if p.inGame = false then none
    else if 0 < p.snake.invincibleRounds then none
    else
      let c := classifyCollision env valid m.pendingSelfCollisions p
      if c = CollisionType.NONE then none else some (p.id, c))

/-- `GameManager::createSnakeDeathDrops` (lines 640-650) on the food set and the
added-foods journal. -/
def createSnakeDeathDrops : List Point → List Point × List Point → List Point × List Point
  | [], acc => acc
  | p :: ps, (foods, added) =>
    if hasFoodAt foods p = false then
      createSnakeDeathDrops ps (addFood foods p, setInsert p added)
    else createSnakeDeathDrops ps (foods, added)

/-- `GameManager::removeSnakeFromOccupancy` (lines 604-620). -/
def GameManager.removeSnakeFromOccupancy (m : GameManager) (s : Snake) : GameManager :=
  if s.alive = false then m
  else
    let drops := createSnakeDeathDrops s.blocks (m.gameState.foods, m.gameState.addedFoods)
    { m with
      gameState := { m.gameState with foods := drops.1, addedFoods := drops.2 }
      occupiedCounts := s.blocks.foldl CountMap.decr m.occupiedCounts }

/-- The kill attribution of lines 455-478: the first occupant of the head cell that is
not the victim and is still in game. -/
def findKiller (ps : List Player) (victim : String) (occupants : List String) : Option Player :=
  match occupants with
  | [] => none
  | o :: rest =>
    if o = victim then findKiller ps victim rest
    else
      match getPlayer ps o with
      | none => findKiller ps victim rest
      | some k => if k.inGame = false then findKiller ps victim rest else some k

/-- The leaderboard calls of one death (lines 455-486). -/
def deathEvents (m : GameManager) (occ : List (Point × List String)) (player : Player)
    (ct : CollisionType) : List LbEvent :=
  let kill :=
    if ct = CollisionType.OTHER_SNAKE ∧ m.hasLeaderboard = true then
      match findOccupants occ player.snake.getHead with
      | none => []
      | some ids =>
        match findKiller m.gameState.players player.id ids with
        | none => []
        | some k => [LbEvent.onRound k.uid k.name m.gameState.currentRound k.snake.length 0 1]
    else []
  let death :=
    if m.hasLeaderboard = true then
      [LbEvent.onDeath player.uid player.name m.gameState.currentRound player.snake.length]
    else []
  kill ++ death

/-- One iteration of the resolution loop of `checkCollisions` (lines 451-502). -/
def resolveCollision (occ : List (Point × List String)) (m : GameManager)
    (c : String × CollisionType) : GameManager :=
  match getPlayer m.gameState.players c.1 with
  | none => m
  | some player =>
    if player.inGame = false then m
    else
      let m1 : GameManager :=
        { m with
          lbEvents := m.lbEvents ++ deathEvents m occ player c.2
          gameState :=
            { m.gameState with
              players := modifyPlayer (fun q => q.setInGame false) c.1 m.gameState.players
              diedPlayers := setInsert c.1 m.gameState.diedPlayers } }
      m1.removeSnakeFromOccupancy player.snake

/-- `GameManager::checkCollisions` (lines 378-506). -/
def GameManager.checkCollisions (env : Env) (m : GameManager) : GameManager :=
  let occ := buildOccupancyByPlayer m.gameState.players
  let m1 := (detectCollisions env m).foldl (resolveCollision occ) m
  { m1 with pendingSelfCollisions := [] }

/-! ## Food, invincibility and the tick -/

/-- The loop of `GameManager::handleFoodCollection` (lines 512-543) from a given player
on: players, food set, removed-foods journal and leaderboard log. -/
def collectFood (hasLb : Bool) (round : Int) :
    List Player → List Point × List Point × List LbEvent →
      List Player × List Point × List Point × List LbEvent
  | [], acc => ([], acc)
  | p :: ps, (foods, removed, ev) =>
    if p.inGame = true ∧ hasFoodAt foods p.snake.getHead = true then
      let p1 : Player := { p with snake := p.snake.grow }
      let ev1 :=
        if hasLb = true then ev ++ [LbEvent.onRound p.uid p.name round p1.snake.length 1 0]
        else ev
      let rest := collectFood hasLb round ps
        (removeFood foods p.snake.getHead, setInsert p.snake.getHead removed, ev1)
      (p1 :: rest.1, rest.2)
    else
      let rest := collectFood hasLb round ps (foods, removed, ev)
      (p :: rest.1, rest.2)

/-- `GameManager::handleFoodCollection` (lines 508-544). -/
def GameManager.handleFoodCollection (m : GameManager) : GameManager :=
  let r := collectFood m.hasLeaderboard m.gameState.currentRound m.gameState.players
    (m.gameState.foods, m.gameState.removedFoods, m.lbEvents)
  { m with
    gameState := { m.gameState with players := r.1, foods := r.2.1, removedFoods := r.2.2.1 }
    lbEvents := r.2.2.2 }

/-- The value of a C++ `int` expression: the integer wrapped to 32 signed bits. -/
def wrapInt32 (z : Int) : Int :=
  (z + 2147483648) % 4294967296 - 2147483648

/-- The target of `generateFood` (lines 550-551): `int mapSize = W * H` and
`static_cast<int>(mapSize * foodDensity)`, a truncation toward zero. -/
def targetFoodCount (env : Env) : Int :=
  Int.tdiv (wrapInt32 (env.mapWidth * env.mapHeight) * env.foodDensityNum) env.foodDensityDen

/-- The map `authoritativeOccupied` of `generateFood` (lines 558-573). -/
def authoritativeOccupied (env : Env) (ps : List Player) : CountMap :=
  (ps.filter (fun p => p.inGame)).foldl
    (fun acc p => (p.snake.blocks.filter (isValidPosition env)).foldl CountMap.incr acc) []

/-- `GameManager::generateFood` (lines 546-592). -/
def GameManager.generateFood (env : Env) (m : GameManager) : GameManager :=
  let target := targetFoodCount env
  let current : Int := m.gameState.foods.length
  if current < target then
    let newFoods := env.generateFoodFast (target - current)
      (authoritativeOccupied env m.gameState.players) m.gameState.foods
    { m with
      gameState :=
        { m.gameState with
          foods := newFoods.foldl addFood m.gameState.foods
          addedFoods := newFoods.foldl (fun a f => setInsert f a) m.gameState.addedFoods } }
  else m

/-- The loop body of `GameManager::updateInvincibility` (lines 626-637). -/
def ageInvincibility (p : Player) : Player :=
  if p.inGame = true ∧ 0 < p.snake.invincibleRounds then
    { p with snake := { p.snake with invincibleRounds := p.snake.invincibleRounds - 1 } }
  else p

/-- `GameManager::updateInvincibility` (lines 622-638). -/
def GameManager.updateInvincibility (m : GameManager) : GameManager :=
  { m with gameState := { m.gameState with players := m.gameState.players.map ageInvincibility } }

/-- Step 6 of `GameManager::tick` (lines 128-134), without the wall-clock timestamp. -/
def GameManager.incrementRound (m : GameManager) : GameManager :=
  { m with gameState := m.gameState.incrementRound }

/-- The steps of `GameManager::tick` that follow the movement: collisions, food
collection, food generation, invincibility ageing, round increment (lines 116-134). -/
def GameManager.finishTick (env : Env) (m : GameManager) : GameManager :=
  ((((m.checkCollisions env).handleFoodCollection).generateFood env).updateInvincibility).incrementRound

/-- `GameManager::tick` (lines 93-137). -/
def GameManager.tick (env : Env) (m : GameManager) : GameManager :=
  (((m.swapMoves).clearDelta).processMovements).finishTick env

/-! ## Joining, leaving and starting -/

/-- `GameManager::addSnakeToOccupancy` (lines 594-602). -/
def GameManager.addSnakeToOccupancy (m : GameManager) (s : Snake) : GameManager :=
  if s.alive = false then m
  else { m with occupiedCounts := s.blocks.foldl CountMap.incr m.occupiedCounts }

/-- The index rebuild of `GameManager::start` (lines 56-67) and the flag (line 69); a
manager that is already running is left alone (lines 39-42).  The timestamp and the
game-loop thread are left out. -/
def GameManager.start (m : GameManager) : GameManager :=
  if m.running = true then m
  else
    let m1 := m.gameState.players.foldl
      (fun acc player =>
        if player.inGame = true then
          (if player.snake.alive = true then acc.addSnakeToOccupancy player.snake else acc)
        else acc)
      { m with occupiedCounts := [] }
    { m1 with running := true }

/-- `GameManager::addPlayer` (lines 170-203); `none` is the null pointer.  Modelled from
the spec: `GameState::addPlayer` and `trackPlayerJoined` (missing) put the player at the
end of the player collection and its id into the joined set. -/
def GameManager.addPlayer (m : GameManager) (player : Option Player) : Bool × GameManager :=
  match player with
  | none => (false, m)
  | some p =>
    if (getPlayer m.gameState.players p.id).isSome then (false, m)
    else
      let m1 : GameManager :=
        { m with gameState :=
            { m.gameState with
              players := m.gameState.players ++ [p]
              joinedPlayers := setInsert p.id m.gameState.joinedPlayers } }
      let m2 :=
        if p.inGame = true ∧ p.snake.alive = true then m1.addSnakeToOccupancy p.snake else m1
      let m3 : GameManager :=
        if m2.hasLeaderboard = true then
          { m2 with lbEvents := m2.lbEvents ++
              [LbEvent.onRound p.uid p.name m2.gameState.currentRound p.snake.length 0 0] }
        else m2
      (true, m3)

/-- `GameManager::removePlayer` (lines 205-216).  Modelled from the spec:
`GameState::removePlayer` (missing) erases the player registered under the id. -/
def GameManager.removePlayer (m : GameManager) (playerId : String) : GameManager :=
  match getPlayer m.gameState.players playerId with
  | none => m
  | some player =>
    let m1 :=
      if player.inGame = true ∧ player.snake.alive = true then
        m.removeSnakeFromOccupancy player.snake
      else m
    { m1 with gameState :=
        { m1.gameState with
          players := m1.gameState.players.filter (fun q => decide (q.id ≠ playerId)) } }

/-- Modelled from the spec: `Player::initSnake` (missing): a fresh living snake whose
cells are all at the spawn point, `length` of them, without a facing and with no
invincibility yet. -/
def Player.initSnake (p : Player) (pos : Point) (length : Int) : Player :=
  { p with snake :=
      { blocks := List.replicate length.toNat pos, direction := Direction.NONE,
        length := length, invincibleRounds := 0, alive := true } }

/-- `GameManager::respawnPlayer` (lines 218-239); `spawnPos` is the result of
`MapManager::getRandomSafePosition` (missing, random). -/
def GameManager.respawnPlayer (env : Env) (m : GameManager) (playerId : String)
    (spawnPos : Point) : GameManager :=
  match getPlayer m.gameState.players playerId with
  | none => m
  | some player =>
    let respawned := (player.initSnake spawnPos env.initialSnakeLength).setInGame true
    let m1 : GameManager :=
      { m with gameState :=
          { m.gameState with
            players := modifyPlayer (fun _ => respawned) playerId m.gameState.players } }
    m1.addSnakeToOccupancy respawned.snake

/-! ## The client adapter (adapter/CodingSnake.hpp) -/

/-- The adapter struct `Snake` (lines 126-151); the adapter `Point` (lines 86-121) has the
same fields and equality as the server one and is not duplicated. -/
structure ClientSnake where
  id : String
  name : String
  color : String
  head : Point
  blocks : List Point
  length : Int
  invincible_rounds : Int
deriving DecidableEq, Repr

/-- The fields of the adapter class `GameState` (lines 162-170): `players_` is a
`std::map` keyed by id and `foods_` a `std::set`; both are lists without repeated keys
and their iteration order is not modelled. -/
structure ClientGameState where
  players : List ClientSnake
  foods : List Point
  my_id : String
  map_width : Int
  map_height : Int
  current_round : Int
  next_round_timestamp : Int
deriving DecidableEq, Repr

/-- `GameState::findPlayerById` of the adapter (lines 284-290). -/
def ClientGameState.findPlayerById (g : ClientGameState) (pid : String) : Option ClientSnake :=
  g.players.find? (fun s => decide (s.id = pid))

/-- The assignment `players_[snake.id] = snake` on the list of players. -/
def upsertPlayer (s : ClientSnake) : List ClientSnake → List ClientSnake
  | [] => [s]
  | q :: r => if q.id = s.id then s :: r else q :: upsertPlayer s r

/-- `GameState::addOrUpdatePlayer` of the adapter (lines 300-302). -/
def ClientGameState.addOrUpdatePlayer (g : ClientGameState) (s : ClientSnake) :
    ClientGameState :=
  { g with players := upsertPlayer s g.players }

/-- `GameState::removePlayer` of the adapter (lines 307-309): `players_.erase(id)`. -/
def ClientGameState.removePlayer (g : ClientGameState) (pid : String) : ClientGameState :=
  { g with players := g.players.filter (fun s => decide (s.id ≠ pid)) }

/-- `GameState::addFood` of the adapter (line 319): `foods_.insert(p)`. -/
def ClientGameState.addFood (g : ClientGameState) (p : Point) : ClientGameState :=
  { g with foods := setInsert p g.foods }

/-- `GameState::removeFood` of the adapter (line 324): `foods_.erase(p)`. -/
def ClientGameState.removeFood (g : ClientGameState) (p : Point) : ClientGameState :=
  { g with foods := g.foods.filter (fun q => decide (q ≠ p)) }

/-- A full player record of the wire format; `color` and `invincible_rounds` may be
absent (the adapter reads them with a default). -/
structure JsonPlayer where
  id : String
  name : String
  color : Option String
  head : Point
  blocks : List Point
  length : Int
  invincible_rounds : Option Int
deriving DecidableEq, Repr

/-- The `map_state` payload of the wire format. -/
structure JsonMapState where
  round : Int
  next_round_timestamp : Option Int
  timestamp : Option Int
  players : List JsonPlayer
  foods : List Point
deriving DecidableEq, Repr

/-- A simplified per-player update record of the `delta_state` payload. -/
structure JsonPlayerUpdate where
  id : String
  head : Point
  length : Int
  invincible_rounds : Option Int
deriving DecidableEq, Repr

/-- The `delta_state` payload of the wire format; every list may be absent. -/
structure JsonDeltaState where
  round : Int
  next_round_timestamp : Option Int
  timestamp : Option Int
  died_players : Option (List String)
  joined_players : Option (List JsonPlayer)
  players : Option (List JsonPlayerUpdate)
  removed_foods : Option (List Point)
  added_foods : Option (List Point)
deriving DecidableEq, Repr

/-- The fields of the adapter class `CodingSnake` (lines 366-382) that the functions
studied here read or write. -/
structure CodingSnake where
  state : ClientGameState
  player_id : String
  round_time_ms : Int
  last_full_refresh : Int
  server_clock_offset_ms : Int
  has_clock_sync : Bool
  best_clock_sync_rtt_ms : Int
  initialized : Bool
  in_game : Bool
deriving DecidableEq, Repr

/-- The constructors of `CodingSnake` (lines 392-408) with the default `GameState` (lines
172-173). -/
def CodingSnake.create : CodingSnake :=
  { state := { players := [], foods := [], my_id := "", map_width := 50, map_height := 50,
               current_round := 0, next_round_timestamp := 0 },
    player_id := "", round_time_ms := 1000, last_full_refresh := 0,
    server_clock_offset_ms := 0, has_clock_sync := false,
    best_clock_sync_rtt_ms := 1073741824, initialized := false, in_game := false }

/-- `CodingSnake::updateClockOffset` (lines 715-739).  The times are `long long`
milliseconds, far from the 64-bit range; the round-trip time is cast to `int`; `/` is the
C++ integer division, which truncates toward zero. -/
def CodingSnake.updateClockOffset (c : CodingSnake)
    (server_timestamp_ms request_start_ms response_recv_ms : Int) : CodingSnake :=
  if server_timestamp_ms ≤ 0 ∨ response_recv_ms < request_start_ms then c
  else
    let rtt_ms := wrapInt32 (response_recv_ms - request_start_ms)
    let midpoint_ms := request_start_ms + Int.tdiv (response_recv_ms - request_start_ms) 2
    let sample_offset_ms := server_timestamp_ms - midpoint_ms
    if c.has_clock_sync = false then
      { c with server_clock_offset_ms := sample_offset_ms, has_clock_sync := true,
               best_clock_sync_rtt_ms := rtt_ms }
    else if rtt_ms < c.best_clock_sync_rtt_ms then
      { c with best_clock_sync_rtt_ms := rtt_ms,
               server_clock_offset_ms :=
                 Int.tdiv (c.server_clock_offset_ms * 60 + sample_offset_ms * 40) 100 }
    else
      { c with server_clock_offset_ms :=
                 Int.tdiv (c.server_clock_offset_ms * 85 + sample_offset_ms * 15) 100 }

/-- The record built from one player of a payload, shared by `parseFullMapState` (lines
760-775) and `parseDeltaState` (lines 819-834): an empty block list becomes `[head]`. -/
def parsePlayer (p : JsonPlayer) : ClientSnake :=
  { id := p.id, name := p.name, color := p.color.getD "#FFFFFF", head := p.head,
    blocks := if p.blocks = [] then [p.head] else p.blocks,
    length := p.length, invincible_rounds := p.invincible_rounds.getD 0 }

/-- `CodingSnake::parseFullMapState` (lines 752-788). -/
def CodingSnake.parseFullMapState (c : CodingSnake) (ms : JsonMapState) : CodingSnake :=
  let g0 : ClientGameState :=
    { c.state with
      current_round := ms.round
      next_round_timestamp := ms.next_round_timestamp.getD c.state.next_round_timestamp }
  let g1 := ms.players.foldl (fun g p => g.addOrUpdatePlayer (parsePlayer p))
    { g0 with players := [] }
  let g2 := ms.foods.foldl (fun g f => g.addFood f) { g1 with foods := [] }
  { c with state := g2, in_game := (g2.findPlayerById c.player_id).isSome }

/-- The answer to `GET /api/game/map` as `fetchFullMap` sees it, with the local times
taken before and after the request. -/
structure MapResponse where
  status : Int
  code : Int
  map_state : JsonMapState
  request_start_ms : Int
  response_recv_ms : Int
deriving DecidableEq, Repr

/-- `CodingSnake::fetchFullMap` (lines 648-672); `none` is a failed request. -/
def CodingSnake.fetchFullMap (c : CodingSnake) (res : Option MapResponse) :
    Bool × CodingSnake :=
  match res with
  | none => (false, c)
  | some r =>
    if r.status ≠ 200 then (false, c)
    else if r.code ≠ 0 then (false, c)
    else
      let c1 :=
        match r.map_state.timestamp with
        | some ts => c.updateClockOffset ts r.request_start_ms r.response_recv_ms
        | none => c
      let c2 := c1.parseFullMapState r.map_state
      (true, { c2 with last_full_refresh := c2.state.current_round })

/-- The block update of `parseDeltaState` for one record (lines 844-868): a moved head is
put in front and the list cut to the new length; with an unmoved head and a different
length the last cell is repeated up to the new length.  A negative length, for which the
C++ loop would pop an empty vector, gives the empty list. -/
def applyPlayerUpdate (s : ClientSnake) (u : JsonPlayerUpdate) : ClientSnake :=
  let blocks1 :=
    if s.head ≠ u.head then (u.head :: s.blocks).take u.length.toNat
    else if (s.blocks.length : Int) ≠ u.length then
      let b := if s.blocks = [] then [s.head] else s.blocks
      b ++ List.replicate (u.length.toNat - b.length) (b.getLastD s.head)
    else s.blocks
  { s with blocks := blocks1, head := u.head, length := u.length,
           invincible_rounds := u.invincible_rounds.getD 0 }

/-- A write through the pointer returned by `findPlayerById`. -/
def modifyClientPlayer (f : ClientSnake → ClientSnake) (pid : String) :
    List ClientSnake → List ClientSnake
  | [] => []
  | q :: r => if q.id = pid then f q :: r else q :: modifyClientPlayer f pid r

/-- The steps of `parseDeltaState` after the dropped-frame check (lines 808-887). -/
def applyDelta (g : ClientGameState) (delta : JsonDeltaState) : ClientGameState :=
  let g1 : ClientGameState := { g with current_round := delta.round }
  let g2 := (delta.died_players.getD []).foldl (fun g i => g.removePlayer i) g1
  let g3 := (delta.joined_players.getD []).foldl
    (fun g p => g.addOrUpdatePlayer (parsePlayer p)) g2
  let g4 := (delta.players.getD []).foldl
    (fun g u =>
      { g with players := modifyClientPlayer (fun s => applyPlayerUpdate s u) u.id g.players })
    g3
  let g5 := (delta.removed_foods.getD []).foldl (fun g f => g.removeFood f) g4
  (delta.added_foods.getD []).foldl (fun g f => g.addFood f) g5

/-- `CodingSnake::parseDeltaState` (lines 793-888); `refresh` is the answer the full-map
request gets when a dropped frame is detected. -/
def CodingSnake.parseDeltaState (c : CodingSnake) (delta : JsonDeltaState)
    (refresh : Option MapResponse) : CodingSnake :=
  let c0 : CodingSnake :=
    { c with state :=
        { c.state with next_round_timestamp :=
            delta.next_round_timestamp.getD c.state.next_round_timestamp } }
  if c0.state.current_round + 1 < delta.round then (c0.fetchFullMap refresh).2
  else
    let g := applyDelta c0.state delta
    { c0 with state := g, in_game := (g.findPlayerById c0.player_id).isSome }

/-! ## The round loop of the client (adapter/CodingSnake.hpp, `run`) -/

/-- What one pass through the body of the `while` loop of `CodingSnake::run` (lines
478-533) meets from outside: the result of `updateMapState` (`none` when it throws), the
flag `in_game_` and the round `state_.getCurrentRound()` after it, whether `respawn`
returns (it throws otherwise), the answer of the decision function (`none` when it throws
a `std::exception`) and the result of `sendMove` (`none` when it throws). -/
structure LoopEvents where
  update : Option Bool
  in_game : Bool
  current_round : Int
  respawn : Bool
  decision : Option String
  send : Option Bool
deriving DecidableEq, Repr

/-- The locals of `CodingSnake::run` (lines 474-475) with whether the loop is still
running, and two ghost fields: the number of respawns so far and the log of the calls of
`sendMove` (observed round and direction). -/
structure RunState where
  running : Bool
  move_count : Int
  last_decision_round : Int
  respawns : Nat
  sent : List (Int × String)
deriving DecidableEq, Repr

/-- The state in which `run` enters its loop (lines 474-475). -/
def CodingSnake.runStart : RunState :=
  { running := true, move_count := 0, last_decision_round := -1, respawns := 0, sent := [] }

/-- One pass through the body of the loop of `CodingSnake::run` (lines 478-533);
`auto_respawn` is `config_.auto_respawn`.  An exception leaves the loop (lines 534-537),
as does `break`. -/
def CodingSnake.runIteration (auto_respawn : Bool) (st : RunState) (ev : LoopEvents) :
    RunState :=
  if st.running = false then st
  else
    match ev.update with
    | none => { st with running := false }
    | some false => st
    | some true =>
      if ev.in_game = false then
        if auto_respawn = true then
          if ev.respawn = true then
            { st with last_decision_round := -1, respawns := st.respawns + 1 }
          else { st with running := false }
        else { st with running := false }
      else if ev.current_round = st.last_decision_round then st
      else
        let direction := ev.decision.getD "right"
        let st1 : RunState := { st with sent := st.sent ++ [(ev.current_round, direction)] }
        match ev.send with
        | none => { st1 with running := false }
        | some true =>
          { st1 with move_count := st1.move_count + 1, last_decision_round := ev.current_round }
        | some false => { st1 with last_decision_round := ev.current_round }

/-- The loop of `CodingSnake::run` over a finite sequence of passes. -/
def CodingSnake.runLoop (auto_respawn : Bool) (evs : List LoopEvents) : RunState :=
  evs.foldl (CodingSnake.runIteration auto_respawn) CodingSnake.runStart

/-! ## The adapter `Point` and the bot helpers -/

/-- `Point::operator==` of the adapter (lines 109-111). -/
def Point.eqOp (a b : Point) : Bool :=
  decide (a.x = b.x) && decide (a.y = b.y)

/-- `Point::operator<` of the adapter (lines 117-120): lexicographic on `(x, y)`. -/
def Point.ltOp (a b : Point) : Bool :=
  if a.x ≠ b.x then decide (a.x < b.x) else decide (a.y < b.y)

/-- `Point::distance` of the adapter (lines 97-99), the Manhattan distance. -/
def Point.distance (a b : Point) : Int :=
  |a.x - b.x| + |a.y - b.y|

/-- The insertion `foods_.insert(p)` into a `std::set<Point>`, which orders and compares
its elements with `operator<` alone: the point goes in front of the first element it is
less than, and is dropped when it meets an element that is neither less nor greater. -/
def stdSetInsert (p : Point) : List Point → List Point
  | [] => [p]
  | q :: r =>
    if p.ltOp q = true then p :: q :: r
    else if q.ltOp p = true then q :: stdSetInsert p r
    else q :: r

/-- A `std::set<Point>` filled from the empty set by inserting the given points in turn. -/
def stdSetOf (ps : List Point) : List Point :=
  ps.foldl (fun s p => stdSetInsert p s) []

/-- `bot::nextPoint` (DirectionUtils.cpp lines 12-24). -/
def bot.nextPoint (src : Point) (direction : String) : Point :=
  if direction = "up" then { src with y := src.y - 1 }
  else if direction = "down" then { src with y := src.y + 1 }
  else if direction = "left" then { src with x := src.x - 1 }
  else if direction = "right" then { src with x := src.x + 1 }
  else src

/-- `bot::getConfigValue` (BotConfigLoader.cpp lines 58-75): `config` is the map read
from the file, as a list of pairs with unique keys, and `getenv` the process environment
(`none` is the null pointer). -/
def bot.getConfigValue (config : List (String × String)) (getenv : String → Option String)
    (key envKey fallback : String) : String :=
  let fromEnv :=
    match getenv envKey with
    | some value => if value ≠ "" then value else fallback
    | none => fallback
  match config.find? (fun e => decide (e.1 = key)) with
  | some e => if e.2 ≠ "" then e.2 else fromEnv
  | none => fromEnv

/-- `GameState::isValidPos` of the adapter (lines 264-266). -/
def ClientGameState.isValidPos (g : ClientGameState) (x y : Int) : Bool :=
  decide (0 ≤ x) && decide (x < g.map_width) && decide (0 ≤ y) && decide (y < g.map_height)

/-- `Snake::contains` of the adapter (lines 139-144). -/
def ClientSnake.contains (s : ClientSnake) (p : Point) : Bool :=
  s.blocks.any (fun block => block.eqOp p)

/-- `GameState::hasObstacle` of the adapter (lines 271-279): the cell is a block of some
player. -/
def ClientGameState.hasObstacle (g : ClientGameState) (x y : Int) : Bool :=
  g.players.any (fun s => s.contains ⟨x, y⟩)

/-- `bot::allDirections` (DirectionUtils.cpp lines 7-10). -/
def bot.allDirections : List String :=
  ["up", "down", "left", "right"]

/-- `bot::isSafeDirection` (DirectionUtils.cpp lines 26-29). -/
def bot.isSafeDirection (state : ClientGameState) (head : Point) (direction : String) : Bool :=
  let next := bot.nextPoint head direction
  state.isValidPos next.x next.y && !state.hasObstacle next.x next.y

/-- The value of `std::numeric_limits<int>::max()`. -/
def bot.intMax : Int :=
  2147483647

/-- The body of the loop of `bot::chooseDirectionToward` (DirectionUtils.cpp lines 40-54)
on the pair `(bestDir, bestDist)`. -/
def bot.chooseStep (state : ClientGameState) (src target : Point) (safeOnly : Bool)
    (best : String × Int) (dir : String) : String × Int :=
  let next := bot.nextPoint src dir
  if state.isValidPos next.x next.y = false then best
  else if safeOnly = true ∧ state.hasObstacle next.x next.y = true then best
  else
    let dist := next.distance target
    if dist < best.2 then (dir, dist) else best

/-- `bot::chooseDirectionToward` (DirectionUtils.cpp lines 31-57). -/
def bot.chooseDirectionToward (state : ClientGameState) (src target : Point)
    (safeOnly : Bool) : String :=
  (bot.allDirections.foldl (bot.chooseStep state src target safeOnly)
    ("right", bot.intMax)).1

/-! ## The bot strategies (bot/src/strategies) -/

/-- `GameState::getMySnake` of the adapter (lines 202-208); `none` is the exception
"Player not found". -/
def ClientGameState.getMySnake (g : ClientGameState) : Option ClientSnake :=
  g.players.find? (fun s => decide (s.id = g.my_id))

/-- `GameState::getOtherPlayers` of the adapter (lines 224-232), in the order of the list
of players. -/
def ClientGameState.getOtherPlayers (g : ClientGameState) : List ClientSnake :=
  g.players.filter (fun s => decide (s.id ≠ g.my_id))

/-- What a call of a strategy ends with: a returned direction, the exception of
`getMySnake`, an access to a vector at an index outside its range (undefined behaviour),
or a loop of the embedding that ran out of fuel. -/
inductive BotResult where
  | direction (d : String)
  | playerNotFound
  | outOfRange (index : Int)
  | outOfFuel
deriving DecidableEq, Repr

/-- The loop `for (s : others) if (s.length > target.length) target = s` that starts from
`others.front()` (InterceptorStrategy.cpp lines 33-38, ParasiteStrategy.cpp lines 22-27). -/
def bot.longestOf (front : ClientSnake) (others : List ClientSnake) : ClientSnake :=
  others.foldl (fun target s => if target.length < s.length then s else target) front

/-- `inferMoveVector` of InterceptorStrategy.cpp (lines 12-20). -/
def bot.interceptor.inferMoveVector (snake : ClientSnake) : Point :=
  match snake.blocks with
  | head :: neck :: _ => ⟨head.x - neck.x, head.y - neck.y⟩
  | _ => ⟨1, 0⟩

/-- The body of the loop of `decideInterceptor` (lines 49-59) on the pair
`(bestSafe, bestSafeDist)`. -/
def bot.interceptorStep (state : ClientGameState) (head predicted : Point)
    (best : String × Int) (dir : String) : String × Int :=
  if bot.isSafeDirection state head dir = false then best
  else
    let dist := (bot.nextPoint head dir).distance predicted
    if dist < best.2 then (dir, dist) else best

/-- `bot::decideInterceptor` (InterceptorStrategy.cpp lines 24-66). -/
def bot.decideInterceptor (state : ClientGameState) : BotResult :=
  match state.getMySnake with
  | none => BotResult.playerNotFound
  | some me =>
    match state.getOtherPlayers with
    | [] => BotResult.direction "right"
    | front :: rest =>
      let target := bot.longestOf front (front :: rest)
      let moveVec := bot.interceptor.inferMoveVector target
      let predicted : Point := ⟨target.head.x + moveVec.x * 4, target.head.y + moveVec.y * 4⟩
      let best := bot.allDirections.foldl (bot.interceptorStep state me.head predicted)
        ("right", bot.intMax)
      if best.2 ≠ bot.intMax then BotResult.direction best.1
      else BotResult.direction (bot.chooseDirectionToward state me.head predicted false)

/-- The loop `for (candidate : allDirections()) if (isSafeDirection(..)) return candidate`
followed by `return "right"`, which ends `decideParasite` and `decidePatroller`. -/
def bot.firstSafeDirection (state : ClientGameState) (head : Point) : String :=
  match bot.allDirections.find? (fun candidate => bot.isSafeDirection state head candidate) with
  | some candidate => candidate
  | none => "right"

/-- `chooseHost` of ParasiteStrategy.cpp (lines 16-30). -/
def bot.chooseHost (state : ClientGameState) (me : ClientSnake) : ClientSnake :=
  match state.getOtherPlayers with
  | [] => me
  | front :: rest => bot.longestOf front (front :: rest)

/-- `inferMoveVector` of ParasiteStrategy.cpp (lines 32-40). -/
def bot.parasite.inferMoveVector (snake : ClientSnake) : Point :=
  match snake.blocks with
  | head :: neck :: _ => ⟨head.x - neck.x, head.y - neck.y⟩
  | _ => ⟨0, 0⟩

/-- The two static variables of `decideParasite` (lines 47-48). -/
structure ParasiteMemory where
  lastHostId : String
  preferredOffset : Point
deriving DecidableEq, Repr

/-- The static variables of `decideParasite` before the first call. -/
def ParasiteMemory.initial : ParasiteMemory :=
  { lastHostId := "", preferredOffset := ⟨1, 0⟩ }

/-- The array `offsets` of `decideParasite` (line 65). -/
def bot.parasite.offsets : List Point :=
  [⟨1, 0⟩, ⟨-1, 0⟩, ⟨0, 1⟩, ⟨0, -1⟩]

/-- The body of the loop over the side targets (lines 82-93) on the triple
`(best, bestDist, bestOffset)`. -/
def bot.parasiteStep (state : ClientGameState) (head predictedHead : Point)
    (acc : Point × Int × Point) (p : Point) : Point × Int × Point :=
  let offset : Point := ⟨p.x - predictedHead.x, p.y - predictedHead.y⟩
  if state.isValidPos p.x p.y = false ∨ state.hasObstacle p.x p.y = true then acc
  else
    let d := head.distance p
    if d < acc.2.1 then (p, d, offset) else acc

/-- `bot::decideParasite` (ParasiteStrategy.cpp lines 42-114) with its static variables
as an argument and a result. -/
def bot.decideParasite (state : ClientGameState) (memory : ParasiteMemory) :
    BotResult × ParasiteMemory :=
  match state.getMySnake with
  | none => (BotResult.playerNotFound, memory)
  | some me =>
    let host := bot.chooseHost state me
    let memory1 : ParasiteMemory :=
      if memory.lastHostId ≠ host.id then { lastHostId := host.id, preferredOffset := ⟨1, 0⟩ }
      else memory
    let moveVec := bot.parasite.inferMoveVector host
    let moved : Point := ⟨host.head.x + moveVec.x, host.head.y + moveVec.y⟩
    let predictedHead := if state.isValidPos moved.x moved.y = false then host.head else moved
    let sideTargets : List Point :=
      ⟨predictedHead.x + memory1.preferredOffset.x,
        predictedHead.y + memory1.preferredOffset.y⟩ ::
      (bot.parasite.offsets.filter
        (fun offset => !(decide (offset.x = memory1.preferredOffset.x) &&
          decide (offset.y = memory1.preferredOffset.y)))).map
        (fun offset => ⟨predictedHead.x + offset.x, predictedHead.y + offset.y⟩)
    let found := sideTargets.foldl (bot.parasiteStep state me.head predictedHead)
      (predictedHead, bot.intMax, memory1.preferredOffset)
    let best := if found.2.1 = bot.intMax then predictedHead else found.1
    let memory2 : ParasiteMemory :=
      if found.2.1 = bot.intMax then memory1
      else { memory1 with preferredOffset := found.2.2 }
    let dir := bot.chooseDirectionToward state me.head best true
    if bot.isSafeDirection state me.head dir = true then (BotResult.direction dir, memory2)
    else (BotResult.direction (bot.firstSafeDirection state me.head), memory2)

/-- The struct `PatrolState` of PatrollerStrategy.cpp (lines 15-22). -/
structure PatrolState where
  inited : Bool
  minX : Int
  maxX : Int
  minY : Int
  maxY : Int
  index : Int
deriving DecidableEq, Repr

/-- The static variable `patrol` of `decidePatroller` before the first call. -/
def PatrolState.initial : PatrolState :=
  { inited := false, minX := 10, maxX := 30, minY := 10, maxY := 30, index := 0 }

/-- The bytes of a `std::string`: the UTF-8 encoding of its characters. -/
def bot.bytesOf (id : String) : List Nat :=
  id.data.flatMap (fun c => (String.utf8EncodeChar c).map UInt8.toNat)

/-- `hashId` of PatrollerStrategy.cpp (lines 25-32), the 64-bit FNV-1a hash. -/
def bot.hashId (id : String) : Nat :=
  (bot.bytesOf id).foldl
    (fun h c => (Nat.xor h c * 1099511628211) % 18446744073709551616) 1469598103934665603

/-- `rectanglePath` of PatrollerStrategy.cpp (lines 34-41). -/
def bot.rectanglePath (ps : PatrolState) : List Point :=
  [⟨ps.minX, ps.minY⟩, ⟨ps.maxX, ps.minY⟩, ⟨ps.maxX, ps.maxY⟩, ⟨ps.minX, ps.maxY⟩]

/-- The value of `std::clamp(v, lo, hi)`. -/
def bot.clamp (v lo hi : Int) : Int :=
  if v < lo then lo else if hi < v then hi else v

/-- `initPatrolIfNeeded` of PatrollerStrategy.cpp (lines 120-157). -/
def bot.initPatrolIfNeeded (ps : PatrolState) (state : ClientGameState) (me : ClientSnake) :
    PatrolState :=
  if ps.inited = true then ps
  else
    let width := max 20 state.map_width
    let height := max 20 state.map_height
    let h := bot.hashId me.id
    let quadX : Int := (h % 2 : Nat)
    let quadY : Int := ((h / 2) % 2 : Nat)
    let halfW := Int.tdiv width 2
    let halfH := Int.tdiv height 2
    let x0 := if quadX = 0 then 0 else halfW
    let x1 := if quadX = 0 then halfW - 1 else width - 1
    let y0 := if quadY = 0 then 0 else halfH
    let y1 := if quadY = 0 then halfH - 1 else height - 1
    let margin : Int := 4
    let minX := bot.clamp (x0 + margin) 0 (width - 1)
    let maxX := bot.clamp (x1 - margin) 0 (width - 1)
    let minY := bot.clamp (y0 + margin) 0 (height - 1)
    let maxY := bot.clamp (y1 - margin) 0 (height - 1)
    let minX1 := if maxX ≤ minX then max 0 x0 else minX
    let maxX1 := if maxX ≤ minX then min (width - 1) x1 else maxX
    let minY1 := if maxY ≤ minY then max 0 y0 else minY
    let maxY1 := if maxY ≤ minY then min (height - 1) y1 else maxY
    { inited := true, minX := minX1, maxX := maxX1, minY := minY1, maxY := maxY1, index := 0 }

/-- The lambda `id` of `bfsFirstStep` (lines 54-56): `y * width + x`. -/
def bot.cellId (width x y : Int) : Int :=
  y * width + x

/-- The read `v[i]` of a `std::vector<int>`; `none` when the index is outside the
vector. -/
def bot.vecGet (v : List Int) (i : Int) : Option Int :=
  if 0 ≤ i ∧ i < (v.length : Int) then v[i.toNat]? else none

/-- The write `v[i] = x` to a `std::vector<int>`; `none` when the index is outside the
vector. -/
def bot.vecSet (v : List Int) (i x : Int) : Option (List Int) :=
  if 0 ≤ i ∧ i < (v.length : Int) then some (v.set i.toNat x) else none

/-- A step of a loop with an early `return`. -/
inductive LoopStep (σ : Type) where
  | done (r : BotResult)
  | next (s : σ)

/-- The backtracking loop of `bfsFirstStep` (lines 86-92): from `curId` with
`parent = prev[curId]` to the cell whose parent is the start. -/
def bot.backtrack (prev : List Int) (startId : Int) : Nat → Int → Int → LoopStep Int
  | 0, _, _ => LoopStep.done BotResult.outOfFuel
  | fuel + 1, curId, parent =>
    if parent = startId then LoopStep.next curId
    else
      match bot.vecGet prev parent with
      | none => LoopStep.done (BotResult.outOfRange parent)
      | some parent1 =>
        if parent1 = -1 then LoopStep.done (BotResult.direction "right")
        else bot.backtrack prev startId fuel parent parent1

/-- The decoding of the first step (lines 94-109); `%` and `/` truncate toward zero. -/
def bot.decodeStep (width : Int) (start : Point) (curId : Int) : String :=
  let stepX := Int.tmod curId width
  let stepY := Int.tdiv curId width
  if stepX = start.x ∧ stepY = start.y - 1 then "up"
  else if stepX = start.x ∧ stepY = start.y + 1 then "down"
  else if stepX = start.x - 1 ∧ stepY = start.y then "left"
  else if stepX = start.x + 1 ∧ stepY = start.y then "right"
  else "right"

/-- The loop over the four directions for one cell taken from the queue (lines 66-113), on
the pair of the vector `prev` and the queue. -/
def bot.bfsVisit (fuel : Nat) (state : ClientGameState) (start target : Point) (width : Int)
    (cur : Point) : List String → List Int × List Point → LoopStep (List Int × List Point)
  | [], st => LoopStep.next st
  | dir :: dirs, (prev, q) =>
    let nxt := bot.nextPoint cur dir
    if state.isValidPos nxt.x nxt.y = false then
      bot.bfsVisit fuel state start target width cur dirs (prev, q)
    else if (nxt.x ≠ target.x ∨ nxt.y ≠ target.y) ∧ state.hasObstacle nxt.x nxt.y = true then
      bot.bfsVisit fuel state start target width cur dirs (prev, q)
    else
      let nid := bot.cellId width nxt.x nxt.y
      match bot.vecGet prev nid with
      | none => LoopStep.done (BotResult.outOfRange nid)
      | some seen =>
        if seen ≠ -1 then bot.bfsVisit fuel state start target width cur dirs (prev, q)
        else
          match bot.vecSet prev nid (bot.cellId width cur.x cur.y) with
          | none => LoopStep.done (BotResult.outOfRange nid)
          | some prev1 =>
            if nxt.x = target.x ∧ nxt.y = target.y then
              match bot.vecGet prev1 nid with
              | none => LoopStep.done (BotResult.outOfRange nid)
              | some parent =>
                match bot.backtrack prev1 (bot.cellId width start.x start.y) fuel nid parent with
                | LoopStep.done r => LoopStep.done r
                | LoopStep.next curId =>
                  LoopStep.done (BotResult.direction (bot.decodeStep width start curId))
            else bot.bfsVisit fuel state start target width cur dirs (prev1, q ++ [nxt])

/-- The loop `while (!q.empty())` of `bfsFirstStep` (lines 62-115) and the final
`return "right"`. -/
def bot.bfsLoop (state : ClientGameState) (start target : Point) (width : Int) :
    Nat → List Int × List Point → BotResult
  | 0, _ => BotResult.outOfFuel
  | _ + 1, (_, []) => BotResult.direction "right"
  | fuel + 1, (prev, cur :: rest) =>
    match bot.bfsVisit fuel state start target width cur bot.allDirections (prev, rest) with
    | LoopStep.done r => r
    | LoopStep.next st => bot.bfsLoop state start target width fuel st

/-- `bfsFirstStep` of PatrollerStrategy.cpp (lines 43-118); `fuel` bounds the number of
cells taken from the queue and the length of the backtracking.  The map is small enough
for `width * height` to be an `int`. -/
def bot.bfsFirstStep (fuel : Nat) (state : ClientGameState) (start target : Point) :
    BotResult :=
  if start.x = target.x ∧ start.y = target.y then BotResult.direction "right"
  else
    let width := state.map_width
    let height := state.map_height
    if width ≤ 0 ∨ height ≤ 0 then BotResult.direction "right"
    else
      let prev := List.replicate (width * height).toNat (-1 : Int)
      match bot.vecSet prev (bot.cellId width start.x start.y)
          (bot.cellId width start.x start.y) with
      | none => BotResult.outOfRange (bot.cellId width start.x start.y)
      | some prev1 => bot.bfsLoop state start target width fuel (prev1, [start])

/-- The read `path[i]` of the vector of the four corners; `none` when the index is
outside the vector. -/
def bot.pathAt (path : List Point) (i : Int) : Option Point :=
  if 0 ≤ i ∧ i < (path.length : Int) then path[i.toNat]? else none

/-- The end of `decidePatroller` (lines 177-193) once `bfsFirstStep` has returned `dir`. -/
def bot.patrolChoice (state : ClientGameState) (head target : Point) (dir : String) :
    String :=
  let dir1 :=
    if bot.isSafeDirection state head dir = false then
      bot.chooseDirectionToward state head target true
    else dir
  if bot.isSafeDirection state head dir1 = true then dir1
  else bot.firstSafeDirection state head

/-- `bot::decidePatroller` (PatrollerStrategy.cpp lines 161-194) with its static variable
as an argument and a result. -/
def bot.decidePatroller (fuel : Nat) (state : ClientGameState) (patrol : PatrolState) :
    BotResult × PatrolState :=
  match state.getMySnake with
  | none => (BotResult.playerNotFound, patrol)
  | some me =>
    let patrol1 := bot.initPatrolIfNeeded patrol state me
    let path := bot.rectanglePath patrol1
    match bot.pathAt path patrol1.index with
    | none => (BotResult.outOfRange patrol1.index, patrol1)
    | some target0 =>
      let patrol2 : PatrolState :=
        if me.head.x = target0.x ∧ me.head.y = target0.y then
          { patrol1 with index := Int.tmod (patrol1.index + 1) 4 }
        else patrol1
      match bot.pathAt path patrol2.index with
      | none => (BotResult.outOfRange patrol2.index, patrol2)
      | some target =>
        match bot.bfsFirstStep fuel state me.head target with
        | BotResult.direction dir =>
          (BotResult.direction (bot.patrolChoice state me.head target dir), patrol2)
        | other => (other, patrol2)

/-! ## The payloads the server publishes -/

/-- Modelled from the spec: the full player record of the wire format (the `toJson` of
the missing class `Player`): id, name, color, head, blocks, length, invincible_rounds. -/
def Player.toJson (p : Player) : JsonPlayer :=
  { id := p.id, name := p.name, color := some p.color, head := p.snake.getHead,
    blocks := p.snake.blocks, length := p.snake.length,
    invincible_rounds := some p.snake.invincibleRounds }

/-- Modelled from the spec: the simplified per-player update record of the delta
journal: id, head, length, invincibility. -/
def Player.toUpdateJson (p : Player) : JsonPlayerUpdate :=
  { id := p.id, head := p.snake.getHead, length := p.snake.length,
    invincible_rounds := some p.snake.invincibleRounds }

/-- Modelled from the spec: `GameState::toJson` (missing), the full snapshot: round,
timestamps, the in-game players as full records, and the foods. -/
def GameState.toJson (g : GameState) (timestamp nextRound : Int) : JsonMapState :=
  { round := g.currentRound, next_round_timestamp := some nextRound,
    timestamp := some timestamp,
    players := (g.players.filter (fun p => p.inGame)).map Player.toJson,
    foods := g.foods }

/-- Modelled from the spec: `GameState::toDeltaJson` (missing), the delta journal: round,
timestamps, died players (ids), joined players (full records), the update records of the
in-game players, added foods and removed foods. -/
def GameState.toDeltaJson (g : GameState) (timestamp nextRound : Int) : JsonDeltaState :=
  { round := g.currentRound, next_round_timestamp := some nextRound,
    timestamp := some timestamp,
    died_players := some g.diedPlayers,
    joined_players :=
      some (g.joinedPlayers.filterMap (fun i => (getPlayer g.players i).map Player.toJson)),
    players := some ((g.players.filter (fun p => p.inGame)).map Player.toUpdateJson),
    removed_foods := some g.removedFoods,
    added_foods := some g.addedFoods }

/-! ## The request surface (server/src/handlers/RouteHandler.cpp) -/

/-- The JSON envelope `{code, msg, data}` handed to `buildResponse`; `code` is absent
when the object has no such field, and the payload is of any type. -/
structure Envelope (α : Type) where
  code : Option Int
  msg : String
  data : α
deriving DecidableEq, Repr

/-- The fields of `crow::response` that `buildResponse` sets; the body is the serialised
envelope, kept as the envelope itself. -/
structure HttpResponse (α : Type) where
  code : Int
  contentType : String
  body : Envelope α
deriving DecidableEq, Repr

/-- `RouteHandler::buildResponse` (lines 610-630). -/
def RouteHandler.buildResponse {α : Type} (jsonData : Envelope α) : HttpResponse α :=
  { contentType := "application/json"
    body := jsonData
    code :=
      match jsonData.code with
      | some code =>
        if code = 0 then 200
        else if 400 ≤ code ∧ code < 600 then code
        else 500
      | none => 200 }

/-- Modelled from the spec: `ResponseBuilder::success` (utils/ResponseBuilder.h is
missing): the envelope with code 0. -/
def ResponseBuilder.success : Envelope (List (String × Int)) :=
  { code := some 0, msg := "success", data := [] }

/-- Modelled from the spec: `ResponseBuilder::badRequest` (missing): InvalidRequest,
code 400. -/
def ResponseBuilder.badRequest (msg : String) : Envelope (List (String × Int)) :=
  { code := some 400, msg := msg, data := [] }

/-- Modelled from the spec: `ResponseBuilder::unauthorized` (missing): unknown key or
token, code 401. -/
def ResponseBuilder.unauthorized (msg : String) : Envelope (List (String × Int)) :=
  { code := some 401, msg := msg, data := [] }

/-- Modelled from the spec: `ResponseBuilder::notFound` (missing): player no longer in
game, code 404. -/
def ResponseBuilder.notFound (msg : String) : Envelope (List (String × Int)) :=
  { code := some 404, msg := msg, data := [] }

/-- Modelled from the spec: `ResponseBuilder::tooManyRequests` (missing): code 429,
carrying `retry_after` in seconds. -/
def ResponseBuilder.tooManyRequests (msg : String) (retryAfter : Int) :
    Envelope (List (String × Int)) :=
  { code := some 429, msg := msg, data := [("retry_after", retryAfter)] }

/-- Modelled from the spec: the session registry `PlayerManager` (managers/PlayerManager.h
is missing): the index sessionToken -> playerId and the player sessions, which are the
player objects shared with the game state. -/
structure PlayerManager where
  tokens : List (String × String)
  players : List Player
deriving DecidableEq, Repr

/-- Modelled from the spec: `PlayerManager::validateToken` (missing): the player id the
token is registered for, if any. -/
def PlayerManager.validateToken (pm : PlayerManager) (token : String) : Option String :=
  (pm.tokens.find? (fun e => decide (e.1 = token))).map Prod.snd

/-- Modelled from the spec: `PlayerManager::getPlayerById` (missing): the player session
registered under the id, if any. -/
def PlayerManager.getPlayerById (pm : PlayerManager) (pid : String) : Option Player :=
  getPlayer pm.players pid

/-- Modelled from the spec: `DirectionUtils::fromString` (missing): the wire strings
"up", "down", "left", "right" (and "none" for no direction); any other string is
rejected. -/
def DirectionUtils.fromString (str : String) : Option Direction :=
  if str = "up" then some Direction.UP
  else if str = "down" then some Direction.DOWN
  else if str = "left" then some Direction.LEFT
  else if str = "right" then some Direction.RIGHT
  else if str = "none" then some Direction.NONE
  else none

/-- The string fields of the JSON body of a move request; a field is absent when the
object does not contain it. -/
structure MoveBody where
  token : Option String
  direction : Option String
deriving DecidableEq, Repr

/-- `RouteHandler::handleMove` (lines 297-373): the response and the game manager after
the call; `body` is `none` when the request body is not valid JSON. -/
def RouteHandler.handleMove (pm : PlayerManager) (gm : GameManager) (body : Option MoveBody) :
    HttpResponse (List (String × Int)) × GameManager :=
  match body with
  | none => (RouteHandler.buildResponse (ResponseBuilder.badRequest "invalid json format"), gm)
  | some requestData =>
    match requestData.token, requestData.direction with
    | some token, some directionStr =>
      if token = "" then
        (RouteHandler.buildResponse (ResponseBuilder.badRequest "token cannot be empty"), gm)
      else if directionStr = "" then
        (RouteHandler.buildResponse (ResponseBuilder.badRequest "direction cannot be empty"), gm)
      else
        match pm.validateToken token with
        | none => (RouteHandler.buildResponse (ResponseBuilder.unauthorized "invalid token"), gm)
        | some playerId =>
          match pm.getPlayerById playerId with
          | none =>
            (RouteHandler.buildResponse (ResponseBuilder.notFound "player not in game"), gm)
          | some _ =>
            match DirectionUtils.fromString directionStr with
            | none =>
              (RouteHandler.buildResponse (ResponseBuilder.badRequest "invalid direction"), gm)
            | some direction =>
              if direction = Direction.NONE then
                (RouteHandler.buildResponse (ResponseBuilder.badRequest "invalid direction"), gm)
              else
                let r := gm.submitMove playerId direction
                if r.1 = false then
                  (RouteHandler.buildResponse
                    (ResponseBuilder.tooManyRequests "move already submitted this round" 0), r.2)
                else (RouteHandler.buildResponse ResponseBuilder.success, r.2)
    | _, _ =>
      (RouteHandler.buildResponse
        (ResponseBuilder.badRequest "missing token or direction parameter"), gm)

/-! ## The rate limiter (server/src/utils/RateLimiter.cpp) -/

/-- The member `records_` of `RateLimiter`: for each key the deque of the time points of
the requests let through, oldest first.  A time point is the tick count of
`std::chrono::system_clock`. -/
structure RateLimiter where
  records : List (String × List Int)
deriving DecidableEq, Repr

/-- The deque stored under a key; a key without record has the empty deque, which is what
`records_[key]` creates. -/
def RateLimiter.timestamps (rl : RateLimiter) (key : String) : List Int :=
  match rl.records.find? (fun r => decide (r.1 = key)) with
  | some r => r.2
  | none => []

/-- The write through the reference `records_[key]`. -/
def setRecord (key : String) (ts : List Int) : List (String × List Int) →
    List (String × List Int)
  | [] => [(key, ts)]
  | r :: rs => if r.1 = key then (key, ts) :: rs else r :: setRecord key ts rs

/-- `RateLimiter::checkLimit` (lines 13-40).  `now` is the reading of the system clock and
`tps` the number of clock ticks in a second, so that `std::chrono::seconds(windowSeconds)`
is `windowSeconds * tps` ticks.  The deque never holds more than `maxRequests` entries, so
the cast of its size to `int` is exact. -/
def RateLimiter.checkLimit (tps : Int) (rl : RateLimiter) (key : String)
    (maxRequests windowSeconds now : Int) : Bool × RateLimiter :=
  if maxRequests ≤ 0 ∨ windowSeconds ≤ 0 then (true, rl)
  else
    let windowStart := now - windowSeconds * tps
    let kept := (rl.timestamps key).dropWhile (fun t => decide (t < windowStart))
    if maxRequests ≤ (kept.length : Int) then
      (false, { records := setRecord key kept rl.records })
    else (true, { records := setRecord key (kept ++ [now]) rl.records })

/-! ## The server configuration (server/include/models/Config.h, server/src/models/Config.cpp) -/

/-- `Config::ServerConfig` (Config.h lines 15-25) with its default values. -/
structure ServerConfig where
  port : Int := 18080
  threads : Int := 4
  httpEnabled : Bool := true
  httpsEnabled : Bool := false
  httpsPort : Int := 18443
  bindAddress : String := "0.0.0.0"
  sslCertFile : String := ""
  sslKeyFile : String := ""
  sslUseChainFile : Bool := false
deriving DecidableEq, Repr

/-- `Config::GameConfig` (Config.h lines 27-34); the `double` is an exact fraction. -/
structure GameConfig where
  mapWidth : Int := 50
  mapHeight : Int := 50
  roundTimeMs : Int := 1000
  initialSnakeLength : Int := 3
  invincibleRounds : Int := 5
  foodDensity : ℚ := 1 / 20
deriving DecidableEq, Repr

/-- `Config::DatabaseConfig` (Config.h lines 36-42). -/
structure DatabaseConfig where
  path : String := "./data/snake.db"
  snapshotInterval : Int := 10
  snapshotRetentionHours : Int := 24
  backupEnabled : Bool := true
  backupIntervalHours : Int := 6
deriving DecidableEq, Repr

/-- `Config::RateLimitConfig` (Config.h lines 44-55). -/
structure RateLimitConfig where
  enabled : Bool := true
  statusPerMinute : Int := 60
  statusWindowSeconds : Int := 60
  loginPerHour : Int := 10
  loginWindowSeconds : Int := 3600
  joinPerMinute : Int := 5
  joinWindowSeconds : Int := 60
  movePerRound : Int := 1
  mapPerSecond : Int := 10
  mapWindowSeconds : Int := 1
deriving DecidableEq, Repr

/-- `Config::AuthConfig` (Config.h lines 57-59). -/
structure AuthConfig where
  luoguValidationText : String := "SnakeGameVerification2026"
deriving DecidableEq, Repr

/-- `Config::LeaderboardConfig` (Config.h lines 61-65). -/
structure LeaderboardConfig where
  refreshIntervalRounds : Int := 5
  maxEntries : Int := 200
  cacheTtlSeconds : Int := 5
deriving DecidableEq, Repr

/-- `Config::PerformanceMonitorConfig` (Config.h lines 67-77); the `double` is an exact
fraction and the `std::size_t` a natural number. -/
structure PerformanceMonitorConfig where
  enabled : Bool := false
  sampleRate : ℚ := 1 / 5
  windowSeconds : Int := 60
  maxSamples : Int := 2000
  logEnabled : Bool := false
  logIntervalSeconds : Int := 10
  logPath : String := "./data/metrics.log"
  logMaxBytes : Nat := 5 * 1024 * 1024
  logMaxFiles : Int := 3
deriving DecidableEq, Repr

/-- The sections of the class `Config` (Config.h lines 100-106); the value `{}` is the
default-constructed singleton. -/
structure Config where
  server : ServerConfig := {}
  game : GameConfig := {}
  database : DatabaseConfig := {}
  rateLimit : RateLimitConfig := {}
  auth : AuthConfig := {}
  leaderboard : LeaderboardConfig := {}
  performanceMonitor : PerformanceMonitorConfig := {}
deriving DecidableEq, Repr

/-- `Config::validate` (Config.cpp lines 236-412): every `return false` in the order of
the source. -/
def Config.validate (c : Config) : Bool :=
  if c.server.httpEnabled = false ∧ c.server.httpsEnabled = false then false
  else if c.server.threads < 1 ∨ c.server.threads > 128 then false
  else if c.server.httpEnabled = true ∧ (c.server.port < 1024 ∨ c.server.port > 65535) then
    false
  else if c.server.httpsEnabled = true ∧
      (c.server.httpsPort < 1024 ∨ c.server.httpsPort > 65535) then false
  else if c.server.httpsEnabled = true ∧ c.server.sslCertFile = "" then false
  else if c.server.httpsEnabled = true ∧ c.server.sslKeyFile = "" then false
  else if c.server.httpEnabled = true ∧ c.server.httpsEnabled = true ∧
      c.server.port = c.server.httpsPort then false
  else if c.server.bindAddress = "" then false
  else if c.game.mapWidth < 10 ∨ c.game.mapWidth > 200000 then false
  else if c.game.mapHeight < 10 ∨ c.game.mapHeight > 200000 then false
  else if c.game.roundTimeMs < 100 ∨ c.game.roundTimeMs > 100000000 then false
  else if c.game.initialSnakeLength < 1 ∨ c.game.initialSnakeLength > 10 then false
  else if c.game.invincibleRounds < 0 ∨ c.game.invincibleRounds > 100 then false
  else if c.game.foodDensity < 0 ∨ c.game.foodDensity > 1 then false
  else if c.database.path = "" then false
  else if c.database.snapshotInterval < 1 ∨ c.database.snapshotInterval > 1000 then false
  else if c.database.snapshotRetentionHours < 1 ∨ c.database.snapshotRetentionHours > 720 then
    false
  else if c.database.backupIntervalHours < 1 ∨ c.database.backupIntervalHours > 168 then false
  else if c.leaderboard.refreshIntervalRounds < 1 ∨
      c.leaderboard.refreshIntervalRounds > 10000 then false
  else if c.leaderboard.maxEntries < 1 ∨ c.leaderboard.maxEntries > 10000 then false
  else if c.leaderboard.cacheTtlSeconds < 0 ∨ c.leaderboard.cacheTtlSeconds > 3600 then false
  else if c.performanceMonitor.sampleRate < 0 ∨ c.performanceMonitor.sampleRate > 1 then false
  else if c.performanceMonitor.windowSeconds < 1 ∨
      c.performanceMonitor.windowSeconds > 3600 then false
  else if c.performanceMonitor.maxSamples < 10 ∨
      c.performanceMonitor.maxSamples > 200000 then false
  else if c.performanceMonitor.logEnabled = true ∧
      (c.performanceMonitor.logIntervalSeconds < 1 ∨
        c.performanceMonitor.logIntervalSeconds > 3600) then false
  else if c.performanceMonitor.logMaxBytes > 0 ∧ c.performanceMonitor.logMaxBytes < 1024 then
    false
  else if c.performanceMonitor.logMaxFiles < 1 ∨ c.performanceMonitor.logMaxFiles > 50 then
    false
  else if c.rateLimit.enabled = true ∧
      (c.rateLimit.statusPerMinute < 1 ∨ c.rateLimit.statusPerMinute > 10000) then false
  else if c.rateLimit.enabled = true ∧
      (c.rateLimit.statusWindowSeconds < 1 ∨ c.rateLimit.statusWindowSeconds > 3600) then false
  else if c.rateLimit.enabled = true ∧
      (c.rateLimit.loginPerHour < 1 ∨ c.rateLimit.loginPerHour > 10000) then false
  else if c.rateLimit.enabled = true ∧
      (c.rateLimit.loginWindowSeconds < 1 ∨ c.rateLimit.loginWindowSeconds > 86400) then false
  else if c.rateLimit.enabled = true ∧
      (c.rateLimit.joinPerMinute < 1 ∨ c.rateLimit.joinPerMinute > 10000) then false
  else if c.rateLimit.enabled = true ∧
      (c.rateLimit.joinWindowSeconds < 1 ∨ c.rateLimit.joinWindowSeconds > 3600) then false
  else if c.rateLimit.enabled = true ∧
      (c.rateLimit.movePerRound < 1 ∨ c.rateLimit.movePerRound > 100) then false
  else if c.rateLimit.enabled = true ∧
      (c.rateLimit.mapPerSecond < 1 ∨ c.rateLimit.mapPerSecond > 10000) then false
  else if c.rateLimit.enabled = true ∧
      (c.rateLimit.mapWindowSeconds < 1 ∨ c.rateLimit.mapWindowSeconds > 60) then false
  else true

/-- A member of a JSON object as the statement
`if (obj.contains(key)) field = obj[key].get<T>();` sees it: absent, holding a value that
converts to `T`, or holding a value for which `get<T>()` throws. -/
inductive JField (α : Type) where
  | absent
  | value (v : α)
  | wrongType
deriving DecidableEq, Repr

/-- The object under the key "server" of a configuration file. -/
structure ServerJson where
  port : JField Int := JField.absent
  threads : JField Int := JField.absent
  http_enabled : JField Bool := JField.absent
  https_enabled : JField Bool := JField.absent
  https_port : JField Int := JField.absent
  bind_address : JField String := JField.absent
  ssl_cert_file : JField String := JField.absent
  ssl_key_file : JField String := JField.absent
  ssl_use_chain_file : JField Bool := JField.absent
deriving DecidableEq, Repr

/-- The object under the key "game" of a configuration file. -/
structure GameJson where
  map_width : JField Int := JField.absent
  map_height : JField Int := JField.absent
  round_time_ms : JField Int := JField.absent
  initial_snake_length : JField Int := JField.absent
  invincible_rounds : JField Int := JField.absent
  food_density : JField ℚ := JField.absent
deriving DecidableEq, Repr

/-- The object under the key "database" of a configuration file. -/
structure DatabaseJson where
  path : JField String := JField.absent
  snapshot_interval : JField Int := JField.absent
  snapshot_retention_hours : JField Int := JField.absent
  backup_enabled : JField Bool := JField.absent
  backup_interval_hours : JField Int := JField.absent
deriving DecidableEq, Repr

/-- The object under the key "rate_limits" of a configuration file. -/
structure RateLimitJson where
  enabled : JField Bool := JField.absent
  status_per_minute : JField Int := JField.absent
  status_window_seconds : JField Int := JField.absent
  login_per_hour : JField Int := JField.absent
  login_window_seconds : JField Int := JField.absent
  join_per_minute : JField Int := JField.absent
  join_window_seconds : JField Int := JField.absent
  move_per_round : JField Int := JField.absent
  map_per_second : JField Int := JField.absent
  map_window_seconds : JField Int := JField.absent
deriving DecidableEq, Repr

/-- The object under the key "auth" of a configuration file. -/
structure AuthJson where
  luogu_validation_text : JField String := JField.absent
deriving DecidableEq, Repr

/-- The object under the key "leaderboard" of a configuration file. -/
structure LeaderboardJson where
  refresh_interval_rounds : JField Int := JField.absent
  max_entries : JField Int := JField.absent
  cache_ttl_seconds : JField Int := JField.absent
deriving DecidableEq, Repr

/-- The object under the key "performance_monitor" of a configuration file. -/
structure PerformanceMonitorJson where
  enabled : JField Bool := JField.absent
  sample_rate : JField ℚ := JField.absent
  window_seconds : JField Int := JField.absent
  max_samples : JField Int := JField.absent
  log_enabled : JField Bool := JField.absent
  log_interval_seconds : JField Int := JField.absent
  log_path : JField String := JField.absent
  log_max_bytes : JField Nat := JField.absent
  log_max_files : JField Int := JField.absent
deriving DecidableEq, Repr

/-- The JSON document handed to `loadFromJson`; a section is `none` when the document
does not contain its key. -/
structure ConfigJson where
  server : Option ServerJson := none
  game : Option GameJson := none
  database : Option DatabaseJson := none
  rate_limits : Option RateLimitJson := none
  auth : Option AuthJson := none
  leaderboard : Option LeaderboardJson := none
  performance_monitor : Option PerformanceMonitorJson := none
deriving DecidableEq, Repr

/-- The statement `if (obj.contains(key)) field = obj[key].get<T>();` on the
configuration: `none` when `get<T>()` throws, which happens before the assignment. -/
def JField.assign {α : Type} (f : JField α) (set : α → Config → Config) (c : Config) :
    Option Config :=
  match f with
  | JField.absent => some c
  | JField.value v => some (set v c)
  | JField.wrongType => none

/-- A sequence of statements inside the `try` block: the first one that throws ends the
sequence with the assignments made so far; the flag says that nothing was thrown. -/
def runStatements : List (Config → Option Config) → Config → Bool × Config
  | [], c => (true, c)
  | s :: rest, c =>
    match s c with
    | none => (false, c)
    | some c1 => runStatements rest c1

/-- The assignments of the "server" block of `loadFromJson` (lines 52-81). -/
def loadServer (j : ServerJson) : List (Config → Option Config) :=
  [j.port.assign (fun v c => { c with server := { c.server with port := v } }),
   j.threads.assign (fun v c => { c with server := { c.server with threads := v } }),
   j.http_enabled.assign (fun v c => { c with server := { c.server with httpEnabled := v } }),
   j.https_enabled.assign (fun v c => { c with server := { c.server with httpsEnabled := v } }),
   j.https_port.assign (fun v c => { c with server := { c.server with httpsPort := v } }),
   j.bind_address.assign (fun v c => { c with server := { c.server with bindAddress := v } }),
   j.ssl_cert_file.assign (fun v c => { c with server := { c.server with sslCertFile := v } }),
   j.ssl_key_file.assign (fun v c => { c with server := { c.server with sslKeyFile := v } }),
   j.ssl_use_chain_file.assign
     (fun v c => { c with server := { c.server with sslUseChainFile := v } })]

/-- The assignments of the "game" block of `loadFromJson` (lines 84-104). -/
def loadGame (j : GameJson) : List (Config → Option Config) :=
  [j.map_width.assign (fun v c => { c with game := { c.game with mapWidth := v } }),
   j.map_height.assign (fun v c => { c with game := { c.game with mapHeight := v } }),
   j.round_time_ms.assign (fun v c => { c with game := { c.game with roundTimeMs := v } }),
   j.initial_snake_length.assign
     (fun v c => { c with game := { c.game with initialSnakeLength := v } }),
   j.invincible_rounds.assign
     (fun v c => { c with game := { c.game with invincibleRounds := v } }),
   j.food_density.assign (fun v c => { c with game := { c.game with foodDensity := v } })]

/-- The assignments of the "database" block of `loadFromJson` (lines 107-124). -/
def loadDatabase (j : DatabaseJson) : List (Config → Option Config) :=
  [j.path.assign (fun v c => { c with database := { c.database with path := v } }),
   j.snapshot_interval.assign
     (fun v c => { c with database := { c.database with snapshotInterval := v } }),
   j.snapshot_retention_hours.assign
     (fun v c => { c with database := { c.database with snapshotRetentionHours := v } }),
   j.backup_enabled.assign
     (fun v c => { c with database := { c.database with backupEnabled := v } }),
   j.backup_interval_hours.assign
     (fun v c => { c with database := { c.database with backupIntervalHours := v } })]

/-- The assignments of the "rate_limits" block of `loadFromJson` (lines 127-159). -/
def loadRateLimits (j : RateLimitJson) : List (Config → Option Config) :=
  [j.enabled.assign (fun v c => { c with rateLimit := { c.rateLimit with enabled := v } }),
   j.status_per_minute.assign
     (fun v c => { c with rateLimit := { c.rateLimit with statusPerMinute := v } }),
   j.status_window_seconds.assign
     (fun v c => { c with rateLimit := { c.rateLimit with statusWindowSeconds := v } }),
   j.login_per_hour.assign
     (fun v c => { c with rateLimit := { c.rateLimit with loginPerHour := v } }),
   j.login_window_seconds.assign
     (fun v c => { c with rateLimit := { c.rateLimit with loginWindowSeconds := v } }),
   j.join_per_minute.assign
     (fun v c => { c with rateLimit := { c.rateLimit with joinPerMinute := v } }),
   j.join_window_seconds.assign
     (fun v c => { c with rateLimit := { c.rateLimit with joinWindowSeconds := v } }),
   j.move_per_round.assign
     (fun v c => { c with rateLimit := { c.rateLimit with movePerRound := v } }),
   j.map_per_second.assign
     (fun v c => { c with rateLimit := { c.rateLimit with mapPerSecond := v } }),
   j.map_window_seconds.assign
     (fun v c => { c with rateLimit := { c.rateLimit with mapWindowSeconds := v } })]

/-- The assignment of the "auth" block of `loadFromJson` (lines 162-167). -/
def loadAuth (j : AuthJson) : List (Config → Option Config) :=
  [j.luogu_validation_text.assign
     (fun v c => { c with auth := { c.auth with luoguValidationText := v } })]

/-- The assignments of the "leaderboard" block of `loadFromJson` (lines 170-181). -/
def loadLeaderboard (j : LeaderboardJson) : List (Config → Option Config) :=
  [j.refresh_interval_rounds.assign
     (fun v c => { c with leaderboard := { c.leaderboard with refreshIntervalRounds := v } }),
   j.max_entries.assign
     (fun v c => { c with leaderboard := { c.leaderboard with maxEntries := v } }),
   j.cache_ttl_seconds.assign
     (fun v c => { c with leaderboard := { c.leaderboard with cacheTtlSeconds := v } })]

/-- The assignments of the "performance_monitor" block of `loadFromJson` (lines
184-213). -/
def loadPerformanceMonitor (j : PerformanceMonitorJson) : List (Config → Option Config) :=
  [j.enabled.assign
     (fun v c => { c with performanceMonitor := { c.performanceMonitor with enabled := v } }),
   j.sample_rate.assign
     (fun v c =>
       { c with performanceMonitor := { c.performanceMonitor with sampleRate := v } }),
   j.window_seconds.assign
     (fun v c =>
       { c with performanceMonitor := { c.performanceMonitor with windowSeconds := v } }),
   j.max_samples.assign
     (fun v c =>
       { c with performanceMonitor := { c.performanceMonitor with maxSamples := v } }),
   j.log_enabled.assign
     (fun v c =>
       { c with performanceMonitor := { c.performanceMonitor with logEnabled := v } }),
   j.log_interval_seconds.assign
     (fun v c =>
       { c with performanceMonitor := { c.performanceMonitor with logIntervalSeconds := v } }),
   j.log_path.assign
     (fun v c => { c with performanceMonitor := { c.performanceMonitor with logPath := v } }),
   j.log_max_bytes.assign
     (fun v c =>
       { c with performanceMonitor := { c.performanceMonitor with logMaxBytes := v } }),
   j.log_max_files.assign
     (fun v c =>
       { c with performanceMonitor := { c.performanceMonitor with logMaxFiles := v } })]

/-- The statements of a section that the document may lack. -/
def sectionStatements {α : Type} (s : Option α) (load : α → List (Config → Option Config)) :
    List (Config → Option Config) :=
  match s with
  | none => []
  | some j => load j

/-- `Config::loadFromJson` (Config.cpp lines 49-230): the return value and the
configuration after the call.  A thrown conversion error is caught (lines 223-229) and
gives false, as does a failed validation (lines 216-219). -/
def Config.loadFromJson (c : Config) (j : ConfigJson) : Bool × Config :=
  let r := runStatements
    (sectionStatements j.server loadServer ++ sectionStatements j.game loadGame ++
      sectionStatements j.database loadDatabase ++
      sectionStatements j.rate_limits loadRateLimits ++ sectionStatements j.auth loadAuth ++
      sectionStatements j.leaderboard loadLeaderboard ++
      sectionStatements j.performance_monitor loadPerformanceMonitor) c
  if r.1 = false then (false, r.2)
  else if r.2.validate = false then (false, r.2)
  else (true, r.2)

/-- The configuration `generateFood` reads through `Config::getInstance().getGame()`
(GameManager.cpp line 549) as the environment of the tick; the fraction is given by its
numerator and denominator. -/
def Config.toEnv (c : Config) (generateFoodFast : Int → CountMap → List Point → List Point) :
    Env :=
  { mapWidth := c.game.mapWidth, mapHeight := c.game.mapHeight,
    foodDensityNum := c.game.foodDensity.num, foodDensityDen := c.game.foodDensity.den,
    generateFoodFast := generateFoodFast, initialSnakeLength := c.game.initialSnakeLength }

/-! ## Specification-side definitions -/

/-- The facing the specification prescribes after the apply-directions phase: without a
pending command the facing is kept; a pending command that is the opposite of the facing
is dropped; any other pending command becomes the facing. -/
def specFacing (moves : List (String × Direction)) (p : Player) : Direction :=
  match findMove moves p.id with
  | none => p.snake.direction
  | some d => if DirectionUtils.isOpposite p.snake.direction d = true then p.snake.direction else d

/-- The body cells of all in-game, non-invincible snakes, with multiplicity. -/
def obstacleCells (ps : List Player) : List Point :=
  (ps.filter isObstacle).flatMap (fun p => p.snake.blocks)

/-- The cause of death the specification prescribes for an in-game, non-invincible
player: WALL if the head is outside the grid, else SELF if the player is in the
self-collision set, else OTHER if more than one body cell of in-game non-invincible
snakes lies on the head cell, else none. -/
def specCollision (env : Env) (m : GameManager) (p : Player) : CollisionType :=
  if ¬ (0 ≤ p.snake.getHead.x ∧ p.snake.getHead.x < env.mapWidth ∧
        0 ≤ p.snake.getHead.y ∧ p.snake.getHead.y < env.mapHeight) then CollisionType.WALL
  else if p.id ∈ m.pendingSelfCollisions then CollisionType.SELF
  else if 1 < (obstacleCells m.gameState.players).count p.snake.getHead then
    CollisionType.OTHER_SNAKE
  else CollisionType.NONE

/-- Whether collision detection takes the player out of the game, in the words of the
specification: it is in game, not invincible, and has a cause of death. -/
def specDies (env : Env) (m : GameManager) (p : Player) : Bool :=
  p.inGame && !decide (0 < p.snake.invincibleRounds) &&
    decide (specCollision env m p ≠ CollisionType.NONE)

/-- The body cells of all in-game living snakes, with multiplicity. -/
def liveCells (ps : List Player) : List Point :=
  (ps.filter (fun p => p.inGame && p.snake.alive)).flatMap (fun p => p.snake.blocks)

/-- How often a cell occurs in the body of a player that is in game with a living snake;
0 for any other player. -/
def cellCount (c : Point) (p : Player) : Nat :=
  if p.inGame = true ∧ p.snake.alive = true then p.snake.blocks.count c else 0

/-- The structural invariant of a reference-count map: keys are unique and no stored
count is zero or negative, so that a cell with count 0 is absent. -/
def CountMap.WF (m : CountMap) : Prop :=
  (m.map Prod.fst).Nodup ∧ ∀ e ∈ m, 0 < e.2

/-- The occupancy invariant of the specification: the index is a well-formed count map
and for every cell its count (0 when absent) is the number of times the cell occurs in
the bodies of all in-game living snakes. -/
def OccupancyInv (m : GameManager) : Prop :=
  CountMap.WF m.occupiedCounts ∧
  ∀ c : Point, (CountMap.find m.occupiedCounts c).getD 0 =
    ((liveCells m.gameState.players).count c : Int)

/-- What the later phases of a tick never change in a player: id, in-game flag, body. -/
def Player.view (p : Player) : String × Bool × List Point :=
  (p.id, p.inGame, p.snake.blocks)

/-- One clock-sync sample: the server timestamp of a response and the local times at
which the request started and the response was received. -/
structure ClockSample where
  server_timestamp_ms : Int
  request_start_ms : Int
  response_recv_ms : Int
deriving DecidableEq, Repr

/-- The estimator after a sequence of samples, each passed to `updateClockOffset`. -/
def CodingSnake.applySamples (c : CodingSnake) (samples : List ClockSample) : CodingSnake :=
  samples.foldl
    (fun c s => c.updateClockOffset s.server_timestamp_ms s.request_start_ms s.response_recv_ms)
    c

/-- The largest round-trip time among the samples (0 for no sample). -/
def maxRtt (samples : List ClockSample) : Int :=
  samples.foldl (fun acc s => max acc (s.response_recv_ms - s.request_start_ms)) 0

/-- An estimator that holds the offset 1 with best round-trip time 10. -/
def syncedClient : CodingSnake :=
  { CodingSnake.create with
    has_clock_sync := true, server_clock_offset_ms := 1, best_clock_sync_rtt_ms := 10 }

/-- The list of players the update records of a delta are applied to: the players of the
state after the died players are erased and the joined players written. -/
def ClientGameState.beforeUpdates (g : ClientGameState) (delta : JsonDeltaState) :
    List ClientSnake :=
  (delta.joined_players.getD []).foldl (fun l p => upsertPlayer (parsePlayer p) l)
    ((delta.died_players.getD []).foldl
      (fun ps i => ps.filter (fun s => decide (s.id ≠ i))) g.players)

/-- One call of `checkLimit`: its arguments and the reading of the clock during the
call. -/
structure LimitCall where
  key : String
  maxRequests : Int
  windowSeconds : Int
  now : Int
deriving DecidableEq, Repr

/-- The answers of `checkLimit` to a sequence of calls, and the limiter after them. -/
def RateLimiter.serve (tps : Int) : RateLimiter → List LimitCall → List Bool × RateLimiter
  | rl, [] => ([], rl)
  | rl, c :: cs =>
    ((rl.checkLimit tps c.key c.maxRequests c.windowSeconds c.now).1 ::
        (RateLimiter.serve tps
          (rl.checkLimit tps c.key c.maxRequests c.windowSeconds c.now).2 cs).1,
      (RateLimiter.serve tps
        (rl.checkLimit tps c.key c.maxRequests c.windowSeconds c.now).2 cs).2)

/-- The clock readings of the calls for `key` that `checkLimit` answers with true, in the
order of the calls. -/
def RateLimiter.acceptedTimes (tps : Int) : RateLimiter → List LimitCall → String → List Int
  | _, [], _ => []
  | rl, c :: cs, key =>
    (if (rl.checkLimit tps c.key c.maxRequests c.windowSeconds c.now).1 = true ∧ c.key = key
      then [c.now] else []) ++
      RateLimiter.acceptedTimes tps
        (rl.checkLimit tps c.key c.maxRequests c.windowSeconds c.now).2 cs key

/-- The number of time points of a list inside the closed interval [t - span, t]. -/
def countInWindow (span t : Int) (l : List Int) : Nat :=
  (l.filter (fun x => decide (t - span ≤ x ∧ x ≤ t))).length

/-- The players other than the one registered under `pid`. -/
def dropPlayer (pid : String) (ps : List Player) : List Player :=
  ps.filter (fun q => decide (q.id ≠ pid))

/-- The manager in a world without the player `pid`: the player is not registered and the
command buffer holds no command for it. -/
def GameManager.withoutPlayer (m : GameManager) (pid : String) : GameManager :=
  { m with
    gameState := { m.gameState with players := dropPlayer pid m.gameState.players }
    currentMoves := m.currentMoves.filter (fun c => decide (c.1 ≠ pid)) }

/-- Every player registered under `pid` is out of game. -/
def OutOfGame (pid : String) (ps : List Player) : Prop :=
  ∀ q ∈ ps, q.id = pid → q.inGame = false

/-! ## Concrete scenarios of the specification (grid 10 x 10) -/

/-- A 10 x 10 grid with food density 0, so that food generation adds nothing. -/
def scenarioEnv : Env :=
  { mapWidth := 10, mapHeight := 10, foodDensityNum := 0, foodDensityDen := 1,
    generateFoodFast := fun _ _ _ => [] }

/-- A living in-game player whose length is the number of its body cells. -/
def scenarioPlayer (pid : String) (blocks : List Point) (d : Direction) (inv : Int) : Player :=
  { id := pid, uid := pid, name := pid, inGame := true,
    snake := { blocks := blocks, direction := d, length := blocks.length,
               invincibleRounds := inv, alive := true } }

/-- A manager at round 0 with the given players and received commands, no food, empty
journal and empty pending buffer. -/
def scenarioManager (ps : List Player) (cur : List (String × Direction)) : GameManager :=
  { gameState :=
      { players := ps, foods := [], currentRound := 0, joinedPlayers := [],
        diedPlayers := [], addedFoods := [], removedFoods := [] },
    currentMoves := cur, nextMoves := [], pendingSelfCollisions := [],
    occupiedCounts := ps.foldl (fun acc p => p.snake.blocks.foldl CountMap.incr acc) [],
    hasLeaderboard := true, lbEvents := [] }

/-- Scenario 4: the U-turn snake [(5,5),(5,6),(5,7),(4,7)] facing Right that has
submitted "down". -/
def uTurnManager : GameManager :=
  scenarioManager [scenarioPlayer "s1" [⟨5, 5⟩, ⟨5, 6⟩, ⟨5, 7⟩, ⟨4, 7⟩] Direction.RIGHT 0]
    [("s1", Direction.DOWN)]

/-- Scenario 2: S1 with head (4,5) facing Right and S2 with head (5,5) facing Left. -/
def headOnManager : GameManager :=
  scenarioManager
    [scenarioPlayer "s1" [⟨4, 5⟩, ⟨3, 5⟩] Direction.RIGHT 0,
     scenarioPlayer "s2" [⟨5, 5⟩, ⟨6, 5⟩] Direction.LEFT 0] []

/-- Scenario 2 with a third, invincible snake whose head moves onto (4,5) in the same
tick. -/
def headOnGuestManager : GameManager :=
  scenarioManager
    [scenarioPlayer "s1" [⟨4, 5⟩, ⟨3, 5⟩] Direction.RIGHT 0,
     scenarioPlayer "s2" [⟨5, 5⟩, ⟨6, 5⟩] Direction.LEFT 0,
     scenarioPlayer "s3" [⟨4, 4⟩, ⟨4, 3⟩] Direction.DOWN 3] []

/-- Scenario 2 at the moment collisions are checked: commands swapped, journal cleared,
snakes moved. -/
def headOnMoved : GameManager :=
  headOnManager.swapMoves.clearDelta.processMovements

/-- Two snakes far from each other, neither moving into anything. -/
def apartManager : GameManager :=
  scenarioManager
    [scenarioPlayer "s1" [⟨1, 1⟩, ⟨1, 2⟩] Direction.RIGHT 0,
     scenarioPlayer "s2" [⟨7, 7⟩, ⟨7, 8⟩] Direction.LEFT 0] []

/-- A snake running into the side of another: S1 with head (4,5) facing Right moves onto
(5,5), which stays a body cell of S2 [(5,5),(5,6),(5,7)] facing Up. -/
def sideHitManager : GameManager :=
  scenarioManager
    [scenarioPlayer "s1" [⟨4, 5⟩, ⟨3, 5⟩] Direction.RIGHT 0,
     scenarioPlayer "s2" [⟨5, 5⟩, ⟨5, 6⟩, ⟨5, 7⟩] Direction.UP 0] []

/-- A session registry in which the token "t1" belongs to player "s1", whose snake has
died (the in-game flag of the shared player object is false). -/
def deadPlayerRegistry : PlayerManager :=
  { tokens := [("t1", "s1")],
    players :=
      [{ scenarioPlayer "s1" [⟨5, 6⟩, ⟨5, 5⟩, ⟨5, 6⟩, ⟨5, 7⟩] Direction.DOWN 0 with
         inGame := false }] }

/-- A session registry in which the token "t1" belongs to player "s1", in game. -/
def liveRegistry : PlayerManager :=
  { tokens := [("t1", "s1")],
    players := [scenarioPlayer "s1" [⟨5, 5⟩, ⟨5, 6⟩, ⟨5, 7⟩, ⟨4, 7⟩] Direction.RIGHT 0] }

/-- The client of player "s1" after parsing the full snapshot of a game state. -/
def snapshotClient (g : GameState) : CodingSnake :=
  ({ CodingSnake.create with player_id := "s1" }).parseFullMapState (g.toJson 0 0)

/-- The client that parsed the snapshot of `before` and then applies the delta journal
published with `after`. -/
def clientViaDelta (before after : GameState) : CodingSnake :=
  (snapshotClient before).parseDeltaState (after.toDeltaJson 0 0) none

/-- The client that parsed the snapshot of `before` and then parses a fresh full snapshot
of `after`. -/
def clientViaFull (before after : GameState) : CodingSnake :=
  (snapshotClient before).parseFullMapState (after.toJson 0 0)

/-- Two snakes apart after one tick, and then a third player "s9" that joins before the
next tick. -/
def joinedManager : GameManager :=
  ((apartManager.tick scenarioEnv).addPlayer
    (some (scenarioPlayer "s9" [⟨8, 1⟩, ⟨8, 1⟩] Direction.DOWN 5))).2

/-- A snake [(5,5),(4,5),(3,5)] facing Right with a food on (6,5), the cell in front of
its head. -/
def eatManager : GameManager :=
  { scenarioManager [scenarioPlayer "s1" [⟨5, 5⟩, ⟨4, 5⟩, ⟨3, 5⟩] Direction.RIGHT 0] [] with
    gameState :=
      { players := [scenarioPlayer "s1" [⟨5, 5⟩, ⟨4, 5⟩, ⟨3, 5⟩] Direction.RIGHT 0],
        foods := [⟨6, 5⟩], currentRound := 0, joinedPlayers := [], diedPlayers := [],
        addedFoods := [], removedFoods := [] } }

/-- A player as `handleJoin` (RouteHandler.cpp lines 221-227) leaves it: the snake
initialised at the spawn point with the configured length, then the invincibility and
the facing set. -/
def spawnedPlayer (pid : String) (pos : Point) (d : Direction) (inv : Int) : Player :=
  let p := (scenarioPlayer pid [] Direction.NONE 0).initSnake pos scenarioEnv.initialSnakeLength
  { p with snake := { p.snake with invincibleRounds := inv, direction := d } }

/-- Scenario 1: a single snake spawned at (5,5) facing Right with the given invincibility
and the only food at (7,5); no command is submitted. -/
def growManager (inv : Int) : GameManager :=
  { scenarioManager [spawnedPlayer "s1" ⟨5, 5⟩ Direction.RIGHT inv] [] with
    gameState :=
      { players := [spawnedPlayer "s1" ⟨5, 5⟩ Direction.RIGHT inv],
        foods := [⟨7, 5⟩], currentRound := 0, joinedPlayers := [], diedPlayers := [],
        addedFoods := [], removedFoods := [] } }

/-- Scenario 1 with the snake stretched out behind its head, [(5,5),(4,5),(3,5)]. -/
def growStretchedManager : GameManager :=
  { eatManager with
    gameState := { eatManager.gameState with foods := [⟨7, 5⟩] } }

/-- A snapshot of round 7 with two players, "a" without blocks and "b" with two blocks,
and one food. -/
def lonelyHeadSnapshot : JsonMapState :=
  { round := 7, next_round_timestamp := none, timestamp := none,
    players :=
      [{ id := "a", name := "a", color := none, head := ⟨2, 3⟩, blocks := [], length := 1,
         invincible_rounds := none },
       { id := "b", name := "b", color := none, head := ⟨4, 4⟩, blocks := [⟨4, 4⟩, ⟨4, 5⟩],
         length := 2, invincible_rounds := some 1 }],
    foods := [⟨9, 9⟩] }

/-- Scenario 2 with the two players registered in the other order. -/
def headOnSwappedManager : GameManager :=
  scenarioManager
    [scenarioPlayer "s2" [⟨5, 5⟩, ⟨6, 5⟩] Direction.LEFT 0,
     scenarioPlayer "s1" [⟨4, 5⟩, ⟨3, 5⟩] Direction.RIGHT 0] []

/-- The default configuration with a map of 50000 x 50000 cells. -/
def bigMapConfig : Config :=
  { game := { mapWidth := 50000, mapHeight := 50000 } }

/-- A food generator that returns the cell (0,0) whenever it is asked. -/
def cornerFoodGenerator : Int → CountMap → List Point → List Point :=
  fun _ _ _ => [⟨0, 0⟩]

/-- A configuration file that only sets the map width, to 5. -/
def narrowMapJson : ConfigJson :=
  { game := some { map_width := JField.value 5 } }

/-- A configuration file that sets the port to 8080 and the map width to 100 and holds a
string where the map height should be. -/
def brokenHeightJson : ConfigJson :=
  { server := some { port := JField.value 8080 },
    game := some { map_width := JField.value 100, map_height := JField.wrongType } }

/-- A snake [(9,5),(8,5)] at the right edge of the 10 x 10 grid, facing Right, on a map
without food. -/
def wallHitManager : GameManager :=
  scenarioManager [scenarioPlayer "s1" [⟨9, 5⟩, ⟨8, 5⟩] Direction.RIGHT 0] []

/-- A client state on the 10 x 10 grid at round 3: the own snake "me" [(5,5),(4,5)] and
the snake "x" [(6,5),(6,4),(6,3)], whose head blocks the cell to the right of the own
head; one food on (8,5). -/
def botState : ClientGameState :=
  { players :=
      [{ id := "me", name := "me", color := "#FFFFFF", head := ⟨5, 5⟩,
         blocks := [⟨5, 5⟩, ⟨4, 5⟩], length := 2, invincible_rounds := 0 },
       { id := "x", name := "x", color := "#FFFFFF", head := ⟨6, 5⟩,
         blocks := [⟨6, 5⟩, ⟨6, 4⟩, ⟨6, 3⟩], length := 3, invincible_rounds := 0 }],
    foods := [⟨8, 5⟩], my_id := "me", map_width := 10, map_height := 10,
    current_round := 3, next_round_timestamp := 0 }

/-- A client in round 3 that knows the snake "a" with three cells and the snake "b" with
one cell, and the food (8,8). -/
def deltaClient : CodingSnake :=
  { CodingSnake.create with
    player_id := "a"
    state :=
      { players :=
          [{ id := "a", name := "a", color := "#FFFFFF", head := ⟨1, 1⟩,
             blocks := [⟨1, 1⟩, ⟨1, 2⟩, ⟨1, 3⟩], length := 3, invincible_rounds := 0 },
           { id := "b", name := "b", color := "#FFFFFF", head := ⟨5, 5⟩,
             blocks := [⟨5, 5⟩], length := 1, invincible_rounds := 0 }],
        foods := [⟨8, 8⟩], my_id := "a", map_width := 10, map_height := 10,
        current_round := 3, next_round_timestamp := 0 } }

/-- A delta of round 4 without any list. -/
def emptyDelta : JsonDeltaState :=
  { round := 4, next_round_timestamp := none, timestamp := none, died_players := none,
    joined_players := none, players := none, removed_foods := none, added_foods := none }

/-- A delta of round 4: "b" died, "c" joined without blocks, "a" moved to (2,1), the food
(8,8) was eaten and the food (3,3) appeared. -/
def moveDelta : JsonDeltaState :=
  { emptyDelta with
    died_players := some ["b"]
    joined_players := some
      [{ id := "c", name := "c", color := none, head := ⟨7, 7⟩, blocks := [], length := 1,
         invincible_rounds := some 5 }]
    players := some [{ id := "a", head := ⟨2, 1⟩, length := 3, invincible_rounds := none }]
    removed_foods := some [⟨8, 8⟩]
    added_foods := some [⟨3, 3⟩] }

/-- A delta of round 4 with two update records for "a": the head at (2,1) both times, the
length 5 and then 1. -/
def doubleUpdateDelta : JsonDeltaState :=
  { emptyDelta with
    players := some
      [{ id := "a", head := ⟨2, 1⟩, length := 5, invincible_rounds := none },
       { id := "a", head := ⟨2, 1⟩, length := 1, invincible_rounds := none }] }

/-- A delta of round 4 in which the known player "a" is listed as joined, with head (2,1),
three blocks that start with the head, and length 1. -/
def rejoinDelta : JsonDeltaState :=
  { emptyDelta with
    joined_players := some
      [{ id := "a", name := "a", color := none, head := ⟨2, 1⟩,
         blocks := [⟨2, 1⟩, ⟨1, 1⟩, ⟨1, 2⟩], length := 1, invincible_rounds := none }] }

/-- A delta of round 9, five rounds after the round the client would accept. -/
def gapDelta : JsonDeltaState :=
  { emptyDelta with round := 9 }

/-- The answer to a full-map request in which the blocks of "a" do not start with its
head. -/
def brokenRefresh : MapResponse :=
  { status := 200, code := 0, request_start_ms := 0, response_recv_ms := 0,
    map_state :=
      { round := 9, next_round_timestamp := none, timestamp := none, foods := [],
        players :=
          [{ id := "a", name := "a", color := none, head := ⟨2, 1⟩, blocks := [⟨9, 9⟩],
             length := 1, invincible_rounds := none }] } }

/-- A delta of round 4 in which "b", known with one cell, moved to (6,5) and has length
3. -/
def growDelta : JsonDeltaState :=
  { emptyDelta with
    players := some [{ id := "b", head := ⟨6, 5⟩, length := 3, invincible_rounds := none }] }

/-- Six calls for the key "ip" with at most 2 requests in 10 seconds (one tick per
second), at the times 0, 3, 5, 10, 13, 13, and one call for another key in between. -/
def burstCalls : List LimitCall :=
  [{ key := "ip", maxRequests := 2, windowSeconds := 10, now := 0 },
   { key := "ip", maxRequests := 2, windowSeconds := 10, now := 3 },
   { key := "other", maxRequests := 1, windowSeconds := 1, now := 4 },
   { key := "ip", maxRequests := 2, windowSeconds := 10, now := 5 },
   { key := "ip", maxRequests := 2, windowSeconds := 10, now := 10 },
   { key := "ip", maxRequests := 2, windowSeconds := 10, now := 13 },
   { key := "ip", maxRequests := 2, windowSeconds := 10, now := 13 }]

/-- A player that is out of game: its last body [(5,5),(5,6)], facing Up, with 3 rounds of
invincibility left. -/
def ghostPlayer : Player :=
  { id := "ghost", uid := "ghost", name := "ghost", inGame := false,
    snake := { blocks := [⟨5, 5⟩, ⟨5, 6⟩], direction := Direction.UP, length := 2,
               invincibleRounds := 3, alive := false } }

/-- The snake "s1" [(4,5),(3,5)] facing Right next to the food (5,5), the cell on which
the out-of-game player "ghost" has its last head; "ghost" has submitted "left". -/
def spectatorManager : GameManager :=
  { scenarioManager [scenarioPlayer "s1" [⟨4, 5⟩, ⟨3, 5⟩] Direction.RIGHT 0]
      [("ghost", Direction.LEFT)] with
    gameState :=
      { players := [scenarioPlayer "s1" [⟨4, 5⟩, ⟨3, 5⟩] Direction.RIGHT 0, ghostPlayer],
        foods := [⟨5, 5⟩], currentRound := 0, joinedPlayers := [], diedPlayers := [],
        addedFoods := [], removedFoods := [] } }

/-- A client state on the 10 x 10 grid in which the own snake "me", invincible for 3 more
rounds, has left the grid through the top edge and turned left: its blocks are (5,-1),
(6,-1), (6,0).  The cell below its head, (5,0), is inside the grid and free. -/
def offMapState : ClientGameState :=
  { players :=
      [{ id := "me", name := "me", color := "#FFFFFF", head := ⟨5, -1⟩,
         blocks := [⟨5, -1⟩, ⟨6, -1⟩, ⟨6, 0⟩], length := 3, invincible_rounds := 3 }],
    foods := [], my_id := "me", map_width := 10, map_height := 10,
    current_round := 7, next_round_timestamp := 0 }

/-- A server snake just spawned at (6,0) on the 10 x 10 grid, without a facing and with 5
rounds of invincibility. -/
def edgeSpawnManager : GameManager :=
  scenarioManager [scenarioPlayer "me" [⟨6, 0⟩, ⟨6, 0⟩, ⟨6, 0⟩] Direction.NONE 5] []

/-- The server after the spawned snake was sent "up" for one round and "left" for the
next. -/
def offMapServer : GameManager :=
  (((edgeSpawnManager.submitMove "me" Direction.UP).2.tick scenarioEnv).submitMove "me"
    Direction.LEFT).2.tick scenarioEnv

/-- The client of player "me" on the 10 x 10 grid before it has parsed any state. -/
def freshClient : CodingSnake :=
  { CodingSnake.create with
    player_id := "me"
    state := { CodingSnake.create.state with my_id := "me", map_width := 10, map_height := 10 } }

/-! ## Frame lemmas: what each phase leaves alone -/

theorem removeSnakeFromOccupancy_frame (m : GameManager) (s : Snake) :
    (m.removeSnakeFromOccupancy s).currentMoves = m.currentMoves ∧
    (m.removeSnakeFromOccupancy s).nextMoves = m.nextMoves ∧
    (m.removeSnakeFromOccupancy s).gameState.currentRound = m.gameState.currentRound ∧
    (m.removeSnakeFromOccupancy s).gameState.players = m.gameState.players ∧
    (m.removeSnakeFromOccupancy s).hasLeaderboard = m.hasLeaderboard := by
  unfold GameManager.removeSnakeFromOccupancy
  split_ifs <;> simp

theorem resolveCollision_frame (occ : List (Point × List String)) (m : GameManager)
    (c : String × CollisionType) :
    (resolveCollision occ m c).currentMoves = m.currentMoves ∧
    (resolveCollision occ m c).nextMoves = m.nextMoves ∧
    (resolveCollision occ m c).gameState.currentRound = m.gameState.currentRound ∧
    (resolveCollision occ m c).hasLeaderboard = m.hasLeaderboard := by
  unfold resolveCollision
  split
  · simp
  · split_ifs
    · simp
    · refine ⟨?_, ?_, ?_, ?_⟩
      · rw [(removeSnakeFromOccupancy_frame _ _).1]
      · rw [(removeSnakeFromOccupancy_frame _ _).2.1]
      · rw [(removeSnakeFromOccupancy_frame _ _).2.2.1]
      · rw [(removeSnakeFromOccupancy_frame _ _).2.2.2.2]

theorem resolveAll_frame (occ : List (Point × List String)) (cs : List (String × CollisionType))
    (m : GameManager) :
    (cs.foldl (resolveCollision occ) m).currentMoves = m.currentMoves ∧
    (cs.foldl (resolveCollision occ) m).nextMoves = m.nextMoves ∧
    (cs.foldl (resolveCollision occ) m).gameState.currentRound = m.gameState.currentRound ∧
    (cs.foldl (resolveCollision occ) m).hasLeaderboard = m.hasLeaderboard := by
  induction cs generalizing m with
  | nil => simp
  | cons c cs ih =>
    simp only [List.foldl_cons]
    obtain ⟨h1, h2, h3, h4⟩ := ih (resolveCollision occ m c)
    obtain ⟨g1, g2, g3, g4⟩ := resolveCollision_frame occ m c
    exact ⟨h1.trans g1, h2.trans g2, h3.trans g3, h4.trans g4⟩

theorem checkCollisions_frame (env : Env) (m : GameManager) :
    (m.checkCollisions env).currentMoves = m.currentMoves ∧
    (m.checkCollisions env).nextMoves = m.nextMoves ∧
    (m.checkCollisions env).gameState.currentRound = m.gameState.currentRound ∧
    (m.checkCollisions env).hasLeaderboard = m.hasLeaderboard := by
  unfold GameManager.checkCollisions
  exact resolveAll_frame _ _ _

theorem generateFood_frame (env : Env) (m : GameManager) :
    (m.generateFood env).currentMoves = m.currentMoves ∧
    (m.generateFood env).nextMoves = m.nextMoves ∧
    (m.generateFood env).gameState.currentRound = m.gameState.currentRound ∧
    (m.generateFood env).gameState.players = m.gameState.players := by
  unfold GameManager.generateFood
  simp only
  split_ifs <;> simp

theorem finishTick_frame (env : Env) (m : GameManager) :
    (m.finishTick env).currentMoves = m.currentMoves ∧
    (m.finishTick env).nextMoves = m.nextMoves ∧
    (m.finishTick env).gameState.currentRound = m.gameState.currentRound + 1 := by
  unfold GameManager.finishTick
  obtain ⟨c1, c2, c3, _⟩ := checkCollisions_frame env m
  obtain ⟨g1, g2, g3, _⟩ := generateFood_frame env (m.checkCollisions env).handleFoodCollection
  refine ⟨?_, ?_, ?_⟩
  · show ((GameManager.generateFood env _)).currentMoves = _
    rw [g1]; exact c1
  · show ((GameManager.generateFood env _)).nextMoves = _
    rw [g2]; exact c2
  · show ((GameManager.generateFood env _)).gameState.currentRound + 1 = _
    rw [g3]
    show (m.checkCollisions env).gameState.currentRound + 1 = _
    rw [c3]

/-! ## The command buffer -/

theorem findMove_append_self (l : List (String × Direction)) (pid : String) (d : Direction)
    (h : findMove l pid = none) : findMove (l ++ [(pid, d)]) pid = some d := by
  induction l with
  | nil => simp [findMove]
  | cons e l ih =>
    obtain ⟨k, v⟩ := e
    simp only [findMove] at h
    simp only [List.cons_append, findMove]
    split_ifs at h ⊢ with hk
    exact ih h

theorem findMove_append_other (l : List (String × Direction)) (pid q : String) (d : Direction)
    (h : q ≠ pid) : findMove (l ++ [(pid, d)]) q = findMove l q := by
  induction l with
  | nil => simp [findMove, h.symm]
  | cons e l ih =>
    obtain ⟨k, v⟩ := e
    simp only [List.cons_append, findMove]
    split_ifs
    · rfl
    · exact ih

/-- C1: `submitMove` returns true iff the current buffer holds no command for the player;
a rejected call leaves the manager unchanged; of two submissions by one player with no
tick in between the second is always rejected and changes nothing, and when the buffer
held no command for the player the first is accepted and its direction is the one kept;
commands of other players are never disturbed. -/
theorem submitMove_accepts_first_only (m : GameManager) (pid : String) (d1 d2 : Direction) :
    ((m.submitMove pid d1).1 = true ↔ findMove m.currentMoves pid = none) ∧
    ((m.submitMove pid d1).1 = false → (m.submitMove pid d1).2 = m) ∧
    ((m.submitMove pid d1).2.submitMove pid d2).1 = false ∧
    ((m.submitMove pid d1).2.submitMove pid d2).2 = (m.submitMove pid d1).2 ∧
    (findMove m.currentMoves pid = none →
      (m.submitMove pid d1).1 = true ∧
      findMove ((m.submitMove pid d1).2.submitMove pid d2).2.currentMoves pid = some d1) ∧
    (∀ q, q ≠ pid →
      findMove ((m.submitMove pid d1).2.submitMove pid d2).2.currentMoves q =
        findMove m.currentMoves q) := by
  cases hf : findMove m.currentMoves pid with
  | none =>
    have h1 : m.submitMove pid d1 =
        (true, { m with currentMoves := m.currentMoves ++ [(pid, d1)] }) := by
      simp [GameManager.submitMove, hf]
    have hf2 := findMove_append_self m.currentMoves pid d1 hf
    have h2 : ({ m with currentMoves := m.currentMoves ++ [(pid, d1)] } : GameManager).submitMove
        pid d2 = (false, { m with currentMoves := m.currentMoves ++ [(pid, d1)] }) := by
      simp [GameManager.submitMove, hf2]
    have h3 : (m.submitMove pid d1).2.submitMove pid d2 =
        (false, { m with currentMoves := m.currentMoves ++ [(pid, d1)] }) := by
      rw [h1]; exact h2
    refine ⟨?_, ?_, ?_, ?_, ?_, ?_⟩
    · rw [h1]; simp
    · rw [h1]; simp
    · rw [h3]
    · rw [h3, h1]
    · intro _
      rw [h3, h1]
      exact ⟨rfl, hf2⟩
    · intro q hq
      rw [h3]
      exact findMove_append_other _ _ _ _ hq
  | some d =>
    have h1 : ∀ e, m.submitMove pid e = (false, m) := by
      intro e
      simp [GameManager.submitMove, hf]
    refine ⟨?_, ?_, ?_, ?_, ?_, ?_⟩
    · rw [h1]; simp
    · intro _; rw [h1]
    · rw [h1 d1, h1 d2]
    · rw [h1 d1, h1 d2]
    · intro h; simp at h
    · intro q _
      rw [h1 d1, h1 d2]

/-- C2: the swap at the start of a tick makes the pending buffer equal to the current
buffer as it was when the tick started, and the directions the tick applies are those
commands and no others (whatever the stale pending buffer held, the tick is the same);
the phases after the swap empty the pending buffer and never touch the current buffer, so
after the tick the current buffer holds only what was submitted after the swap (nothing,
when no submission came in during the tick); hence a command is applied by one tick
only, and any player, also one who submitted before the tick, can submit again. -/
theorem tick_consumes_current_buffer (env : Env) (m : GameManager)
    (stale : List (String × Direction)) (pid : String) (d : Direction) :
    m.swapMoves.nextMoves = m.currentMoves ∧
    m.swapMoves.currentMoves = [] ∧
    (m.swapMoves.clearDelta.processMovements).gameState.players =
      (movePhase (applyDirections m.gameState.players m.currentMoves) m.occupiedCounts).1 ∧
    ({ m with nextMoves := stale } : GameManager).tick env = m.tick env ∧
    ((m.clearDelta.processMovements).finishTick env).currentMoves = m.currentMoves ∧
    ((m.clearDelta.processMovements).finishTick env).nextMoves = [] ∧
    (m.tick env).nextMoves = [] ∧
    (m.tick env).currentMoves = [] ∧
    applyDirections (m.tick env).gameState.players (m.tick env).swapMoves.nextMoves =
      (m.tick env).gameState.players ∧
    ((m.tick env).submitMove pid d).1 = true := by
  obtain ⟨f1, f2, _⟩ := finishTick_frame env (m.swapMoves.clearDelta.processMovements)
  obtain ⟨g1, g2, _⟩ := finishTick_frame env (m.clearDelta.processMovements)
  have hn : (m.tick env).nextMoves = [] := by
    unfold GameManager.tick; rw [f2]; rfl
  have hc : (m.tick env).currentMoves = [] := by
    unfold GameManager.tick; rw [f1]; rfl
  refine ⟨rfl, rfl, rfl, rfl, ?_, ?_, hn, hc, ?_, ?_⟩
  · rw [g1]; rfl
  · rw [g2]; rfl
  · simp [GameManager.swapMoves, hc, applyDirections]
  · simp [GameManager.submitMove, hc, findMove]

/-- C3: one call of `tick` increases the round number by exactly one, for every game
state, every pending command and every outcome of food generation. -/
theorem tick_round_succ (env : Env) (m : GameManager) :
    (m.tick env).gameState.currentRound = m.gameState.currentRound + 1 := by
  unfold GameManager.tick
  rw [(finishTick_frame env _).2.2]
  rfl

/-! ## Players are looked up by id -/

theorem player_eq_of_id_eq {ps : List Player} (hids : (ps.map Player.id).Nodup)
    {p q : Player} (hp : p ∈ ps) (hq : q ∈ ps) (h : p.id = q.id) : p = q :=
  List.inj_on_of_nodup_map hids hp hq h

theorem getPlayer_some {ps : List Player} {pid : String} {p : Player}
    (h : getPlayer ps pid = some p) : p ∈ ps ∧ p.id = pid := by
  unfold getPlayer at h
  refine ⟨List.mem_of_find?_eq_some h, ?_⟩
  have := List.find?_some h
  simpa using this

theorem getPlayer_none {ps : List Player} {pid : String}
    (h : getPlayer ps pid = none) : ∀ p ∈ ps, p.id ≠ pid := by
  unfold getPlayer at h
  intro p hp
  have := (List.find?_eq_none.mp h) p hp
  simpa using this

theorem getPlayer_of_mem {ps : List Player} (hids : (ps.map Player.id).Nodup)
    {p : Player} (hp : p ∈ ps) : getPlayer ps p.id = some p := by
  cases h : getPlayer ps p.id with
  | none => exact absurd rfl (getPlayer_none h p hp)
  | some q =>
    obtain ⟨hq, hid⟩ := getPlayer_some h
    rw [player_eq_of_id_eq hids hq hp hid]

theorem modifyPlayer_eq_map (f : Player → Player) (pid : String) (ps : List Player)
    (hids : (ps.map Player.id).Nodup) :
    modifyPlayer f pid ps = ps.map (fun p => if p.id = pid then f p else p) := by
  induction ps with
  | nil => rfl
  | cons a ps ih =>
    simp only [List.map_cons, List.nodup_cons, List.mem_map, not_exists, not_and] at hids
    simp only [modifyPlayer, List.map_cons]
    split_ifs with h
    · congr 1
      symm
      calc ps.map (fun p => if p.id = pid then f p else p) = ps.map id := by
            apply List.map_congr_left
            intro q hq
            have : q.id ≠ pid := fun e => hids.1 q hq (e.trans h.symm)
            simp [this]
        _ = ps := List.map_id ps
    · rw [ih hids.2]

/-! ## The apply-directions phase -/

/-- One pending command, as a map over the players. -/
theorem applyDirection_eq_map (ps : List Player) (hids : (ps.map Player.id).Nodup)
    (k : String) (d : Direction) :
    applyDirection ps (k, d) = ps.map (fun p =>
      if p.id = k ∧ p.inGame = true ∧
          ¬ (p.snake.direction ≠ Direction.NONE ∧
            DirectionUtils.isOpposite p.snake.direction d = true) then
        { p with snake := { p.snake with direction := d } }
      else p) := by
  unfold applyDirection
  simp only
  cases h : getPlayer ps k with
  | none =>
    have hn := getPlayer_none h
    symm
    calc _ = ps.map id := by
          apply List.map_congr_left
          intro q hq
          simp [hn q hq]
      _ = ps := List.map_id ps
  | some player =>
    obtain ⟨hmem, hid⟩ := getPlayer_some h
    have huniq : ∀ q ∈ ps, q.id = k → q = player := fun q hq e =>
      player_eq_of_id_eq hids hq hmem (e.trans hid.symm)
    simp only
    split_ifs with h1 h2
    · symm
      calc _ = ps.map id := by
            apply List.map_congr_left
            intro q hq
            by_cases e : q.id = k
            · have := huniq q hq e
              subst this
              simp [h1]
            · simp [e]
        _ = ps := List.map_id ps
    · symm
      calc _ = ps.map id := by
            apply List.map_congr_left
            intro q hq
            by_cases e : q.id = k
            · have := huniq q hq e
              subst this
              simp [h2]
            · simp [e]
        _ = ps := List.map_id ps
    · rw [modifyPlayer_eq_map _ _ _ hids]
      apply List.map_congr_left
      intro q hq
      by_cases e : q.id = k
      · have := huniq q hq e
        subst this
        have hin : q.inGame = true := by simpa using h1
        simp [e, hin, h2]
      · simp [e]

theorem findMove_none_of_not_mem (l : List (String × Direction)) (k : String)
    (h : k ∉ l.map Prod.fst) : findMove l k = none := by
  induction l with
  | nil => rfl
  | cons e l ih =>
    obtain ⟨a, b⟩ := e
    simp only [List.map_cons, List.mem_cons, not_or] at h
    simp only [findMove]
    rw [if_neg (fun e => h.1 e.symm)]
    exact ih h.2

theorem isOpposite_none_left (d : Direction) :
    DirectionUtils.isOpposite Direction.NONE d = false := by
  cases d <;> rfl

/-- The whole first loop of `processMovements`, as a map over the players. -/
theorem applyDirections_eq_map (moves : List (String × Direction))
    (hkeys : (moves.map Prod.fst).Nodup) (ps : List Player)
    (hids : (ps.map Player.id).Nodup) :
    applyDirections ps moves = ps.map (fun p =>
      if p.inGame = true then { p with snake := { p.snake with direction := specFacing moves p } }
      else p) := by
  induction moves generalizing ps with
  | nil =>
    simp only [applyDirections, List.foldl_nil]
    symm
    calc _ = ps.map id := by
          apply List.map_congr_left
          intro q _
          simp [specFacing, findMove]
      _ = ps := List.map_id ps
  | cons c rest ih =>
    obtain ⟨k, d⟩ := c
    simp only [List.map_cons, List.nodup_cons] at hkeys
    have hstep := applyDirection_eq_map ps hids k d
    simp only [applyDirections, List.foldl_cons] at ih ⊢
    rw [hstep]
    have hids2 : ((ps.map (fun p =>
      if p.id = k ∧ p.inGame = true ∧
          ¬ (p.snake.direction ≠ Direction.NONE ∧
            DirectionUtils.isOpposite p.snake.direction d = true) then
        ({ p with snake := { p.snake with direction := d } } : Player)
      else p)).map Player.id).Nodup := by
      rw [List.map_map]
      have : (Player.id ∘ fun p : Player =>
          if p.id = k ∧ p.inGame = true ∧
              ¬ (p.snake.direction ≠ Direction.NONE ∧
                DirectionUtils.isOpposite p.snake.direction d = true) then
            ({ p with snake := { p.snake with direction := d } } : Player)
          else p) = Player.id := by
        funext p
        simp only [Function.comp]
        split_ifs <;> rfl
      rw [this]
      exact hids
    rw [ih hkeys.2 _ hids2, List.map_map]
    apply List.map_congr_left
    intro q _
    have hnone := findMove_none_of_not_mem rest k hkeys.1
    simp only [Function.comp]
    by_cases e : q.id = k
    · subst e
      by_cases hin : q.inGame = true
      · by_cases hopp : DirectionUtils.isOpposite q.snake.direction d = true
        · have hne : q.snake.direction ≠ Direction.NONE := by
            intro hN
            rw [hN, isOpposite_none_left] at hopp
            exact Bool.false_ne_true hopp
          simp [hin, hopp, hne, specFacing, findMove, hnone]
        · simp [hin, hopp, specFacing, findMove, hnone]
      · simp [hin]
    · have e2 : ¬ k = q.id := fun h => e h.symm
      simp [e, e2, specFacing, findMove]

/-- C4: in the apply-directions phase every in-game player ends with the facing the
specification prescribes (kept without a pending command, kept when the pending command
is the opposite of the facing, replaced by the pending command otherwise), nothing else
of any player changes, and out-of-game players are untouched. -/
theorem applyDirections_sets_facing (ps : List Player) (moves : List (String × Direction))
    (hids : (ps.map Player.id).Nodup) (hkeys : (moves.map Prod.fst).Nodup) :
    applyDirections ps moves = ps.map (fun p =>
      if p.inGame = true then { p with snake := { p.snake with direction := specFacing moves p } }
      else p) :=
  applyDirections_eq_map moves hkeys ps hids

/-- C4, the example of the specification: the snake [(5,5),(5,6),(5,7),(5,8)] facing Up
with the pending command "down" still faces Up. -/
theorem applyDirections_sets_facing_witness :
    applyDirections
      [{ id := "p1", uid := "u1", name := "n1", inGame := true,
         snake := { blocks := [⟨5, 5⟩, ⟨5, 6⟩, ⟨5, 7⟩, ⟨5, 8⟩], direction := Direction.UP,
                    length := 4, invincibleRounds := 0, alive := true } }]
      [("p1", Direction.DOWN)] =
    [{ id := "p1", uid := "u1", name := "n1", inGame := true,
       snake := { blocks := [⟨5, 5⟩, ⟨5, 6⟩, ⟨5, 7⟩, ⟨5, 8⟩], direction := Direction.UP,
                  length := 4, invincibleRounds := 0, alive := true } }] :=
  (applyDirections_sets_facing _ _ (by decide) (by decide)).trans (by decide)

/-! ## The collision index counts body cells -/

theorem find_incr_getD (m : CountMap) (q p : Point) :
    ((CountMap.incr m q).find p).getD 0 = (m.find p).getD 0 + (if q = p then 1 else 0) := by
  induction m with
  | nil =>
    simp only [CountMap.incr, CountMap.find]
    split_ifs <;> simp
  | cons e m ih =>
    obtain ⟨a, c⟩ := e
    simp only [CountMap.incr]
    by_cases h1 : a = q
    · subst h1
      simp only [if_true, CountMap.find]
      split_ifs <;> simp
    · simp only [if_neg h1, CountMap.find]
      by_cases h2 : a = p
      · subst h2
        simp [Ne.symm h1]
      · simp only [if_neg h2]
        exact ih

theorem find_foldl_incr_getD (cells : List Point) (m : CountMap) (p : Point) :
    ((cells.foldl CountMap.incr m).find p).getD 0 = (m.find p).getD 0 + (cells.count p : Int) := by
  induction cells generalizing m with
  | nil => simp
  | cons c cells ih =>
    simp only [List.foldl_cons]
    rw [ih, find_incr_getD, List.count_cons]
    by_cases h : c = p
    · subst h
      simp
      ring
    · have : (c == p) = false := by simpa using h
      simp [h, this]

theorem foldl_blocks_eq_flatMap (l : List Player) (m : CountMap) :
    l.foldl (fun acc p => p.snake.blocks.foldl CountMap.incr acc) m =
      (l.flatMap (fun p => p.snake.blocks)).foldl CountMap.incr m := by
  induction l generalizing m with
  | nil => rfl
  | cons a l ih =>
    simp only [List.foldl_cons, List.flatMap_cons, List.foldl_append]
    exact ih _

theorem validCounts_getD (ps : List Player) (p : Point) :
    ((buildValidOccupiedCounts ps).find p).getD 0 = ((obstacleCells ps).count p : Int) := by
  unfold buildValidOccupiedCounts obstacleCells
  rw [foldl_blocks_eq_flatMap, find_foldl_incr_getD]
  simp [CountMap.find]

/-- The classification of the code is the one the specification words. -/
theorem classifyCollision_eq_spec (env : Env) (m : GameManager) (p : Player) :
    classifyCollision env (buildValidOccupiedCounts m.gameState.players)
      m.pendingSelfCollisions p = specCollision env m p := by
  unfold classifyCollision specCollision
  have hv := validCounts_getD m.gameState.players p.snake.getHead
  by_cases hb : (0 ≤ p.snake.getHead.x ∧ p.snake.getHead.x < env.mapWidth ∧
      0 ≤ p.snake.getHead.y ∧ p.snake.getHead.y < env.mapHeight)
  · have hoob : isOutOfBounds env p.snake.getHead = false := by
      simp [isOutOfBounds, isValidPosition, hb.1, hb.2.1, hb.2.2.1, hb.2.2.2]
    rw [hoob]
    simp only [Bool.false_eq_true, if_false, not_true_eq_false, hb, and_self]
    by_cases hs : p.id ∈ m.pendingSelfCollisions
    · simp [hs]
    · simp only [if_neg hs]
      cases hf : CountMap.find (buildValidOccupiedCounts m.gameState.players) p.snake.getHead with
      | none =>
        rw [hf] at hv
        simp only [Option.getD_none] at hv
        have : ¬ 1 < (obstacleCells m.gameState.players).count p.snake.getHead := by omega
        simp [this]
      | some c =>
        rw [hf] at hv
        simp only [Option.getD_some] at hv
        simp only
        by_cases hc : 1 < c
        · have : 1 < (obstacleCells m.gameState.players).count p.snake.getHead := by omega
          simp [hc, this]
        · have : ¬ 1 < (obstacleCells m.gameState.players).count p.snake.getHead := by omega
          simp [hc, this]
  · have hoob : isOutOfBounds env p.snake.getHead = true := by
      simp only [isOutOfBounds, isValidPosition, Bool.not_eq_true', Bool.and_eq_false_iff,
        decide_eq_false_iff_not]
      by_contra hcon
      push_neg at hcon
      exact hb ⟨hcon.1.1.1, hcon.1.1.2, hcon.1.2, hcon.2⟩
    rw [hoob]
    simp [hb]

/-! ## Collision resolution, as a map over the players -/

theorem setInGame_false_of_out (p : Player) (h : p.inGame = false) : p.setInGame false = p := by
  cases p
  simp only [Player.setInGame] at h ⊢
  simp [h]

theorem resolveCollision_players (occ : List (Point × List String)) (m : GameManager)
    (c : String × CollisionType) (hids : (m.gameState.players.map Player.id).Nodup) :
    (resolveCollision occ m c).gameState.players =
      m.gameState.players.map (fun p => if p.id = c.1 then p.setInGame false else p) := by
  unfold resolveCollision
  cases h : getPlayer m.gameState.players c.1 with
  | none =>
    have hn := getPlayer_none h
    simp only
    symm
    calc _ = m.gameState.players.map id := by
          apply List.map_congr_left
          intro q hq
          simp [hn q hq]
      _ = _ := List.map_id _
  | some player =>
    obtain ⟨hmem, hid⟩ := getPlayer_some h
    simp only
    split_ifs with h1
    · symm
      calc _ = m.gameState.players.map id := by
            apply List.map_congr_left
            intro q hq
            by_cases e : q.id = c.1
            · have := player_eq_of_id_eq hids hq hmem (e.trans hid.symm)
              subst this
              simp [e, setInGame_false_of_out q h1]
            · simp [e]
        _ = _ := List.map_id _
    · rw [(removeSnakeFromOccupancy_frame _ _).2.2.2.1]
      exact modifyPlayer_eq_map _ _ _ hids

theorem map_kill_ids (ps : List Player) (ids : List String) :
    (ps.map (fun p => if p.id ∈ ids then p.setInGame false else p)).map Player.id =
      ps.map Player.id := by
  rw [List.map_map]
  apply List.map_congr_left
  intro q _
  simp only [Function.comp]
  split_ifs <;> rfl

theorem resolveAll_players (occ : List (Point × List String))
    (cs : List (String × CollisionType)) (m : GameManager)
    (hids : (m.gameState.players.map Player.id).Nodup) :
    (cs.foldl (resolveCollision occ) m).gameState.players =
      m.gameState.players.map
        (fun p => if p.id ∈ cs.map Prod.fst then p.setInGame false else p) := by
  induction cs generalizing m with
  | nil =>
    simp only [List.foldl_nil, List.map_nil, List.not_mem_nil, if_false]
    exact (List.map_id _).symm
  | cons c cs ih =>
    simp only [List.foldl_cons]
    have hstep := resolveCollision_players occ m c hids
    have hids2 : ((resolveCollision occ m c).gameState.players.map Player.id).Nodup := by
      rw [hstep]
      have := map_kill_ids m.gameState.players [c.1]
      simp only [List.mem_singleton] at this
      rw [this]
      exact hids
    rw [ih _ hids2, hstep, List.map_map]
    apply List.map_congr_left
    intro q _
    simp only [Function.comp, List.map_cons, List.mem_cons]
    by_cases e : q.id = c.1
    · simp only [e, if_true, true_or]
      split_ifs <;> rfl
    · rw [if_neg e]
      by_cases h2 : q.id ∈ List.map Prod.fst cs
      · rw [if_pos h2, if_pos (Or.inr h2)]
      · rw [if_neg h2, if_neg (fun h => h.elim e h2)]

theorem specDies_iff (env : Env) (m : GameManager) (p : Player) :
    specDies env m p = true ↔
      p.inGame = true ∧ ¬ 0 < p.snake.invincibleRounds ∧
        specCollision env m p ≠ CollisionType.NONE := by
  simp [specDies, and_assoc]

theorem filterMap_eq_map_filter {α β : Type} (g : α → Option β) (pr : α → Bool) (h : α → β)
    (hg : ∀ a, g a = if pr a = true then some (h a) else none) (l : List α) :
    l.filterMap g = (l.filter pr).map h := by
  induction l with
  | nil => rfl
  | cons a l ih =>
    rw [List.filterMap_cons, hg a, List.filter_cons]
    by_cases hp : pr a = true
    · simp [hp, ih]
    · simp [hp, ih]

/-- The vector `collisions` holds exactly the dying players, in player order, each with
the cause the specification gives. -/
theorem detectCollisions_eq_spec (env : Env) (m : GameManager) :
    detectCollisions env m =
      (m.gameState.players.filter (specDies env m)).map
        (fun p => (p.id, specCollision env m p)) := by
  unfold detectCollisions
  simp only
  apply filterMap_eq_map_filter
  intro p
  rw [classifyCollision_eq_spec]
  by_cases h1 : p.inGame = true
  · by_cases h2 : 0 < p.snake.invincibleRounds
    · have : specDies env m p = false := by simp [specDies, h2]
      simp [h1, h2, this]
    · by_cases h3 : specCollision env m p = CollisionType.NONE
      · have : specDies env m p = false := by simp [specDies, h3]
        simp [h1, h2, h3, this]
      · have : specDies env m p = true := by simp [specDies, h1, h2, h3]
        simp [h1, h2, h3, this]
  · have h1f : p.inGame = false := by simpa using h1
    have : specDies env m p = false := by simp [specDies, h1f]
    simp [h1f, this]

theorem mem_detect_ids_iff (env : Env) (m : GameManager)
    (hids : (m.gameState.players.map Player.id).Nodup) {p : Player}
    (hp : p ∈ m.gameState.players) :
    p.id ∈ (detectCollisions env m).map Prod.fst ↔ specDies env m p = true := by
  rw [detectCollisions_eq_spec, List.map_map]
  simp only [List.mem_map, List.mem_filter, Function.comp]
  constructor
  · rintro ⟨q, ⟨hq, hd⟩, hid⟩
    rw [← player_eq_of_id_eq hids hq hp hid]
    exact hd
  · intro hd
    exact ⟨p, ⟨hp, hd⟩, rfl⟩

/-- The players after `checkCollisions`: exactly the dying players leave the game and
nothing else of any player changes. -/
theorem checkCollisions_players (env : Env) (m : GameManager)
    (hids : (m.gameState.players.map Player.id).Nodup) :
    (m.checkCollisions env).gameState.players =
      m.gameState.players.map
        (fun p => if specDies env m p = true then p.setInGame false else p) := by
  unfold GameManager.checkCollisions
  simp only
  rw [resolveAll_players _ _ _ hids]
  apply List.map_congr_left
  intro q hq
  by_cases hd : specDies env m q = true
  · simp [hd, (mem_detect_ids_iff env m hids hq).mpr hd]
  · have := (mem_detect_ids_iff env m hids hq).not.mpr hd
    rw [if_neg this, if_neg hd]

theorem getPlayer_map_of_mem {ps : List Player} (hids : (ps.map Player.id).Nodup)
    (g : Player → Player) (hg : ∀ q, (g q).id = q.id) {p : Player} (hp : p ∈ ps) :
    getPlayer (ps.map g) p.id = some (g p) := by
  have hids2 : ((ps.map g).map Player.id).Nodup := by
    rw [List.map_map]
    have : (Player.id ∘ g) = Player.id := by
      funext q
      exact hg q
    rw [this]
    exact hids
  have := getPlayer_of_mem hids2 (List.mem_map_of_mem g hp)
  rw [hg p] at this
  exact this

theorem specCollision_ne_none_iff (env : Env) (m : GameManager) (p : Player) :
    specCollision env m p ≠ CollisionType.NONE ↔
      (¬ (0 ≤ p.snake.getHead.x ∧ p.snake.getHead.x < env.mapWidth ∧
          0 ≤ p.snake.getHead.y ∧ p.snake.getHead.y < env.mapHeight) ∨
        p.id ∈ m.pendingSelfCollisions ∨
        1 < (obstacleCells m.gameState.players).count p.snake.getHead) := by
  unfold specCollision
  split_ifs with h1 h2 h3 <;> simp_all

/-- C6: after collision detection the players are the players before with exactly the
dying ones taken out of the game and nothing else changed; a player that was in game and
not invincible is out of game iff its head is outside the grid, or it is in the
self-collision set, or more than one body cell of in-game non-invincible snakes
(counted before any death is resolved) lies on its head cell; the recorded cause is WALL,
else SELF, else OTHER, in that priority; every other player keeps its in-game flag. -/
theorem checkCollisions_kills_exactly (env : Env) (m : GameManager)
    (hids : (m.gameState.players.map Player.id).Nodup) :
    (m.checkCollisions env).gameState.players =
        m.gameState.players.map
          (fun p => if specDies env m p = true then p.setInGame false else p) ∧
    detectCollisions env m =
        (m.gameState.players.filter (specDies env m)).map
          (fun p => (p.id, specCollision env m p)) ∧
    (∀ p ∈ m.gameState.players, p.inGame = true → ¬ 0 < p.snake.invincibleRounds →
      ((getPlayer (m.checkCollisions env).gameState.players p.id).map Player.inGame = some false ↔
        (¬ (0 ≤ p.snake.getHead.x ∧ p.snake.getHead.x < env.mapWidth ∧
            0 ≤ p.snake.getHead.y ∧ p.snake.getHead.y < env.mapHeight) ∨
          p.id ∈ m.pendingSelfCollisions ∨
          1 < (obstacleCells m.gameState.players).count p.snake.getHead))) ∧
    (∀ p ∈ m.gameState.players, ¬ (p.inGame = true ∧ ¬ 0 < p.snake.invincibleRounds) →
      getPlayer (m.checkCollisions env).gameState.players p.id = some p) := by
  have hmap := checkCollisions_players env m hids
  refine ⟨hmap, detectCollisions_eq_spec env m, ?_, ?_⟩
  · intro p hp hin hinv
    rw [hmap, getPlayer_map_of_mem hids _ (by intro q; split_ifs <;> rfl) hp,
      ← specCollision_ne_none_iff]
    have hd : specDies env m p = true ↔ specCollision env m p ≠ CollisionType.NONE := by
      rw [specDies_iff]
      exact ⟨fun h => h.2.2, fun h => ⟨hin, hinv, h⟩⟩
    by_cases h : specDies env m p = true
    · simp only [h, if_true, Option.map_some', Player.setInGame, true_iff]
      exact hd.mp h
    · rw [if_neg h]
      simp only [Option.map_some', hin]
      constructor
      · intro hh
        simp at hh
      · intro hc
        exact absurd (hd.mpr hc) h
  · intro p hp hnot
    rw [hmap, getPlayer_map_of_mem hids _ (by intro q; split_ifs <;> rfl) hp]
    have : ¬ specDies env m p = true := by
      rw [specDies_iff]
      exact fun h => hnot ⟨h.1, h.2.1⟩
    rw [if_neg this]

/-! ## Counting cells over several snakes -/

theorem count_flatMap_eq_zero {α : Type} (f : α → List Point) (x : Point) (l : List α)
    (h : ∀ q ∈ l, x ∉ f q) : (l.flatMap f).count x = 0 := by
  rw [List.count_eq_zero]
  intro hx
  obtain ⟨q, hq, hxq⟩ := List.mem_flatMap.mp hx
  exact h q hq hxq

theorem count_le_count_flatMap {α : Type} (f : α → List Point) (x : Point) (l : List α)
    {q : α} (hq : q ∈ l) : (f q).count x ≤ (l.flatMap f).count x := by
  induction l with
  | nil => cases hq
  | cons a l ih =>
    rw [List.flatMap_cons, List.count_append]
    rcases List.mem_cons.mp hq with h | h
    · subst h
      omega
    · have := ih h
      omega

theorem count_two_le_count_flatMap {α : Type} (f : α → List Point) (x : Point) (l : List α)
    {q1 q2 : α} (h1 : q1 ∈ l) (h2 : q2 ∈ l) (hne : q1 ≠ q2) :
    (f q1).count x + (f q2).count x ≤ (l.flatMap f).count x := by
  induction l with
  | nil => cases h1
  | cons a l ih =>
    rw [List.flatMap_cons, List.count_append]
    rcases List.mem_cons.mp h1 with e1 | e1
    · rcases List.mem_cons.mp h2 with e2 | e2
      · exact absurd (e1.trans e2.symm) hne
      · subst e1
        have := count_le_count_flatMap f x l e2
        omega
    · rcases List.mem_cons.mp h2 with e2 | e2
      · subst e2
        have := count_le_count_flatMap f x l e1
        omega
      · have := ih e1 e2
        omega

theorem count_flatMap_le_single {α : Type} (f : α → List Point) (x : Point) (l : List α)
    (hnd : l.Nodup) (p : α) (h : ∀ q ∈ l, q ≠ p → x ∉ f q) :
    (l.flatMap f).count x ≤ (f p).count x := by
  induction l with
  | nil => simp
  | cons a l ih =>
    rw [List.flatMap_cons, List.count_append]
    rw [List.nodup_cons] at hnd
    by_cases e : a = p
    · subst e
      have : (l.flatMap f).count x = 0 := by
        apply count_flatMap_eq_zero
        intro q hq
        exact h q (List.mem_cons_of_mem _ hq) (fun e => hnd.1 (e ▸ hq))
      omega
    · have h0 : (f a).count x = 0 :=
        List.count_eq_zero.mpr (h a (List.mem_cons_self _ _) e)
      have := ih hnd.2 (fun q hq => h q (List.mem_cons_of_mem _ hq))
      omega

theorem head_mem_blocks (s : Snake) (h : s.blocks ≠ []) : s.getHead ∈ s.blocks := by
  unfold Snake.getHead
  cases hb : s.blocks with
  | nil => exact absurd hb h
  | cons a l => simp

theorem mem_checkCollisions_survivor (env : Env) (m : GameManager)
    (hids : (m.gameState.players.map Player.id).Nodup) {p : Player}
    (hp : p ∈ (m.checkCollisions env).gameState.players) (hin : p.inGame = true) :
    p ∈ m.gameState.players ∧ specDies env m p = false := by
  rw [checkCollisions_players env m hids] at hp
  obtain ⟨q, hq, rfl⟩ := List.mem_map.mp hp
  by_cases hd : specDies env m q = true
  · rw [if_pos hd] at hin
    simp [Player.setInGame] at hin
  · rw [if_neg hd]
    exact ⟨hq, by simpa using hd⟩

/-- C7: after collision detection, for every two distinct players that are both still in
game and both non-invincible, the head of the first is not a cell of the body of the
second. -/
theorem checkCollisions_separates_heads (env : Env) (m : GameManager)
    (hids : (m.gameState.players.map Player.id).Nodup) (p1 p2 : Player)
    (h1 : p1 ∈ (m.checkCollisions env).gameState.players)
    (h2 : p2 ∈ (m.checkCollisions env).gameState.players)
    (hne : p1.id ≠ p2.id)
    (hin1 : p1.inGame = true) (hin2 : p2.inGame = true)
    (hinv1 : ¬ 0 < p1.snake.invincibleRounds) (hinv2 : ¬ 0 < p2.snake.invincibleRounds)
    (hbody : p1.snake.blocks ≠ []) :
    p1.snake.getHead ∉ p2.snake.blocks := by
  obtain ⟨hm1, hd1⟩ := mem_checkCollisions_survivor env m hids h1 hin1
  obtain ⟨hm2, _⟩ := mem_checkCollisions_survivor env m hids h2 hin2
  intro hmem
  have ho1 : p1 ∈ m.gameState.players.filter isObstacle := by
    rw [List.mem_filter]
    exact ⟨hm1, by simp [isObstacle, hin1, hinv1]⟩
  have ho2 : p2 ∈ m.gameState.players.filter isObstacle := by
    rw [List.mem_filter]
    exact ⟨hm2, by simp [isObstacle, hin2, hinv2]⟩
  have hcount := count_two_le_count_flatMap (fun p : Player => p.snake.blocks)
    p1.snake.getHead _ ho1 ho2 (fun e => hne (congrArg Player.id e))
  have hc1 : 0 < p1.snake.blocks.count p1.snake.getHead :=
    List.count_pos_iff.mpr (head_mem_blocks _ hbody)
  have hc2 : 0 < p2.snake.blocks.count p1.snake.getHead := List.count_pos_iff.mpr hmem
  have hgt : 1 < (obstacleCells m.gameState.players).count p1.snake.getHead := by
    unfold obstacleCells
    simp only at hcount
    omega
  have hdies : specDies env m p1 = true := by
    rw [specDies_iff]
    refine ⟨hin1, hinv1, ?_⟩
    rw [specCollision_ne_none_iff]
    exact Or.inr (Or.inr hgt)
  rw [hdies] at hd1
  exact Bool.noConfusion hd1

/-! ## What the phases after collision detection keep of a player -/

theorem collectFood_view (hasLb : Bool) (round : Int) (ps : List Player)
    (acc : List Point × List Point × List LbEvent) :
    (collectFood hasLb round ps acc).1.map Player.view = ps.map Player.view := by
  induction ps generalizing acc with
  | nil => rfl
  | cons a ps ih =>
    obtain ⟨foods, removed, ev⟩ := acc
    simp only [collectFood]
    by_cases h : a.inGame = true ∧ hasFoodAt foods a.snake.getHead = true
    · rw [if_pos h]
      dsimp only
      rw [List.map_cons, List.map_cons, ih]
      rfl
    · rw [if_neg h]
      dsimp only
      rw [List.map_cons, List.map_cons, ih]

theorem ageInvincibility_view (p : Player) : (ageInvincibility p).view = p.view := by
  unfold ageInvincibility
  split_ifs <;> rfl

theorem finishTick_view (env : Env) (m : GameManager) :
    (m.finishTick env).gameState.players.map Player.view =
      (m.checkCollisions env).gameState.players.map Player.view := by
  unfold GameManager.finishTick
  show ((GameManager.generateFood env _).gameState.players.map ageInvincibility).map
    Player.view = _
  rw [(generateFood_frame env _).2.2.2, List.map_map]
  have : (Player.view ∘ ageInvincibility) = Player.view := by
    funext q
    exact ageInvincibility_view q
  rw [this]
  exact collectFood_view _ _ _ _

theorem getPlayer_inGame_eq_find_view (ps : List Player) (pid : String) :
    (getPlayer ps pid).map Player.inGame =
      ((ps.map Player.view).find? (fun v => decide (v.1 = pid))).map (fun v => v.2.1) := by
  rw [List.find?_map, Option.map_map]
  rfl

theorem getPlayer_blocks_eq_find_view (ps : List Player) (pid : String) :
    (getPlayer ps pid).map (fun p => p.snake.blocks) =
      ((ps.map Player.view).find? (fun v => decide (v.1 = pid))).map (fun v => v.2.2) := by
  rw [List.find?_map, Option.map_map]
  rfl

theorem getPlayer_inGame_congr {ps qs : List Player}
    (h : ps.map Player.view = qs.map Player.view) (pid : String) :
    (getPlayer ps pid).map Player.inGame = (getPlayer qs pid).map Player.inGame := by
  rw [getPlayer_inGame_eq_find_view, getPlayer_inGame_eq_find_view, h]

theorem getPlayer_blocks_congr {ps qs : List Player}
    (h : ps.map Player.view = qs.map Player.view) (pid : String) :
    (getPlayer ps pid).map (fun p => p.snake.blocks) =
      (getPlayer qs pid).map (fun p => p.snake.blocks) := by
  rw [getPlayer_blocks_eq_find_view, getPlayer_blocks_eq_find_view, h]

/-! ## What the movement phase keeps of a player -/

theorem modifyPlayer_ids (f : Player → Player) (hf : ∀ q, (f q).id = q.id) (pid : String)
    (ps : List Player) : (modifyPlayer f pid ps).map Player.id = ps.map Player.id := by
  induction ps with
  | nil => rfl
  | cons a ps ih =>
    simp only [modifyPlayer]
    split_ifs
    · simp [hf a]
    · simp [ih]

theorem applyDirection_ids (ps : List Player) (c : String × Direction) :
    (applyDirection ps c).map Player.id = ps.map Player.id := by
  unfold applyDirection
  split
  · rfl
  · split_ifs
    · rfl
    · rfl
    · apply modifyPlayer_ids
      intro q
      rfl

theorem applyDirections_ids (moves : List (String × Direction)) (ps : List Player) :
    (applyDirections ps moves).map Player.id = ps.map Player.id := by
  induction moves generalizing ps with
  | nil => rfl
  | cons c rest ih =>
    simp only [applyDirections, List.foldl_cons] at ih ⊢
    rw [ih, applyDirection_ids]

theorem movePhase_fst (ps : List Player) (occ : CountMap) :
    (movePhase ps occ).1 = ps.map movePlayer := by
  induction ps generalizing occ with
  | nil => rfl
  | cons a ps ih =>
    simp only [movePhase, List.map_cons, ih]

theorem movePlayer_id (p : Player) : (movePlayer p).id = p.id := by
  unfold movePlayer
  split_ifs <;> rfl

theorem movePlayer_inGame (p : Player) : (movePlayer p).inGame = p.inGame := by
  unfold movePlayer
  split_ifs <;> rfl

theorem moveWithDelta_invincible (s : Snake) :
    s.moveWithDelta.1.invincibleRounds = s.invincibleRounds := by
  unfold Snake.moveWithDelta
  dsimp only
  split_ifs <;> rfl

theorem movePlayer_invincible (p : Player) :
    (movePlayer p).snake.invincibleRounds = p.snake.invincibleRounds := by
  unfold movePlayer
  split_ifs
  · rfl
  · exact moveWithDelta_invincible p.snake
  · rfl

theorem processMovements_players (m : GameManager) :
    m.processMovements.gameState.players =
      (applyDirections m.gameState.players m.nextMoves).map movePlayer := by
  unfold GameManager.processMovements
  simp only [movePhase_fst]

theorem processMovements_ids (m : GameManager) :
    m.processMovements.gameState.players.map Player.id = m.gameState.players.map Player.id := by
  rw [processMovements_players, List.map_map]
  have : (Player.id ∘ movePlayer) = Player.id := by
    funext q
    exact movePlayer_id q
  rw [this, applyDirections_ids]

theorem tick_eq_finishTick (env : Env) (m : GameManager) :
    m.tick env = (m.swapMoves.clearDelta.processMovements).finishTick env := rfl

theorem moved_ids_nodup (m : GameManager) (hids : (m.gameState.players.map Player.id).Nodup) :
    ((m.swapMoves.clearDelta.processMovements).gameState.players.map Player.id).Nodup := by
  rw [processMovements_ids]
  exact hids

theorem moveWithDelta_blocks (s : Snake) (hd : s.direction ≠ Direction.NONE)
    (hb : s.blocks ≠ []) :
    s.moveWithDelta.1.blocks = nextHeadOf s.getHead s.direction :: s.blocks ∨
    s.moveWithDelta.1.blocks = nextHeadOf s.getHead s.direction :: s.blocks.dropLast := by
  unfold Snake.moveWithDelta
  rw [if_neg (by simp [hd, hb])]
  dsimp only
  split_ifs
  · right
    cases hs : s.blocks with
    | nil => exact absurd hs hb
    | cons a l => simp [List.dropLast]
  · left
    rfl

theorem movePlayer_blocks (p : Player) (hin : p.inGame = true)
    (hd : p.snake.direction ≠ Direction.NONE) (hb : p.snake.blocks ≠ []) :
    (movePlayer p).snake.blocks =
        nextHeadOf p.snake.getHead p.snake.direction :: p.snake.blocks ∨
    (movePlayer p).snake.blocks =
        nextHeadOf p.snake.getHead p.snake.direction :: p.snake.blocks.dropLast := by
  unfold movePlayer
  rw [if_neg (by simp [hin]), if_pos hd]
  exact moveWithDelta_blocks p.snake hd hb

theorem movePlayer_head (p : Player) (hin : p.inGame = true)
    (hd : p.snake.direction ≠ Direction.NONE) (hb : p.snake.blocks ≠ []) :
    (movePlayer p).snake.getHead = nextHeadOf p.snake.getHead p.snake.direction := by
  unfold Snake.getHead
  rcases movePlayer_blocks p hin hd hb with h | h <;> rw [h] <;> rfl

theorem movePlayer_of_empty (p : Player) (hb : p.snake.blocks = []) : movePlayer p = p := by
  unfold movePlayer Snake.moveWithDelta
  rw [if_pos (Or.inr hb)]
  split_ifs <;> rfl

theorem movePlayer_of_no_facing (p : Player) (hd : p.snake.direction = Direction.NONE) :
    movePlayer p = p := by
  unfold movePlayer
  split_ifs with h1 h2
  · rfl
  · exact absurd hd h2
  · rfl

theorem movePlayer_direction (p : Player) :
    (movePlayer p).snake.direction = p.snake.direction := by
  unfold movePlayer
  split_ifs
  · rfl
  · unfold Snake.moveWithDelta
    dsimp only
    split_ifs <;> rfl
  · rfl

theorem mem_predictSelfCollisions (ps : List Player) (hids : (ps.map Player.id).Nodup)
    {p : Player} (hp : p ∈ ps) :
    p.id ∈ predictSelfCollisions ps ↔ predictsSelfCollision p = true := by
  unfold predictSelfCollisions
  simp only [List.mem_map, List.mem_filter]
  constructor
  · rintro ⟨q, ⟨hq, hd⟩, hid⟩
    rw [← player_eq_of_id_eq hids hq hp hid]
    exact hd
  · intro hd
    exact ⟨p, ⟨hp, hd⟩, rfl⟩

/-- A moving snake that the prediction does not flag has its new head cell once in its
body after the move. -/
theorem moved_head_count_le_one (p : Player) (hin : p.inGame = true)
    (hd : p.snake.direction ≠ Direction.NONE) (hpred : predictsSelfCollision p = false) :
    (movePlayer p).snake.blocks.count (movePlayer p).snake.getHead ≤ 1 := by
  by_cases hb : p.snake.blocks = []
  · rw [movePlayer_of_empty p hb, hb]
    simp
  · have hnot : nextHeadOf p.snake.getHead p.snake.direction ∉ p.snake.blocks := by
      intro hmem
      have : predictsSelfCollision p = true := by
        simp [predictsSelfCollision, hin, hd, Snake.collidesWithSelf, hmem]
      rw [hpred] at this
      exact Bool.noConfusion this
    rw [movePlayer_head p hin hd hb]
    have h0 : p.snake.blocks.count (nextHeadOf p.snake.getHead p.snake.direction) = 0 :=
      List.count_eq_zero.mpr hnot
    rcases movePlayer_blocks p hin hd hb with h | h
    · rw [h, List.count_cons_self, h0]
    · rw [h, List.count_cons_self]
      have := (List.dropLast_sublist p.snake.blocks).count_le
        (nextHeadOf p.snake.getHead p.snake.direction)
      omega

/-- A player that collision detection does not kill is in game after the rest of the
tick. -/
theorem finishTick_keeps_survivor (env : Env) (m : GameManager)
    (hids : (m.gameState.players.map Player.id).Nodup) {p : Player}
    (hp : p ∈ m.gameState.players) (hin : p.inGame = true) (hd : specDies env m p = false) :
    (getPlayer (m.finishTick env).gameState.players p.id).map Player.inGame = some true := by
  rw [getPlayer_inGame_congr (finishTick_view env m), checkCollisions_players env m hids,
    getPlayer_map_of_mem hids _ (by intro q; split_ifs <;> rfl) hp]
  simp [hd, hin]

/-- A player that collision detection kills is out of game after the rest of the tick. -/
theorem finishTick_drops_victim (env : Env) (m : GameManager)
    (hids : (m.gameState.players.map Player.id).Nodup) {p : Player}
    (hp : p ∈ m.gameState.players) (hd : specDies env m p = true) :
    (getPlayer (m.finishTick env).gameState.players p.id).map Player.inGame = some false := by
  rw [getPlayer_inGame_congr (finishTick_view env m), checkCollisions_players env m hids,
    getPlayer_map_of_mem hids _ (by intro q; split_ifs <;> rfl) hp]
  simp [hd, Player.setInGame]

/-- C8: in every tick, a player that is in game with invincibility > 0 when collisions
are checked is in game after the tick, wherever its head is; and a non-invincible player
whose head is inside the grid, which is not self-colliding (not in the self-collision
set; for a snake without a facing, which does not move, its head cell occurs once in its
own body) and whose head cell is otherwise shared only with bodies of invincible snakes,
is in game after the tick as well. -/
theorem tick_spares_invincible (env : Env) (m : GameManager)
    (hids : (m.gameState.players.map Player.id).Nodup) (p : Player)
    (hp : p ∈ (m.swapMoves.clearDelta.processMovements).gameState.players)
    (hin : p.inGame = true) :
    (0 < p.snake.invincibleRounds →
      (getPlayer (m.tick env).gameState.players p.id).map Player.inGame = some true) ∧
    (¬ 0 < p.snake.invincibleRounds →
      (0 ≤ p.snake.getHead.x ∧ p.snake.getHead.x < env.mapWidth ∧
        0 ≤ p.snake.getHead.y ∧ p.snake.getHead.y < env.mapHeight) →
      p.id ∉ (m.swapMoves.clearDelta.processMovements).pendingSelfCollisions →
      (p.snake.direction = Direction.NONE → p.snake.blocks.count p.snake.getHead ≤ 1) →
      (∀ q ∈ (m.swapMoves.clearDelta.processMovements).gameState.players,
        q.id ≠ p.id → q.inGame = true → p.snake.getHead ∈ q.snake.blocks →
          0 < q.snake.invincibleRounds) →
      (getPlayer (m.tick env).gameState.players p.id).map Player.inGame = some true) := by
  have hids2 := moved_ids_nodup m hids
  rw [tick_eq_finishTick]
  constructor
  · intro hinv
    apply finishTick_keeps_survivor env _ hids2 hp hin
    simp [specDies, hinv]
  · intro hinv hb hself hstill hothers
    apply finishTick_keeps_survivor env _ hids2 hp hin
    have hown : p.snake.blocks.count p.snake.getHead ≤ 1 := by
      by_cases hd : p.snake.direction = Direction.NONE
      · exact hstill hd
      · rw [processMovements_players] at hp
        obtain ⟨p0, hp0, rfl⟩ := List.mem_map.mp hp
        have hids1 : ((applyDirections (m.swapMoves.clearDelta).gameState.players
            (m.swapMoves.clearDelta).nextMoves).map Player.id).Nodup := by
          rw [applyDirections_ids]
          exact hids
        rw [movePlayer_inGame] at hin
        rw [movePlayer_direction] at hd
        have hnp : ¬ predictsSelfCollision p0 = true := by
          intro hpr
          apply hself
          rw [movePlayer_id]
          exact (mem_predictSelfCollisions _ hids1 hp0).mpr hpr
        exact moved_head_count_le_one p0 hin hd (by simpa using hnp)
    have hnd : ((m.swapMoves.clearDelta.processMovements).gameState.players.filter
        isObstacle).Nodup := (List.Nodup.of_map _ hids2).filter _
    have hle := count_flatMap_le_single (fun q : Player => q.snake.blocks) p.snake.getHead
      _ hnd p (by
        intro q hq hqp hmem
        rw [List.mem_filter] at hq
        have hqo : q.inGame = true ∧ ¬ 0 < q.snake.invincibleRounds := by
          simpa [isObstacle] using hq.2
        have hidne : q.id ≠ p.id := fun e => hqp (player_eq_of_id_eq hids2 hq.1 hp e)
        exact hqo.2 (hothers q hq.1 hidne hqo.1 hmem))
    have hnone : specCollision env (m.swapMoves.clearDelta.processMovements) p =
        CollisionType.NONE := by
      by_contra hc
      rw [← ne_eq, specCollision_ne_none_iff] at hc
      rcases hc with h | h | h
      · exact h hb
      · exact hself h
      · unfold obstacleCells at h
        simp only at hle
        omega
    simp [specDies, hnone]

/-- C5: a non-invincible in-game snake that has a facing when the snakes move and whose
next head (head plus the unit step of the facing) is a cell of its body as it is before
the move, the current tail cell included, is out of game after the tick. -/
theorem tick_kills_self_collider (env : Env) (m : GameManager)
    (hids : (m.gameState.players.map Player.id).Nodup) (p : Player)
    (hp : p ∈ applyDirections m.gameState.players m.currentMoves)
    (hin : p.inGame = true) (hinv : ¬ 0 < p.snake.invincibleRounds)
    (hdir : p.snake.direction ≠ Direction.NONE)
    (hhit : nextHeadOf p.snake.getHead p.snake.direction ∈ p.snake.blocks) :
    (getPlayer (m.tick env).gameState.players p.id).map Player.inGame = some false := by
  have hids1 : ((applyDirections m.gameState.players m.currentMoves).map Player.id).Nodup := by
    rw [applyDirections_ids]
    exact hids
  have hids2 := moved_ids_nodup m hids
  have hmem : movePlayer p ∈ (m.swapMoves.clearDelta.processMovements).gameState.players := by
    rw [processMovements_players]
    exact List.mem_map_of_mem movePlayer hp
  have hpend : (movePlayer p).id ∈
      (m.swapMoves.clearDelta.processMovements).pendingSelfCollisions := by
    rw [movePlayer_id]
    apply (mem_predictSelfCollisions _ hids1 hp).mpr
    simp [predictsSelfCollision, hin, hdir, Snake.collidesWithSelf, hhit]
  have hd : specDies env (m.swapMoves.clearDelta.processMovements) (movePlayer p) = true := by
    rw [specDies_iff, movePlayer_inGame, movePlayer_invincible, specCollision_ne_none_iff]
    exact ⟨hin, hinv, Or.inr (Or.inl hpend)⟩
  have := finishTick_drops_victim env _ hids2 hmem hd
  rw [movePlayer_id] at this
  rw [tick_eq_finishTick]
  exact this

/-! ## Death drops -/

theorem count_setInsert (p x : Point) (l : List Point) :
    (setInsert p l).count x = l.count x + (if x = p ∧ p ∉ l then 1 else 0) := by
  unfold setInsert
  by_cases h : p ∈ l
  · simp [h]
  · rw [if_neg h, List.count_append, List.count_singleton]
    by_cases e : x = p
    · subst e
      simp [h]
    · have : (p == x) = false := by simpa using fun h => e h.symm
      simp [e, this]

theorem mem_setInsert (p x : Point) (l : List Point) :
    x ∈ setInsert p l ↔ x ∈ l ∨ x = p := by
  unfold setInsert
  by_cases h : p ∈ l
  · rw [if_pos h]
    constructor
    · exact Or.inl
    · rintro (h1 | h1)
      · exact h1
      · exact h1 ▸ h
  · rw [if_neg h]
    simp

/-- The food set and the added-foods journal after `createSnakeDeathDrops`, cell by cell. -/
theorem createSnakeDeathDrops_count (cells : List Point) (foods added : List Point)
    (x : Point) :
    (createSnakeDeathDrops cells (foods, added)).1.count x =
        foods.count x + (if x ∈ cells ∧ x ∉ foods then 1 else 0) ∧
    (createSnakeDeathDrops cells (foods, added)).2.count x =
        added.count x + (if x ∈ cells ∧ x ∉ foods ∧ x ∉ added then 1 else 0) := by
  induction cells generalizing foods added with
  | nil => simp [createSnakeDeathDrops]
  | cons c cells ih =>
    simp only [createSnakeDeathDrops]
    by_cases hc : c ∈ foods
    · have hf : hasFoodAt foods c = true := by simp [hasFoodAt, hc]
      rw [if_neg (by simp [hf])]
      obtain ⟨h1, h2⟩ := ih foods added
      rw [h1, h2]
      have e1 : (x ∈ c :: cells ∧ x ∉ foods) ↔ (x ∈ cells ∧ x ∉ foods) := by
        constructor
        · rintro ⟨hm, hn⟩
          rcases List.mem_cons.mp hm with e | e
          · exact absurd (e ▸ hc) hn
          · exact ⟨e, hn⟩
        · rintro ⟨hm, hn⟩
          exact ⟨List.mem_cons_of_mem _ hm, hn⟩
      have e2 : (x ∈ c :: cells ∧ x ∉ foods ∧ x ∉ added) ↔
          (x ∈ cells ∧ x ∉ foods ∧ x ∉ added) := by
        constructor
        · rintro ⟨hm, hn, ha⟩
          exact ⟨(e1.mp ⟨hm, hn⟩).1, hn, ha⟩
        · rintro ⟨hm, hn, ha⟩
          exact ⟨List.mem_cons_of_mem _ hm, hn, ha⟩
      simp only [e1, e2, and_self]
    · have hf : hasFoodAt foods c = false := by simp [hasFoodAt, hc]
      rw [if_pos hf]
      obtain ⟨h1, h2⟩ := ih (addFood foods c) (setInsert c added)
      rw [h1, h2]
      unfold addFood
      rw [count_setInsert, count_setInsert]
      simp only [mem_setInsert, List.mem_cons]
      by_cases e : x = c
      · subst e
        have hx0 : foods.count x = 0 := List.count_eq_zero.mpr hc
        by_cases ha : x ∈ added
        · simp [hc, ha]
        · simp [hc, ha]
      · simp [e]

theorem mem_createSnakeDeathDrops (cells : List Point) (foods added : List Point)
    (x : Point) :
    x ∈ (createSnakeDeathDrops cells (foods, added)).1 ↔ x ∈ foods ∨ x ∈ cells := by
  have h := (createSnakeDeathDrops_count cells foods added x).1
  rw [← List.count_pos_iff, h]
  by_cases hf : x ∈ foods
  · have : 0 < foods.count x := List.count_pos_iff.mpr hf
    simp [hf, this]
  · have : foods.count x = 0 := List.count_eq_zero.mpr hf
    by_cases hc : x ∈ cells
    · simp [hf, hc, this]
    · simp [hf, hc, this]

/-- The state after the resolution of one death of a living in-game snake. -/
theorem resolveCollision_of_living (occ : List (Point × List String)) (m : GameManager)
    (c : String × CollisionType) (player : Player)
    (hget : getPlayer m.gameState.players c.1 = some player)
    (hin : player.inGame = true) (halive : player.snake.alive = true) :
    (resolveCollision occ m c).gameState.foods =
        (createSnakeDeathDrops player.snake.blocks
          (m.gameState.foods, m.gameState.addedFoods)).1 ∧
    (resolveCollision occ m c).gameState.addedFoods =
        (createSnakeDeathDrops player.snake.blocks
          (m.gameState.foods, m.gameState.addedFoods)).2 ∧
    (resolveCollision occ m c).gameState.removedFoods = m.gameState.removedFoods ∧
    (resolveCollision occ m c).gameState.players =
        modifyPlayer (fun q => q.setInGame false) c.1 m.gameState.players := by
  unfold resolveCollision
  rw [hget]
  simp only [hin, Bool.true_eq_false, if_false]
  unfold GameManager.removeSnakeFromOccupancy
  simp only [halive, Bool.true_eq_false, if_false]
  simp

theorem getPlayer_modifyPlayer (f : Player → Player) (hf : ∀ q, (f q).id = q.id)
    (pid : String) (ps : List Player) :
    getPlayer (modifyPlayer f pid ps) pid = (getPlayer ps pid).map f := by
  induction ps with
  | nil => rfl
  | cons a ps ih =>
    unfold getPlayer at ih ⊢
    simp only [modifyPlayer]
    by_cases h : a.id = pid
    · rw [if_pos h]
      simp [List.find?_cons, h, hf a]
    · rw [if_neg h]
      simp [List.find?_cons, h, ih]

/-- C10: when a living in-game snake dies in collision resolution, afterwards every cell
of its body holds a food; the food set gains exactly one food for each distinct body cell
that held no food before and nothing for a cell that already held one; no other food is
added and none is removed; the added-foods journal records each new food once, and the
removed-foods journal is unchanged. -/
theorem resolveCollision_drops_body (occ : List (Point × List String)) (m : GameManager)
    (c : String × CollisionType) (player : Player)
    (hget : getPlayer m.gameState.players c.1 = some player)
    (hin : player.inGame = true) (halive : player.snake.alive = true) :
    (∀ x ∈ player.snake.blocks, x ∈ (resolveCollision occ m c).gameState.foods) ∧
    (∀ x, x ∈ (resolveCollision occ m c).gameState.foods ↔
      x ∈ m.gameState.foods ∨ x ∈ player.snake.blocks) ∧
    (∀ x, (resolveCollision occ m c).gameState.foods.count x =
      m.gameState.foods.count x +
        (if x ∈ player.snake.blocks ∧ x ∉ m.gameState.foods then 1 else 0)) ∧
    (∀ x, (resolveCollision occ m c).gameState.addedFoods.count x =
      m.gameState.addedFoods.count x +
        (if x ∈ player.snake.blocks ∧ x ∉ m.gameState.foods ∧ x ∉ m.gameState.addedFoods
          then 1 else 0)) ∧
    (resolveCollision occ m c).gameState.removedFoods = m.gameState.removedFoods ∧
    (getPlayer (resolveCollision occ m c).gameState.players c.1).map Player.inGame =
      some false := by
  obtain ⟨hf, ha, hr, hp⟩ := resolveCollision_of_living occ m c player hget hin halive
  rw [hf, ha, hr, hp]
  refine ⟨?_, ?_, ?_, ?_, rfl, ?_⟩
  · intro x hx
    exact (mem_createSnakeDeathDrops _ _ _ x).mpr (Or.inr hx)
  · intro x
    exact mem_createSnakeDeathDrops _ _ _ x
  · intro x
    exact (createSnakeDeathDrops_count _ _ _ x).1
  · intro x
    exact (createSnakeDeathDrops_count _ _ _ x).2
  · rw [getPlayer_modifyPlayer (fun q => q.setInGame false) (fun _ => rfl), hget]
    rfl

/-! ## Where the dropped food goes during the rest of the tick -/

theorem removeSnakeFromOccupancy_foods_mono (m : GameManager) (s : Snake) (x : Point)
    (hx : x ∈ m.gameState.foods) : x ∈ (m.removeSnakeFromOccupancy s).gameState.foods := by
  unfold GameManager.removeSnakeFromOccupancy
  split_ifs
  · exact hx
  · exact (mem_createSnakeDeathDrops _ _ _ x).mpr (Or.inl hx)

theorem resolveCollision_foods_mono (occ : List (Point × List String)) (m : GameManager)
    (c : String × CollisionType) (x : Point) (hx : x ∈ m.gameState.foods) :
    x ∈ (resolveCollision occ m c).gameState.foods := by
  unfold resolveCollision
  split
  · exact hx
  · split_ifs
    · exact hx
    · exact removeSnakeFromOccupancy_foods_mono _ _ x hx

theorem resolveAll_foods_mono (occ : List (Point × List String))
    (cs : List (String × CollisionType)) (m : GameManager) (x : Point)
    (hx : x ∈ m.gameState.foods) : x ∈ (cs.foldl (resolveCollision occ) m).gameState.foods := by
  induction cs generalizing m with
  | nil => exact hx
  | cons c cs ih =>
    simp only [List.foldl_cons]
    exact ih _ (resolveCollision_foods_mono occ m c x hx)

theorem resolveCollision_ids_nodup (occ : List (Point × List String)) (m : GameManager)
    (c : String × CollisionType) (hids : (m.gameState.players.map Player.id).Nodup) :
    ((resolveCollision occ m c).gameState.players.map Player.id).Nodup := by
  rw [resolveCollision_players occ m c hids]
  have := map_kill_ids m.gameState.players [c.1]
  simp only [List.mem_singleton] at this
  rw [this]
  exact hids

/-- Every living in-game player whose id is in the collision vector has all its body
cells in the food set once the vector has been processed. -/
theorem resolveAll_drops (occ : List (Point × List String))
    (cs : List (String × CollisionType)) (m : GameManager)
    (hids : (m.gameState.players.map Player.id).Nodup) (pl : Player)
    (hpl : pl ∈ m.gameState.players) (hin : pl.inGame = true)
    (halive : pl.snake.alive = true) (hc : pl.id ∈ cs.map Prod.fst) :
    ∀ x ∈ pl.snake.blocks, x ∈ (cs.foldl (resolveCollision occ) m).gameState.foods := by
  induction cs generalizing m with
  | nil => simp at hc
  | cons c cs ih =>
    intro x hx
    simp only [List.foldl_cons]
    by_cases e : c.1 = pl.id
    · have hget : getPlayer m.gameState.players c.1 = some pl := by
        rw [e]
        exact getPlayer_of_mem hids hpl
      apply resolveAll_foods_mono
      rw [(resolveCollision_of_living occ m c pl hget hin halive).1]
      exact (mem_createSnakeDeathDrops _ _ _ x).mpr (Or.inr hx)
    · have hc2 : pl.id ∈ cs.map Prod.fst := by
        simp only [List.map_cons, List.mem_cons] at hc
        rcases hc with h | h
        · exact absurd h.symm e
        · exact h
      have hpl2 : pl ∈ (resolveCollision occ m c).gameState.players := by
        rw [resolveCollision_players occ m c hids, List.mem_map]
        exact ⟨pl, hpl, by rw [if_neg (fun h => e h.symm)]⟩
      exact ih _ (resolveCollision_ids_nodup occ m c hids) hpl2 hc2 x hx

theorem checkCollisions_drops (env : Env) (m : GameManager)
    (hids : (m.gameState.players.map Player.id).Nodup) (pl : Player)
    (hpl : pl ∈ m.gameState.players) (halive : pl.snake.alive = true)
    (hd : specDies env m pl = true) :
    ∀ x ∈ pl.snake.blocks, x ∈ (m.checkCollisions env).gameState.foods := by
  have hin : pl.inGame = true := ((specDies_iff env m pl).mp hd).1
  unfold GameManager.checkCollisions
  exact resolveAll_drops _ _ m hids pl hpl hin halive
    ((mem_detect_ids_iff env m hids hpl).mpr hd)

theorem collectFood_keeps (hasLb : Bool) (round : Int) (x : Point) (ps : List Player)
    (acc : List Point × List Point × List LbEvent) (hx : x ∈ acc.1)
    (hfree : ∀ p ∈ ps, p.inGame = true → p.snake.getHead ≠ x) :
    x ∈ (collectFood hasLb round ps acc).2.1 := by
  induction ps generalizing acc with
  | nil => exact hx
  | cons a ps ih =>
    obtain ⟨foods, removed, ev⟩ := acc
    simp only [collectFood]
    have hrest : ∀ p ∈ ps, p.inGame = true → p.snake.getHead ≠ x :=
      fun p hp => hfree p (List.mem_cons_of_mem _ hp)
    by_cases h : a.inGame = true ∧ hasFoodAt foods a.snake.getHead = true
    · rw [if_pos h]
      dsimp only
      apply ih _ _ hrest
      have hne : x ≠ a.snake.getHead := fun e => hfree a (List.mem_cons_self _ _) h.1 e.symm
      simp only [removeFood, List.mem_filter]
      exact ⟨hx, by simpa using hne⟩
    · rw [if_neg h]
      dsimp only
      exact ih _ hx hrest

theorem foldl_addFood_mono (news : List Point) (foods : List Point) (x : Point)
    (hx : x ∈ foods) : x ∈ news.foldl addFood foods := by
  induction news generalizing foods with
  | nil => exact hx
  | cons n news ih =>
    simp only [List.foldl_cons]
    apply ih
    unfold addFood
    exact (mem_setInsert n x foods).mpr (Or.inl hx)

theorem generateFood_foods_mono (env : Env) (m : GameManager) (x : Point)
    (hx : x ∈ m.gameState.foods) : x ∈ (m.generateFood env).gameState.foods := by
  unfold GameManager.generateFood
  dsimp only
  split_ifs
  · exact foldl_addFood_mono _ _ x hx
  · exact hx

theorem finishTick_foods (env : Env) (m : GameManager) :
    (m.finishTick env).gameState.foods =
      (((m.checkCollisions env).handleFoodCollection).generateFood env).gameState.foods := rfl

/-- A food present after collision detection is still present after the tick, unless it
lies on the head cell of a player that is in game. -/
theorem finishTick_keeps_food (env : Env) (m : GameManager) (x : Point)
    (hx : x ∈ (m.checkCollisions env).gameState.foods) :
    x ∈ (m.finishTick env).gameState.foods ∨
      ∃ q ∈ (m.finishTick env).gameState.players, q.inGame = true ∧ q.snake.getHead = x := by
  by_cases hfree : ∀ p ∈ (m.checkCollisions env).gameState.players,
      p.inGame = true → p.snake.getHead ≠ x
  · left
    rw [finishTick_foods]
    apply generateFood_foods_mono
    unfold GameManager.handleFoodCollection
    exact collectFood_keeps _ _ x _ _ hx hfree
  · right
    push_neg at hfree
    obtain ⟨p, hp, hin, hhead⟩ := hfree
    have hv : p.view ∈ (m.finishTick env).gameState.players.map Player.view := by
      rw [finishTick_view]
      exact List.mem_map_of_mem _ hp
    obtain ⟨q, hq, hqv⟩ := List.mem_map.mp hv
    have h1 : q.inGame = p.inGame := congrArg (fun v => v.2.1) hqv
    have h2 : q.snake.blocks = p.snake.blocks := congrArg (fun v => v.2.2) hqv
    refine ⟨q, hq, h1.trans hin, ?_⟩
    unfold Snake.getHead at hhead ⊢
    rw [h2]
    exact hhead

/-! ## Head-on collision -/

theorem nextHeadOf_opposite (h : Point) (d e : Direction)
    (ho : DirectionUtils.isOpposite d e = true) :
    e ≠ Direction.NONE ∧ d ≠ Direction.NONE ∧ nextHeadOf (nextHeadOf h d) e = h := by
  cases h
  cases d <;> cases e <;> simp [DirectionUtils.isOpposite] at ho <;>
    simp [nextHeadOf]

theorem nextHeadOf_ne (h : Point) (d : Direction) (hd : d ≠ Direction.NONE) :
    nextHeadOf h d ≠ h := by
  cases h
  cases d <;> simp [nextHeadOf] at hd ⊢

theorem old_head_mem_moved (p : Player) (hin : p.inGame = true)
    (hd : p.snake.direction ≠ Direction.NONE) (hlen : 2 ≤ p.snake.blocks.length) :
    p.snake.getHead ∈ (movePlayer p).snake.blocks := by
  have hb : p.snake.blocks ≠ [] := by
    intro e
    rw [e] at hlen
    simp at hlen
  rcases movePlayer_blocks p hin hd hb with h | h
  · rw [h]
    exact List.mem_cons_of_mem _ (head_mem_blocks _ hb)
  · rw [h]
    apply List.mem_cons_of_mem
    unfold Snake.getHead
    cases hs : p.snake.blocks with
    | nil => exact absurd hs hb
    | cons a l =>
      cases l with
      | nil =>
        rw [hs] at hlen
        simp at hlen
      | cons b l => simp [List.dropLast]

theorem movePlayer_alive (p : Player) : (movePlayer p).snake.alive = p.snake.alive := by
  unfold movePlayer
  split_ifs
  · rfl
  · unfold Snake.moveWithDelta
    dsimp only
    split_ifs <;> rfl
  · rfl

theorem moved_blocks_ne_nil (p : Player) (hin : p.inGame = true)
    (hd : p.snake.direction ≠ Direction.NONE) (hb : p.snake.blocks ≠ []) :
    (movePlayer p).snake.blocks ≠ [] := by
  rcases movePlayer_blocks p hin hd hb with h | h <;> rw [h] <;> simp

/-- A non-invincible in-game snake whose head cell, after the move, is also a body cell
of another non-invincible in-game snake is killed by collision detection. -/
theorem specDies_of_shared_head (env : Env) (m : GameManager) (p q : Player)
    (hp : p ∈ m.gameState.players) (hq : q ∈ m.gameState.players) (hne : p ≠ q)
    (hinp : p.inGame = true) (hinq : q.inGame = true)
    (hinvp : ¬ 0 < p.snake.invincibleRounds) (hinvq : ¬ 0 < q.snake.invincibleRounds)
    (hbody : p.snake.blocks ≠ []) (hshare : p.snake.getHead ∈ q.snake.blocks) :
    specDies env m p = true := by
  have ho1 : p ∈ m.gameState.players.filter isObstacle := by
    rw [List.mem_filter]
    exact ⟨hp, by simp [isObstacle, hinp, hinvp]⟩
  have ho2 : q ∈ m.gameState.players.filter isObstacle := by
    rw [List.mem_filter]
    exact ⟨hq, by simp [isObstacle, hinq, hinvq]⟩
  have hcount := count_two_le_count_flatMap (fun r : Player => r.snake.blocks)
    p.snake.getHead _ ho1 ho2 hne
  have hc1 : 0 < p.snake.blocks.count p.snake.getHead :=
    List.count_pos_iff.mpr (head_mem_blocks _ hbody)
  have hc2 : 0 < q.snake.blocks.count p.snake.getHead := List.count_pos_iff.mpr hshare
  rw [specDies_iff]
  refine ⟨hinp, hinvp, ?_⟩
  rw [specCollision_ne_none_iff]
  right
  right
  unfold obstacleCells
  simp only at hcount
  omega

theorem finishTick_blocks_of_mem (env : Env) (m : GameManager)
    (hids : (m.gameState.players.map Player.id).Nodup) {p : Player}
    (hp : p ∈ m.gameState.players) :
    (getPlayer (m.finishTick env).gameState.players p.id).map (fun q => q.snake.blocks) =
      some p.snake.blocks := by
  rw [getPlayer_blocks_congr (finishTick_view env m), checkCollisions_players env m hids,
    getPlayer_map_of_mem hids _ (by intro q; split_ifs <;> rfl) hp]
  simp only [Option.map_some']
  split_ifs <;> rfl

/-- C9 (amended): two non-invincible living in-game snakes with at least two body cells
each, whose heads are on adjacent cells and which face each other when the snakes move,
are both out of game after the tick; their bodies after the tick are their post-move
bodies, and every cell of these bodies holds a food after the tick unless it is the head
cell of a snake that is still in game. -/
theorem tick_headOn_both_die (env : Env) (m : GameManager)
    (hids : (m.gameState.players.map Player.id).Nodup) (a b : Player)
    (ha : a ∈ applyDirections m.gameState.players m.currentMoves)
    (hb : b ∈ applyDirections m.gameState.players m.currentMoves)
    (hina : a.inGame = true) (hinb : b.inGame = true)
    (hinva : ¬ 0 < a.snake.invincibleRounds) (hinvb : ¬ 0 < b.snake.invincibleRounds)
    (halivea : a.snake.alive = true) (haliveb : b.snake.alive = true)
    (hlena : 2 ≤ a.snake.blocks.length) (hlenb : 2 ≤ b.snake.blocks.length)
    (hadj : b.snake.getHead = nextHeadOf a.snake.getHead a.snake.direction)
    (hface : DirectionUtils.isOpposite a.snake.direction b.snake.direction = true) :
    (getPlayer (m.tick env).gameState.players a.id).map Player.inGame = some false ∧
    (getPlayer (m.tick env).gameState.players b.id).map Player.inGame = some false ∧
    (getPlayer (m.tick env).gameState.players a.id).map (fun q => q.snake.blocks) =
      some (movePlayer a).snake.blocks ∧
    (getPlayer (m.tick env).gameState.players b.id).map (fun q => q.snake.blocks) =
      some (movePlayer b).snake.blocks ∧
    (∀ c, c ∈ (movePlayer a).snake.blocks ∨ c ∈ (movePlayer b).snake.blocks →
      c ∈ (m.tick env).gameState.foods ∨
        ∃ q ∈ (m.tick env).gameState.players, q.inGame = true ∧ q.snake.getHead = c) := by
  obtain ⟨hdb, hda, hback⟩ := nextHeadOf_opposite a.snake.getHead _ _ hface
  have hids2 := moved_ids_nodup m hids
  have hba : a.snake.blocks ≠ [] := by
    intro e
    rw [e] at hlena
    simp at hlena
  have hbb : b.snake.blocks ≠ [] := by
    intro e
    rw [e] at hlenb
    simp at hlenb
  have hma : movePlayer a ∈ (m.swapMoves.clearDelta.processMovements).gameState.players := by
    rw [processMovements_players]
    exact List.mem_map_of_mem movePlayer ha
  have hmb : movePlayer b ∈ (m.swapMoves.clearDelta.processMovements).gameState.players := by
    rw [processMovements_players]
    exact List.mem_map_of_mem movePlayer hb
  have hheada : (movePlayer a).snake.getHead = b.snake.getHead := by
    rw [movePlayer_head a hina hda hba, hadj]
  have hheadb : (movePlayer b).snake.getHead = a.snake.getHead := by
    rw [movePlayer_head b hinb hdb hbb, hadj, hback]
  have hneq : movePlayer a ≠ movePlayer b := by
    intro e
    have h1 : (movePlayer a).snake.getHead = (movePlayer b).snake.getHead := by rw [e]
    rw [hheada, hheadb, hadj] at h1
    exact nextHeadOf_ne _ _ hda h1
  have hdiesa : specDies env (m.swapMoves.clearDelta.processMovements) (movePlayer a) = true := by
    apply specDies_of_shared_head env _ _ _ hma hmb hneq
    · rw [movePlayer_inGame]; exact hina
    · rw [movePlayer_inGame]; exact hinb
    · rw [movePlayer_invincible]; exact hinva
    · rw [movePlayer_invincible]; exact hinvb
    · exact moved_blocks_ne_nil a hina hda hba
    · rw [hheada]
      exact old_head_mem_moved b hinb hdb hlenb
  have hdiesb : specDies env (m.swapMoves.clearDelta.processMovements) (movePlayer b) = true := by
    apply specDies_of_shared_head env _ _ _ hmb hma (Ne.symm hneq)
    · rw [movePlayer_inGame]; exact hinb
    · rw [movePlayer_inGame]; exact hina
    · rw [movePlayer_invincible]; exact hinvb
    · rw [movePlayer_invincible]; exact hinva
    · exact moved_blocks_ne_nil b hinb hdb hbb
    · rw [hheadb]
      exact old_head_mem_moved a hina hda hlena
  rw [tick_eq_finishTick]
  have h1 := finishTick_drops_victim env _ hids2 hma hdiesa
  have h2 := finishTick_drops_victim env _ hids2 hmb hdiesb
  have h3 := finishTick_blocks_of_mem env _ hids2 hma
  have h4 := finishTick_blocks_of_mem env _ hids2 hmb
  rw [movePlayer_id] at h1 h2 h3 h4
  refine ⟨h1, h2, h3, h4, ?_⟩
  intro c hc
  apply finishTick_keeps_food
  rcases hc with hc | hc
  · exact checkCollisions_drops env _ hids2 _ hma
      (by rw [movePlayer_alive]; exact halivea) hdiesa c hc
  · exact checkCollisions_drops env _ hids2 _ hmb
      (by rw [movePlayer_alive]; exact haliveb) hdiesb c hc

/-! ## Concrete instances -/

/-- C5, scenario 4 of the specification: the snake [(5,5),(5,6),(5,7),(4,7)] facing Right
whose command "down" is accepted has next head (5,6), a cell of its body, and is out of
game after the tick. -/
theorem tick_kills_self_collider_witness :
    nextHeadOf (⟨5, 5⟩ : Point) Direction.DOWN = ⟨5, 6⟩ ∧
    (getPlayer (uTurnManager.tick scenarioEnv).gameState.players "s1").map Player.inGame =
      some false :=
  ⟨by decide,
    tick_kills_self_collider scenarioEnv uTurnManager (by decide)
      (scenarioPlayer "s1" [⟨5, 5⟩, ⟨5, 6⟩, ⟨5, 7⟩, ⟨4, 7⟩] Direction.DOWN 0)
      (by decide) (by decide) (by decide) (by decide) (by decide)⟩

/-- C6 on scenario 2 after the move: both snakes are recorded with the cause OTHER. -/
theorem checkCollisions_kills_exactly_witness :
    detectCollisions scenarioEnv headOnMoved =
      [("s1", CollisionType.OTHER_SNAKE), ("s2", CollisionType.OTHER_SNAKE)] :=
  (checkCollisions_kills_exactly scenarioEnv headOnMoved (by decide)).2.1.trans (by decide)

/-- C7 on two snakes that stay apart: the head (1,1) of the first is no cell of the
second. -/
theorem checkCollisions_separates_heads_witness :
    (⟨1, 1⟩ : Point) ∉ [(⟨7, 7⟩ : Point), ⟨7, 8⟩] :=
  checkCollisions_separates_heads scenarioEnv apartManager (by decide)
    (scenarioPlayer "s1" [⟨1, 1⟩, ⟨1, 2⟩] Direction.RIGHT 0)
    (scenarioPlayer "s2" [⟨7, 7⟩, ⟨7, 8⟩] Direction.LEFT 0)
    (by decide) (by decide) (by decide) (by decide) (by decide) (by decide) (by decide)
    (by decide)

/-- C8 on scenario 2 with an invincible third snake moving onto (4,5), a body cell of
S1: the third snake is in game after the tick. -/
theorem tick_spares_invincible_witness :
    (getPlayer (headOnGuestManager.tick scenarioEnv).gameState.players "s3").map Player.inGame =
      some true :=
  (tick_spares_invincible scenarioEnv headOnGuestManager (by decide)
    (scenarioPlayer "s3" [⟨4, 5⟩, ⟨4, 4⟩] Direction.DOWN 3) (by decide) (by decide)).1
    (by decide)

/-- C9, the claim as stated fails: in scenario 2 with an invincible third snake whose
head moves onto (4,5), the two head-on snakes satisfy the premises and die, but the cell
(4,5) of the post-move body of S1 holds no food after the tick. -/
theorem headOn_food_eaten_counterexample :
    (scenarioPlayer "s1" [⟨4, 5⟩, ⟨3, 5⟩] Direction.RIGHT 0 ∈
        headOnGuestManager.gameState.players ∧
      scenarioPlayer "s2" [⟨5, 5⟩, ⟨6, 5⟩] Direction.LEFT 0 ∈
        headOnGuestManager.gameState.players ∧
      nextHeadOf (⟨4, 5⟩ : Point) Direction.RIGHT = ⟨5, 5⟩ ∧
      DirectionUtils.isOpposite Direction.RIGHT Direction.LEFT = true) ∧
    (getPlayer (headOnGuestManager.tick scenarioEnv).gameState.players "s1").map
        (fun q => q.snake.blocks) = some [⟨5, 5⟩, ⟨4, 5⟩] ∧
    (⟨4, 5⟩ : Point) ∉ (headOnGuestManager.tick scenarioEnv).gameState.foods := by
  decide

/-- C9 (amended) on scenario 2 of the specification: both snakes are out of game after
the tick and all four cells of their post-move bodies hold a food or a living head. -/
theorem tick_headOn_both_die_witness :
    (getPlayer (headOnManager.tick scenarioEnv).gameState.players "s1").map Player.inGame =
      some false ∧
    (getPlayer (headOnManager.tick scenarioEnv).gameState.players "s2").map Player.inGame =
      some false ∧
    (headOnManager.tick scenarioEnv).gameState.foods = [⟨5, 5⟩, ⟨4, 5⟩] :=
  have h := tick_headOn_both_die scenarioEnv headOnManager (by decide)
    (scenarioPlayer "s1" [⟨4, 5⟩, ⟨3, 5⟩] Direction.RIGHT 0)
    (scenarioPlayer "s2" [⟨5, 5⟩, ⟨6, 5⟩] Direction.LEFT 0)
    (by decide) (by decide) (by decide) (by decide) (by decide) (by decide) (by decide)
    (by decide) (by decide) (by decide) (by decide) (by decide)
  ⟨h.1, h.2.1, by decide⟩

/-- C10 on scenario 2 after the move: resolving the death of S1 puts a food on both cells
of its body. -/
theorem resolveCollision_drops_body_witness :
    (⟨5, 5⟩ : Point) ∈
      (resolveCollision (buildOccupancyByPlayer headOnMoved.gameState.players) headOnMoved
        ("s1", CollisionType.OTHER_SNAKE)).gameState.foods ∧
    (⟨4, 5⟩ : Point) ∈
      (resolveCollision (buildOccupancyByPlayer headOnMoved.gameState.players) headOnMoved
        ("s1", CollisionType.OTHER_SNAKE)).gameState.foods :=
  have h := (resolveCollision_drops_body (buildOccupancyByPlayer headOnMoved.gameState.players)
    headOnMoved ("s1", CollisionType.OTHER_SNAKE)
    (scenarioPlayer "s1" [⟨5, 5⟩, ⟨4, 5⟩] Direction.RIGHT 0)
    (by decide) (by decide) (by decide)).1
  ⟨h ⟨5, 5⟩ (by decide), h ⟨4, 5⟩ (by decide)⟩

/-! ## Food collection -/

theorem collectFood_append (hasLb : Bool) (round : Int) (pre post : List Player)
    (acc : List Point × List Point × List LbEvent) :
    collectFood hasLb round (pre ++ post) acc =
      ((collectFood hasLb round pre acc).1 ++
          (collectFood hasLb round post (collectFood hasLb round pre acc).2).1,
        (collectFood hasLb round post (collectFood hasLb round pre acc).2).2) := by
  induction pre generalizing acc with
  | nil => simp [collectFood]
  | cons a pre ih =>
    obtain ⟨foods, removed, ev⟩ := acc
    simp only [List.cons_append, collectFood]
    by_cases h : a.inGame = true ∧ hasFoodAt foods a.snake.getHead = true
    · simp only [if_pos h, List.append_eq, ih, List.cons_append]
    · simp only [if_neg h, List.append_eq, ih, List.cons_append]

theorem collectFood_length (hasLb : Bool) (round : Int) (ps : List Player)
    (acc : List Point × List Point × List LbEvent) :
    (collectFood hasLb round ps acc).1.length = ps.length := by
  have := congrArg List.length (collectFood_view hasLb round ps acc)
  simpa using this

theorem collectFood_foods_subset (hasLb : Bool) (round : Int) (ps : List Player)
    (acc : List Point × List Point × List LbEvent) (x : Point)
    (hx : x ∈ (collectFood hasLb round ps acc).2.1) : x ∈ acc.1 := by
  induction ps generalizing acc with
  | nil => exact hx
  | cons a ps ih =>
    obtain ⟨foods, removed, ev⟩ := acc
    simp only [collectFood] at hx
    by_cases h : a.inGame = true ∧ hasFoodAt foods a.snake.getHead = true
    · rw [if_pos h] at hx
      dsimp only at hx
      have := ih _ hx
      simp only [removeFood, List.mem_filter] at this
      exact this.1
    · rw [if_neg h] at hx
      dsimp only at hx
      exact ih _ hx

theorem mem_setInsert_self (p : Point) (l : List Point) : p ∈ setInsert p l :=
  (mem_setInsert p p l).mpr (Or.inr rfl)

theorem collectFood_removed_mono (hasLb : Bool) (round : Int) (ps : List Player)
    (acc : List Point × List Point × List LbEvent) (x : Point)
    (hx : x ∈ acc.2.1) : x ∈ (collectFood hasLb round ps acc).2.2.1 := by
  induction ps generalizing acc with
  | nil => exact hx
  | cons a ps ih =>
    obtain ⟨foods, removed, ev⟩ := acc
    simp only [collectFood]
    by_cases h : a.inGame = true ∧ hasFoodAt foods a.snake.getHead = true
    · rw [if_pos h]
      dsimp only
      exact ih _ ((mem_setInsert _ x removed).mpr (Or.inl hx))
    · rw [if_neg h]
      dsimp only
      exact ih _ hx

/-- A food that leaves the food set during collection is in the removed-foods journal. -/
theorem collectFood_removed_recorded (hasLb : Bool) (round : Int) (ps : List Player)
    (acc : List Point × List Point × List LbEvent) (x : Point) (hx : x ∈ acc.1) :
    x ∈ (collectFood hasLb round ps acc).2.1 ∨ x ∈ (collectFood hasLb round ps acc).2.2.1 := by
  induction ps generalizing acc with
  | nil => exact Or.inl hx
  | cons a ps ih =>
    obtain ⟨foods, removed, ev⟩ := acc
    simp only [collectFood]
    by_cases h : a.inGame = true ∧ hasFoodAt foods a.snake.getHead = true
    · rw [if_pos h]
      dsimp only
      by_cases e : x = a.snake.getHead
      · right
        apply collectFood_removed_mono
        rw [e]
        exact mem_setInsert_self _ _
      · apply ih
        simp only [removeFood, List.mem_filter]
        exact ⟨hx, by simpa using e⟩
    · rw [if_neg h]
      dsimp only
      exact ih _ hx

theorem collectFood_heads_clear (hasLb : Bool) (round : Int) (ps : List Player)
    (acc : List Point × List Point × List LbEvent) :
    ∀ q ∈ (collectFood hasLb round ps acc).1, q.inGame = true →
      q.snake.getHead ∉ (collectFood hasLb round ps acc).2.1 := by
  induction ps generalizing acc with
  | nil =>
    intro q hq
    simp [collectFood] at hq
  | cons a ps ih =>
    obtain ⟨foods, removed, ev⟩ := acc
    intro q hq hin
    simp only [collectFood] at hq ⊢
    by_cases h : a.inGame = true ∧ hasFoodAt foods a.snake.getHead = true
    · rw [if_pos h] at hq ⊢
      dsimp only at hq ⊢
      rcases List.mem_cons.mp hq with e | e
      · intro hmem
        have := collectFood_foods_subset _ _ _ _ _ hmem
        rw [e] at this
        simp [removeFood, Snake.getHead, Snake.grow] at this
      · exact ih _ q e hin
    · rw [if_neg h] at hq ⊢
      dsimp only at hq ⊢
      rcases List.mem_cons.mp hq with e | e
      · intro hmem
        have := collectFood_foods_subset _ _ _ _ _ hmem
        rw [e] at this hin
        apply h
        exact ⟨hin, by simpa [hasFoodAt] using this⟩
      · exact ih _ q e hin

/-- C11: after the food-collection phase no in-game player has a food on its head cell;
the player examined at a given position of the player list grows by exactly one (its
length, the body is unchanged) iff it is in game and its head cell holds a food at that
moment, and is otherwise unchanged; that food is then no longer in the food set and is
recorded in removed_foods; no food is added, and every food that leaves the food set is
recorded in removed_foods. -/
theorem handleFoodCollection_clears_heads (m : GameManager) (pre post : List Player)
    (p : Player) (hsplit : m.gameState.players = pre ++ p :: post) :
    (∀ q ∈ m.handleFoodCollection.gameState.players, q.inGame = true →
      q.snake.getHead ∉ m.handleFoodCollection.gameState.foods) ∧
    m.handleFoodCollection.gameState.players[pre.length]? =
      some (if p.inGame = true ∧ p.snake.getHead ∈
          (collectFood m.hasLeaderboard m.gameState.currentRound pre
            (m.gameState.foods, m.gameState.removedFoods, m.lbEvents)).2.1
        then { p with snake := p.snake.grow } else p) ∧
    (p.snake.grow.length = p.snake.length + 1 ∧ p.snake.grow.blocks = p.snake.blocks) ∧
    (p.inGame = true → p.snake.getHead ∈
        (collectFood m.hasLeaderboard m.gameState.currentRound pre
          (m.gameState.foods, m.gameState.removedFoods, m.lbEvents)).2.1 →
      p.snake.getHead ∉ m.handleFoodCollection.gameState.foods ∧
      p.snake.getHead ∈ m.handleFoodCollection.gameState.removedFoods) ∧
    (∀ x ∈ m.handleFoodCollection.gameState.foods, x ∈ m.gameState.foods) ∧
    (∀ x ∈ m.gameState.foods, x ∈ m.handleFoodCollection.gameState.foods ∨
      x ∈ m.handleFoodCollection.gameState.removedFoods) := by
  unfold GameManager.handleFoodCollection
  dsimp only
  refine ⟨collectFood_heads_clear _ _ _ _, ?_, ⟨rfl, rfl⟩, ?_, ?_, ?_⟩
  · rw [hsplit, collectFood_append]
    dsimp only
    rw [List.getElem?_append_right (by rw [collectFood_length])]
    rw [collectFood_length, Nat.sub_self]
    generalize (collectFood m.hasLeaderboard m.gameState.currentRound pre
      (m.gameState.foods, m.gameState.removedFoods, m.lbEvents)).2 = st
    obtain ⟨foods, removed, ev⟩ := st
    simp only [collectFood]
    by_cases h : p.inGame = true ∧ hasFoodAt foods p.snake.getHead = true
    · have h2 : p.inGame = true ∧ p.snake.getHead ∈ foods := by
        simpa [hasFoodAt] using h
      rw [if_pos h, if_pos h2]
      simp
    · have h2 : ¬ (p.inGame = true ∧ p.snake.getHead ∈ foods) := by
        simpa [hasFoodAt] using h
      rw [if_neg h, if_neg h2]
      simp
  · intro hin hfood
    rw [hsplit, collectFood_append]
    dsimp only
    generalize (collectFood m.hasLeaderboard m.gameState.currentRound pre
      (m.gameState.foods, m.gameState.removedFoods, m.lbEvents)).2 = st at hfood ⊢
    obtain ⟨foods, removed, ev⟩ := st
    have h : p.inGame = true ∧ hasFoodAt foods p.snake.getHead = true :=
      ⟨hin, by simpa [hasFoodAt] using hfood⟩
    simp only [collectFood]
    rw [if_pos h]
    dsimp only
    constructor
    · intro hmem
      have := collectFood_foods_subset _ _ _ _ _ hmem
      simp [removeFood] at this
    · apply collectFood_removed_mono
      exact mem_setInsert_self _ _
  · intro x hx
    exact collectFood_foods_subset _ _ _ _ _ hx
  · intro x hx
    exact collectFood_removed_recorded _ _ _ _ x hx

/-! ## Where the food of a tick comes from -/

theorem mem_setInsert_string (p x : String) (l : List String) :
    x ∈ setInsert p l ↔ x ∈ l ∨ x = p := by
  unfold setInsert
  by_cases h : p ∈ l
  · rw [if_pos h]
    constructor
    · exact Or.inl
    · rintro (h1 | h1)
      · exact h1
      · exact h1 ▸ h
  · rw [if_neg h]
    simp

/-- One resolution step either changes nothing or records the id as died and adds to the
food set nothing but body cells of the player registered under that id. -/
theorem resolveCollision_foods_origin (occ : List (Point × List String)) (m : GameManager)
    (c : String × CollisionType) :
    (∀ i ∈ m.gameState.diedPlayers, i ∈ (resolveCollision occ m c).gameState.diedPlayers) ∧
    (∀ x ∈ (resolveCollision occ m c).gameState.foods, x ∈ m.gameState.foods ∨
      ∃ pl ∈ m.gameState.players, pl.id ∈ (resolveCollision occ m c).gameState.diedPlayers ∧
        x ∈ pl.snake.blocks) := by
  unfold resolveCollision
  cases h : getPlayer m.gameState.players c.1 with
  | none => exact ⟨fun i hi => hi, fun x hx => Or.inl hx⟩
  | some player =>
    obtain ⟨hmem, hid⟩ := getPlayer_some h
    dsimp only
    by_cases h1 : player.inGame = false
    · rw [if_pos h1]
      exact ⟨fun i hi => hi, fun x hx => Or.inl hx⟩
    · rw [if_neg h1]
      unfold GameManager.removeSnakeFromOccupancy
      by_cases h2 : player.snake.alive = false
      · rw [if_pos h2]
        dsimp only
        exact ⟨fun i hi => (mem_setInsert_string _ _ _).mpr (Or.inl hi),
          fun x hx => Or.inl hx⟩
      · rw [if_neg h2]
        dsimp only
        refine ⟨fun i hi => (mem_setInsert_string _ _ _).mpr (Or.inl hi), ?_⟩
        intro x hx
        rcases (mem_createSnakeDeathDrops _ _ _ x).mp hx with hx | hx
        · exact Or.inl hx
        · exact Or.inr ⟨player, hmem,
            (mem_setInsert_string _ _ _).mpr (Or.inr hid), hx⟩

theorem resolveAll_foods_origin (occ : List (Point × List String))
    (cs : List (String × CollisionType)) (m : GameManager)
    (hids : (m.gameState.players.map Player.id).Nodup) :
    (∀ i ∈ m.gameState.diedPlayers, i ∈ (cs.foldl (resolveCollision occ) m).gameState.diedPlayers) ∧
    (∀ x ∈ (cs.foldl (resolveCollision occ) m).gameState.foods, x ∈ m.gameState.foods ∨
      ∃ pl ∈ m.gameState.players,
        pl.id ∈ (cs.foldl (resolveCollision occ) m).gameState.diedPlayers ∧
          x ∈ pl.snake.blocks) := by
  induction cs generalizing m with
  | nil => exact ⟨fun i hi => hi, fun x hx => Or.inl hx⟩
  | cons c cs ih =>
    simp only [List.foldl_cons]
    obtain ⟨hd1, hf1⟩ := resolveCollision_foods_origin occ m c
    obtain ⟨hd2, hf2⟩ := ih (resolveCollision occ m c) (resolveCollision_ids_nodup occ m c hids)
    refine ⟨fun i hi => hd2 i (hd1 i hi), ?_⟩
    intro x hx
    rcases hf2 x hx with h | ⟨pl, hpl, hdied, hxb⟩
    · rcases hf1 x h with h' | ⟨pl, hpl, hdied, hxb⟩
      · exact Or.inl h'
      · exact Or.inr ⟨pl, hpl, hd2 _ hdied, hxb⟩
    · rw [resolveCollision_players occ m c hids] at hpl
      obtain ⟨pl0, hpl0, rfl⟩ := List.mem_map.mp hpl
      refine Or.inr ⟨pl0, hpl0, ?_, ?_⟩
      · have : (if pl0.id = c.1 then pl0.setInGame false else pl0).id = pl0.id := by
          split_ifs <;> rfl
        rw [← this]
        exact hdied
      · have : (if pl0.id = c.1 then pl0.setInGame false else pl0).snake.blocks =
            pl0.snake.blocks := by
          split_ifs <;> rfl
        rw [← this]
        exact hxb

theorem checkCollisions_foods_origin (env : Env) (m : GameManager)
    (hids : (m.gameState.players.map Player.id).Nodup) :
    ∀ x ∈ (m.checkCollisions env).gameState.foods, x ∈ m.gameState.foods ∨
      ∃ pl ∈ m.gameState.players, pl.id ∈ (m.checkCollisions env).gameState.diedPlayers ∧
        x ∈ pl.snake.blocks := by
  unfold GameManager.checkCollisions
  exact (resolveAll_foods_origin _ _ m hids).2

theorem mem_foldl_addFood (news : List Point) (foods : List Point) (x : Point) :
    x ∈ news.foldl addFood foods ↔ x ∈ foods ∨ x ∈ news := by
  induction news generalizing foods with
  | nil => simp
  | cons n news ih =>
    simp only [List.foldl_cons, List.mem_cons]
    rw [ih]
    unfold addFood
    rw [mem_setInsert]
    constructor
    · rintro ((h | h) | h)
      · exact Or.inl h
      · exact Or.inr (Or.inl h)
      · exact Or.inr (Or.inr h)
    · rintro (h | h | h)
      · exact Or.inl (Or.inl h)
      · exact Or.inl (Or.inr h)
      · exact Or.inr h

theorem foldl_cells_eq_flatMap (f : Player → List Point) (l : List Player) (m : CountMap) :
    l.foldl (fun acc p => (f p).foldl CountMap.incr acc) m =
      (l.flatMap f).foldl CountMap.incr m := by
  induction l generalizing m with
  | nil => rfl
  | cons a l ih =>
    simp only [List.foldl_cons, List.flatMap_cons, List.foldl_append]
    exact ih _

/-- A grid cell of the body of an in-game player is a key of `authoritativeOccupied`. -/
theorem authoritativeOccupied_find (env : Env) (ps : List Player) (q : Player)
    (hq : q ∈ ps) (hin : q.inGame = true) (c : Point) (hc : c ∈ q.snake.blocks)
    (hv : isValidPosition env c = true) :
    CountMap.find (authoritativeOccupied env ps) c ≠ none := by
  unfold authoritativeOccupied
  rw [foldl_cells_eq_flatMap (fun p => p.snake.blocks.filter (isValidPosition env))]
  have h := find_foldl_incr_getD
    ((ps.filter (fun p => p.inGame)).flatMap
      (fun p => p.snake.blocks.filter (isValidPosition env))) [] c
  have hmem : c ∈ (ps.filter (fun p => p.inGame)).flatMap
      (fun p => p.snake.blocks.filter (isValidPosition env)) := by
    rw [List.mem_flatMap]
    exact ⟨q, List.mem_filter.mpr ⟨hq, hin⟩, List.mem_filter.mpr ⟨hc, hv⟩⟩
  have hpos := List.count_pos_iff.mpr hmem
  intro hnone
  rw [hnone] at h
  simp only [CountMap.find, Option.getD_none, zero_add] at h
  omega

theorem generateFood_foods_origin (env : Env) (m : GameManager) (x : Point)
    (hx : x ∈ (m.generateFood env).gameState.foods) :
    x ∈ m.gameState.foods ∨
      x ∈ env.generateFoodFast (targetFoodCount env - (m.gameState.foods.length : Int))
        (authoritativeOccupied env m.gameState.players) m.gameState.foods := by
  unfold GameManager.generateFood at hx
  dsimp only at hx
  split_ifs at hx
  · exact (mem_foldl_addFood _ _ x).mp hx
  · exact Or.inl hx

theorem finishTick_players (env : Env) (m : GameManager) :
    (m.finishTick env).gameState.players =
      ((m.checkCollisions env).handleFoodCollection).gameState.players.map ageInvincibility := by
  unfold GameManager.finishTick
  show ((GameManager.generateFood env _).gameState.players.map ageInvincibility) = _
  rw [(generateFood_frame env _).2.2.2]

theorem generateFood_died (env : Env) (m : GameManager) :
    (m.generateFood env).gameState.diedPlayers = m.gameState.diedPlayers := by
  unfold GameManager.generateFood
  dsimp only
  split_ifs <;> rfl

theorem finishTick_died (env : Env) (m : GameManager) :
    (m.finishTick env).gameState.diedPlayers =
      (m.checkCollisions env).gameState.diedPlayers := by
  unfold GameManager.finishTick
  show (GameManager.generateFood env _).gameState.diedPlayers = _
  rw [generateFood_died]
  rfl

theorem ageInvincibility_inGame (p : Player) : (ageInvincibility p).inGame = p.inGame :=
  congrArg (fun v => v.2.1) (ageInvincibility_view p)

theorem ageInvincibility_blocks (p : Player) :
    (ageInvincibility p).snake.blocks = p.snake.blocks :=
  congrArg (fun v => v.2.2) (ageInvincibility_view p)

/-- C12 (amended): after a complete tick no food lies on the head cell of an in-game
snake, and a food on any body cell of an in-game snake was either in the food set before
the tick or is a body cell of a player that died in this tick (a death drop); food
replenishment puts no food on a body, provided it returns only grid cells that are not in
the occupancy map it is given. -/
theorem tick_food_under_body (env : Env) (m : GameManager)
    (hids : (m.gameState.players.map Player.id).Nodup)
    (hgen : ∀ n occ foods c, c ∈ env.generateFoodFast n occ foods →
      isValidPosition env c = true ∧ CountMap.find occ c = none)
    (q : Player) (hq : q ∈ (m.tick env).gameState.players) (hin : q.inGame = true)
    (c : Point) (hc : c ∈ q.snake.blocks) (hfood : c ∈ (m.tick env).gameState.foods) :
    c ≠ q.snake.getHead ∧
    (c ∈ m.gameState.foods ∨
      ∃ d ∈ (m.tick env).gameState.players,
        d.id ∈ (m.tick env).gameState.diedPlayers ∧ c ∈ d.snake.blocks) := by
  have hids2 := moved_ids_nodup m hids
  rw [tick_eq_finishTick] at hq hfood ⊢
  generalize hmc : m.swapMoves.clearDelta.processMovements = mc at hq hfood hids2 ⊢
  have hfoods0 : mc.gameState.foods = m.gameState.foods := by
    rw [← hmc]
    rfl
  rw [finishTick_players] at hq
  obtain ⟨q1, hq1, rfl⟩ := List.mem_map.mp hq
  rw [ageInvincibility_inGame] at hin
  rw [ageInvincibility_blocks] at hc
  have hhead : (ageInvincibility q1).snake.getHead = q1.snake.getHead := by
    unfold Snake.getHead
    rw [ageInvincibility_blocks]
  rw [hhead]
  rw [finishTick_foods] at hfood
  have hcoll : c ∈ ((mc.checkCollisions env).handleFoodCollection).gameState.foods := by
    rcases generateFood_foods_origin env _ c hfood with h | h
    · exact h
    · obtain ⟨hv, hnone⟩ := hgen _ _ _ _ h
      exact absurd hnone (authoritativeOccupied_find env _ q1 hq1 hin c hc hv)
  constructor
  · intro e
    have := collectFood_heads_clear (mc.checkCollisions env).hasLeaderboard
      (mc.checkCollisions env).gameState.currentRound (mc.checkCollisions env).gameState.players
      ((mc.checkCollisions env).gameState.foods, (mc.checkCollisions env).gameState.removedFoods,
        (mc.checkCollisions env).lbEvents) q1 hq1 hin
    rw [← e] at this
    exact this hcoll
  · have hcc : c ∈ (mc.checkCollisions env).gameState.foods :=
      collectFood_foods_subset _ _ _ _ c hcoll
    rcases checkCollisions_foods_origin env mc hids2 c hcc with h | ⟨pl, hpl, hdied, hcb⟩
    · left
      rw [← hfoods0]
      exact h
    · right
      have hv : (if specDies env mc pl = true then pl.setInGame false else pl).view ∈
          (mc.finishTick env).gameState.players.map Player.view := by
        rw [finishTick_view, checkCollisions_players env mc hids2, List.map_map]
        exact List.mem_map.mpr ⟨pl, hpl, rfl⟩
      obtain ⟨d, hd, hdv⟩ := List.mem_map.mp hv
      have h1 : d.id = pl.id := by
        have := congrArg (fun v => v.1) hdv
        simp only [Player.view] at this
        rw [this]
        split_ifs <;> rfl
      have h2 : d.snake.blocks = pl.snake.blocks := by
        have := congrArg (fun v => v.2.2) hdv
        simp only [Player.view] at this
        rw [this]
        split_ifs <;> rfl
      refine ⟨d, hd, ?_, ?_⟩
      · rw [finishTick_died, h1]
        exact hdied
      · rw [h2]
        exact hcb

/-- C12, the claim as stated fails: S1 runs into the side of S2 and dies; its head cell
(5,5) becomes a food while it is a body cell of S2, which is still in game after the
tick. -/
theorem food_under_body_counterexample :
    (getPlayer (sideHitManager.tick scenarioEnv).gameState.players "s2").map Player.view =
      some ("s2", true, [⟨5, 4⟩, ⟨5, 5⟩, ⟨5, 6⟩]) ∧
    (⟨5, 5⟩ : Point) ∈ (sideHitManager.tick scenarioEnv).gameState.foods := by
  decide

/-! ## Invincibility ageing -/

/-- C14: the invincibility-ageing phase maps the remaining invincibility k of an in-game
player to k - 1 when k > 0 and leaves it unchanged (at 0) when k = 0; the invincibility
of an out-of-game player is unchanged; nothing else of any player and nothing else of the
manager changes; hence invincibility that is non-negative before the phase is
non-negative after it. -/
theorem updateInvincibility_ages (m : GameManager) :
    m.updateInvincibility.gameState.players =
      m.gameState.players.map (fun p =>
        { p with snake := { p.snake with invincibleRounds :=
            if p.inGame = true ∧ 0 < p.snake.invincibleRounds then p.snake.invincibleRounds - 1
            else p.snake.invincibleRounds } }) ∧
    (∀ p : Player, p.inGame = true → 0 < p.snake.invincibleRounds →
      (ageInvincibility p).snake.invincibleRounds = p.snake.invincibleRounds - 1) ∧
    (∀ p : Player, p.inGame = true → p.snake.invincibleRounds = 0 →
      (ageInvincibility p).snake.invincibleRounds = 0) ∧
    (∀ p : Player, p.inGame = false → ageInvincibility p = p) ∧
    ((∀ p ∈ m.gameState.players, 0 ≤ p.snake.invincibleRounds) →
      ∀ q ∈ m.updateInvincibility.gameState.players, 0 ≤ q.snake.invincibleRounds) ∧
    m.updateInvincibility.gameState.foods = m.gameState.foods ∧
    m.updateInvincibility.gameState.currentRound = m.gameState.currentRound ∧
    m.updateInvincibility.occupiedCounts = m.occupiedCounts := by
  refine ⟨?_, ?_, ?_, ?_, ?_, rfl, rfl, rfl⟩
  · unfold GameManager.updateInvincibility
    dsimp only
    apply List.map_congr_left
    intro p _
    unfold ageInvincibility
    split_ifs <;> rfl
  · intro p hin hk
    unfold ageInvincibility
    rw [if_pos ⟨hin, hk⟩]
  · intro p hin hk
    unfold ageInvincibility
    rw [if_neg (by rw [hk]; simp)]
    exact hk
  · intro p hout
    unfold ageInvincibility
    rw [if_neg (by simp [hout])]
  · intro hall q hq
    unfold GameManager.updateInvincibility at hq
    dsimp only at hq
    obtain ⟨p, hp, rfl⟩ := List.mem_map.mp hq
    have := hall p hp
    unfold ageInvincibility
    split_ifs with h
    · dsimp only
      omega
    · exact this

/-! ## Clock synchronisation of the client -/

theorem tdiv_pos_cases (a b : Int) (hb : 0 < b) :
    (0 ≤ a ∧ a.tdiv b = a / b) ∨ (a < 0 ∧ a.tdiv b = -((-a) / b)) := by
  by_cases h : 0 ≤ a
  · exact Or.inl ⟨h, Int.tdiv_eq_ediv h (le_of_lt hb)⟩
  · right
    refine ⟨by omega, ?_⟩
    have h1 : (-a).tdiv b = (-a) / b := Int.tdiv_eq_ediv (by omega) (le_of_lt hb)
    rw [Int.neg_tdiv] at h1
    omega

theorem wrapInt32_of_small (z : Int) (h0 : 0 ≤ z) (h1 : z < 2147483648) : wrapInt32 z = z := by
  unfold wrapInt32
  omega

/-- The weighted mean computed with the truncating division is the exact weighted mean
rounded toward zero: it differs from it by less than one. -/
theorem weighted_mean_trunc (o s w : Int) :
    |((Int.tdiv (o * w + s * (100 - w)) 100 : Int) : ℚ) -
      ((w : ℚ) / 100 * o + ((100 - w : Int) : ℚ) / 100 * s)| < 1 := by
  have hq : ((w : ℚ) / 100 * o + ((100 - w : Int) : ℚ) / 100 * s) =
      ((o * w + s * (100 - w) : Int) : ℚ) / 100 := by
    push_cast
    ring
  rw [hq]
  generalize o * w + s * (100 - w) = t
  rw [abs_lt]
  rcases tdiv_pos_cases t 100 (by norm_num) with ⟨h0, h⟩ | ⟨h0, h⟩
  · rw [h]
    have h1 : 100 * (t / 100) ≤ t := by omega
    have h2 : t < 100 * (t / 100) + 100 := by omega
    have h1q : (100 : ℚ) * ((t / 100 : Int) : ℚ) ≤ (t : ℚ) := by exact_mod_cast h1
    have h2q : (t : ℚ) < 100 * ((t / 100 : Int) : ℚ) + 100 := by exact_mod_cast h2
    constructor <;> linarith
  · rw [h]
    have h1 : t ≤ 100 * (-((-t) / 100)) := by omega
    have h2 : 100 * (-((-t) / 100)) - 100 < t := by omega
    have h1q : (t : ℚ) ≤ 100 * ((-((-t) / 100) : Int) : ℚ) := by exact_mod_cast h1
    have h2q : (100 : ℚ) * ((-((-t) / 100) : Int) : ℚ) - 100 < (t : ℚ) := by exact_mod_cast h2
    constructor <;> linarith

/-- C16 (amended): for an accepted sample (server timestamp > 0, response not before the
request, round-trip time below 2^31 ms) with RTT = t_resp_recv - t_req_start and
sample = t_s - (t_req_start + RTT/2), the halving rounded down: with no prior estimate the
offset becomes the sample and best RTT becomes RTT; otherwise, if RTT < best RTT, best RTT
becomes RTT and the offset becomes (60 offset + 40 sample)/100 with the integer division
truncating toward zero, which is 0.60 offset + 0.40 sample to within less than one
millisecond; otherwise best RTT is unchanged and the offset becomes
(85 offset + 15 sample)/100, likewise truncated. -/
theorem updateClockOffset_rule (c : CodingSnake) (ts start recv : Int)
    (hts : 0 < ts) (hle : start ≤ recv) (hrtt : recv - start < 2147483648) :
    (c.has_clock_sync = false →
      c.updateClockOffset ts start recv =
        { c with server_clock_offset_ms := ts - (start + (recv - start) / 2),
                 has_clock_sync := true, best_clock_sync_rtt_ms := recv - start }) ∧
    (c.has_clock_sync = true → recv - start < c.best_clock_sync_rtt_ms →
      c.updateClockOffset ts start recv =
        { c with best_clock_sync_rtt_ms := recv - start,
                 server_clock_offset_ms :=
                   Int.tdiv (c.server_clock_offset_ms * 60 +
                     (ts - (start + (recv - start) / 2)) * 40) 100 } ∧
      |(((c.updateClockOffset ts start recv).server_clock_offset_ms : Int) : ℚ) -
        (0.60 * (c.server_clock_offset_ms : ℚ) +
          0.40 * ((ts - (start + (recv - start) / 2) : Int) : ℚ))| < 1) ∧
    (c.has_clock_sync = true → ¬ recv - start < c.best_clock_sync_rtt_ms →
      c.updateClockOffset ts start recv =
        { c with server_clock_offset_ms :=
                   Int.tdiv (c.server_clock_offset_ms * 85 +
                     (ts - (start + (recv - start) / 2)) * 15) 100 } ∧
      |(((c.updateClockOffset ts start recv).server_clock_offset_ms : Int) : ℚ) -
        (0.85 * (c.server_clock_offset_ms : ℚ) +
          0.15 * ((ts - (start + (recv - start) / 2) : Int) : ℚ))| < 1) := by
  have hacc : ¬ (ts ≤ 0 ∨ recv < start) := by omega
  have hw : wrapInt32 (recv - start) = recv - start :=
    wrapInt32_of_small _ (by omega) hrtt
  have hhalf : Int.tdiv (recv - start) 2 = (recv - start) / 2 :=
    Int.tdiv_eq_ediv (by omega) (by norm_num)
  refine ⟨?_, ?_, ?_⟩
  · intro hno
    unfold CodingSnake.updateClockOffset
    rw [if_neg hacc]
    simp only [hw, hhalf, hno, if_true]
  · intro hyes hlt
    have heq : c.updateClockOffset ts start recv =
        { c with best_clock_sync_rtt_ms := recv - start,
                 server_clock_offset_ms :=
                   Int.tdiv (c.server_clock_offset_ms * 60 +
                     (ts - (start + (recv - start) / 2)) * 40) 100 } := by
      unfold CodingSnake.updateClockOffset
      rw [if_neg hacc]
      simp only [hw, hhalf, hyes, Bool.true_eq_false, if_false, hlt, if_true]
    refine ⟨heq, ?_⟩
    rw [heq]
    have := weighted_mean_trunc c.server_clock_offset_ms
      (ts - (start + (recv - start) / 2)) 60
    norm_num at this ⊢
    convert this using 2
  · intro hyes hge
    have heq : c.updateClockOffset ts start recv =
        { c with server_clock_offset_ms :=
                   Int.tdiv (c.server_clock_offset_ms * 85 +
                     (ts - (start + (recv - start) / 2)) * 15) 100 } := by
      unfold CodingSnake.updateClockOffset
      rw [if_neg hacc]
      simp only [hw, hhalf, hyes, Bool.true_eq_false, if_false, hge]
    refine ⟨heq, ?_⟩
    rw [heq]
    have := weighted_mean_trunc c.server_clock_offset_ms
      (ts - (start + (recv - start) / 2)) 85
    norm_num at this ⊢
    convert this using 2

/-- C16, the claim as stated fails: with offset 1 and a sample of offset 0 whose RTT beats
the best RTT, the new offset is 0, not 0.60 * 1 + 0.40 * 0. -/
theorem updateClockOffset_truncates_counterexample :
    (100 : Int) - (100 + (100 - 100) / 2) = 0 ∧
    (100 : Int) - 100 < syncedClient.best_clock_sync_rtt_ms ∧
    (((syncedClient.updateClockOffset 100 100 100).server_clock_offset_ms : Int) : ℚ) ≠
      0.60 * ((syncedClient.server_clock_offset_ms : Int) : ℚ) + 0.40 * ((0 : Int) : ℚ) := by
  have h : (syncedClient.updateClockOffset 100 100 100).server_clock_offset_ms = 0 := by
    decide
  have h2 : syncedClient.server_clock_offset_ms = 1 := rfl
  refine ⟨by decide, by decide, ?_⟩
  rw [h, h2]
  norm_num

/-- C16 (amended) on the estimator with offset 1 and best RTT 10: a sample with server
timestamp 1007 taken between local times 1000 and 1004 has RTT 4 and offset 5, and the
new offset is (60 * 1 + 40 * 5) / 100 = 2. -/
theorem updateClockOffset_rule_witness :
    syncedClient.updateClockOffset 1007 1000 1004 =
      { syncedClient with best_clock_sync_rtt_ms := 4, server_clock_offset_ms := 2 } :=
  ((updateClockOffset_rule syncedClient 1007 1000 1004 (by decide) (by decide)
    (by decide)).2.1 rfl (by decide)).1.trans (by decide)

theorem abs_tdiv_weighted_le (o s w B : Int) (hw0 : 0 ≤ w) (hw1 : w ≤ 100)
    (ho : |o| ≤ B) (hs : |s| ≤ B) : |Int.tdiv (o * w + s * (100 - w)) 100| ≤ B := by
  rw [abs_le] at ho hs ⊢
  have h1 : o * w ≤ B * w := Int.mul_le_mul_of_nonneg_right ho.2 hw0
  have h2 : -B * w ≤ o * w := by
    have := Int.mul_le_mul_of_nonneg_right ho.1 hw0
    simpa using this
  have h3 : s * (100 - w) ≤ B * (100 - w) :=
    Int.mul_le_mul_of_nonneg_right hs.2 (by omega)
  have h4 : -B * (100 - w) ≤ s * (100 - w) := by
    have := Int.mul_le_mul_of_nonneg_right hs.1 (by omega : (0 : Int) ≤ 100 - w)
    simpa using this
  have h5 : o * w + s * (100 - w) ≤ 100 * B := by nlinarith
  have h6 : -(100 * B) ≤ o * w + s * (100 - w) := by nlinarith
  generalize o * w + s * (100 - w) = t at h5 h6 ⊢
  rcases tdiv_pos_cases t 100 (by norm_num) with ⟨h0, h⟩ | ⟨h0, h⟩
  · rw [h]
    omega
  · rw [h]
    omega

/-- One update keeps the estimate within a bound that covers the sample. -/
theorem updateClockOffset_bound (c : CodingSnake) (ts start recv B : Int)
    (hzero : start ≤ ts ∧ ts ≤ recv) (hB : (recv - start + 1) / 2 ≤ B)
    (hc : |c.server_clock_offset_ms| ≤ B) :
    |(c.updateClockOffset ts start recv).server_clock_offset_ms| ≤ B := by
  unfold CodingSnake.updateClockOffset
  by_cases hacc : ts ≤ 0 ∨ recv < start
  · rw [if_pos hacc]
    exact hc
  · rw [if_neg hacc]
    have hhalf : Int.tdiv (recv - start) 2 = (recv - start) / 2 :=
      Int.tdiv_eq_ediv (by omega) (by norm_num)
    have hs : |ts - (start + Int.tdiv (recv - start) 2)| ≤ B := by
      rw [hhalf, abs_le]
      omega
    dsimp only
    split_ifs
    · exact hs
    · have := abs_tdiv_weighted_le c.server_clock_offset_ms
        (ts - (start + Int.tdiv (recv - start) 2)) 60 B (by norm_num) (by norm_num) hc hs
      simpa using this
    · have := abs_tdiv_weighted_le c.server_clock_offset_ms
        (ts - (start + Int.tdiv (recv - start) 2)) 85 B (by norm_num) (by norm_num) hc hs
      simpa using this

theorem applySamples_bound (samples : List ClockSample) (c : CodingSnake) (B : Int)
    (hzero : ∀ s ∈ samples, s.request_start_ms ≤ s.server_timestamp_ms ∧
      s.server_timestamp_ms ≤ s.response_recv_ms)
    (hB : ∀ s ∈ samples, (s.response_recv_ms - s.request_start_ms + 1) / 2 ≤ B)
    (hc : |c.server_clock_offset_ms| ≤ B) :
    |(c.applySamples samples).server_clock_offset_ms| ≤ B := by
  induction samples generalizing c with
  | nil => exact hc
  | cons s rest ih =>
    unfold CodingSnake.applySamples at ih ⊢
    simp only [List.foldl_cons]
    apply ih
    · exact fun t ht => hzero t (List.mem_cons_of_mem _ ht)
    · exact fun t ht => hB t (List.mem_cons_of_mem _ ht)
    · exact updateClockOffset_bound c _ _ _ B (hzero s (List.mem_cons_self _ _))
        (hB s (List.mem_cons_self _ _)) hc

theorem foldl_max_ge_init (samples : List ClockSample) (a : Int) :
    a ≤ samples.foldl (fun acc s => max acc (s.response_recv_ms - s.request_start_ms)) a := by
  induction samples generalizing a with
  | nil => exact le_refl a
  | cons s rest ih =>
    simp only [List.foldl_cons]
    exact le_trans (le_max_left _ _) (ih _)

theorem rtt_le_maxRtt (samples : List ClockSample) (a : Int) (s : ClockSample)
    (hs : s ∈ samples) :
    s.response_recv_ms - s.request_start_ms ≤
      samples.foldl (fun acc t => max acc (t.response_recv_ms - t.request_start_ms)) a := by
  induction samples generalizing a with
  | nil => cases hs
  | cons t rest ih =>
    simp only [List.foldl_cons]
    rcases List.mem_cons.mp hs with e | e
    · subst e
      exact le_trans (le_max_right _ _) (foldl_max_ge_init rest _)
    · exact ih _ e

/-- C17 (amended): for every sequence of samples with zero true offset (each server
timestamp lies between the local request-start and response-receive times), fed to a
fresh estimator, the absolute value of the offset estimate after the last update is at most
max(RTT)/2 rounded up, where max(RTT) is the largest RTT among the samples seen. -/
theorem clock_offset_bounded (samples : List ClockSample)
    (hzero : ∀ s ∈ samples, s.request_start_ms ≤ s.server_timestamp_ms ∧
      s.server_timestamp_ms ≤ s.response_recv_ms) :
    |(CodingSnake.create.applySamples samples).server_clock_offset_ms| ≤
      (maxRtt samples + 1) / 2 := by
  apply applySamples_bound samples CodingSnake.create _ hzero
  · intro s hs
    have h1 := rtt_le_maxRtt samples 0 s hs
    have h2 : s.response_recv_ms - s.request_start_ms ≤ maxRtt samples := h1
    omega
  · have h0 : (0 : Int) ≤ maxRtt samples := foldl_max_ge_init samples 0
    have : CodingSnake.create.server_clock_offset_ms = 0 := rfl
    rw [this]
    simp only [abs_zero]
    omega

/-- C17, the claim as stated fails: one sample with zero true offset and RTT 1 (request
at 10, response at 11, server timestamp 11) gives the offset 1, more than max(RTT)/2. -/
theorem clock_offset_half_counterexample :
    ((10 : Int) ≤ 11 ∧ (11 : Int) ≤ 11) ∧
    maxRtt [{ server_timestamp_ms := 11, request_start_ms := 10, response_recv_ms := 11 }] = 1 ∧
    ¬ (|(((CodingSnake.create.applySamples
          [{ server_timestamp_ms := 11, request_start_ms := 10, response_recv_ms := 11 }]
          ).server_clock_offset_ms : Int) : ℚ)| ≤ (1 : ℚ) / 2) := by
  have h : (CodingSnake.create.applySamples
      [{ server_timestamp_ms := 11, request_start_ms := 10, response_recv_ms := 11 }]
      ).server_clock_offset_ms = 1 := by decide
  refine ⟨by decide, by decide, ?_⟩
  rw [h]
  norm_num

/-- C17 (amended) on two samples with zero true offset and RTTs 4 and 1: the estimate
stays within (4 + 1) / 2 = 2. -/
theorem clock_offset_bounded_witness :
    |(CodingSnake.create.applySamples
        [{ server_timestamp_ms := 1003, request_start_ms := 1000, response_recv_ms := 1004 },
         { server_timestamp_ms := 2001, request_start_ms := 2000, response_recv_ms := 2001 }]
        ).server_clock_offset_ms| ≤ 2 :=
  clock_offset_bounded _ (by decide)

/-! ## The request surface -/

/-- C18: `buildResponse` maps the envelope code to the HTTP status: 0 gives 200, a code
from 400 to 599 gives the same code, any other code gives 500, and an envelope without a
code field gives 200; the body is the envelope unchanged. -/
theorem buildResponse_status {α : Type} (e : Envelope α) :
    (RouteHandler.buildResponse e).body = e ∧
    (e.code = some 0 → (RouteHandler.buildResponse e).code = 200) ∧
    (∀ k, e.code = some k → 400 ≤ k → k ≤ 599 → (RouteHandler.buildResponse e).code = k) ∧
    (∀ k, e.code = some k → k ≠ 0 → ¬ (400 ≤ k ∧ k ≤ 599) →
      (RouteHandler.buildResponse e).code = 500) ∧
    (e.code = none → (RouteHandler.buildResponse e).code = 200) := by
  refine ⟨rfl, ?_, ?_, ?_, ?_⟩
  · intro h
    simp [RouteHandler.buildResponse, h]
  · intro k h h1 h2
    have h3 : k ≠ 0 := by omega
    have h4 : 400 ≤ k ∧ k < 600 := by omega
    simp [RouteHandler.buildResponse, h, h3, h4]
  · intro k h h1 h2
    have h4 : ¬ (400 ≤ k ∧ k < 600) := by omega
    simp only [RouteHandler.buildResponse, h, if_neg h1, if_neg h4]
  · intro h
    simp [RouteHandler.buildResponse, h]

theorem fromString_ne_empty (str : String) (d : Direction)
    (h : DirectionUtils.fromString str = some d) : str ≠ "" := by
  intro e
  rw [e] at h
  have h0 : DirectionUtils.fromString "" = none := by decide
  rw [h0] at h
  exact Option.noConfusion h

/-- A well-formed move request of a registered player is answered by the outcome of
`submitMove`. -/
theorem handleMove_wellFormed (pm : PlayerManager) (gm : GameManager)
    (token ds pid : String) (d : Direction) (player : Player)
    (htok : token ≠ "") (hval : pm.validateToken token = some pid)
    (hpl : pm.getPlayerById pid = some player)
    (hd : DirectionUtils.fromString ds = some d) (hn : d ≠ Direction.NONE) :
    RouteHandler.handleMove pm gm (some { token := some token, direction := some ds }) =
      if (gm.submitMove pid d).1 = false then
        (RouteHandler.buildResponse
          (ResponseBuilder.tooManyRequests "move already submitted this round" 0),
          (gm.submitMove pid d).2)
      else (RouteHandler.buildResponse ResponseBuilder.success, (gm.submitMove pid d).2) := by
  have hds := fromString_ne_empty ds d hd
  unfold RouteHandler.handleMove
  simp only [if_neg htok, if_neg hds, hval, hpl, hd, if_neg hn]

/-- C19: of two well-formed move requests carrying the same valid token of a registered
player, with no tick in between and no command buffered for the player before, the first
is answered with code 0 (HTTP 200) and the second with code 429 (HTTP 429) and
retry_after = 0; the second changes nothing and the buffered command is the direction of
the first request. -/
theorem handleMove_duplicate (pm : PlayerManager) (gm : GameManager)
    (token ds1 ds2 pid : String) (d1 d2 : Direction) (player : Player)
    (htok : token ≠ "") (hval : pm.validateToken token = some pid)
    (hpl : pm.getPlayerById pid = some player)
    (hd1 : DirectionUtils.fromString ds1 = some d1) (hn1 : d1 ≠ Direction.NONE)
    (hd2 : DirectionUtils.fromString ds2 = some d2) (hn2 : d2 ≠ Direction.NONE)
    (hfree : findMove gm.currentMoves pid = none) :
    (RouteHandler.handleMove pm gm
        (some { token := some token, direction := some ds1 })).1.body.code = some 0 ∧
    (RouteHandler.handleMove pm gm
        (some { token := some token, direction := some ds1 })).1.code = 200 ∧
    (RouteHandler.handleMove pm
        (RouteHandler.handleMove pm gm
          (some { token := some token, direction := some ds1 })).2
        (some { token := some token, direction := some ds2 })).1.body.code = some 429 ∧
    (RouteHandler.handleMove pm
        (RouteHandler.handleMove pm gm
          (some { token := some token, direction := some ds1 })).2
        (some { token := some token, direction := some ds2 })).1.code = 429 ∧
    (RouteHandler.handleMove pm
        (RouteHandler.handleMove pm gm
          (some { token := some token, direction := some ds1 })).2
        (some { token := some token, direction := some ds2 })).1.body.data =
      [("retry_after", 0)] ∧
    (RouteHandler.handleMove pm
        (RouteHandler.handleMove pm gm
          (some { token := some token, direction := some ds1 })).2
        (some { token := some token, direction := some ds2 })).2 =
      (RouteHandler.handleMove pm gm
        (some { token := some token, direction := some ds1 })).2 ∧
    findMove
      (RouteHandler.handleMove pm
        (RouteHandler.handleMove pm gm
          (some { token := some token, direction := some ds1 })).2
        (some { token := some token, direction := some ds2 })).2.currentMoves pid = some d1 := by
  have hs1 : gm.submitMove pid d1 =
      (true, { gm with currentMoves := gm.currentMoves ++ [(pid, d1)] }) := by
    simp [GameManager.submitMove, hfree]
  have hf2 := findMove_append_self gm.currentMoves pid d1 hfree
  have hs2 : ({ gm with currentMoves := gm.currentMoves ++ [(pid, d1)] } :
      GameManager).submitMove pid d2 =
      (false, { gm with currentMoves := gm.currentMoves ++ [(pid, d1)] }) := by
    simp [GameManager.submitMove, hf2]
  have h1 := handleMove_wellFormed pm gm token ds1 pid d1 player htok hval hpl hd1 hn1
  rw [hs1] at h1
  simp only [Bool.true_eq_false, if_false] at h1
  have h2 := handleMove_wellFormed pm
    ({ gm with currentMoves := gm.currentMoves ++ [(pid, d1)] } : GameManager)
    token ds2 pid d2 player htok hval hpl hd2 hn2
  rw [hs2] at h2
  simp only [if_true] at h2
  rw [h1]
  dsimp only
  rw [h2]
  exact ⟨rfl, rfl, rfl, rfl, rfl, rfl, hf2⟩

/-- C19 on scenario 4 before the tick: two requests with token "t1", "down" then "up". -/
theorem handleMove_duplicate_witness :
    (RouteHandler.handleMove liveRegistry (scenarioManager liveRegistry.players [])
        (some { token := some "t1", direction := some "down" })).1.code = 200 ∧
    (RouteHandler.handleMove liveRegistry
        (RouteHandler.handleMove liveRegistry (scenarioManager liveRegistry.players [])
          (some { token := some "t1", direction := some "down" })).2
        (some { token := some "t1", direction := some "up" })).1.code = 429 ∧
    findMove
      (RouteHandler.handleMove liveRegistry
        (RouteHandler.handleMove liveRegistry (scenarioManager liveRegistry.players [])
          (some { token := some "t1", direction := some "down" })).2
        (some { token := some "t1", direction := some "up" })).2.currentMoves "s1" =
      some Direction.DOWN :=
  have h := handleMove_duplicate liveRegistry (scenarioManager liveRegistry.players [])
    "t1" "down" "up" "s1" Direction.DOWN Direction.UP
    (scenarioPlayer "s1" [⟨5, 5⟩, ⟨5, 6⟩, ⟨5, 7⟩, ⟨4, 7⟩] Direction.RIGHT 0)
    (by decide) (by decide) (by decide) (by decide) (by decide) (by decide) (by decide)
    (by decide)
  ⟨h.2.1, h.2.2.2.1, h.2.2.2.2.2.2⟩

/-- C20, the code at the failing input: after the tick of scenario 4 the player "s1" is
out of game, in the game state and in the session registry; a move request with its
token is answered with code 0 (HTTP 200), not 404, and the command is put into the
command buffer. -/
theorem handleMove_dead_player_accepted :
    (getPlayer (uTurnManager.tick scenarioEnv).gameState.players "s1").map Player.inGame =
      some false ∧
    (deadPlayerRegistry.getPlayerById "s1").map Player.inGame = some false ∧
    deadPlayerRegistry.validateToken "t1" = some "s1" ∧
    (RouteHandler.handleMove deadPlayerRegistry (uTurnManager.tick scenarioEnv)
        (some { token := some "t1", direction := some "up" })).1.body.code = some 0 ∧
    (RouteHandler.handleMove deadPlayerRegistry (uTurnManager.tick scenarioEnv)
        (some { token := some "t1", direction := some "up" })).1.code = 200 ∧
    (RouteHandler.handleMove deadPlayerRegistry (uTurnManager.tick scenarioEnv)
        (some { token := some "t1", direction := some "up" })).2.currentMoves =
      [("s1", Direction.UP)] := by
  decide

/-! ## The delta journal against the full snapshot -/

/-- C15, the code at three failing inputs.  (1) Player "s9" joins between two ticks: the
journal is cleared at the start of the next tick, the delta published for that round has
no joined player, and the client that applies it does not know "s9", which a fresh
snapshot lists.  (2) In the head-on scenario with an invincible third snake the cell
(4,5) is in both added_foods and removed_foods; the client removes first and adds
afterwards and keeps a food on (4,5) that a fresh snapshot does not have.  (3) A snake
that eats keeps its old tail cell in the block list of the client, one cell more than in
a fresh snapshot. -/
theorem delta_round_trip_fails :
    ((joinedManager.tick scenarioEnv).gameState.toDeltaJson 0 0).joined_players = some [] ∧
    (clientViaDelta (apartManager.tick scenarioEnv).gameState
        (joinedManager.tick scenarioEnv).gameState).state.players.map ClientSnake.id =
      ["s1", "s2"] ∧
    (clientViaFull (apartManager.tick scenarioEnv).gameState
        (joinedManager.tick scenarioEnv).gameState).state.players.map ClientSnake.id =
      ["s1", "s2", "s9"] ∧
    (clientViaDelta headOnGuestManager.gameState
        (headOnGuestManager.tick scenarioEnv).gameState).state.foods = [⟨5, 5⟩, ⟨4, 5⟩] ∧
    (clientViaFull headOnGuestManager.gameState
        (headOnGuestManager.tick scenarioEnv).gameState).state.foods = [⟨5, 5⟩] ∧
    ((clientViaDelta eatManager.gameState
        (eatManager.tick scenarioEnv).gameState).state.findPlayerById "s1").map
        ClientSnake.blocks = some [⟨6, 5⟩, ⟨5, 5⟩, ⟨4, 5⟩, ⟨3, 5⟩] ∧
    ((clientViaFull eatManager.gameState
        (eatManager.tick scenarioEnv).gameState).state.findPlayerById "s1").map
        ClientSnake.blocks = some [⟨6, 5⟩, ⟨5, 5⟩, ⟨4, 5⟩] := by
  decide

/-! ## Reference-count maps -/

theorem find_none_of_not_key (m : CountMap) (c : Point) (h : c ∉ m.map Prod.fst) :
    CountMap.find m c = none := by
  induction m with
  | nil => rfl
  | cons e m ih =>
    obtain ⟨q, k⟩ := e
    simp only [List.map_cons, List.mem_cons, not_or] at h
    simp only [CountMap.find]
    rw [if_neg (fun e => h.1 e.symm)]
    exact ih h.2

theorem incr_keys (m : CountMap) (p : Point) :
    (CountMap.incr m p).map Prod.fst =
      if p ∈ m.map Prod.fst then m.map Prod.fst else m.map Prod.fst ++ [p] := by
  induction m with
  | nil => simp [CountMap.incr]
  | cons e m ih =>
    obtain ⟨q, k⟩ := e
    simp only [CountMap.incr]
    by_cases h : q = p
    · subst h
      simp
    · rw [if_neg h]
      simp only [List.map_cons, List.mem_cons, ih]
      have hpq : ¬ p = q := fun e => h e.symm
      by_cases h2 : p ∈ m.map Prod.fst
      · simp [h2]
      · simp [h2, hpq]

theorem incr_WF (m : CountMap) (p : Point) (h : CountMap.WF m) :
    CountMap.WF (CountMap.incr m p) := by
  obtain ⟨hk, hv⟩ := h
  constructor
  · rw [incr_keys]
    split_ifs with hp
    · exact hk
    · rw [List.nodup_append]
      refine ⟨hk, List.nodup_singleton p, ?_⟩
      intro a ha hb
      rw [List.mem_singleton] at hb
      exact hp (hb ▸ ha)
  · clear hk
    induction m with
    | nil =>
      intro e he
      simp only [CountMap.incr, List.mem_singleton] at he
      rw [he]
      exact Int.one_pos
    | cons e0 m ih =>
      obtain ⟨q, k⟩ := e0
      intro e he
      simp only [CountMap.incr] at he
      have hk0 : 0 < k := hv (q, k) (List.mem_cons_self _ _)
      have hv' : ∀ e ∈ m, 0 < e.2 := fun e he => hv e (List.mem_cons_of_mem _ he)
      split_ifs at he
      · rcases List.mem_cons.mp he with h | h
        · rw [h]
          show 0 < k + 1
          omega
        · exact hv' e h
      · rcases List.mem_cons.mp he with h | h
        · rw [h]
          exact hk0
        · exact ih hv' e h

theorem foldl_incr_WF (cells : List Point) (m : CountMap) (h : CountMap.WF m) :
    CountMap.WF (cells.foldl CountMap.incr m) := by
  induction cells generalizing m with
  | nil => exact h
  | cons c cells ih => exact ih _ (incr_WF m c h)

theorem decr_keys_sublist (m : CountMap) (p : Point) :
    ((CountMap.decr m p).map Prod.fst).Sublist (m.map Prod.fst) := by
  induction m with
  | nil => exact List.Sublist.refl _
  | cons e m ih =>
    obtain ⟨q, k⟩ := e
    simp only [CountMap.decr]
    split_ifs
    · exact List.sublist_cons_self _ _
    · exact List.Sublist.refl _
    · simp only [List.map_cons]
      exact ih.cons₂ _

theorem decr_WF (m : CountMap) (p : Point) (h : CountMap.WF m) :
    CountMap.WF (CountMap.decr m p) := by
  obtain ⟨hk, hv⟩ := h
  constructor
  · exact hk.sublist (decr_keys_sublist m p)
  · clear hk
    induction m with
    | nil =>
      intro e he
      simp [CountMap.decr] at he
    | cons e0 m ih =>
      obtain ⟨q, k⟩ := e0
      intro e he
      simp only [CountMap.decr] at he
      have hv' : ∀ e ∈ m, 0 < e.2 := fun e he => hv e (List.mem_cons_of_mem _ he)
      split_ifs at he with h1 h2
      · exact hv' e he
      · rcases List.mem_cons.mp he with h | h
        · rw [h]
          show 0 < k - 1
          omega
        · exact hv' e h
      · rcases List.mem_cons.mp he with h | h
        · rw [h]
          exact hv (q, k) (List.mem_cons_self _ _)
        · exact ih hv' e h

theorem find_decr_getD (m : CountMap) (p c : Point) (h : CountMap.WF m) :
    ((CountMap.decr m p).find c).getD 0 =
      (m.find c).getD 0 - (if p = c ∧ 0 < (m.find c).getD 0 then 1 else 0) := by
  induction m with
  | nil => simp [CountMap.decr, CountMap.find]
  | cons e0 m ih =>
    obtain ⟨q, k⟩ := e0
    obtain ⟨hk, hv⟩ := h
    have hk0 : 0 < k := hv (q, k) (List.mem_cons_self _ _)
    have hWF : CountMap.WF m :=
      ⟨(List.nodup_cons.mp hk).2, fun e he => hv e (List.mem_cons_of_mem _ he)⟩
    have hq : q ∉ m.map Prod.fst := (List.nodup_cons.mp hk).1
    simp only [CountMap.decr]
    by_cases h1 : q = p
    · subst h1
      rw [if_pos rfl]
      by_cases h2 : k - 1 ≤ 0
      · rw [if_pos h2]
        simp only [CountMap.find]
        by_cases h3 : q = c
        · subst h3
          have hn := find_none_of_not_key m q hq
          simp only [if_true, Option.getD_some, true_and, if_pos hk0, hn, Option.getD_none]
          omega
        · simp [h3]
      · rw [if_neg h2]
        simp only [CountMap.find]
        by_cases h3 : q = c
        · subst h3
          simp [hk0]
        · simp [h3]
    · rw [if_neg h1]
      simp only [CountMap.find]
      by_cases h3 : q = c
      · subst h3
        have : ¬ p = q := fun e => h1 e.symm
        simp [this]
      · simp only [if_neg h3]
        exact ih hWF

theorem foldl_decr_WF (cells : List Point) (m : CountMap) (h : CountMap.WF m) :
    CountMap.WF (cells.foldl CountMap.decr m) := by
  induction cells generalizing m with
  | nil => exact h
  | cons c cells ih => exact ih _ (decr_WF m c h)

/-- Removing a list of cells that the map covers subtracts their multiplicities. -/
theorem find_foldl_decr_getD (cells : List Point) (m : CountMap) (h : CountMap.WF m)
    (hcover : ∀ c, (cells.count c : Int) ≤ (m.find c).getD 0) (c : Point) :
    ((cells.foldl CountMap.decr m).find c).getD 0 = (m.find c).getD 0 - (cells.count c : Int) := by
  induction cells generalizing m with
  | nil => simp
  | cons b cells ih =>
    simp only [List.foldl_cons]
    have hb : 0 < (m.find b).getD 0 := by
      have := hcover b
      rw [List.count_cons_self] at this
      push_cast at this
      omega
    have hstep : ∀ x, ((CountMap.decr m b).find x).getD 0 =
        (m.find x).getD 0 - (if b = x then 1 else 0) := by
      intro x
      rw [find_decr_getD m b x h]
      by_cases e : b = x
      · subst e
        simp [hb]
      · simp [e]
    rw [ih (CountMap.decr m b) (decr_WF m b h), hstep, List.count_cons]
    · by_cases e : b = c
      · subst e
        simp
        ring
      · have : (b == c) = false := by simpa using e
        simp [e, this]
    · intro x
      rw [hstep]
      have := hcover x
      rw [List.count_cons] at this
      by_cases e : b = x
      · subst e
        simp at this ⊢
        omega
      · have hbx : (b == x) = false := by simpa using e
        simp [e, hbx] at this ⊢
        exact this

/-! ## The occupancy index -/

theorem count_liveCells (ps : List Player) (c : Point) :
    (liveCells ps).count c = (ps.map (cellCount c)).sum := by
  induction ps with
  | nil => rfl
  | cons a ps ih =>
    unfold liveCells at ih ⊢
    simp only [List.map_cons, List.sum_cons, List.filter_cons]
    by_cases h : a.inGame = true ∧ a.snake.alive = true
    · have h1 : (a.inGame && a.snake.alive) = true := by simp [h.1, h.2]
      rw [if_pos h1, List.flatMap_cons, List.count_append, ih]
      simp [cellCount, h]
    · have h1 : ¬ (a.inGame && a.snake.alive) = true := by simpa using h
      rw [if_neg h1, ih]
      simp [cellCount, h]

theorem occupancyInv_iff (m : GameManager) :
    OccupancyInv m ↔ CountMap.WF m.occupiedCounts ∧
      ∀ c : Point, (CountMap.find m.occupiedCounts c).getD 0 =
        (((m.gameState.players.map (cellCount c)).sum : Nat) : Int) := by
  unfold OccupancyInv
  constructor
  · rintro ⟨h1, h2⟩
    exact ⟨h1, fun c => by rw [h2 c, count_liveCells]⟩
  · rintro ⟨h1, h2⟩
    exact ⟨h1, fun c => by rw [h2 c, count_liveCells]⟩

theorem map_ite_id_of_no_id (ps : List Player) (pid : String) (f : Player → Player)
    (h : ∀ q ∈ ps, q.id ≠ pid) :
    ps.map (fun q => if q.id = pid then f q else q) = ps := by
  calc ps.map (fun q => if q.id = pid then f q else q) = ps.map id := by
        apply List.map_congr_left
        intro q hq
        simp [h q hq]
    _ = ps := List.map_id ps

/-- Replacing the player registered under an id changes a sum over the players by the
difference of the two terms. -/
theorem sum_map_replace (g : Player → Nat) (f : Player → Player) (ps : List Player)
    (hids : (ps.map Player.id).Nodup) (p : Player) (hp : p ∈ ps) :
    ((ps.map (fun q => if q.id = p.id then f q else q)).map g).sum + g p =
      (ps.map g).sum + g (f p) := by
  induction ps with
  | nil => cases hp
  | cons a ps ih =>
    simp only [List.map_cons, List.nodup_cons, List.mem_map, not_exists, not_and] at hids
    simp only [List.map_cons, List.sum_cons]
    rcases List.mem_cons.mp hp with e | e
    · subst e
      rw [if_pos rfl, map_ite_id_of_no_id ps p.id f (fun q hq e => hids.1 q hq e)]
      omega
    · have hne : a.id ≠ p.id := fun h => hids.1 p e h.symm
      rw [if_neg hne]
      have := ih hids.2 e
      omega

theorem sum_map_filter_out (g : Player → Nat) (ps : List Player)
    (hids : (ps.map Player.id).Nodup) (p : Player) (hp : p ∈ ps) :
    ((ps.filter (fun q => decide (q.id ≠ p.id))).map g).sum + g p = (ps.map g).sum := by
  induction ps with
  | nil => cases hp
  | cons a ps ih =>
    simp only [List.map_cons, List.nodup_cons, List.mem_map, not_exists, not_and] at hids
    rcases List.mem_cons.mp hp with e | e
    · subst e
      have hf : ps.filter (fun q => decide (q.id ≠ p.id)) = ps := by
        rw [List.filter_eq_self]
        intro q hq
        simpa using fun h => hids.1 q hq h
      have hc : ¬ (decide (p.id ≠ p.id) = true) := by simp
      rw [List.filter_cons, if_neg hc, hf, List.map_cons, List.sum_cons]
      omega
    · have hne : a.id ≠ p.id := fun h => hids.1 p e h.symm
      have hc : decide (a.id ≠ p.id) = true := by simpa using hne
      have := ih hids.2 e
      rw [List.filter_cons, if_pos hc, List.map_cons, List.sum_cons, List.map_cons,
        List.sum_cons]
      omega

theorem addSnakeToOccupancy_spec (m : GameManager) (s : Snake)
    (hWF : CountMap.WF m.occupiedCounts) :
    (m.addSnakeToOccupancy s).gameState = m.gameState ∧
    (m.addSnakeToOccupancy s).running = m.running ∧
    CountMap.WF (m.addSnakeToOccupancy s).occupiedCounts ∧
    ∀ c, (CountMap.find (m.addSnakeToOccupancy s).occupiedCounts c).getD 0 =
      (CountMap.find m.occupiedCounts c).getD 0 +
        ((if s.alive = true then s.blocks.count c else 0 : Nat) : Int) := by
  unfold GameManager.addSnakeToOccupancy
  by_cases h : s.alive = false
  · rw [if_pos h]
    refine ⟨rfl, rfl, hWF, ?_⟩
    intro c
    simp [h]
  · rw [if_neg h]
    have h1 : s.alive = true := by simpa using h
    refine ⟨rfl, rfl, foldl_incr_WF _ _ hWF, ?_⟩
    intro c
    dsimp only
    rw [find_foldl_incr_getD, if_pos h1]

theorem start_fold_spec (l : List Player) (acc : GameManager)
    (hWF : CountMap.WF acc.occupiedCounts) :
    (l.foldl (fun acc player =>
        if player.inGame = true then
          (if player.snake.alive = true then acc.addSnakeToOccupancy player.snake else acc)
        else acc) acc).gameState = acc.gameState ∧
    CountMap.WF (l.foldl (fun acc player =>
        if player.inGame = true then
          (if player.snake.alive = true then acc.addSnakeToOccupancy player.snake else acc)
        else acc) acc).occupiedCounts ∧
    ∀ c, (CountMap.find (l.foldl (fun acc player =>
        if player.inGame = true then
          (if player.snake.alive = true then acc.addSnakeToOccupancy player.snake else acc)
        else acc) acc).occupiedCounts c).getD 0 =
      (CountMap.find acc.occupiedCounts c).getD 0 + (((l.map (cellCount c)).sum : Nat) : Int) := by
  induction l generalizing acc with
  | nil => exact ⟨rfl, hWF, fun c => by simp⟩
  | cons a l ih =>
    simp only [List.foldl_cons, List.map_cons, List.sum_cons]
    by_cases h1 : a.inGame = true
    · by_cases h2 : a.snake.alive = true
      · rw [if_pos h1, if_pos h2]
        obtain ⟨g1, _, g3, g4⟩ := addSnakeToOccupancy_spec acc a.snake hWF
        obtain ⟨i1, i2, i3⟩ := ih (acc.addSnakeToOccupancy a.snake) g3
        refine ⟨i1.trans g1, i2, ?_⟩
        intro c
        rw [i3 c, g4 c]
        simp only [cellCount, h1, h2, and_self, if_true]
        push_cast
        ring
      · rw [if_pos h1, if_neg h2]
        obtain ⟨i1, i2, i3⟩ := ih acc hWF
        refine ⟨i1, i2, ?_⟩
        intro c
        rw [i3 c]
        simp [cellCount, h2]
    · rw [if_neg h1]
      obtain ⟨i1, i2, i3⟩ := ih acc hWF
      refine ⟨i1, i2, ?_⟩
      intro c
      rw [i3 c]
      simp [cellCount, h1]

/-- `start` on a manager that is not running establishes the occupancy invariant, and on
a running manager keeps it. -/
theorem start_occupancy (m : GameManager) (h : m.running = false ∨ OccupancyInv m) :
    OccupancyInv m.start := by
  unfold GameManager.start
  by_cases hr : m.running = true
  · rw [if_pos hr]
    rcases h with h | h
    · rw [hr] at h
      exact Bool.noConfusion h
    · exact h
  · rw [if_neg hr]
    have hWF0 : CountMap.WF ({ m with occupiedCounts := [] } : GameManager).occupiedCounts :=
      ⟨List.nodup_nil, fun e he => by cases he⟩
    obtain ⟨i1, i2, i3⟩ := start_fold_spec m.gameState.players
      ({ m with occupiedCounts := [] } : GameManager) hWF0
    rw [occupancyInv_iff]
    dsimp only
    refine ⟨i2, ?_⟩
    intro c
    rw [i3 c, i1]
    simp [CountMap.find]

/-- `addPlayer` keeps the occupancy invariant. -/
theorem addPlayer_occupancy (m : GameManager) (player : Option Player)
    (h : OccupancyInv m) : OccupancyInv (m.addPlayer player).2 := by
  unfold GameManager.addPlayer
  cases player with
  | none => exact h
  | some p =>
    dsimp only
    by_cases hex : (getPlayer m.gameState.players p.id).isSome = true
    · rw [if_pos hex]
      exact h
    · rw [if_neg hex]
      rw [occupancyInv_iff] at h ⊢
      obtain ⟨hWF, hc⟩ := h
      by_cases hl : p.inGame = true ∧ p.snake.alive = true
      · rw [if_pos hl]
        obtain ⟨g1, _, g3, g4⟩ := addSnakeToOccupancy_spec
          ({ m with gameState :=
              { m.gameState with
                players := m.gameState.players ++ [p]
                joinedPlayers := setInsert p.id m.gameState.joinedPlayers } } : GameManager)
          p.snake hWF
        have key : ∀ (mm : GameManager), (if mm.hasLeaderboard = true then
            ({ mm with lbEvents := mm.lbEvents ++
                [LbEvent.onRound p.uid p.name mm.gameState.currentRound p.snake.length 0 0] } :
              GameManager)
            else mm).occupiedCounts = mm.occupiedCounts ∧
            (if mm.hasLeaderboard = true then
            ({ mm with lbEvents := mm.lbEvents ++
                [LbEvent.onRound p.uid p.name mm.gameState.currentRound p.snake.length 0 0] } :
              GameManager)
            else mm).gameState = mm.gameState := by
          intro mm
          split_ifs <;> exact ⟨rfl, rfl⟩
        rw [(key _).1, (key _).2, g1]
        refine ⟨g3, ?_⟩
        intro c
        rw [g4 c]
        dsimp only
        rw [hc c]
        simp [cellCount, hl.1, hl.2]
      · rw [if_neg hl]
        have key : ∀ (mm : GameManager), (if mm.hasLeaderboard = true then
            ({ mm with lbEvents := mm.lbEvents ++
                [LbEvent.onRound p.uid p.name mm.gameState.currentRound p.snake.length 0 0] } :
              GameManager)
            else mm).occupiedCounts = mm.occupiedCounts ∧
            (if mm.hasLeaderboard = true then
            ({ mm with lbEvents := mm.lbEvents ++
                [LbEvent.onRound p.uid p.name mm.gameState.currentRound p.snake.length 0 0] } :
              GameManager)
            else mm).gameState = mm.gameState := by
          intro mm
          split_ifs <;> exact ⟨rfl, rfl⟩
        rw [(key _).1, (key _).2]
        refine ⟨hWF, ?_⟩
        intro c
        dsimp only
        rw [hc c]
        simp [cellCount, hl]

/-- Taking the body of a counted living player out of the index leaves the counts of the
remaining players. -/
theorem occupancy_after_removal (occ : CountMap) (hWF : CountMap.WF occ)
    (ps ps1 : List Player) (p : Player)
    (hlive : p.inGame = true ∧ p.snake.alive = true)
    (hc : ∀ c, (CountMap.find occ c).getD 0 = (((ps.map (cellCount c)).sum : Nat) : Int))
    (hsum : ∀ c, (ps1.map (cellCount c)).sum + cellCount c p = (ps.map (cellCount c)).sum) :
    CountMap.WF (p.snake.blocks.foldl CountMap.decr occ) ∧
    ∀ c, (CountMap.find (p.snake.blocks.foldl CountMap.decr occ) c).getD 0 =
      (((ps1.map (cellCount c)).sum : Nat) : Int) := by
  have hcell : ∀ c, cellCount c p = p.snake.blocks.count c := by
    intro c
    simp [cellCount, hlive.1, hlive.2]
  refine ⟨foldl_decr_WF _ _ hWF, ?_⟩
  intro c
  rw [find_foldl_decr_getD _ _ hWF, hc c]
  · have := hsum c
    rw [hcell c] at this
    omega
  · intro x
    rw [hc x]
    have := hsum x
    rw [hcell x] at this
    omega

theorem removeSnakeFromOccupancy_occ (m : GameManager) (s : Snake) :
    (m.removeSnakeFromOccupancy s).occupiedCounts =
      if s.alive = false then m.occupiedCounts
      else s.blocks.foldl CountMap.decr m.occupiedCounts := by
  unfold GameManager.removeSnakeFromOccupancy
  split_ifs <;> rfl

theorem cellCount_setInGame_false (c : Point) (p : Player) :
    cellCount c (p.setInGame false) = 0 := by
  simp [cellCount, Player.setInGame]

/-- `removePlayer` keeps the occupancy invariant. -/
theorem removePlayer_occupancy (m : GameManager) (playerId : String)
    (hids : (m.gameState.players.map Player.id).Nodup) (h : OccupancyInv m) :
    OccupancyInv (m.removePlayer playerId) := by
  unfold GameManager.removePlayer
  cases hg : getPlayer m.gameState.players playerId with
  | none => exact h
  | some player =>
    obtain ⟨hmem, hid⟩ := getPlayer_some hg
    rw [occupancyInv_iff] at h ⊢
    obtain ⟨hWF, hc⟩ := h
    have hsum := fun c => sum_map_filter_out (cellCount c) m.gameState.players hids player hmem
    rw [hid] at hsum
    dsimp only
    by_cases hl : player.inGame = true ∧ player.snake.alive = true
    · rw [if_pos hl]
      rw [(removeSnakeFromOccupancy_frame _ _).2.2.2.1, removeSnakeFromOccupancy_occ,
        if_neg (by simp [hl.2])]
      exact occupancy_after_removal _ hWF _ _ player hl hc hsum
    · rw [if_neg hl]
      refine ⟨hWF, ?_⟩
      intro c
      rw [hc c]
      have := hsum c
      have h0 : cellCount c player = 0 := by simp [cellCount, hl]
      omega

theorem cellCount_respawned (env : Env) (c : Point) (player : Player) (pos : Point) :
    cellCount c ((player.initSnake pos env.initialSnakeLength).setInGame true) =
      ((player.initSnake pos env.initialSnakeLength).setInGame true).snake.blocks.count c := by
  simp [cellCount, Player.setInGame, Player.initSnake]

/-- `respawnPlayer` keeps the occupancy invariant when the player is not counted in the
index, that is, when it is out of game or its snake is not alive. -/
theorem respawnPlayer_occupancy (env : Env) (m : GameManager) (playerId : String)
    (spawnPos : Point) (hids : (m.gameState.players.map Player.id).Nodup)
    (hdead : ∀ p ∈ m.gameState.players, p.id = playerId →
      ¬ (p.inGame = true ∧ p.snake.alive = true))
    (h : OccupancyInv m) : OccupancyInv (m.respawnPlayer env playerId spawnPos) := by
  unfold GameManager.respawnPlayer
  cases hg : getPlayer m.gameState.players playerId with
  | none => exact h
  | some player =>
    obtain ⟨hmem, hid⟩ := getPlayer_some hg
    rw [occupancyInv_iff] at h ⊢
    obtain ⟨hWF, hc⟩ := h
    dsimp only
    obtain ⟨g1, _, g3, g4⟩ := addSnakeToOccupancy_spec
      ({ m with gameState :=
          { m.gameState with
            players := modifyPlayer
              (fun _ => (player.initSnake spawnPos env.initialSnakeLength).setInGame true)
              playerId m.gameState.players } } : GameManager)
      ((player.initSnake spawnPos env.initialSnakeLength).setInGame true).snake hWF
    rw [g1]
    refine ⟨g3, ?_⟩
    intro c
    rw [g4 c]
    dsimp only
    rw [hc c, modifyPlayer_eq_map _ _ _ hids]
    have hsum := sum_map_replace (cellCount c)
      (fun _ => (player.initSnake spawnPos env.initialSnakeLength).setInGame true)
      m.gameState.players hids player hmem
    rw [hid] at hsum
    have h0 : cellCount c player = 0 := by
      have := hdead player hmem hid
      simp [cellCount, this]
    have halive : ((player.initSnake spawnPos env.initialSnakeLength).setInGame true).snake.alive
        = true := rfl
    rw [if_pos halive, ← cellCount_respawned env c player spawnPos]
    dsimp only at hsum
    omega

theorem resolveCollision_occ (occ : List (Point × List String)) (m : GameManager)
    (c : String × CollisionType) (player : Player)
    (hget : getPlayer m.gameState.players c.1 = some player) (hin : player.inGame = true) :
    (resolveCollision occ m c).occupiedCounts =
      if player.snake.alive = false then m.occupiedCounts
      else player.snake.blocks.foldl CountMap.decr m.occupiedCounts := by
  unfold resolveCollision
  rw [hget]
  simp only [hin, Bool.true_eq_false, if_false]
  rw [removeSnakeFromOccupancy_occ]

theorem resolveCollision_unchanged (occ : List (Point × List String)) (m : GameManager)
    (c : String × CollisionType)
    (h : ∀ player, getPlayer m.gameState.players c.1 = some player → player.inGame = false) :
    resolveCollision occ m c = m := by
  unfold resolveCollision
  cases hg : getPlayer m.gameState.players c.1 with
  | none => rfl
  | some player =>
    dsimp only
    rw [if_pos (h player hg)]

/-- One death keeps the occupancy invariant. -/
theorem resolveCollision_occupancy (occ : List (Point × List String)) (m : GameManager)
    (c : String × CollisionType) (hids : (m.gameState.players.map Player.id).Nodup)
    (h : OccupancyInv m) : OccupancyInv (resolveCollision occ m c) := by
  by_cases hex : ∃ player, getPlayer m.gameState.players c.1 = some player ∧
      player.inGame = true
  · obtain ⟨player, hget, hin⟩ := hex
    obtain ⟨hmem, hid⟩ := getPlayer_some hget
    rw [occupancyInv_iff] at h ⊢
    obtain ⟨hWF, hc⟩ := h
    rw [resolveCollision_players occ m c hids, resolveCollision_occ occ m c player hget hin]
    have hsum := fun x => sum_map_replace (cellCount x) (fun q => q.setInGame false)
      m.gameState.players hids player hmem
    rw [hid] at hsum
    by_cases hal : player.snake.alive = false
    · rw [if_pos hal]
      refine ⟨hWF, ?_⟩
      intro x
      rw [hc x]
      have := hsum x
      rw [cellCount_setInGame_false] at this
      have h0 : cellCount x player = 0 := by simp [cellCount, hal]
      omega
    · rw [if_neg hal]
      have hal1 : player.snake.alive = true := by simpa using hal
      apply occupancy_after_removal _ hWF _ _ player ⟨hin, hal1⟩ hc
      intro x
      have := hsum x
      rw [cellCount_setInGame_false] at this
      omega
  · rw [resolveCollision_unchanged]
    · exact h
    · intro player hg
      by_contra hne
      exact hex ⟨player, hg, by simpa using hne⟩

theorem resolveAll_occupancy (occ : List (Point × List String))
    (cs : List (String × CollisionType)) (m : GameManager)
    (hids : (m.gameState.players.map Player.id).Nodup) (h : OccupancyInv m) :
    OccupancyInv (cs.foldl (resolveCollision occ) m) := by
  induction cs generalizing m with
  | nil => exact h
  | cons c cs ih =>
    simp only [List.foldl_cons]
    exact ih _ (resolveCollision_ids_nodup occ m c hids)
      (resolveCollision_occupancy occ m c hids h)

/-- Collision resolution keeps the occupancy invariant. -/
theorem checkCollisions_occupancy (env : Env) (m : GameManager)
    (hids : (m.gameState.players.map Player.id).Nodup) (h : OccupancyInv m) :
    OccupancyInv (m.checkCollisions env) := by
  unfold GameManager.checkCollisions
  exact resolveAll_occupancy _ _ m hids h

theorem modifyPlayer_map_congr {β : Type} (g : Player → β) (f : Player → Player)
    (hg : ∀ q, g (f q) = g q) (pid : String) (ps : List Player) :
    (modifyPlayer f pid ps).map g = ps.map g := by
  induction ps with
  | nil => rfl
  | cons a ps ih =>
    simp only [modifyPlayer]
    split_ifs with h
    · simp only [List.map_cons, hg]
    · simp only [List.map_cons, ih]

theorem applyDirection_map_congr {β : Type} (g : Player → β)
    (hg : ∀ (q : Player) (d : Direction),
      g { q with snake := { q.snake with direction := d } } = g q)
    (ps : List Player) (cmd : String × Direction) :
    (applyDirection ps cmd).map g = ps.map g := by
  unfold applyDirection
  split
  · rfl
  · split_ifs
    · rfl
    · rfl
    · exact modifyPlayer_map_congr g _ (fun q => hg q cmd.2) _ _

theorem applyDirections_map_congr {β : Type} (g : Player → β)
    (hg : ∀ (q : Player) (d : Direction),
      g { q with snake := { q.snake with direction := d } } = g q)
    (moves : List (String × Direction)) (ps : List Player) :
    (applyDirections ps moves).map g = ps.map g := by
  induction moves generalizing ps with
  | nil => rfl
  | cons c rest ih =>
    simp only [applyDirections, List.foldl_cons] at ih ⊢
    rw [ih, applyDirection_map_congr g hg]

theorem count_dropLast (l : List Point) (hl : l ≠ []) (c : Point) :
    l.count c = l.dropLast.count c + (if l.getLastD ⟨0, 0⟩ = c then 1 else 0) := by
  have h1 : l = l.dropLast ++ [l.getLast hl] := (List.dropLast_append_getLast hl).symm
  have h2 : l.getLastD ⟨0, 0⟩ = l.getLast hl := by
    cases l with
    | nil => exact absurd rfl hl
    | cons a l =>
      rw [List.getLast_eq_getLastD]
      induction l generalizing a with
      | nil => rfl
      | cons b l _ => simp [List.getLastD]
  rw [h2]
  conv_lhs => rw [h1]
  rw [List.count_append]
  simp [List.count_singleton]

theorem cellCount_of_live (c : Point) (p : Player) (h1 : p.inGame = true)
    (h2 : p.snake.alive = true) : cellCount c p = p.snake.blocks.count c := by
  simp [cellCount, h1, h2]

/-- One iteration of the movement loop keeps the index in step with the moved body. -/
theorem moveStep_occ (p : Player) (occ : CountMap) (hWF : CountMap.WF occ)
    (hal : p.inGame = true → p.snake.alive = true) (base : Point → Nat)
    (hc : ∀ c, (CountMap.find occ c).getD 0 = ((base c + cellCount c p : Nat) : Int)) :
    CountMap.WF (if p.inGame = false then occ
      else if p.snake.direction ≠ Direction.NONE then
        applyMoveResult occ p.snake.moveWithDelta.2
      else occ) ∧
    ∀ c, (CountMap.find (if p.inGame = false then occ
      else if p.snake.direction ≠ Direction.NONE then
        applyMoveResult occ p.snake.moveWithDelta.2
      else occ) c).getD 0 = ((base c + cellCount c (movePlayer p) : Nat) : Int) := by
  by_cases hin : p.inGame = false
  · have hmp : movePlayer p = p := by
      unfold movePlayer
      rw [if_pos hin]
    rw [if_pos hin, hmp]
    exact ⟨hWF, hc⟩
  · rw [if_neg hin]
    by_cases hd : p.snake.direction ≠ Direction.NONE
    · have hmp : movePlayer p = { p with snake := p.snake.moveWithDelta.1 } := by
        unfold movePlayer
        rw [if_neg hin, if_pos hd]
      rw [if_pos hd, hmp]
      have hin1 : p.inGame = true := by simpa using hin
      have hal1 := hal hin1
      unfold Snake.moveWithDelta
      by_cases hb : p.snake.direction = Direction.NONE ∨ p.snake.blocks = []
      · rw [if_pos hb]
        refine ⟨hWF, ?_⟩
        intro c
        exact hc c
      · rw [if_neg hb]
        have hne : p.snake.blocks ≠ [] := fun e => hb (Or.inr e)
        dsimp only
        by_cases hlen : p.snake.length <
            ((nextHeadOf p.snake.getHead p.snake.direction :: p.snake.blocks).length : Int)
        · rw [if_pos hlen]
          simp only [applyMoveResult, if_true]
          refine ⟨decr_WF _ _ (incr_WF _ _ hWF), ?_⟩
          intro c
          rw [find_decr_getD _ _ _ (incr_WF _ _ hWF), find_incr_getD, hc c,
            cellCount_of_live c p hin1 hal1]
          simp only [cellCount, hin1, hal1, and_self, if_true]
          rw [List.dropLast_cons_of_ne_nil hne, List.count_cons, count_dropLast _ hne c]
          simp only [beq_iff_eq]
          split_ifs <;> simp_all <;> omega
        · rw [if_neg hlen]
          simp only [applyMoveResult, if_true, Bool.false_eq_true, if_false]
          refine ⟨incr_WF _ _ hWF, ?_⟩
          intro c
          rw [find_incr_getD, hc c, cellCount_of_live c p hin1 hal1]
          simp only [cellCount, hin1, hal1, and_self, if_true]
          rw [List.count_cons]
          simp only [beq_iff_eq]
          split_ifs <;> (push_cast; omega)
    · have hmp : movePlayer p = p := by
        unfold movePlayer
        rw [if_neg hin, if_neg hd]
      rw [if_neg hd, hmp]
      exact ⟨hWF, hc⟩

theorem movePhase_occ (ps : List Player) (occ : CountMap) (hWF : CountMap.WF occ)
    (hal : ∀ p ∈ ps, p.inGame = true → p.snake.alive = true) (base : Point → Nat)
    (hc : ∀ c, (CountMap.find occ c).getD 0 =
      ((base c + (ps.map (cellCount c)).sum : Nat) : Int)) :
    CountMap.WF (movePhase ps occ).2 ∧
    ∀ c, (CountMap.find (movePhase ps occ).2 c).getD 0 =
      ((base c + ((movePhase ps occ).1.map (cellCount c)).sum : Nat) : Int) := by
  induction ps generalizing occ base with
  | nil => exact ⟨hWF, hc⟩
  | cons p ps ih =>
    simp only [movePhase]
    have hstep := moveStep_occ p occ hWF (hal p (List.mem_cons_self _ _))
      (fun c => base c + (ps.map (cellCount c)).sum)
      (fun c => by
        rw [hc c]
        simp only [List.map_cons, List.sum_cons]
        congr 1
        omega)
    obtain ⟨hWF1, hc1⟩ := hstep
    have := ih _ hWF1 (fun q hq => hal q (List.mem_cons_of_mem _ hq))
      (fun c => base c + cellCount c (movePlayer p))
      (fun c => by
        rw [hc1 c]
        beta_reduce
        congr 1
        omega)
    refine ⟨this.1, ?_⟩
    intro c
    rw [this.2 c]
    simp only [List.map_cons, List.sum_cons]
    congr 1
    omega

/-- The movement phase keeps the occupancy invariant, for players whose snake is alive
whenever they are in game. -/
theorem processMovements_occupancy (m : GameManager)
    (hal : ∀ p ∈ m.gameState.players, p.inGame = true → p.snake.alive = true)
    (h : OccupancyInv m) : OccupancyInv m.processMovements := by
  rw [occupancyInv_iff] at h ⊢
  obtain ⟨hWF, hc⟩ := h
  have hg := applyDirections_map_congr
    (fun q : Player => (q.inGame, q.snake.alive, q.snake.blocks)) (fun _ _ => rfl)
    m.nextMoves m.gameState.players
  have hcells : ∀ c, (applyDirections m.gameState.players m.nextMoves).map (cellCount c) =
      m.gameState.players.map (cellCount c) := by
    intro c
    have e : cellCount c = (fun t : Bool × Bool × List Point =>
        if t.1 = true ∧ t.2.1 = true then t.2.2.count c else 0) ∘
        (fun q : Player => (q.inGame, q.snake.alive, q.snake.blocks)) := by
      funext q
      rfl
    rw [e, ← List.map_map, ← List.map_map, hg]
  have hal1 : ∀ p ∈ applyDirections m.gameState.players m.nextMoves,
      p.inGame = true → p.snake.alive = true := by
    intro p hp hin
    have hm : (p.inGame, p.snake.alive, p.snake.blocks) ∈
        (applyDirections m.gameState.players m.nextMoves).map
          (fun q : Player => (q.inGame, q.snake.alive, q.snake.blocks)) :=
      List.mem_map.mpr ⟨p, hp, rfl⟩
    rw [hg] at hm
    obtain ⟨q, hq, e⟩ := List.mem_map.mp hm
    simp only [Prod.mk.injEq] at e
    rw [← e.2.1]
    exact hal q hq (e.1.trans hin)
  have := movePhase_occ (applyDirections m.gameState.players m.nextMoves) m.occupiedCounts
    hWF hal1 (fun _ => 0)
    (fun c => by
      rw [hc c, hcells c]
      simp)
  unfold GameManager.processMovements
  refine ⟨this.1, ?_⟩
  intro c
  dsimp only
  rw [this.2 c]
  simp

theorem collectFood_cellCount (hasLb : Bool) (round : Int) (c : Point) (ps : List Player)
    (acc : List Point × List Point × List LbEvent) :
    (collectFood hasLb round ps acc).1.map (cellCount c) = ps.map (cellCount c) := by
  induction ps generalizing acc with
  | nil => rfl
  | cons a ps ih =>
    obtain ⟨foods, removed, ev⟩ := acc
    simp only [collectFood]
    by_cases h : a.inGame = true ∧ hasFoodAt foods a.snake.getHead = true
    · rw [if_pos h]
      dsimp only
      rw [List.map_cons, List.map_cons, ih]
      rfl
    · rw [if_neg h]
      dsimp only
      rw [List.map_cons, List.map_cons, ih]

/-- Food collection and growth keep the occupancy invariant: `grow` changes the length,
not the body. -/
theorem handleFoodCollection_occupancy (m : GameManager) (h : OccupancyInv m) :
    OccupancyInv m.handleFoodCollection := by
  rw [occupancyInv_iff] at h ⊢
  obtain ⟨hWF, hc⟩ := h
  unfold GameManager.handleFoodCollection
  refine ⟨hWF, ?_⟩
  intro c
  dsimp only
  rw [collectFood_cellCount]
  exact hc c

theorem generateFood_occupiedCounts (env : Env) (m : GameManager) :
    (m.generateFood env).occupiedCounts = m.occupiedCounts := by
  unfold GameManager.generateFood
  simp only
  split_ifs <;> rfl

theorem cellCount_ageInvincibility (c : Point) (p : Player) :
    cellCount c (ageInvincibility p) = cellCount c p := by
  unfold ageInvincibility
  split_ifs <;> rfl

/-- The phases after the movement keep the occupancy invariant. -/
theorem finishTick_occupancy (env : Env) (m : GameManager)
    (hids : (m.gameState.players.map Player.id).Nodup) (h : OccupancyInv m) :
    OccupancyInv (m.finishTick env) := by
  have h1 := handleFoodCollection_occupancy _ (checkCollisions_occupancy env m hids h)
  rw [occupancyInv_iff] at h1 ⊢
  obtain ⟨hWF, hc⟩ := h1
  unfold GameManager.finishTick
  show CountMap.WF (GameManager.generateFood env _).occupiedCounts ∧
    ∀ c, (CountMap.find (GameManager.generateFood env _).occupiedCounts c).getD 0 =
      (((((GameManager.generateFood env _).gameState.players.map ageInvincibility).map
        (cellCount c)).sum : Nat) : Int)
  rw [generateFood_occupiedCounts, (generateFood_frame env _).2.2.2]
  refine ⟨hWF, ?_⟩
  intro c
  rw [hc c, List.map_map]
  have : (cellCount c ∘ ageInvincibility) = cellCount c := by
    funext q
    exact cellCount_ageInvincibility c q
  rw [this]

/-- A whole tick keeps the occupancy invariant. -/
theorem tick_occupancy (env : Env) (m : GameManager)
    (hids : (m.gameState.players.map Player.id).Nodup)
    (hal : ∀ p ∈ m.gameState.players, p.inGame = true → p.snake.alive = true)
    (h : OccupancyInv m) : OccupancyInv (m.tick env) := by
  unfold GameManager.tick
  apply finishTick_occupancy
  · rw [processMovements_ids]
    exact hids
  · apply processMovements_occupancy
    · exact hal
    · exact h

/-! ## Concrete instances: food and the occupancy index -/

/-- C11 on a snake that has just moved its head onto the food at (6,5): it is the only
player, it grows by one, and the food leaves the food set and is recorded in
removed_foods. -/
theorem handleFoodCollection_clears_heads_witness :
    eatManager.processMovements.gameState.players =
      [] ++ scenarioPlayer "s1" [⟨6, 5⟩, ⟨5, 5⟩, ⟨4, 5⟩] Direction.RIGHT 0 :: [] ∧
    eatManager.processMovements.handleFoodCollection.gameState.players[0]? =
      some { scenarioPlayer "s1" [⟨6, 5⟩, ⟨5, 5⟩, ⟨4, 5⟩] Direction.RIGHT 0 with
        snake := { blocks := [⟨6, 5⟩, ⟨5, 5⟩, ⟨4, 5⟩], direction := Direction.RIGHT,
                   length := 4, invincibleRounds := 0, alive := true } } ∧
    (⟨6, 5⟩ : Point) ∉ eatManager.processMovements.handleFoodCollection.gameState.foods ∧
    (⟨6, 5⟩ : Point) ∈
      eatManager.processMovements.handleFoodCollection.gameState.removedFoods :=
  have h := handleFoodCollection_clears_heads eatManager.processMovements [] []
    (scenarioPlayer "s1" [⟨6, 5⟩, ⟨5, 5⟩, ⟨4, 5⟩] Direction.RIGHT 0) (by decide)
  ⟨by decide, h.2.1.trans (by decide), (h.2.2.2.1 (by decide) (by decide)).1,
    (h.2.2.2.1 (by decide) (by decide)).2⟩

/-- C12 (amended) on the side hit: after the tick the food on (5,5) lies under the body of
S2, not under its head (5,4), and it is a body cell of S1, which died in this tick. -/
theorem tick_food_under_body_witness :
    scenarioPlayer "s2" [⟨5, 4⟩, ⟨5, 5⟩, ⟨5, 6⟩] Direction.UP 0 ∈
      (sideHitManager.tick scenarioEnv).gameState.players ∧
    (⟨5, 5⟩ : Point) ∈ (sideHitManager.tick scenarioEnv).gameState.foods ∧
    (⟨5, 5⟩ : Point) ≠ ⟨5, 4⟩ ∧
    ((⟨5, 5⟩ : Point) ∈ sideHitManager.gameState.foods ∨
      ∃ d ∈ (sideHitManager.tick scenarioEnv).gameState.players,
        d.id ∈ (sideHitManager.tick scenarioEnv).gameState.diedPlayers ∧
          (⟨5, 5⟩ : Point) ∈ d.snake.blocks) :=
  have h := tick_food_under_body scenarioEnv sideHitManager (by decide)
    (fun _ _ _ _ hmem => absurd hmem (List.not_mem_nil _))
    (scenarioPlayer "s2" [⟨5, 4⟩, ⟨5, 5⟩, ⟨5, 6⟩] Direction.UP 0) (by decide) (by decide)
    ⟨5, 5⟩ (by decide) (by decide)
  ⟨by decide, by decide, h.1, h.2⟩

/-- C13 fails as stated, for `respawnPlayer` of a player that is still in game: on the
started two-snake game the index satisfies the occupancy invariant and S1, with body
[(1,1),(1,2)], is in game.  After `respawnPlayer` for S1 with spawn point (8,1) the cell
(1,1) still has count 1 in the index although it occurs in no body of an in-game living
snake, so the invariant is broken. -/
theorem respawnPlayer_breaks_occupancy :
    OccupancyInv apartManager.start ∧
    (getPlayer apartManager.start.gameState.players "s1").map Player.view =
      some ("s1", true, [⟨1, 1⟩, ⟨1, 2⟩]) ∧
    CountMap.find
      (GameManager.respawnPlayer scenarioEnv apartManager.start "s1" ⟨8, 1⟩).occupiedCounts
      ⟨1, 1⟩ = some 1 ∧
    (liveCells
      (GameManager.respawnPlayer scenarioEnv apartManager.start "s1"
        ⟨8, 1⟩).gameState.players).count ⟨1, 1⟩ = 0 ∧
    ¬ OccupancyInv (GameManager.respawnPlayer scenarioEnv apartManager.start "s1" ⟨8, 1⟩) :=
  ⟨start_occupancy apartManager (Or.inl rfl), by decide, by decide, by decide,
    fun h => absurd (h.2 ⟨1, 1⟩) (by decide)⟩

/-- C13, amended: on a manager with distinct player ids whose in-game snakes are alive
and whose index satisfies the occupancy invariant (for every cell the count is the number
of times the cell occurs in the bodies of all in-game living snakes, and cells with count
0 are absent), the invariant holds again after `start`, `addPlayer`, `removePlayer`, the
movement phase, the death phase, the food collection, the whole tick, and after
`respawnPlayer` of a player that is not in game with a living snake when it is respawned;
`start` on a manager that is not running establishes the invariant from any index. -/
theorem occupancy_invariant (env : Env) (m : GameManager)
    (hids : (m.gameState.players.map Player.id).Nodup)
    (hal : ∀ p ∈ m.gameState.players, p.inGame = true → p.snake.alive = true)
    (h : OccupancyInv m) :
    OccupancyInv m.start ∧
    (∀ player : Option Player, OccupancyInv (m.addPlayer player).2) ∧
    (∀ playerId : String, OccupancyInv (m.removePlayer playerId)) ∧
    (∀ (playerId : String) (spawnPos : Point),
      (∀ p ∈ m.gameState.players, p.id = playerId →
        ¬ (p.inGame = true ∧ p.snake.alive = true)) →
      OccupancyInv (m.respawnPlayer env playerId spawnPos)) ∧
    OccupancyInv m.processMovements ∧
    OccupancyInv (m.checkCollisions env) ∧
    OccupancyInv m.handleFoodCollection ∧
    OccupancyInv (m.tick env) ∧
    (∀ m0 : GameManager, m0.running = false → OccupancyInv m0.start) :=
  ⟨start_occupancy m (Or.inr h),
    fun player => addPlayer_occupancy m player h,
    fun playerId => removePlayer_occupancy m playerId hids h,
    fun playerId spawnPos hdead => respawnPlayer_occupancy env m playerId spawnPos hids hdead h,
    processMovements_occupancy m hal h,
    checkCollisions_occupancy env m hids h,
    handleFoodCollection_occupancy m h,
    tick_occupancy env m hids hal h,
    fun m0 h0 => start_occupancy m0 (Or.inl h0)⟩

/-- C13 on scenario 4: the started game keeps the invariant through the tick in which S1
dies of its U-turn; S1 is then out of game, and respawning it at (2,2) keeps the
invariant, the index holding the three cells of the new snake on (2,2) and nothing on the
old head (5,5). -/
theorem occupancy_invariant_witness :
    OccupancyInv (uTurnManager.start.tick scenarioEnv) ∧
    (getPlayer (uTurnManager.start.tick scenarioEnv).gameState.players "s1").map
      Player.inGame = some false ∧
    OccupancyInv
      (GameManager.respawnPlayer scenarioEnv (uTurnManager.start.tick scenarioEnv) "s1"
        ⟨2, 2⟩) ∧
    CountMap.find
      (GameManager.respawnPlayer scenarioEnv (uTurnManager.start.tick scenarioEnv) "s1"
        ⟨2, 2⟩).occupiedCounts ⟨2, 2⟩ = some 3 ∧
    CountMap.find
      (GameManager.respawnPlayer scenarioEnv (uTurnManager.start.tick scenarioEnv) "s1"
        ⟨2, 2⟩).occupiedCounts ⟨5, 5⟩ = none :=
  have h1 := occupancy_invariant scenarioEnv uTurnManager.start (by decide) (by decide)
    (start_occupancy uTurnManager (Or.inl rfl))
  have h2 := occupancy_invariant scenarioEnv (uTurnManager.start.tick scenarioEnv) (by decide)
    (by decide) h1.2.2.2.2.2.2.2.1
  ⟨h1.2.2.2.2.2.2.2.1, by decide, h2.2.2.2.1 "s1" ⟨2, 2⟩ (by decide), by decide, by decide⟩

/-! ## The order of points -/

theorem ltOp_iff (a b : Point) :
    a.ltOp b = true ↔ (a.x < b.x ∨ (a.x = b.x ∧ a.y < b.y)) := by
  unfold Point.ltOp
  split_ifs with h
  · simp only [decide_eq_true_eq]
    constructor
    · intro h1
      exact Or.inl h1
    · rintro (h1 | ⟨h1, _⟩)
      · exact h1
      · exact absurd h1 h
  · simp only [decide_eq_true_eq]
    have hx : a.x = b.x := by
      by_contra hne
      exact h hne
    constructor
    · intro h1
      exact Or.inr ⟨hx, h1⟩
    · rintro (h1 | ⟨_, h1⟩)
      · omega
      · exact h1

theorem eqOp_iff (a b : Point) : a.eqOp b = true ↔ a = b := by
  obtain ⟨ax, ay⟩ := a
  obtain ⟨bx, RY⟩ := b
  simp [Point.eqOp]

theorem ltOp_irrefl (a : Point) : a.ltOp a = false := by
  cases h : a.ltOp a with
  | false => rfl
  | true =>
    rw [ltOp_iff] at h
    omega

theorem ltOp_trans (a b c : Point) (h1 : a.ltOp b = true) (h2 : b.ltOp c = true) :
    a.ltOp c = true := by
  rw [ltOp_iff] at h1 h2 ⊢
  omega

theorem point_ext_of_not_lt (a b : Point) (h1 : a.ltOp b = false) (h2 : b.ltOp a = false) :
    a = b := by
  have n1 : ¬ (a.x < b.x ∨ (a.x = b.x ∧ a.y < b.y)) := by
    rw [← ltOp_iff, h1]
    simp
  have n2 : ¬ (b.x < a.x ∨ (b.x = a.x ∧ b.y < a.y)) := by
    rw [← ltOp_iff, h2]
    simp
  obtain ⟨ax, ay⟩ := a
  obtain ⟨bx, RY⟩ := b
  simp only [Point.mk.injEq]
  simp only at n1 n2
  omega

theorem mem_stdSetInsert (p c : Point) (l : List Point) :
    c ∈ stdSetInsert p l ↔ c = p ∨ c ∈ l := by
  induction l with
  | nil => simp [stdSetInsert]
  | cons q r ih =>
    simp only [stdSetInsert]
    split_ifs with h1 h2
    · simp
    · simp only [List.mem_cons, ih]
      tauto
    · have hpq : p = q := point_ext_of_not_lt p q (by simpa using h1) (by simpa using h2)
      subst hpq
      simp

theorem stdSetInsert_sorted (p : Point) (l : List Point)
    (h : l.Pairwise (fun a b => a.ltOp b = true)) :
    (stdSetInsert p l).Pairwise (fun a b => a.ltOp b = true) := by
  induction l with
  | nil => simp [stdSetInsert]
  | cons q r ih =>
    rw [List.pairwise_cons] at h
    simp only [stdSetInsert]
    split_ifs with h1 h2
    · rw [List.pairwise_cons]
      refine ⟨?_, List.pairwise_cons.mpr h⟩
      intro c hc
      rcases List.mem_cons.mp hc with rfl | hc
      · exact h1
      · exact ltOp_trans _ _ _ h1 (h.1 c hc)
    · rw [List.pairwise_cons]
      refine ⟨?_, ih h.2⟩
      intro c hc
      rcases (mem_stdSetInsert p c r).mp hc with rfl | hc
      · exact h2
      · exact h.1 c hc
    · exact List.pairwise_cons.mpr h

theorem stdSetOf_spec (ps acc : List Point)
    (h : acc.Pairwise (fun a b => a.ltOp b = true)) :
    (ps.foldl (fun s p => stdSetInsert p s) acc).Pairwise (fun a b => a.ltOp b = true) ∧
    ∀ c, c ∈ ps.foldl (fun s p => stdSetInsert p s) acc ↔ c ∈ acc ∨ c ∈ ps := by
  induction ps generalizing acc with
  | nil => simp [h]
  | cons p ps ih =>
    simp only [List.foldl_cons]
    obtain ⟨g1, g2⟩ := ih (stdSetInsert p acc) (stdSetInsert_sorted p acc h)
    refine ⟨g1, ?_⟩
    intro c
    rw [g2 c, mem_stdSetInsert, List.mem_cons]
    tauto

/-- C21: `operator<` of `Point` is a strict total order consistent with `operator==`: it
is irreflexive and transitive, `operator==` holds exactly for equal points, for all points
a, b exactly one of a < b, a == b, b < a holds, and a < b is the lexicographic order on
(x, y); consequently a `std::set<Point>` filled by insertions holds every inserted cell
exactly once. -/
theorem point_lt_strict_total :
    (∀ a : Point, a.ltOp a = false) ∧
    (∀ a b c : Point, a.ltOp b = true → b.ltOp c = true → a.ltOp c = true) ∧
    (∀ a b : Point, a.eqOp b = true ↔ a = b) ∧
    (∀ a b : Point,
      (a.ltOp b = true ∧ a.eqOp b = false ∧ b.ltOp a = false) ∨
      (a.ltOp b = false ∧ a.eqOp b = true ∧ b.ltOp a = false) ∨
      (a.ltOp b = false ∧ a.eqOp b = false ∧ b.ltOp a = true)) ∧
    (∀ a b : Point, a.ltOp b = true ↔ (a.x < b.x ∨ (a.x = b.x ∧ a.y < b.y))) ∧
    (∀ ps : List Point, (stdSetOf ps).Nodup ∧ (∀ c, c ∈ stdSetOf ps ↔ c ∈ ps) ∧
      (∀ c ∈ ps, (stdSetOf ps).count c = 1)) := by
  refine ⟨ltOp_irrefl, ltOp_trans, eqOp_iff, ?_, ltOp_iff, ?_⟩
  · intro a b
    by_cases hab : a.ltOp b = true
    · left
      refine ⟨hab, ?_, ?_⟩
      · cases he : a.eqOp b with
        | false => rfl
        | true =>
          rw [eqOp_iff] at he
          subst he
          rw [ltOp_irrefl] at hab
          exact absurd hab (by decide)
      · cases hba : b.ltOp a with
        | false => rfl
        | true =>
          have := ltOp_trans _ _ _ hab hba
          rw [ltOp_irrefl] at this
          exact absurd this (by decide)
    · have hab0 : a.ltOp b = false := by simpa using hab
      by_cases hba : b.ltOp a = true
      · right
        right
        refine ⟨hab0, ?_, hba⟩
        cases he : a.eqOp b with
        | false => rfl
        | true =>
          rw [eqOp_iff] at he
          subst he
          rw [ltOp_irrefl] at hba
          exact absurd hba (by decide)
      · have hba0 : b.ltOp a = false := by simpa using hba
        right
        left
        exact ⟨hab0, (eqOp_iff a b).mpr (point_ext_of_not_lt a b hab0 hba0), hba0⟩
  · intro ps
    obtain ⟨g1, g2⟩ := stdSetOf_spec ps [] List.Pairwise.nil
    have hnd : (stdSetOf ps).Nodup := by
      unfold stdSetOf
      refine g1.imp ?_
      intro a b hlt heq
      subst heq
      rw [ltOp_irrefl] at hlt
      exact absurd hlt (by decide)
    have hmem : ∀ c, c ∈ stdSetOf ps ↔ c ∈ ps := by
      intro c
      unfold stdSetOf
      rw [g2 c]
      simp
    refine ⟨hnd, hmem, ?_⟩
    intro c hc
    exact List.count_eq_one_of_mem hnd ((hmem c).mpr hc)

/-! ## Direction geometry -/

/-- C22: for every point p the next-head computation of the server and `nextPoint` of the
bots agree on the four wire directions and give up -> (x, y-1), down -> (x, y+1),
left -> (x-1, y), right -> (x+1, y); the result is at Manhattan distance exactly 1 from
p, and `nextPoint` returns p unchanged for any other string. -/
theorem nextPoint_geometry (p : Point) :
    (bot.nextPoint p "up" = nextHeadOf p Direction.UP ∧
      nextHeadOf p Direction.UP = ⟨p.x, p.y - 1⟩) ∧
    (bot.nextPoint p "down" = nextHeadOf p Direction.DOWN ∧
      nextHeadOf p Direction.DOWN = ⟨p.x, p.y + 1⟩) ∧
    (bot.nextPoint p "left" = nextHeadOf p Direction.LEFT ∧
      nextHeadOf p Direction.LEFT = ⟨p.x - 1, p.y⟩) ∧
    (bot.nextPoint p "right" = nextHeadOf p Direction.RIGHT ∧
      nextHeadOf p Direction.RIGHT = ⟨p.x + 1, p.y⟩) ∧
    (∀ (s : String) (d : Direction), DirectionUtils.fromString s = some d →
      d ≠ Direction.NONE →
      bot.nextPoint p s = nextHeadOf p d ∧ (nextHeadOf p d).distance p = 1) ∧
    (∀ s : String, s ≠ "up" → s ≠ "down" → s ≠ "left" → s ≠ "right" →
      bot.nextPoint p s = p) := by
  have hd : ∀ d : Direction, d ≠ Direction.NONE → (nextHeadOf p d).distance p = 1 := by
    intro d hd
    cases d <;> simp [nextHeadOf, Point.distance] at hd ⊢
  refine ⟨⟨rfl, rfl⟩, ⟨rfl, rfl⟩, ⟨rfl, rfl⟩, ⟨rfl, rfl⟩, ?_, ?_⟩
  · intro s d hs hne
    refine ⟨?_, hd d hne⟩
    unfold DirectionUtils.fromString at hs
    split_ifs at hs with h1 h2 h3 h4 h5
    · cases hs
      rw [h1]
      rfl
    · cases hs
      rw [h2]
      rfl
    · cases hs
      rw [h3]
      rfl
    · cases hs
      rw [h4]
      rfl
    · cases hs
      exact absurd rfl hne
  · intro s h1 h2 h3 h4
    unfold bot.nextPoint
    rw [if_neg h1, if_neg h2, if_neg h3, if_neg h4]

/-! ## The configuration lookup of the bots -/

/-- C29: `getConfigValue` resolves a setting with priority config file > environment
variable > default: it returns the value of the config map for the key when present and
non-empty; otherwise the value of the environment variable when set and non-empty;
otherwise the fallback; and it returns an empty string only if the fallback is empty. -/
theorem getConfigValue_priority (config : List (String × String))
    (getenv : String → Option String) (key envKey fallback : String) :
    (∀ v, (config.find? (fun e => decide (e.1 = key))).map Prod.snd = some v → v ≠ "" →
      bot.getConfigValue config getenv key envKey fallback = v) ∧
    (((config.find? (fun e => decide (e.1 = key))).map Prod.snd = none ∨
        (config.find? (fun e => decide (e.1 = key))).map Prod.snd = some "") →
      (∀ v, getenv envKey = some v → v ≠ "" →
        bot.getConfigValue config getenv key envKey fallback = v) ∧
      ((getenv envKey = none ∨ getenv envKey = some "") →
        bot.getConfigValue config getenv key envKey fallback = fallback)) ∧
    (bot.getConfigValue config getenv key envKey fallback = "" → fallback = "") := by
  unfold bot.getConfigValue
  cases hf : config.find? (fun e => decide (e.1 = key)) with
  | none =>
    simp only [Option.map_none', false_implies, implies_true, true_and, true_or, true_implies]
    cases hg : getenv envKey with
    | none => simp
    | some w =>
      by_cases hw : w = ""
      · simp [hw]
      · simp [hw]
  | some e =>
    by_cases he : e.2 = ""
    · cases hg : getenv envKey with
      | none => simp [he]
      | some w =>
        by_cases hw : w = ""
        · simp [he, hw]
        · simp [he, hw]
    · cases hg : getenv envKey with
      | none => simp [he]
      | some w =>
        by_cases hw : w = ""
        · simp [he, hw]
        · simp [he, hw]

/-! ## Scenario 1: growth -/

/-- C23, the claim as stated fails: after three ticks the snake spawned at (5,5) has four
body cells, [(8,5),(7,5),(6,5),(5,5)], not the three cells [(8,5),(7,5),(6,5)]; the same
holds with invincibility 5 and for a snake that starts stretched out as
[(5,5),(4,5),(3,5)]. -/
theorem scenario_growth_counterexample :
    ((((growManager 0).tick scenarioEnv).tick scenarioEnv).tick scenarioEnv).gameState.players.map
        (fun p => p.snake.blocks) = [[⟨8, 5⟩, ⟨7, 5⟩, ⟨6, 5⟩, ⟨5, 5⟩]] ∧
    ((((growManager 0).tick scenarioEnv).tick scenarioEnv).tick scenarioEnv).gameState.players.map
        (fun p => p.snake.blocks) ≠ [[⟨8, 5⟩, ⟨7, 5⟩, ⟨6, 5⟩]] ∧
    ((((growManager 5).tick scenarioEnv).tick scenarioEnv).tick scenarioEnv).gameState.players.map
        (fun p => p.snake.blocks) ≠ [[⟨8, 5⟩, ⟨7, 5⟩, ⟨6, 5⟩]] ∧
    (((growStretchedManager.tick scenarioEnv).tick scenarioEnv).tick
        scenarioEnv).gameState.players.map
        (fun p => p.snake.blocks) ≠ [[⟨8, 5⟩, ⟨7, 5⟩, ⟨6, 5⟩]] := by
  decide

/-- C23 (amended): the single snake spawned at (5,5) facing Right with initial length 3
and the only food at (7,5), ticked three times without commands, has length 3 after the
first tick and length 4 after the second (it grew on the second tick, where the food at
(7,5) is removed and journaled), and ends in game with body [(8,5),(7,5),(6,5),(5,5)]
and length 4, no food left, and the round number advanced from 0 to 3. -/
theorem scenario_growth :
    (growManager 0).gameState.players.map (fun p => (p.snake.blocks, p.snake.length)) =
      [([⟨5, 5⟩, ⟨5, 5⟩, ⟨5, 5⟩], 3)] ∧
    (growManager 0).gameState.foods = [⟨7, 5⟩] ∧
    (growManager 0).gameState.currentRound = 0 ∧
    ((growManager 0).tick scenarioEnv).gameState.players.map
        (fun p => (p.snake.blocks, p.snake.length)) = [([⟨6, 5⟩, ⟨5, 5⟩, ⟨5, 5⟩], 3)] ∧
    (((growManager 0).tick scenarioEnv).tick scenarioEnv).gameState.players.map
        (fun p => (p.snake.blocks, p.snake.length)) = [([⟨7, 5⟩, ⟨6, 5⟩, ⟨5, 5⟩], 4)] ∧
    (((growManager 0).tick scenarioEnv).tick scenarioEnv).gameState.removedFoods = [⟨7, 5⟩] ∧
    ((((growManager 0).tick scenarioEnv).tick scenarioEnv).tick scenarioEnv).gameState.players.map
        (fun p => (p.inGame, p.snake.blocks, p.snake.length)) =
      [(true, [⟨8, 5⟩, ⟨7, 5⟩, ⟨6, 5⟩, ⟨5, 5⟩], 4)] ∧
    ((((growManager 0).tick scenarioEnv).tick scenarioEnv).tick scenarioEnv).gameState.foods =
      [] ∧
    ((((growManager 0).tick scenarioEnv).tick scenarioEnv).tick
        scenarioEnv).gameState.currentRound = 3 := by
  decide

/-! ## The full snapshot on the client -/

theorem foldl_addOrUpdate_players (ps : List JsonPlayer) (g : ClientGameState) :
    (ps.foldl (fun g p => g.addOrUpdatePlayer (parsePlayer p)) g).players =
      ps.foldl (fun l p => upsertPlayer (parsePlayer p) l) g.players ∧
    (ps.foldl (fun g p => g.addOrUpdatePlayer (parsePlayer p)) g).current_round =
      g.current_round := by
  induction ps generalizing g with
  | nil => exact ⟨rfl, rfl⟩
  | cons p ps ih =>
    simp only [List.foldl_cons]
    obtain ⟨h1, h2⟩ := ih (g.addOrUpdatePlayer (parsePlayer p))
    exact ⟨h1, h2⟩

theorem foldl_clientAddFood (fs : List Point) (g : ClientGameState) :
    (fs.foldl (fun g f => g.addFood f) g).foods = fs.foldl addFood g.foods ∧
    (fs.foldl (fun g f => g.addFood f) g).players = g.players ∧
    (fs.foldl (fun g f => g.addFood f) g).current_round = g.current_round := by
  induction fs generalizing g with
  | nil => exact ⟨rfl, rfl, rfl⟩
  | cons f fs ih =>
    simp only [List.foldl_cons]
    obtain ⟨h1, h2, h3⟩ := ih (g.addFood f)
    exact ⟨h1, h2, h3⟩

theorem mem_upsertPlayer (x s : ClientSnake) (l : List ClientSnake)
    (h : s ∈ upsertPlayer x l) : s = x ∨ s ∈ l := by
  induction l with
  | nil =>
    simp only [upsertPlayer, List.mem_singleton] at h
    exact Or.inl h
  | cons q r ih =>
    simp only [upsertPlayer] at h
    split_ifs at h with e
    · rcases List.mem_cons.mp h with h1 | h1
      · exact Or.inl h1
      · exact Or.inr (List.mem_cons_of_mem _ h1)
    · rcases List.mem_cons.mp h with h1 | h1
      · exact Or.inr (h1 ▸ List.mem_cons_self _ _)
      · rcases ih h1 with h2 | h2
        · exact Or.inl h2
        · exact Or.inr (List.mem_cons_of_mem _ h2)

theorem upsertPlayer_ids (x : ClientSnake) (l : List ClientSnake) :
    (upsertPlayer x l).map ClientSnake.id =
      if x.id ∈ l.map ClientSnake.id then l.map ClientSnake.id
      else l.map ClientSnake.id ++ [x.id] := by
  induction l with
  | nil => simp [upsertPlayer]
  | cons q r ih =>
    simp only [upsertPlayer]
    by_cases e : q.id = x.id
    · rw [if_pos e]
      simp [e]
    · rw [if_neg e]
      simp only [List.map_cons, ih, List.mem_cons]
      have e1 : ¬ x.id = q.id := fun h => e h.symm
      by_cases hm : x.id ∈ r.map ClientSnake.id
      · simp [hm]
      · simp [hm, e1]

theorem find_upsertPlayer (x : ClientSnake) (i : String) (l : List ClientSnake) :
    (upsertPlayer x l).find? (fun s => decide (s.id = i)) =
      if x.id = i then some x else l.find? (fun s => decide (s.id = i)) := by
  induction l with
  | nil =>
    simp only [upsertPlayer, List.find?_cons, List.find?_nil]
    by_cases e : x.id = i
    · simp [e]
    · simp [e]
  | cons q r ih =>
    simp only [upsertPlayer]
    by_cases e : q.id = x.id
    · rw [if_pos e]
      by_cases e2 : x.id = i
      · simp [e2]
      · have e3 : ¬ q.id = i := fun h => e2 (e ▸ h)
        simp [e2, e3]
    · rw [if_neg e]
      by_cases e2 : x.id = i
      · have e3 : ¬ q.id = i := fun h => e (h.trans e2.symm)
        simp [e2, e3, ih]
      · by_cases e3 : q.id = i
        · simp [e2, e3]
        · simp [e2, e3, ih]

theorem foldl_upsert_spec (ps : List JsonPlayer) (l : List ClientSnake)
    (hl : (l.map ClientSnake.id).Nodup) :
    ((ps.foldl (fun l p => upsertPlayer (parsePlayer p) l) l).map ClientSnake.id).Nodup ∧
    (∀ i, i ∈ (ps.foldl (fun l p => upsertPlayer (parsePlayer p) l) l).map ClientSnake.id ↔
      i ∈ l.map ClientSnake.id ∨ i ∈ ps.map JsonPlayer.id) ∧
    (∀ s ∈ ps.foldl (fun l p => upsertPlayer (parsePlayer p) l) l,
      s ∈ l ∨ ∃ q ∈ ps, s = parsePlayer q) ∧
    (∀ i, i ∉ ps.map JsonPlayer.id →
      (ps.foldl (fun l p => upsertPlayer (parsePlayer p) l) l).find?
        (fun s => decide (s.id = i)) = l.find? (fun s => decide (s.id = i))) := by
  induction ps generalizing l with
  | nil => simp [hl]
  | cons p ps ih =>
    simp only [List.foldl_cons]
    have hl1 : ((upsertPlayer (parsePlayer p) l).map ClientSnake.id).Nodup := by
      rw [upsertPlayer_ids]
      split_ifs with hm
      · exact hl
      · rw [List.nodup_append]
        refine ⟨hl, List.nodup_singleton _, ?_⟩
        intro a ha hb
        rw [List.mem_singleton] at hb
        exact hm (hb ▸ ha)
    obtain ⟨g1, g2, g3, g4⟩ := ih _ hl1
    refine ⟨g1, ?_, ?_, ?_⟩
    · intro i
      rw [g2 i, upsertPlayer_ids]
      have hid : (parsePlayer p).id = p.id := rfl
      rw [hid]
      simp only [List.map_cons, List.mem_cons]
      split_ifs with hm
      · constructor
        · rintro (h | h)
          · exact Or.inl h
          · exact Or.inr (Or.inr h)
        · rintro (h | h | h)
          · exact Or.inl h
          · exact Or.inl (h ▸ hm)
          · exact Or.inr h
      · rw [List.mem_append, List.mem_singleton]
        tauto
    · intro s hs
      rcases g3 s hs with h | ⟨q, hq, e⟩
      · rcases mem_upsertPlayer _ _ _ h with h1 | h1
        · exact Or.inr ⟨p, List.mem_cons_self _ _, h1⟩
        · exact Or.inl h1
      · exact Or.inr ⟨q, List.mem_cons_of_mem _ hq, e⟩
    · intro i hi
      simp only [List.map_cons, List.mem_cons, not_or] at hi
      rw [g4 i hi.2, find_upsertPlayer]
      have hid : (parsePlayer p).id = p.id := rfl
      rw [hid, if_neg (fun e => hi.1 e.symm)]

theorem parsePlayer_blocks (p : JsonPlayer) :
    (parsePlayer p).blocks ≠ [] ∧
    (p.blocks = [] → (parsePlayer p).blocks = [p.head]) ∧
    (p.blocks ≠ [] → (parsePlayer p).blocks = p.blocks) := by
  unfold parsePlayer
  by_cases h : p.blocks = []
  · simp [h]
  · simp [h]

theorem nodup_setInsert (p : Point) (l : List Point) (h : l.Nodup) : (setInsert p l).Nodup := by
  unfold setInsert
  split_ifs with hm
  · exact h
  · rw [List.nodup_append]
    refine ⟨h, List.nodup_singleton _, ?_⟩
    intro a ha hb
    rw [List.mem_singleton] at hb
    exact hm (hb ▸ ha)

theorem nodup_foldl_addFood (fs l : List Point) (h : l.Nodup) :
    (fs.foldl addFood l).Nodup := by
  induction fs generalizing l with
  | nil => exact h
  | cons f fs ih =>
    simp only [List.foldl_cons]
    exact ih _ (nodup_setInsert f l h)

/-- C24: after `parseFullMapState` every player of the client state has at least one block
and is the record built from some player of the snapshot; the snapshot player p (the last
one listed under its id) is found under its id with blocks [head] when its incoming block
list is empty and with exactly the incoming list otherwise; the ids of the client players
are exactly the ids of the snapshot, each once, and the foods are exactly the foods of the
snapshot, each once, whatever the previous state held. -/
theorem parseFullMapState_rebuilds (c : CodingSnake) (ms : JsonMapState)
    (pre post : List JsonPlayer) (p : JsonPlayer)
    (hsplit : ms.players = pre ++ p :: post) (hlast : ∀ q ∈ post, q.id ≠ p.id) :
    (∀ s ∈ (c.parseFullMapState ms).state.players,
      s.blocks ≠ [] ∧ ∃ q ∈ ms.players, s = parsePlayer q) ∧
    (c.parseFullMapState ms).state.findPlayerById p.id = some (parsePlayer p) ∧
    (p.blocks = [] → (parsePlayer p).blocks = [p.head]) ∧
    (p.blocks ≠ [] → (parsePlayer p).blocks = p.blocks) ∧
    ((c.parseFullMapState ms).state.players.map ClientSnake.id).Nodup ∧
    (∀ i, i ∈ (c.parseFullMapState ms).state.players.map ClientSnake.id ↔
      i ∈ ms.players.map JsonPlayer.id) ∧
    (c.parseFullMapState ms).state.foods.Nodup ∧
    (∀ f, f ∈ (c.parseFullMapState ms).state.foods ↔ f ∈ ms.foods) ∧
    (c.parseFullMapState ms).state.current_round = ms.round := by
  have hplayers : (c.parseFullMapState ms).state.players =
      ms.players.foldl (fun l p => upsertPlayer (parsePlayer p) l) [] := by
    unfold CodingSnake.parseFullMapState
    dsimp only
    rw [(foldl_clientAddFood _ _).2.1]
    dsimp only
    rw [(foldl_addOrUpdate_players _ _).1]
  have hfoods : (c.parseFullMapState ms).state.foods = ms.foods.foldl addFood [] := by
    unfold CodingSnake.parseFullMapState
    dsimp only
    rw [(foldl_clientAddFood _ _).1]
  have hround : (c.parseFullMapState ms).state.current_round = ms.round := by
    unfold CodingSnake.parseFullMapState
    dsimp only
    rw [(foldl_clientAddFood _ _).2.2]
    dsimp only
    rw [(foldl_addOrUpdate_players _ _).2]
  obtain ⟨g1, g2, g3, _⟩ := foldl_upsert_spec ms.players [] List.nodup_nil
  refine ⟨?_, ?_, (parsePlayer_blocks p).2.1, (parsePlayer_blocks p).2.2, ?_, ?_, ?_, ?_,
    hround⟩
  · intro s hs
    rw [hplayers] at hs
    rcases g3 s hs with h | ⟨q, hq, e⟩
    · cases h
    · exact ⟨e ▸ (parsePlayer_blocks q).1, q, hq, e⟩
  · unfold ClientGameState.findPlayerById
    rw [hplayers, hsplit, List.foldl_append, List.foldl_cons]
    have hn : ((upsertPlayer (parsePlayer p)
        (pre.foldl (fun l p => upsertPlayer (parsePlayer p) l) [])).map ClientSnake.id).Nodup := by
      have h0 := (foldl_upsert_spec (pre ++ [p]) [] List.nodup_nil).1
      rw [List.foldl_append] at h0
      exact h0
    have hpost : p.id ∉ post.map JsonPlayer.id := by
      intro hm
      obtain ⟨q, hq, e⟩ := List.mem_map.mp hm
      exact hlast q hq e
    rw [(foldl_upsert_spec post _ hn).2.2.2 p.id hpost, find_upsertPlayer]
    have hid : (parsePlayer p).id = p.id := rfl
    rw [if_pos hid]
  · rw [hplayers]
    exact g1
  · intro i
    rw [hplayers, g2 i]
    simp
  · rw [hfoods]
    exact nodup_foldl_addFood _ _ List.nodup_nil
  · intro f
    rw [hfoods, mem_foldl_addFood]
    simp

/-- C24 on a client that knows the snake "s1" and the food (6,5) and parses a snapshot with
the players "a" (no blocks, head (2,3)) and "b": "a" gets the blocks [(2,3)], and the
players and foods of the old state are gone. -/
theorem parseFullMapState_rebuilds_witness :
    ((snapshotClient eatManager.gameState).parseFullMapState
        lonelyHeadSnapshot).state.findPlayerById "a" =
      some { id := "a", name := "a", color := "#FFFFFF", head := ⟨2, 3⟩, blocks := [⟨2, 3⟩],
             length := 1, invincible_rounds := 0 } ∧
    ((snapshotClient eatManager.gameState).parseFullMapState
        lonelyHeadSnapshot).state.players.map ClientSnake.id = ["a", "b"] ∧
    (snapshotClient eatManager.gameState).state.players.map ClientSnake.id = ["s1"] ∧
    ((snapshotClient eatManager.gameState).parseFullMapState
        lonelyHeadSnapshot).state.foods = [⟨9, 9⟩] ∧
    (snapshotClient eatManager.gameState).state.foods = [⟨6, 5⟩] :=
  have h := parseFullMapState_rebuilds (snapshotClient eatManager.gameState)
    lonelyHeadSnapshot []
    [{ id := "b", name := "b", color := none, head := ⟨4, 4⟩, blocks := [⟨4, 4⟩, ⟨4, 5⟩],
       length := 2, invincible_rounds := some 1 }]
    { id := "a", name := "a", color := none, head := ⟨2, 3⟩, blocks := [], length := 1,
      invincible_rounds := none }
    rfl (by decide)
  ⟨h.2.1.trans (by decide), by decide, by decide, by decide, by decide⟩

/-! ## A missed round on the client -/

/-- C26: when `parseDeltaState` receives a delta whose round is greater than the current
round + 1, the result is that of a full-map refresh on the state in which only the
next-round timestamp of the delta has been taken over: it is the same for every other
delta with that timestamp and a gap, and when the refresh fails the round number, the
players, the foods and the in-game flag are those from before the call.  When the round is
at most current + 1 the delta is applied (round number, died and joined players, player
updates, food changes) and the result does not depend on the answer a full-map request
would get. -/
theorem parseDeltaState_gap (c : CodingSnake) (delta : JsonDeltaState)
    (refresh : Option MapResponse) :
    (c.state.current_round + 1 < delta.round →
      c.parseDeltaState delta refresh =
        (CodingSnake.fetchFullMap
          { c with state :=
              { c.state with next_round_timestamp :=
                  delta.next_round_timestamp.getD c.state.next_round_timestamp } }
          refresh).2 ∧
      (∀ other : JsonDeltaState, c.state.current_round + 1 < other.round →
        other.next_round_timestamp = delta.next_round_timestamp →
        c.parseDeltaState other refresh = c.parseDeltaState delta refresh) ∧
      ((CodingSnake.fetchFullMap
          { c with state :=
              { c.state with next_round_timestamp :=
                  delta.next_round_timestamp.getD c.state.next_round_timestamp } }
          refresh).1 = false →
        (c.parseDeltaState delta refresh).state.current_round = c.state.current_round ∧
        (c.parseDeltaState delta refresh).state.players = c.state.players ∧
        (c.parseDeltaState delta refresh).state.foods = c.state.foods ∧
        (c.parseDeltaState delta refresh).in_game = c.in_game)) ∧
    (¬ c.state.current_round + 1 < delta.round →
      (c.parseDeltaState delta refresh).state =
        applyDelta
          { c.state with next_round_timestamp :=
              delta.next_round_timestamp.getD c.state.next_round_timestamp } delta ∧
      (c.parseDeltaState delta refresh).state.current_round = delta.round ∧
      (c.parseDeltaState delta refresh).last_full_refresh = c.last_full_refresh ∧
      ∀ other : Option MapResponse,
        c.parseDeltaState delta other = c.parseDeltaState delta refresh) := by
  constructor
  · intro hgap
    have hres : c.parseDeltaState delta refresh =
        (CodingSnake.fetchFullMap
          { c with state :=
              { c.state with next_round_timestamp :=
                  delta.next_round_timestamp.getD c.state.next_round_timestamp } }
          refresh).2 := by
      unfold CodingSnake.parseDeltaState
      dsimp only
      rw [if_pos hgap]
    refine ⟨hres, ?_, ?_⟩
    · intro other hother hts
      rw [hres]
      unfold CodingSnake.parseDeltaState
      dsimp only
      rw [if_pos hother, hts]
    · intro hfail
      rw [hres]
      revert hfail
      unfold CodingSnake.fetchFullMap
      cases refresh with
      | none =>
        intro _
        exact ⟨rfl, rfl, rfl, rfl⟩
      | some r =>
        dsimp only
        split_ifs
        · intro _
          exact ⟨rfl, rfl, rfl, rfl⟩
        · intro _
          exact ⟨rfl, rfl, rfl, rfl⟩
        · intro h
          exact absurd h (by decide)
  · intro hno
    have hres : ∀ other : Option MapResponse, c.parseDeltaState delta other =
        { c with
          state := applyDelta
            { c.state with next_round_timestamp :=
                delta.next_round_timestamp.getD c.state.next_round_timestamp } delta
          in_game := ((applyDelta
            { c.state with next_round_timestamp :=
                delta.next_round_timestamp.getD c.state.next_round_timestamp }
            delta).findPlayerById c.player_id).isSome } := by
      intro other
      unfold CodingSnake.parseDeltaState
      dsimp only
      rw [if_neg hno]
    have hround : ∀ g : ClientGameState, (applyDelta g delta).current_round = delta.round := by
      intro g
      unfold applyDelta
      dsimp only
      have h1 : ∀ (l : List Point) (g : ClientGameState),
          (l.foldl (fun g f => g.addFood f) g).current_round = g.current_round :=
        fun l g => (foldl_clientAddFood l g).2.2
      have h2 : ∀ (l : List Point) (g : ClientGameState),
          (l.foldl (fun g f => g.removeFood f) g).current_round = g.current_round := by
        intro l
        induction l with
        | nil => intro g; rfl
        | cons a l ih => intro g; simp only [List.foldl_cons]; rw [ih]; rfl
      have h3 : ∀ (l : List JsonPlayerUpdate) (g : ClientGameState),
          (l.foldl (fun g u =>
            { g with players :=
                modifyClientPlayer (fun s => applyPlayerUpdate s u) u.id g.players })
            g).current_round = g.current_round := by
        intro l
        induction l with
        | nil => intro g; rfl
        | cons a l ih => intro g; simp only [List.foldl_cons]; rw [ih]
      have h4 : ∀ (l : List JsonPlayer) (g : ClientGameState),
          (l.foldl (fun g p => g.addOrUpdatePlayer (parsePlayer p)) g).current_round =
            g.current_round := fun l g => (foldl_addOrUpdate_players l g).2
      have h5 : ∀ (l : List String) (g : ClientGameState),
          (l.foldl (fun g i => g.removePlayer i) g).current_round = g.current_round := by
        intro l
        induction l with
        | nil => intro g; rfl
        | cons a l ih => intro g; simp only [List.foldl_cons]; rw [ih]; rfl
      rw [h1, h2, h3, h4, h5]
    refine ⟨?_, ?_, ?_, ?_⟩
    · rw [hres refresh]
    · rw [hres refresh]
      exact hround _
    · rw [hres refresh]
    · intro other
      rw [hres other, hres refresh]

/-! ## At most one move per round -/

theorem runIteration_step (ar : Bool) (st : RunState) (ev : LoopEvents) :
    ((CodingSnake.runIteration ar st ev).sent = st.sent ∧
      st.respawns ≤ (CodingSnake.runIteration ar st ev).respawns ∧
      ((CodingSnake.runIteration ar st ev).respawns = st.respawns →
        (CodingSnake.runIteration ar st ev).running = true →
        st.running = true ∧
        (CodingSnake.runIteration ar st ev).last_decision_round = st.last_decision_round)) ∨
    (st.running = true ∧ ev.current_round ≠ st.last_decision_round ∧
      (CodingSnake.runIteration ar st ev).sent =
        st.sent ++ [(ev.current_round, ev.decision.getD "right")] ∧
      (CodingSnake.runIteration ar st ev).respawns = st.respawns ∧
      ((CodingSnake.runIteration ar st ev).running = true →
        (CodingSnake.runIteration ar st ev).last_decision_round = ev.current_round) ∧
      (ev.send.isSome = true →
        (CodingSnake.runIteration ar st ev).last_decision_round = ev.current_round)) := by
  unfold CodingSnake.runIteration
  by_cases hr : st.running = false
  · rw [if_pos hr]
    left
    refine ⟨rfl, le_refl _, ?_⟩
    intro _ h
    rw [hr] at h
    exact absurd h (by decide)
  · rw [if_neg hr]
    have hr1 : st.running = true := by simpa using hr
    cases hu : ev.update with
    | none =>
      left
      refine ⟨rfl, le_refl _, ?_⟩
      intro _ h
      simp at h
    | some b =>
      cases b with
      | false =>
        left
        exact ⟨rfl, le_refl _, fun _ _ => ⟨hr1, rfl⟩⟩
      | true =>
        dsimp only
        by_cases hg : ev.in_game = false
        · rw [if_pos hg]
          left
          by_cases ha : ar = true
          · rw [if_pos ha]
            by_cases hs : ev.respawn = true
            · rw [if_pos hs]
              refine ⟨rfl, Nat.le_succ _, ?_⟩
              intro h
              exact absurd h (Nat.succ_ne_self _)
            · rw [if_neg hs]
              refine ⟨rfl, le_refl _, ?_⟩
              intro _ h
              simp at h
          · rw [if_neg ha]
            refine ⟨rfl, le_refl _, ?_⟩
            intro _ h
            simp at h
        · rw [if_neg hg]
          by_cases he : ev.current_round = st.last_decision_round
          · rw [if_pos he]
            left
            exact ⟨rfl, le_refl _, fun _ _ => ⟨hr1, rfl⟩⟩
          · rw [if_neg he]
            right
            cases hsend : ev.send with
            | none =>
              refine ⟨hr1, he, rfl, rfl, ?_, ?_⟩
              · intro h
                simp at h
              · intro h
                simp at h
            | some b =>
              cases b with
              | false => exact ⟨hr1, he, rfl, rfl, fun _ => rfl, fun _ => rfl⟩
              | true => exact ⟨hr1, he, rfl, rfl, fun _ => rfl, fun _ => rfl⟩

theorem runLoop_respawns_mono (ar : Bool) (evs : List LoopEvents) (st : RunState) :
    st.respawns ≤ (evs.foldl (CodingSnake.runIteration ar) st).respawns := by
  induction evs generalizing st with
  | nil => exact le_refl _
  | cons ev evs ih =>
    simp only [List.foldl_cons]
    refine le_trans ?_ (ih _)
    rcases runIteration_step ar st ev with h | h
    · exact h.2.1
    · exact le_of_eq h.2.2.2.1.symm

theorem runLoop_sent_increasing (ar : Bool) (evs : List LoopEvents) (st : RunState)
    (hmono : (evs.map LoopEvents.current_round).Pairwise (fun a b => a ≤ b))
    (hno : (evs.foldl (CodingSnake.runIteration ar) st).respawns = st.respawns)
    (h1 : (st.sent.map Prod.fst).Pairwise (fun a b => a < b))
    (h2 : st.running = true →
      (∀ r ∈ st.sent.map Prod.fst, r ≤ st.last_decision_round) ∧
      (st.sent = [] ∨ st.last_decision_round ∈ st.sent.map Prod.fst) ∧
      (∀ r ∈ st.sent.map Prod.fst, ∀ ev ∈ evs, r ≤ ev.current_round)) :
    ((evs.foldl (CodingSnake.runIteration ar) st).sent.map Prod.fst).Pairwise
      (fun a b => a < b) := by
  induction evs generalizing st with
  | nil => exact h1
  | cons ev evs ih =>
    simp only [List.foldl_cons] at hno ⊢
    rw [List.map_cons, List.pairwise_cons] at hmono
    have hle1 := runLoop_respawns_mono ar evs (CodingSnake.runIteration ar st ev)
    rcases runIteration_step ar st ev with h | h
    · obtain ⟨hs, hr, hk⟩ := h
      have hreq : (CodingSnake.runIteration ar st ev).respawns = st.respawns := by omega
      apply ih _ hmono.2
      · rw [hreq]
        exact hno
      · rw [hs]
        exact h1
      · intro hrun
        obtain ⟨hrun0, hlast⟩ := hk hreq hrun
        obtain ⟨a1, a2, a3⟩ := h2 hrun0
        rw [hs, hlast]
        exact ⟨a1, a2, fun r hr ev1 hev1 => a3 r hr ev1 (List.mem_cons_of_mem _ hev1)⟩
    · obtain ⟨hrun0, hne, hs, hreq, hk, _⟩ := h
      obtain ⟨a1, a2, a3⟩ := h2 hrun0
      have hlt : ∀ r ∈ st.sent.map Prod.fst, r < ev.current_round := by
        intro r hr
        have hle : r ≤ ev.current_round := a3 r hr ev (List.mem_cons_self _ _)
        have hlast : st.last_decision_round ≤ ev.current_round := by
          rcases a2 with e | hm
          · rw [e] at hr
            cases hr
          · exact a3 _ hm ev (List.mem_cons_self _ _)
        have := a1 r hr
        omega
      apply ih _ hmono.2
      · rw [hreq]
        exact hno
      · rw [hs, List.map_append, List.pairwise_append]
        refine ⟨h1, List.pairwise_singleton _ _, ?_⟩
        intro a ha b hb
        simp only [List.map_cons, List.map_nil, List.mem_singleton] at hb
        rw [hb]
        exact hlt a ha
      · intro hrun
        rw [hs, hk hrun]
        refine ⟨?_, ?_, ?_⟩
        · intro r hr
          rw [List.map_append, List.mem_append] at hr
          rcases hr with hr | hr
          · exact le_of_lt (hlt r hr)
          · simp only [List.map_cons, List.map_nil, List.mem_singleton] at hr
            rw [hr]
        · right
          simp
        · intro r hr ev1 hev1
          rw [List.map_append, List.mem_append] at hr
          rcases hr with hr | hr
          · exact a3 r hr ev1 (List.mem_cons_of_mem _ hev1)
          · simp only [List.map_cons, List.map_nil, List.mem_singleton] at hr
            rw [hr]
            exact hmono.1 _ (List.mem_map.mpr ⟨ev1, hev1, rfl⟩)

/-- C25: in every pass of the client round loop a move is sent only if the loop is running
and the observed round differs from the last decided round, and after a pass in which
`sendMove` was called and returned, with success or failure, the last decided round equals
the observed round; hence over any sequence of passes with non-decreasing observed rounds
and no respawn, the rounds of the moves sent are strictly increasing: at most one move is
sent per round number. -/
theorem run_sends_at_most_once (auto_respawn : Bool) (evs : List LoopEvents)
    (hmono : (evs.map LoopEvents.current_round).Pairwise (fun a b => a ≤ b))
    (hno : (CodingSnake.runLoop auto_respawn evs).respawns = 0) :
    (∀ (st : RunState) (ev : LoopEvents),
      (CodingSnake.runIteration auto_respawn st ev).sent ≠ st.sent →
        ev.current_round ≠ st.last_decision_round ∧
        (CodingSnake.runIteration auto_respawn st ev).sent =
          st.sent ++ [(ev.current_round, ev.decision.getD "right")] ∧
        (ev.send = some true ∨ ev.send = some false →
          (CodingSnake.runIteration auto_respawn st ev).last_decision_round =
            ev.current_round)) ∧
    ((CodingSnake.runLoop auto_respawn evs).sent.map Prod.fst).Pairwise (fun a b => a < b) ∧
    ((CodingSnake.runLoop auto_respawn evs).sent.map Prod.fst).Nodup ∧
    (∀ r : Int, ((CodingSnake.runLoop auto_respawn evs).sent.map Prod.fst).count r ≤ 1) := by
  have hinc : ((CodingSnake.runLoop auto_respawn evs).sent.map Prod.fst).Pairwise
      (fun a b => a < b) := by
    unfold CodingSnake.runLoop
    apply runLoop_sent_increasing auto_respawn evs CodingSnake.runStart hmono
    · exact hno
    · exact List.Pairwise.nil
    · intro _
      refine ⟨?_, Or.inl rfl, ?_⟩
      · intro r hr
        cases hr
      · intro r hr
        cases hr
  have hnd : ((CodingSnake.runLoop auto_respawn evs).sent.map Prod.fst).Nodup :=
    hinc.imp (fun h e => by omega)
  refine ⟨?_, hinc, hnd, fun r => List.nodup_iff_count_le_one.mp hnd r⟩
  intro st ev hsent
  rcases runIteration_step auto_respawn st ev with h | h
  · exact absurd h.1 hsent
  · refine ⟨h.2.1, h.2.2.1, ?_⟩
    intro hs
    apply h.2.2.2.2.2
    rcases hs with e | e
    · rw [e]
      rfl
    · rw [e]
      rfl

/-- C25 on three passes that observe the rounds 4, 4 and 5 in game: the first send fails,
the second pass sends nothing, the third sends for round 5. -/
theorem run_sends_at_most_once_witness :
    (CodingSnake.runLoop true
      [{ update := some true, in_game := true, current_round := 4, respawn := true,
         decision := some "up", send := some false },
       { update := some true, in_game := true, current_round := 4, respawn := true,
         decision := some "left", send := some true },
       { update := some true, in_game := true, current_round := 5, respawn := true,
         decision := none, send := some true }]).sent = [(4, "up"), (5, "right")] ∧
    ([(4, "up"), (5, "right")].map Prod.fst : List Int).Nodup :=
  have h := run_sends_at_most_once true
    [{ update := some true, in_game := true, current_round := 4, respawn := true,
       decision := some "up", send := some false },
     { update := some true, in_game := true, current_round := 4, respawn := true,
       decision := some "left", send := some true },
     { update := some true, in_game := true, current_round := 5, respawn := true,
       decision := none, send := some true }] (by decide) (by decide)
  ⟨by decide, h.2.2.1⟩

/-! ## Kill attribution -/

theorem findKiller_spec (ps : List Player) (victim : String) (occupants : List String)
    (k : Player) (h : findKiller ps victim occupants = some k) :
    k.id ∈ occupants ∧ k.id ≠ victim ∧ k.inGame = true ∧ getPlayer ps k.id = some k := by
  induction occupants with
  | nil => cases h
  | cons o rest ih =>
    simp only [findKiller] at h
    by_cases ho : o = victim
    · rw [if_pos ho] at h
      obtain ⟨h1, h2, h3, h4⟩ := ih h
      exact ⟨List.mem_cons_of_mem _ h1, h2, h3, h4⟩
    · rw [if_neg ho] at h
      cases hg : getPlayer ps o with
      | none =>
        rw [hg] at h
        obtain ⟨h1, h2, h3, h4⟩ := ih h
        exact ⟨List.mem_cons_of_mem _ h1, h2, h3, h4⟩
      | some q =>
        rw [hg] at h
        dsimp only at h
        by_cases hq : q.inGame = false
        · rw [if_pos hq] at h
          obtain ⟨h1, h2, h3, h4⟩ := ih h
          exact ⟨List.mem_cons_of_mem _ h1, h2, h3, h4⟩
        · rw [if_neg hq] at h
          have hk : q = k := Option.some.inj h
          subst hk
          have hid : q.id = o := (getPlayer_some hg).2
          refine ⟨?_, ?_, by simpa using hq, ?_⟩
          · rw [hid]
            exact List.mem_cons_self _ _
          · rw [hid]
            exact ho
          · rw [hid]
            exact hg

/-- C27, the code at the failing input: in the head-on collision of scenario 2 both snakes
die with the cause OTHER, and at detection time the head cell of each is a body cell of the
other, which is not invincible.  The death resolved first attributes a kill to the other
snake; the death resolved second attributes none, because the other snake is already out
of game.  Which of the two snakes gets the kill depends on the order of the players. -/
theorem headOn_kill_depends_on_order :
    detectCollisions scenarioEnv headOnMoved =
      [("s1", CollisionType.OTHER_SNAKE), ("s2", CollisionType.OTHER_SNAKE)] ∧
    buildOccupancyByPlayer headOnMoved.gameState.players =
      [(⟨5, 5⟩, ["s1", "s2"]), (⟨4, 5⟩, ["s1", "s2"])] ∧
    (getPlayer headOnMoved.gameState.players "s2").map (fun p => p.snake.getHead) =
      some ⟨4, 5⟩ ∧
    (headOnManager.tick scenarioEnv).lbEvents =
      [LbEvent.onRound "s2" "s2" 0 2 0 1, LbEvent.onDeath "s1" "s1" 0 2,
       LbEvent.onDeath "s2" "s2" 0 2] ∧
    (headOnSwappedManager.tick scenarioEnv).lbEvents =
      [LbEvent.onRound "s1" "s1" 0 2 0 1, LbEvent.onDeath "s2" "s2" 0 2,
       LbEvent.onDeath "s1" "s1" 0 2] := by
  decide

/-! ## The food target and the configuration -/

theorem ite_false_true {p : Prop} [Decidable p] {b : Bool}
    (h : (if p then false else b) = true) : ¬ p ∧ b = true := by
  by_cases hp : p
  · rw [if_pos hp] at h
    exact absurd h (by decide)
  · rw [if_neg hp] at h
    exact ⟨hp, h⟩

theorem validate_game (c : Config) (h : c.validate = true) :
    (10 ≤ c.game.mapWidth ∧ c.game.mapWidth ≤ 200000) ∧
    (10 ≤ c.game.mapHeight ∧ c.game.mapHeight ≤ 200000) ∧
    (0 ≤ c.game.foodDensity ∧ c.game.foodDensity ≤ 1) := by
  unfold Config.validate at h
  obtain ⟨_, h⟩ := ite_false_true h
  obtain ⟨_, h⟩ := ite_false_true h
  obtain ⟨_, h⟩ := ite_false_true h
  obtain ⟨_, h⟩ := ite_false_true h
  obtain ⟨_, h⟩ := ite_false_true h
  obtain ⟨_, h⟩ := ite_false_true h
  obtain ⟨_, h⟩ := ite_false_true h
  obtain ⟨_, h⟩ := ite_false_true h
  obtain ⟨a9, h⟩ := ite_false_true h
  obtain ⟨a10, h⟩ := ite_false_true h
  obtain ⟨_, h⟩ := ite_false_true h
  obtain ⟨_, h⟩ := ite_false_true h
  obtain ⟨_, h⟩ := ite_false_true h
  obtain ⟨a14, h⟩ := ite_false_true h
  rw [not_or, not_lt, not_lt] at a9 a10 a14
  exact ⟨a9, a10, a14⟩

theorem targetFoodCount_exact (c : Config)
    (gen : Int → CountMap → List Point → List Point)
    (hpos : 0 ≤ c.game.mapWidth * c.game.mapHeight)
    (hsize : c.game.mapWidth * c.game.mapHeight < 2147483648)
    (hd : 0 ≤ c.game.foodDensity) :
    targetFoodCount (c.toEnv gen) =
      ⌊((c.game.mapWidth * c.game.mapHeight : Int) : ℚ) * c.game.foodDensity⌋ := by
  unfold targetFoodCount Config.toEnv
  dsimp only
  rw [wrapInt32_of_small _ hpos hsize]
  have hnum : 0 ≤ c.game.foodDensity.num := Rat.num_nonneg.mpr hd
  rw [Int.tdiv_eq_ediv (Int.mul_nonneg hpos hnum) (Int.natCast_nonneg _)]
  have hq : ((c.game.mapWidth * c.game.mapHeight : Int) : ℚ) * c.game.foodDensity =
      (((c.game.mapWidth * c.game.mapHeight * c.game.foodDensity.num : Int) : ℚ)) /
        ((c.game.foodDensity.den : ℕ) : ℚ) := by
    conv_lhs => rw [← Rat.num_div_den c.game.foodDensity]
    push_cast
    ring
  rw [hq, Rat.floor_intCast_div_natCast]

theorem generateFood_at_target (env : Env) (m : GameManager)
    (h : targetFoodCount env ≤ (m.gameState.foods.length : Int)) :
    m.generateFood env = m := by
  unfold GameManager.generateFood
  dsimp only
  rw [if_neg (by omega)]

/-- C28, the code at the failing input: the configuration with a map of 50000 x 50000
cells and the default density 0.05 is accepted by `validate`; the exact product is
2500000000 and the floor of product times density is 125000000, but the 32-bit product
`mapWidth * mapHeight` is -1794967296 and the target computed from it is -89748364, so
that `generateFood` adds no food to an empty map although the generator offers a cell. -/
theorem targetFoodCount_overflows :
    bigMapConfig.validate = true ∧
    bigMapConfig.game.mapWidth * bigMapConfig.game.mapHeight = 2500000000 ∧
    ⌊((2500000000 : Int) : ℚ) * bigMapConfig.game.foodDensity⌋ = 125000000 ∧
    wrapInt32 (bigMapConfig.game.mapWidth * bigMapConfig.game.mapHeight) = -1794967296 ∧
    targetFoodCount (bigMapConfig.toEnv cornerFoodGenerator) = -89748364 ∧
    (scenarioManager [] []).gameState.foods = [] ∧
    ((scenarioManager [] []).generateFood
      (bigMapConfig.toEnv cornerFoodGenerator)).gameState.foods = [] := by
  have hd : bigMapConfig.game.foodDensity = 1 / 20 := rfl
  have hnum : bigMapConfig.game.foodDensity.num = 1 := by
    rw [hd]
    norm_num
  have hden : bigMapConfig.game.foodDensity.den = 20 := by
    rw [hd]
    norm_num
  have htarget : targetFoodCount (bigMapConfig.toEnv cornerFoodGenerator) = -89748364 := by
    unfold targetFoodCount Config.toEnv
    dsimp only
    rw [hnum, hden]
    decide
  refine ⟨?_, by decide, ?_, by decide, htarget, rfl, ?_⟩
  · unfold Config.validate
    simp [bigMapConfig]
    norm_num
  · rw [hd]
    norm_num
  · rw [generateFood_at_target]
    · rfl
    · rw [htarget]
      decide

/-! ## Loading the configuration -/

/-- C30, the code at two failing inputs, on the default configuration.  A file that only
sets the map width to 5 makes `loadFromJson` return false (validation fails), and the map
width is 5 afterwards, not the default 50.  A file with port 8080, map width 100 and a
string for the map height makes it return false (the conversion throws), and the port is
8080 and the map width 100 afterwards. -/
theorem loadFromJson_keeps_partial_changes :
    (Config.loadFromJson {} narrowMapJson).1 = false ∧
    (Config.loadFromJson {} narrowMapJson).2.game.mapWidth = 5 ∧
    ({} : Config).game.mapWidth = 50 ∧
    (Config.loadFromJson {} brokenHeightJson).1 = false ∧
    (Config.loadFromJson {} brokenHeightJson).2.server.port = 8080 ∧
    (Config.loadFromJson {} brokenHeightJson).2.game.mapWidth = 100 ∧
    ({} : Config).server.port = 18080 := by
  decide

/-! ## The clock estimate stays between the old estimate and the sample -/

theorem tdiv_weighted_between (o s w : Int) (hw0 : 0 ≤ w) (hw1 : w ≤ 100) :
    min o s ≤ Int.tdiv (o * w + s * (100 - w)) 100 ∧
    Int.tdiv (o * w + s * (100 - w)) 100 ≤ max o s := by
  have hlo1 : min o s * w ≤ o * w := Int.mul_le_mul_of_nonneg_right (min_le_left o s) hw0
  have hlo2 : min o s * (100 - w) ≤ s * (100 - w) :=
    Int.mul_le_mul_of_nonneg_right (min_le_right o s) (by omega)
  have hhi1 : o * w ≤ max o s * w := Int.mul_le_mul_of_nonneg_right (le_max_left o s) hw0
  have hhi2 : s * (100 - w) ≤ max o s * (100 - w) :=
    Int.mul_le_mul_of_nonneg_right (le_max_right o s) (by omega)
  have h5 : min o s * 100 ≤ o * w + s * (100 - w) := by nlinarith
  have h6 : o * w + s * (100 - w) ≤ max o s * 100 := by nlinarith
  generalize o * w + s * (100 - w) = t at h5 h6 ⊢
  generalize min o s = lo at h5 ⊢
  generalize max o s = hi at h6 ⊢
  rcases tdiv_pos_cases t 100 (by norm_num) with ⟨h0, h⟩ | ⟨h0, h⟩
  · rw [h]
    omega
  · rw [h]
    omega

/-- C36: for every estimator state with a prior estimate and every accepted sample the
new offset computed by `updateClockOffset` lies between the old offset and the sample
offset, both included; a rejected sample (server timestamp at most 0, or response received
before the request started) leaves the whole estimator state unchanged. -/
theorem updateClockOffset_between (c : CodingSnake) (ts start recv : Int) :
    ((ts ≤ 0 ∨ recv < start) →
      c.updateClockOffset ts start recv = c ∧
      (c.updateClockOffset ts start recv).server_clock_offset_ms = c.server_clock_offset_ms ∧
      (c.updateClockOffset ts start recv).best_clock_sync_rtt_ms = c.best_clock_sync_rtt_ms ∧
      (c.updateClockOffset ts start recv).has_clock_sync = c.has_clock_sync) ∧
    (0 < ts → start ≤ recv → c.has_clock_sync = true →
      min c.server_clock_offset_ms (ts - (start + (recv - start) / 2)) ≤
        (c.updateClockOffset ts start recv).server_clock_offset_ms ∧
      (c.updateClockOffset ts start recv).server_clock_offset_ms ≤
        max c.server_clock_offset_ms (ts - (start + (recv - start) / 2))) := by
  constructor
  · intro hrej
    have h : c.updateClockOffset ts start recv = c := by
      unfold CodingSnake.updateClockOffset
      rw [if_pos hrej]
    rw [h]
    exact ⟨rfl, rfl, rfl, rfl⟩
  · intro hts hle hsync
    have hacc : ¬ (ts ≤ 0 ∨ recv < start) := by omega
    have hhalf : Int.tdiv (recv - start) 2 = (recv - start) / 2 :=
      Int.tdiv_eq_ediv (by omega) (by norm_num)
    unfold CodingSnake.updateClockOffset
    rw [if_neg hacc]
    dsimp only
    rw [hhalf, if_neg (by simp [hsync])]
    split_ifs
    · exact tdiv_weighted_between c.server_clock_offset_ms
        (ts - (start + (recv - start) / 2)) 60 (by norm_num) (by norm_num)
    · exact tdiv_weighted_between c.server_clock_offset_ms
        (ts - (start + (recv - start) / 2)) 85 (by norm_num) (by norm_num)

/-! ## The default configuration -/

/-- C39: the built-in default configuration is accepted by `Config::validate`, and
`validate` accepts a configuration only if mapWidth and mapHeight are in [10, 200000],
roundTimeMs in [100, 100000000], initialSnakeLength in [1, 10], invincibleRounds in
[0, 100] and foodDensity in [0, 1]. -/
theorem validate_default_and_ranges :
    ({} : Config).validate = true ∧
    (({} : Config).game.mapWidth = 50 ∧ ({} : Config).game.mapHeight = 50 ∧
      ({} : Config).game.roundTimeMs = 1000 ∧ ({} : Config).game.initialSnakeLength = 3 ∧
      ({} : Config).game.invincibleRounds = 5 ∧ ({} : Config).game.foodDensity = 1 / 20) ∧
    ∀ c : Config, c.validate = true →
      (10 ≤ c.game.mapWidth ∧ c.game.mapWidth ≤ 200000) ∧
      (10 ≤ c.game.mapHeight ∧ c.game.mapHeight ≤ 200000) ∧
      (100 ≤ c.game.roundTimeMs ∧ c.game.roundTimeMs ≤ 100000000) ∧
      (1 ≤ c.game.initialSnakeLength ∧ c.game.initialSnakeLength ≤ 10) ∧
      (0 ≤ c.game.invincibleRounds ∧ c.game.invincibleRounds ≤ 100) ∧
      (0 ≤ c.game.foodDensity ∧ c.game.foodDensity ≤ 1) := by
  refine ⟨?_, ⟨rfl, rfl, rfl, rfl, rfl, rfl⟩, ?_⟩
  · unfold Config.validate
    simp
    norm_num
  · intro c h
    unfold Config.validate at h
    obtain ⟨_, h⟩ := ite_false_true h
    obtain ⟨_, h⟩ := ite_false_true h
    obtain ⟨_, h⟩ := ite_false_true h
    obtain ⟨_, h⟩ := ite_false_true h
    obtain ⟨_, h⟩ := ite_false_true h
    obtain ⟨_, h⟩ := ite_false_true h
    obtain ⟨_, h⟩ := ite_false_true h
    obtain ⟨_, h⟩ := ite_false_true h
    obtain ⟨a9, h⟩ := ite_false_true h
    obtain ⟨a10, h⟩ := ite_false_true h
    obtain ⟨a11, h⟩ := ite_false_true h
    obtain ⟨a12, h⟩ := ite_false_true h
    obtain ⟨a13, h⟩ := ite_false_true h
    obtain ⟨a14, h⟩ := ite_false_true h
    rw [not_or, not_lt, not_lt] at a9 a10 a11 a12 a13 a14
    exact ⟨a9, a10, a11, a12, a13, a14⟩

/-! ## Joining -/

theorem addPlayer_fresh (m : GameManager) (p : Player)
    (hex : (getPlayer m.gameState.players p.id).isSome = false) :
    (m.addPlayer (some p)).1 = true ∧
    (m.addPlayer (some p)).2.gameState =
      { m.gameState with
        players := m.gameState.players ++ [p]
        joinedPlayers := setInsert p.id m.gameState.joinedPlayers } ∧
    (m.addPlayer (some p)).2.occupiedCounts =
      (if p.inGame = true ∧ p.snake.alive = true then
        p.snake.blocks.foldl CountMap.incr m.occupiedCounts
      else m.occupiedCounts) := by
  unfold GameManager.addPlayer GameManager.addSnakeToOccupancy
  dsimp only
  have hex1 : ¬ (getPlayer m.gameState.players p.id).isSome = true := by simp [hex]
  rw [if_neg hex1]
  by_cases hl : p.inGame = true ∧ p.snake.alive = true
  · have ha : ¬ p.snake.alive = false := by simp [hl.2]
    simp only [if_pos hl, if_neg ha]
    split_ifs <;> refine ⟨?_, ?_, ?_⟩ <;> trivial
  · simp only [if_neg hl]
    split_ifs <;> refine ⟨?_, ?_, ?_⟩ <;> trivial

/-- C40: `addPlayer` returns false and leaves the manager (player map, delta journal,
occupancy index and everything else) unchanged when the player is null or a player with
the same id is already present; otherwise it returns true, the player is present under its
id, its id is in the joined set of the delta journal, the rest of the journal and the foods
are as before, and, if the player is in game with a living snake, the count of every cell
has grown by the number of times the cell occurs in its body (otherwise the index is
unchanged). -/
theorem addPlayer_contract (m : GameManager) :
    m.addPlayer none = (false, m) ∧
    (∀ p : Player, (getPlayer m.gameState.players p.id).isSome = true →
      m.addPlayer (some p) = (false, m)) ∧
    (∀ p : Player, (getPlayer m.gameState.players p.id).isSome = false →
      (m.addPlayer (some p)).1 = true ∧
      p ∈ (m.addPlayer (some p)).2.gameState.players ∧
      getPlayer (m.addPlayer (some p)).2.gameState.players p.id = some p ∧
      (m.addPlayer (some p)).2.gameState.players = m.gameState.players ++ [p] ∧
      p.id ∈ (m.addPlayer (some p)).2.gameState.joinedPlayers ∧
      (∀ i, i ∈ (m.addPlayer (some p)).2.gameState.joinedPlayers ↔
        i ∈ m.gameState.joinedPlayers ∨ i = p.id) ∧
      (m.addPlayer (some p)).2.gameState.diedPlayers = m.gameState.diedPlayers ∧
      (m.addPlayer (some p)).2.gameState.addedFoods = m.gameState.addedFoods ∧
      (m.addPlayer (some p)).2.gameState.removedFoods = m.gameState.removedFoods ∧
      (m.addPlayer (some p)).2.gameState.foods = m.gameState.foods ∧
      (p.inGame = true ∧ p.snake.alive = true →
        ∀ c, (CountMap.find (m.addPlayer (some p)).2.occupiedCounts c).getD 0 =
          (CountMap.find m.occupiedCounts c).getD 0 + (p.snake.blocks.count c : Int)) ∧
      (¬ (p.inGame = true ∧ p.snake.alive = true) →
        (m.addPlayer (some p)).2.occupiedCounts = m.occupiedCounts)) := by
  refine ⟨rfl, ?_, ?_⟩
  · intro p hex
    unfold GameManager.addPlayer
    dsimp only
    rw [if_pos hex]
  · intro p hex
    obtain ⟨h1, h2, h3⟩ := addPlayer_fresh m p hex
    have hnone : getPlayer m.gameState.players p.id = none := by
      cases hg : getPlayer m.gameState.players p.id with
      | none => rfl
      | some q =>
        rw [hg] at hex
        simp at hex
    refine ⟨h1, ?_, ?_, ?_, ?_, ?_, ?_, ?_, ?_, ?_, ?_, ?_⟩
    · rw [h2]
      exact List.mem_append_right _ (List.mem_singleton_self p)
    · rw [h2]
      unfold getPlayer at hnone ⊢
      dsimp only
      rw [List.find?_append, hnone]
      simp
    · rw [h2]
    · rw [h2]
      exact (mem_setInsert_string p.id p.id _).mpr (Or.inr rfl)
    · intro i
      rw [h2]
      exact mem_setInsert_string p.id i _
    · rw [h2]
    · rw [h2]
    · rw [h2]
    · rw [h2]
    · intro hl c
      rw [h3, if_pos hl, find_foldl_incr_getD]
    · intro hl
      rw [h3, if_neg hl]

/-! ## Food dropped at the wall -/

/-- C34, the code at the failing input: on the 10 x 10 grid without food the snake
[(9,5),(8,5)] facing Right moves its head to (10,5), outside the grid, and dies of the
cause WALL; its body cells are dropped as food, so after the tick the food set holds the
cell (10,5), which is not a valid position. -/
theorem wall_death_drops_food_off_grid :
    wallHitManager.gameState.foods = [] ∧
    detectCollisions scenarioEnv wallHitManager.swapMoves.clearDelta.processMovements =
      [("s1", CollisionType.WALL)] ∧
    (getPlayer (wallHitManager.tick scenarioEnv).gameState.players "s1").map Player.view =
      some ("s1", false, [⟨10, 5⟩, ⟨9, 5⟩]) ∧
    (wallHitManager.tick scenarioEnv).gameState.foods = [⟨10, 5⟩, ⟨9, 5⟩] ∧
    isValidPosition scenarioEnv ⟨10, 5⟩ = false := by
  decide

/-! ## Choosing a direction toward a target -/

/-- A loop that keeps the first strictly smaller candidate computes the first minimum. -/
theorem firstMin_fold (cand : String → Bool) (dist : String → Int)
    (f : String × Int → String → String × Int)
    (hf : ∀ acc d, f acc d = if cand d = true ∧ dist d < acc.2 then (d, dist d) else acc)
    (l : List String) (b0 : String) (m0 : Int) :
    ((∀ d ∈ l, cand d = true → m0 ≤ dist d) → l.foldl f (b0, m0) = (b0, m0)) ∧
    ((∃ d ∈ l, cand d = true ∧ dist d < m0) →
      (l.foldl f (b0, m0)).1 ∈ l ∧ cand (l.foldl f (b0, m0)).1 = true ∧
      (l.foldl f (b0, m0)).2 = dist (l.foldl f (b0, m0)).1 ∧
      (l.foldl f (b0, m0)).2 < m0 ∧
      (∀ d ∈ l, cand d = true → (l.foldl f (b0, m0)).2 ≤ dist d) ∧
      ∃ pre post, l = pre ++ (l.foldl f (b0, m0)).1 :: post ∧
        ∀ d ∈ pre, cand d = true → (l.foldl f (b0, m0)).2 < dist d) := by
  induction l generalizing b0 m0 with
  | nil =>
    refine ⟨fun _ => rfl, ?_⟩
    rintro ⟨d, hd, _⟩
    cases hd
  | cons a l ih =>
    simp only [List.foldl_cons]
    by_cases hbetter : cand a = true ∧ dist a < m0
    · have hstep : f (b0, m0) a = (a, dist a) := by
        rw [hf]
        exact if_pos hbetter
      rw [hstep]
      obtain ⟨ih1, ih2⟩ := ih a (dist a)
      constructor
      · intro hall
        have := hall a (List.mem_cons_self _ _) hbetter.1
        omega
      · intro _
        by_cases hmore : ∃ d ∈ l, cand d = true ∧ dist d < dist a
        · obtain ⟨g1, g2, g3, g4, g5, pre, post, g6, g7⟩ := ih2 hmore
          refine ⟨List.mem_cons_of_mem _ g1, g2, g3, by omega, ?_, a :: pre, post, ?_, ?_⟩
          · intro d hd hc
            rcases List.mem_cons.mp hd with rfl | hd
            · omega
            · exact g5 d hd hc
          · rw [List.cons_append, ← g6]
          · intro d hd hc
            rcases List.mem_cons.mp hd with rfl | hd
            · exact g4
            · exact g7 d hd hc
        · have hnone : ∀ d ∈ l, cand d = true → dist a ≤ dist d := by
            intro d hd hc
            by_contra hlt
            exact hmore ⟨d, hd, hc, by omega⟩
          rw [ih1 hnone]
          refine ⟨List.mem_cons_self _ _, hbetter.1, rfl, hbetter.2, ?_, [], l, rfl, ?_⟩
          · intro d hd hc
            rcases List.mem_cons.mp hd with rfl | hd
            · exact le_refl _
            · exact hnone d hd hc
          · intro d hd
            cases hd
    · have hstep : f (b0, m0) a = (b0, m0) := by
        rw [hf]
        exact if_neg hbetter
      rw [hstep]
      obtain ⟨ih1, ih2⟩ := ih b0 m0
      constructor
      · intro hall
        exact ih1 (fun d hd hc => hall d (List.mem_cons_of_mem _ hd) hc)
      · rintro ⟨d, hd, hc, hlt⟩
        have hd1 : d ∈ l := by
          rcases List.mem_cons.mp hd with rfl | hd
          · exact absurd ⟨hc, hlt⟩ hbetter
          · exact hd
        obtain ⟨g1, g2, g3, g4, g5, pre, post, g6, g7⟩ := ih2 ⟨d, hd1, hc, hlt⟩
        have ha : cand a = true → (List.foldl f (b0, m0) l).2 < dist a := by
          intro hca
          have : ¬ dist a < m0 := fun h => hbetter ⟨hca, h⟩
          omega
        refine ⟨List.mem_cons_of_mem _ g1, g2, g3, g4, ?_, a :: pre, post, ?_, ?_⟩
        · intro e he hce
          rcases List.mem_cons.mp he with rfl | he
          · exact le_of_lt (ha hce)
          · exact g5 e he hce
        · rw [List.cons_append, ← g6]
        · intro e he hce
          rcases List.mem_cons.mp he with rfl | he
          · exact ha hce
          · exact g7 e he hce

theorem chooseStep_eq (state : ClientGameState) (src target : Point) (safeOnly : Bool)
    (acc : String × Int) (d : String) :
    bot.chooseStep state src target safeOnly acc d =
      if (state.isValidPos (bot.nextPoint src d).x (bot.nextPoint src d).y &&
          !(safeOnly && state.hasObstacle (bot.nextPoint src d).x (bot.nextPoint src d).y)) =
            true ∧
          (bot.nextPoint src d).distance target < acc.2 then
        (d, (bot.nextPoint src d).distance target)
      else acc := by
  unfold bot.chooseStep
  dsimp only
  cases hv : state.isValidPos (bot.nextPoint src d).x (bot.nextPoint src d).y <;>
    cases hs : safeOnly <;>
    cases ho : state.hasObstacle (bot.nextPoint src d).x (bot.nextPoint src d).y <;>
    simp

/-- C31: `chooseDirectionToward` returns "right" when no direction is a candidate;
otherwise it returns a candidate (a direction whose neighbouring cell is inside the map
and, when safeOnly is true, on no snake body) whose neighbour has the minimum Manhattan
distance to the target, and every candidate that comes earlier in the order up, down,
left, right is strictly farther.  Hence with safeOnly = true the result satisfies
`isSafeDirection` whenever any direction does.  The distances are below the largest
`int`, with which the search starts. -/
theorem chooseDirectionToward_spec (state : ClientGameState) (src target : Point)
    (safeOnly : Bool)
    (hrange : ∀ d ∈ bot.allDirections,
      (bot.nextPoint src d).distance target < bot.intMax) :
    ((∀ d ∈ bot.allDirections,
        ¬ (state.isValidPos (bot.nextPoint src d).x (bot.nextPoint src d).y = true ∧
          (safeOnly = true →
            state.hasObstacle (bot.nextPoint src d).x (bot.nextPoint src d).y = false))) →
      bot.chooseDirectionToward state src target safeOnly = "right") ∧
    ((∃ d ∈ bot.allDirections,
        state.isValidPos (bot.nextPoint src d).x (bot.nextPoint src d).y = true ∧
        (safeOnly = true →
          state.hasObstacle (bot.nextPoint src d).x (bot.nextPoint src d).y = false)) →
      bot.chooseDirectionToward state src target safeOnly ∈ bot.allDirections ∧
      state.isValidPos
        (bot.nextPoint src (bot.chooseDirectionToward state src target safeOnly)).x
        (bot.nextPoint src (bot.chooseDirectionToward state src target safeOnly)).y = true ∧
      (safeOnly = true →
        state.hasObstacle
          (bot.nextPoint src (bot.chooseDirectionToward state src target safeOnly)).x
          (bot.nextPoint src (bot.chooseDirectionToward state src target safeOnly)).y =
            false) ∧
      (∀ d ∈ bot.allDirections,
        state.isValidPos (bot.nextPoint src d).x (bot.nextPoint src d).y = true →
        (safeOnly = true →
          state.hasObstacle (bot.nextPoint src d).x (bot.nextPoint src d).y = false) →
        (bot.nextPoint src (bot.chooseDirectionToward state src target safeOnly)).distance
          target ≤ (bot.nextPoint src d).distance target) ∧
      ∃ pre post,
        bot.allDirections =
          pre ++ bot.chooseDirectionToward state src target safeOnly :: post ∧
        ∀ d ∈ pre,
          state.isValidPos (bot.nextPoint src d).x (bot.nextPoint src d).y = true →
          (safeOnly = true →
            state.hasObstacle (bot.nextPoint src d).x (bot.nextPoint src d).y = false) →
          (bot.nextPoint src (bot.chooseDirectionToward state src target safeOnly)).distance
            target < (bot.nextPoint src d).distance target) ∧
    (safeOnly = true →
      (∃ d ∈ bot.allDirections, bot.isSafeDirection state src d = true) →
      bot.isSafeDirection state src
        (bot.chooseDirectionToward state src target true) = true) := by
  have hcand : ∀ d : String,
      ((state.isValidPos (bot.nextPoint src d).x (bot.nextPoint src d).y &&
          !(safeOnly && state.hasObstacle (bot.nextPoint src d).x (bot.nextPoint src d).y)) =
            true) ↔
      (state.isValidPos (bot.nextPoint src d).x (bot.nextPoint src d).y = true ∧
        (safeOnly = true →
          state.hasObstacle (bot.nextPoint src d).x (bot.nextPoint src d).y = false)) := by
    intro d
    cases state.isValidPos (bot.nextPoint src d).x (bot.nextPoint src d).y <;>
      cases safeOnly <;>
      cases state.hasObstacle (bot.nextPoint src d).x (bot.nextPoint src d).y <;>
      simp
  obtain ⟨k1, k2⟩ := firstMin_fold
    (fun d => state.isValidPos (bot.nextPoint src d).x (bot.nextPoint src d).y &&
      !(safeOnly && state.hasObstacle (bot.nextPoint src d).x (bot.nextPoint src d).y))
    (fun d => (bot.nextPoint src d).distance target)
    (bot.chooseStep state src target safeOnly)
    (chooseStep_eq state src target safeOnly) bot.allDirections "right" bot.intMax
  have part1 : (∀ d ∈ bot.allDirections,
        ¬ (state.isValidPos (bot.nextPoint src d).x (bot.nextPoint src d).y = true ∧
          (safeOnly = true →
            state.hasObstacle (bot.nextPoint src d).x (bot.nextPoint src d).y = false))) →
      bot.chooseDirectionToward state src target safeOnly = "right" := by
    intro hnone
    unfold bot.chooseDirectionToward
    rw [k1]
    intro d hd hc
    exact absurd ((hcand d).mp hc) (hnone d hd)
  have part2 := fun (hex : ∃ d ∈ bot.allDirections,
        state.isValidPos (bot.nextPoint src d).x (bot.nextPoint src d).y = true ∧
        (safeOnly = true →
          state.hasObstacle (bot.nextPoint src d).x (bot.nextPoint src d).y = false)) =>
    k2 (by
      obtain ⟨d, hd, hc⟩ := hex
      exact ⟨d, hd, (hcand d).mpr hc, hrange d hd⟩)
  refine ⟨part1, ?_, ?_⟩
  · intro hex
    obtain ⟨g1, g2, g3, _, g5, pre, post, g6, g7⟩ := part2 hex
    unfold bot.chooseDirectionToward
    refine ⟨g1, ((hcand _).mp g2).1, ((hcand _).mp g2).2, ?_, pre, post, g6, ?_⟩
    · intro d hd hv hs
      have := g5 d hd ((hcand d).mpr ⟨hv, hs⟩)
      rw [g3] at this
      exact this
    · intro d hd hv hs
      have := g7 d hd ((hcand d).mpr ⟨hv, hs⟩)
      rw [g3] at this
      exact this
  · intro hs hex
    subst hs
    obtain ⟨d, hd, hsafe⟩ := hex
    have hsafe' : state.isValidPos (bot.nextPoint src d).x (bot.nextPoint src d).y = true ∧
        state.hasObstacle (bot.nextPoint src d).x (bot.nextPoint src d).y = false := by
      unfold bot.isSafeDirection at hsafe
      simpa using hsafe
    obtain ⟨_, g2, _⟩ := part2 ⟨d, hd, hsafe'.1, fun _ => hsafe'.2⟩
    have g2' := (hcand _).mp g2
    unfold bot.isSafeDirection
    unfold bot.chooseDirectionToward
    dsimp only
    rw [g2'.1, g2'.2 rfl]
    rfl

/-- C31 on the own head (5,5) with the target (8,5): left and right are on snake bodies,
up and down are both at distance 4, and the earlier one, "up", is chosen; it is safe. -/
theorem chooseDirectionToward_spec_witness :
    bot.chooseDirectionToward botState ⟨5, 5⟩ ⟨8, 5⟩ true = "up" ∧
    bot.isSafeDirection botState ⟨5, 5⟩ "left" = false ∧
    bot.isSafeDirection botState ⟨5, 5⟩ "right" = false ∧
    (bot.nextPoint ⟨5, 5⟩ "up").distance ⟨8, 5⟩ = 4 ∧
    (bot.nextPoint ⟨5, 5⟩ "down").distance ⟨8, 5⟩ = 4 ∧
    bot.isSafeDirection botState ⟨5, 5⟩
      (bot.chooseDirectionToward botState ⟨5, 5⟩ ⟨8, 5⟩ true) = true :=
  have h := chooseDirectionToward_spec botState ⟨5, 5⟩ ⟨8, 5⟩ true (by decide)
  ⟨by decide, by decide, by decide, by decide, by decide,
    h.2.2 rfl ⟨"up", by decide, by decide⟩⟩

/-! ## The delta on the client, step by step -/

theorem foldl_removePlayer (died : List String) (g : ClientGameState) :
    (died.foldl (fun g i => g.removePlayer i) g).players =
      died.foldl (fun ps i => ps.filter (fun s => decide (s.id ≠ i))) g.players ∧
    (died.foldl (fun g i => g.removePlayer i) g).foods = g.foods ∧
    (died.foldl (fun g i => g.removePlayer i) g).current_round = g.current_round ∧
    (died.foldl (fun g i => g.removePlayer i) g).next_round_timestamp =
      g.next_round_timestamp := by
  induction died generalizing g with
  | nil => exact ⟨rfl, rfl, rfl, rfl⟩
  | cons i died ih =>
    simp only [List.foldl_cons]
    obtain ⟨h1, h2, h3, h4⟩ := ih (g.removePlayer i)
    exact ⟨h1, h2, h3, h4⟩

theorem foldl_addOrUpdate_frame (ps : List JsonPlayer) (g : ClientGameState) :
    (ps.foldl (fun g p => g.addOrUpdatePlayer (parsePlayer p)) g).foods = g.foods ∧
    (ps.foldl (fun g p => g.addOrUpdatePlayer (parsePlayer p)) g).next_round_timestamp =
      g.next_round_timestamp := by
  induction ps generalizing g with
  | nil => exact ⟨rfl, rfl⟩
  | cons p ps ih =>
    simp only [List.foldl_cons]
    obtain ⟨h1, h2⟩ := ih (g.addOrUpdatePlayer (parsePlayer p))
    exact ⟨h1, h2⟩

theorem foldl_playerUpdates (us : List JsonPlayerUpdate) (g : ClientGameState) :
    (us.foldl (fun g u =>
        { g with players :=
            modifyClientPlayer (fun s => applyPlayerUpdate s u) u.id g.players }) g).players =
      us.foldl (fun ps u => modifyClientPlayer (fun s => applyPlayerUpdate s u) u.id ps)
        g.players ∧
    (us.foldl (fun g u =>
        { g with players :=
            modifyClientPlayer (fun s => applyPlayerUpdate s u) u.id g.players }) g).foods =
      g.foods ∧
    (us.foldl (fun g u =>
        { g with players :=
            modifyClientPlayer (fun s => applyPlayerUpdate s u) u.id g.players })
        g).current_round = g.current_round ∧
    (us.foldl (fun g u =>
        { g with players :=
            modifyClientPlayer (fun s => applyPlayerUpdate s u) u.id g.players })
        g).next_round_timestamp = g.next_round_timestamp := by
  induction us generalizing g with
  | nil => exact ⟨rfl, rfl, rfl, rfl⟩
  | cons u us ih =>
    simp only [List.foldl_cons]
    obtain ⟨h1, h2, h3, h4⟩ := ih
      { g with players :=
          modifyClientPlayer (fun s => applyPlayerUpdate s u) u.id g.players }
    exact ⟨h1, h2, h3, h4⟩

theorem foldl_clientRemoveFood (fs : List Point) (g : ClientGameState) :
    (fs.foldl (fun g f => g.removeFood f) g).foods =
      fs.foldl (fun l f => l.filter (fun q => decide (q ≠ f))) g.foods ∧
    (fs.foldl (fun g f => g.removeFood f) g).players = g.players ∧
    (fs.foldl (fun g f => g.removeFood f) g).current_round = g.current_round ∧
    (fs.foldl (fun g f => g.removeFood f) g).next_round_timestamp =
      g.next_round_timestamp := by
  induction fs generalizing g with
  | nil => exact ⟨rfl, rfl, rfl, rfl⟩
  | cons f fs ih =>
    simp only [List.foldl_cons]
    obtain ⟨h1, h2, h3, h4⟩ := ih (g.removeFood f)
    exact ⟨h1, h2, h3, h4⟩

theorem foldl_clientAddFood_timestamp (fs : List Point) (g : ClientGameState) :
    (fs.foldl (fun g f => g.addFood f) g).next_round_timestamp = g.next_round_timestamp := by
  induction fs generalizing g with
  | nil => rfl
  | cons f fs ih =>
    simp only [List.foldl_cons]
    rw [ih]
    rfl

/-- The players after `applyDelta`: died players erased, joined players written, update
records applied, in this order. -/
theorem applyDelta_players (g : ClientGameState) (delta : JsonDeltaState) :
    (applyDelta g delta).players =
      (delta.players.getD []).foldl
        (fun ps u => modifyClientPlayer (fun s => applyPlayerUpdate s u) u.id ps)
        ((delta.joined_players.getD []).foldl (fun l p => upsertPlayer (parsePlayer p) l)
          ((delta.died_players.getD []).foldl
            (fun ps i => ps.filter (fun s => decide (s.id ≠ i))) g.players)) := by
  unfold applyDelta
  dsimp only
  rw [(foldl_clientAddFood _ _).2.1, (foldl_clientRemoveFood _ _).2.1,
    (foldl_playerUpdates _ _).1, (foldl_addOrUpdate_players _ _).1,
    (foldl_removePlayer _ _).1]

/-- The foods after `applyDelta`: removed foods erased, then added foods inserted. -/
theorem applyDelta_foods (g : ClientGameState) (delta : JsonDeltaState) :
    (applyDelta g delta).foods =
      (delta.added_foods.getD []).foldl addFood
        ((delta.removed_foods.getD []).foldl
          (fun l f => l.filter (fun q => decide (q ≠ f))) g.foods) := by
  unfold applyDelta
  dsimp only
  rw [(foldl_clientAddFood _ _).1, (foldl_clientRemoveFood _ _).1,
    (foldl_playerUpdates _ _).2.1, (foldl_addOrUpdate_frame _ _).1,
    (foldl_removePlayer _ _).2.1]

theorem applyDelta_round (g : ClientGameState) (delta : JsonDeltaState) :
    (applyDelta g delta).current_round = delta.round ∧
    (applyDelta g delta).next_round_timestamp = g.next_round_timestamp := by
  unfold applyDelta
  dsimp only
  constructor
  · rw [(foldl_clientAddFood _ _).2.2, (foldl_clientRemoveFood _ _).2.2.1,
      (foldl_playerUpdates _ _).2.2.1, (foldl_addOrUpdate_players _ _).2,
      (foldl_removePlayer _ _).2.2.1]
  · rw [foldl_clientAddFood_timestamp, (foldl_clientRemoveFood _ _).2.2.2,
      (foldl_playerUpdates _ _).2.2.2, (foldl_addOrUpdate_frame _ _).2,
      (foldl_removePlayer _ _).2.2.2]

theorem parseDeltaState_applied (c : CodingSnake) (delta : JsonDeltaState)
    (refresh : Option MapResponse) (hno : ¬ c.state.current_round + 1 < delta.round) :
    (c.parseDeltaState delta refresh).state =
      applyDelta
        { c.state with next_round_timestamp :=
            delta.next_round_timestamp.getD c.state.next_round_timestamp } delta ∧
    (c.parseDeltaState delta refresh).in_game =
      ((c.parseDeltaState delta refresh).state.findPlayerById c.player_id).isSome ∧
    (c.parseDeltaState delta refresh).player_id = c.player_id := by
  unfold CodingSnake.parseDeltaState
  dsimp only
  rw [if_neg hno]
  exact ⟨rfl, rfl, rfl⟩

/-! ## Looking a player up after each step of the delta -/

theorem find_filter_ne (k i : String) (ps : List ClientSnake) :
    (ps.filter (fun s => decide (s.id ≠ k))).find? (fun s => decide (s.id = i)) =
      if i = k then none else ps.find? (fun s => decide (s.id = i)) := by
  induction ps with
  | nil => simp
  | cons a ps ih =>
    by_cases hak : a.id = k
    · rw [List.filter_cons_of_neg (by simp [hak]), ih]
      by_cases hik : i = k
      · rw [if_pos hik, if_pos hik]
      · rw [if_neg hik, if_neg hik]
        have : ¬ a.id = i := fun h => hik (h.symm.trans hak)
        rw [List.find?_cons_of_neg _ (by simp [this])]
    · rw [List.filter_cons_of_pos (by simp [hak])]
      by_cases hai : a.id = i
      · have hik : ¬ i = k := fun h => hak (hai.trans h)
        rw [if_neg hik, List.find?_cons_of_pos _ (by simp [hai]),
          List.find?_cons_of_pos _ (by simp [hai])]
      · rw [List.find?_cons_of_neg _ (by simp [hai]), List.find?_cons_of_neg _ (by simp [hai]),
          ih]

theorem find_foldl_filter (died : List String) (i : String) (ps : List ClientSnake) :
    (died.foldl (fun ps k => ps.filter (fun s => decide (s.id ≠ k))) ps).find?
        (fun s => decide (s.id = i)) =
      if i ∈ died then none else ps.find? (fun s => decide (s.id = i)) := by
  induction died generalizing ps with
  | nil => simp
  | cons k died ih =>
    simp only [List.foldl_cons]
    rw [ih, find_filter_ne]
    by_cases hik : i = k
    · simp [hik]
    · by_cases hid : i ∈ died
      · simp [hid]
      · simp [hik, hid]

theorem mem_foldl_filter (died : List String) (s : ClientSnake) (ps : List ClientSnake)
    (h : s ∈ died.foldl (fun ps k => ps.filter (fun s => decide (s.id ≠ k))) ps) : s ∈ ps := by
  induction died generalizing ps with
  | nil => exact h
  | cons k died ih =>
    simp only [List.foldl_cons] at h
    exact List.mem_of_mem_filter (ih _ h)

theorem find_foldl_upsert_congr (i : String) (joined : List JsonPlayer)
    (ps qs : List ClientSnake)
    (h : ps.find? (fun s => decide (s.id = i)) = qs.find? (fun s => decide (s.id = i)) ∨
      i ∈ joined.map JsonPlayer.id) :
    (joined.foldl (fun l p => upsertPlayer (parsePlayer p) l) ps).find?
        (fun s => decide (s.id = i)) =
      (joined.foldl (fun l p => upsertPlayer (parsePlayer p) l) qs).find?
        (fun s => decide (s.id = i)) := by
  induction joined generalizing ps qs with
  | nil =>
    rcases h with h | h
    · exact h
    · cases h
  | cons j joined ih =>
    simp only [List.foldl_cons]
    apply ih
    have hid : (parsePlayer j).id = j.id := rfl
    by_cases hj : j.id = i
    · left
      rw [find_upsertPlayer, find_upsertPlayer, hid, if_pos hj, if_pos hj]
    · rcases h with h | h
      · left
        rw [find_upsertPlayer, find_upsertPlayer, hid, if_neg hj, if_neg hj]
        exact h
      · right
        simp only [List.map_cons, List.mem_cons] at h
        rcases h with h | h
        · exact absurd h.symm hj
        · exact h

theorem find_modifyClientPlayer (f : ClientSnake → ClientSnake) (hf : ∀ s, (f s).id = s.id)
    (k i : String) (ps : List ClientSnake) :
    (modifyClientPlayer f k ps).find? (fun s => decide (s.id = i)) =
      if k = i then (ps.find? (fun s => decide (s.id = i))).map f
      else ps.find? (fun s => decide (s.id = i)) := by
  induction ps with
  | nil =>
    simp only [modifyClientPlayer, List.find?_nil, Option.map_none']
    split_ifs <;> rfl
  | cons a ps ih =>
    simp only [modifyClientPlayer]
    by_cases hak : a.id = k
    · rw [if_pos hak]
      by_cases hki : k = i
      · have hai : a.id = i := hak.trans hki
        have hfi : (f a).id = i := (hf a).trans hai
        rw [if_pos hki, List.find?_cons_of_pos _ (by simp [hfi]),
          List.find?_cons_of_pos _ (by simp [hai])]
        rfl
      · have hai : ¬ a.id = i := fun h => hki (hak.symm.trans h)
        have hfi : ¬ (f a).id = i := fun h => hai ((hf a).symm.trans h)
        rw [if_neg hki, List.find?_cons_of_neg _ (by simp [hfi]),
          List.find?_cons_of_neg _ (by simp [hai])]
    · rw [if_neg hak]
      by_cases hai : a.id = i
      · have hki : ¬ k = i := fun h => hak (hai.trans h.symm)
        rw [if_neg hki, List.find?_cons_of_pos _ (by simp [hai]),
          List.find?_cons_of_pos _ (by simp [hai])]
      · rw [List.find?_cons_of_neg _ (by simp [hai]), List.find?_cons_of_neg _ (by simp [hai]),
          ih]

theorem applyPlayerUpdate_id (s : ClientSnake) (u : JsonPlayerUpdate) :
    (applyPlayerUpdate s u).id = s.id := rfl

theorem find_foldl_updates (us : List JsonPlayerUpdate) (i : String) (ps : List ClientSnake) :
    (us.foldl (fun ps u => modifyClientPlayer (fun s => applyPlayerUpdate s u) u.id ps)
        ps).find? (fun s => decide (s.id = i)) =
      (ps.find? (fun s => decide (s.id = i))).map
        (fun r => (us.filter (fun u => decide (u.id = i))).foldl applyPlayerUpdate r) := by
  induction us generalizing ps with
  | nil =>
    simp only [List.foldl_nil, List.filter_nil]
    cases ps.find? (fun s => decide (s.id = i)) <;> rfl
  | cons u us ih =>
    simp only [List.foldl_cons]
    rw [ih, find_modifyClientPlayer _ (fun s => applyPlayerUpdate_id s u)]
    by_cases hu : u.id = i
    · rw [if_pos hu, List.filter_cons_of_pos (by simp [hu]), Option.map_map]
      rfl
    · rw [if_neg hu, List.filter_cons_of_neg (by simp [hu])]

theorem mem_modifyClientPlayer (f : ClientSnake → ClientSnake) (k : String)
    (ps : List ClientSnake) (s : ClientSnake) (h : s ∈ modifyClientPlayer f k ps) :
    s ∈ ps ∨ ∃ r ∈ ps, s = f r := by
  induction ps with
  | nil => cases h
  | cons a ps ih =>
    simp only [modifyClientPlayer] at h
    split_ifs at h with hak
    · rcases List.mem_cons.mp h with h1 | h1
      · exact Or.inr ⟨a, List.mem_cons_self _ _, h1⟩
      · exact Or.inl (List.mem_cons_of_mem _ h1)
    · rcases List.mem_cons.mp h with h1 | h1
      · exact Or.inl (h1 ▸ List.mem_cons_self _ _)
      · rcases ih h1 with h2 | ⟨r, hr, e⟩
        · exact Or.inl (List.mem_cons_of_mem _ h2)
        · exact Or.inr ⟨r, List.mem_cons_of_mem _ hr, e⟩

theorem foldl_updates_preserves (P : ClientSnake → Prop) (us : List JsonPlayerUpdate)
    (hstep : ∀ s, ∀ u ∈ us, P s → P (applyPlayerUpdate s u)) (ps : List ClientSnake)
    (hps : ∀ s ∈ ps, P s) :
    ∀ s ∈ us.foldl (fun ps u => modifyClientPlayer (fun s => applyPlayerUpdate s u) u.id ps)
      ps, P s := by
  induction us generalizing ps with
  | nil => exact hps
  | cons u us ih =>
    simp only [List.foldl_cons]
    apply ih (fun s v hv => hstep s v (List.mem_cons_of_mem _ hv))
    intro s hs
    rcases mem_modifyClientPlayer _ _ _ _ hs with h | ⟨r, hr, e⟩
    · exact hps s h
    · rw [e]
      exact hstep r u (List.mem_cons_self _ _) (hps r hr)

/-! ## The snake invariant of the client -/

theorem applyPlayerUpdate_head (s : ClientSnake) (u : JsonPlayerUpdate)
    (hs : s.blocks.head? = some s.head) (hu : 1 ≤ u.length) :
    (applyPlayerUpdate s u).blocks.head? = some (applyPlayerUpdate s u).head := by
  unfold applyPlayerUpdate
  dsimp only
  by_cases hm : s.head ≠ u.head
  · rw [if_pos hm]
    obtain ⟨n, hn⟩ : ∃ n, u.length.toNat = n + 1 := ⟨u.length.toNat - 1, by omega⟩
    rw [hn, List.take_succ_cons]
    rfl
  · rw [if_neg hm]
    have he : s.head = u.head := by
      by_contra h
      exact hm h
    have hne : s.blocks ≠ [] := by
      intro e
      rw [e] at hs
      cases hs
    split_ifs with hl
    · rw [List.head?_append_of_ne_nil _ hne, hs, he]
    · rw [hs, he]

theorem applyPlayerUpdate_moved (s : ClientSnake) (u : JsonPlayerUpdate)
    (hm : s.head ≠ u.head) (hu : 0 ≤ u.length) :
    ((applyPlayerUpdate s u).blocks.length : Int) ≤ (applyPlayerUpdate s u).length ∧
    (applyPlayerUpdate s u).length = u.length ∧
    (applyPlayerUpdate s u).head = u.head := by
  unfold applyPlayerUpdate
  dsimp only
  rw [if_pos hm, List.length_take]
  refine ⟨?_, rfl, rfl⟩
  have := Nat.min_le_left u.length.toNat (u.head :: s.blocks).length
  omega

theorem parsePlayer_head (p : JsonPlayer)
    (hp : p.blocks ≠ [] → p.blocks.head? = some p.head) :
    (parsePlayer p).blocks.head? = some (parsePlayer p).head := by
  unfold parsePlayer
  dsimp only
  split_ifs with h
  · rfl
  · exact hp h

theorem mem_foldl_upsert (joined : List JsonPlayer) (l : List ClientSnake) (s : ClientSnake)
    (h : s ∈ joined.foldl (fun l p => upsertPlayer (parsePlayer p) l) l) :
    s ∈ l ∨ ∃ q ∈ joined, s = parsePlayer q := by
  induction joined generalizing l with
  | nil => exact Or.inl h
  | cons j joined ih =>
    simp only [List.foldl_cons] at h
    rcases ih _ h with h1 | ⟨q, hq, e⟩
    · rcases mem_upsertPlayer _ _ _ h1 with h2 | h2
      · exact Or.inr ⟨j, List.mem_cons_self _ _, h2⟩
      · exact Or.inl h2
    · exact Or.inr ⟨q, List.mem_cons_of_mem _ hq, e⟩

theorem find_foldl_upsert_notin (i : String) (joined : List JsonPlayer)
    (l : List ClientSnake) (h : i ∉ joined.map JsonPlayer.id) :
    (joined.foldl (fun l p => upsertPlayer (parsePlayer p) l) l).find?
        (fun s => decide (s.id = i)) = l.find? (fun s => decide (s.id = i)) := by
  induction joined generalizing l with
  | nil => rfl
  | cons j joined ih =>
    simp only [List.map_cons, List.mem_cons, not_or] at h
    simp only [List.foldl_cons]
    rw [ih _ h.2, find_upsertPlayer]
    have hid : (parsePlayer j).id = j.id := rfl
    rw [hid, if_neg (fun e => h.1 e.symm)]

theorem updateClockOffset_state (c : CodingSnake) (ts start recv : Int) :
    (c.updateClockOffset ts start recv).state = c.state := by
  unfold CodingSnake.updateClockOffset
  dsimp only
  split_ifs <;> rfl

theorem parseFullMapState_players (c : CodingSnake) (ms : JsonMapState) :
    (c.parseFullMapState ms).state.players =
      ms.players.foldl (fun l p => upsertPlayer (parsePlayer p) l) [] := by
  unfold CodingSnake.parseFullMapState
  dsimp only
  rw [(foldl_clientAddFood _ _).2.1]
  dsimp only
  rw [(foldl_addOrUpdate_players _ _).1]

theorem fetchFullMap_players (c : CodingSnake) (res : Option MapResponse) :
    (c.fetchFullMap res).2.state.players = c.state.players ∨
    ∃ r, res = some r ∧ (c.fetchFullMap res).2.state.players =
      r.map_state.players.foldl (fun l p => upsertPlayer (parsePlayer p) l) [] := by
  unfold CodingSnake.fetchFullMap
  cases res with
  | none => exact Or.inl rfl
  | some r =>
    dsimp only
    split_ifs
    · exact Or.inl rfl
    · exact Or.inl rfl
    · right
      refine ⟨r, rfl, ?_⟩
      dsimp only
      rw [parseFullMapState_players]

theorem filter_id_of_nodup (us : List JsonPlayerUpdate)
    (hn : (us.map JsonPlayerUpdate.id).Nodup) (u : JsonPlayerUpdate) (hu : u ∈ us) :
    us.filter (fun v => decide (v.id = u.id)) = [u] := by
  induction us with
  | nil => cases hu
  | cons a us ih =>
    rw [List.map_cons, List.nodup_cons] at hn
    rcases List.mem_cons.mp hu with h | h
    · subst h
      rw [List.filter_cons_of_pos (by simp)]
      congr 1
      rw [List.filter_eq_nil_iff]
      intro v hv hvid
      exact hn.1 (List.mem_map.mpr ⟨v, hv, by simpa using hvid⟩)
    · have hne : ¬ a.id = u.id := by
        intro e
        exact hn.1 (List.mem_map.mpr ⟨u, h, e.symm⟩)
      rw [List.filter_cons_of_neg (by simp [hne])]
      exact ih hn.2 h

theorem beforeUpdates_players (g : ClientGameState) (delta : JsonDeltaState) :
    (applyDelta g delta).players =
      (delta.players.getD []).foldl
        (fun ps u => modifyClientPlayer (fun s => applyPlayerUpdate s u) u.id ps)
        (g.beforeUpdates delta) :=
  applyDelta_players g delta

theorem beforeUpdates_head (g : ClientGameState) (delta : JsonDeltaState)
    (hstate : ∀ s ∈ g.players, s.blocks.head? = some s.head)
    (hjoined : ∀ p ∈ delta.joined_players.getD [],
      p.blocks ≠ [] → p.blocks.head? = some p.head) :
    ∀ s ∈ g.beforeUpdates delta, s.blocks.head? = some s.head := by
  intro s hs
  rcases mem_foldl_upsert _ _ _ hs with h | ⟨q, hq, e⟩
  · exact hstate s (mem_foldl_filter _ _ _ h)
  · rw [e]
    exact parsePlayer_head q (hjoined q hq)

/-! ## The snake invariant across a delta -/

/-- C32 fails as stated, on three inputs that meet its conditions.  (1) Two update records
for "a" in one delta, head (2,1) with length 5 and then 1: the head moved from (1,1) to
(2,1) and "a" ends with 4 blocks and length 1.  (2) The known player "a" listed as joined
with head (2,1), three blocks starting with the head and length 1: the head moved and "a"
ends with 3 blocks and length 1.  (3) A delta five rounds ahead, answered by a full map in
which the blocks of "a" are [(9,9)] and its head (2,1): the first block is not the
head. -/
theorem parseDeltaState_invariant_counterexample :
    ((deltaClient.state.findPlayerById "a").map (fun s => (s.head, s.blocks.head?)) =
        some (⟨1, 1⟩, some ⟨1, 1⟩) ∧
      (deltaClient.state.findPlayerById "b").map (fun s => (s.head, s.blocks.head?)) =
        some (⟨5, 5⟩, some ⟨5, 5⟩) ∧
      deltaClient.state.players.map ClientSnake.id = ["a", "b"]) ∧
    (((deltaClient.parseDeltaState doubleUpdateDelta none).state.findPlayerById "a").map
        (fun s => (s.head, s.blocks.length, s.length)) = some (⟨2, 1⟩, 4, 1)) ∧
    (((deltaClient.parseDeltaState rejoinDelta none).state.findPlayerById "a").map
        (fun s => (s.head, s.blocks.length, s.length)) = some (⟨2, 1⟩, 3, 1)) ∧
    (((deltaClient.parseDeltaState gapDelta (some brokenRefresh)).state.findPlayerById
        "a").map (fun s => (s.head, s.blocks.head?)) = some (⟨2, 1⟩, some ⟨9, 9⟩)) := by
  decide

/-- C32, amended: if before the call every player has a block list that starts with its
head, every joined player of the delta with a non-empty block list has it start with its
head, every update record has length at least 1, and the full map that answers a refresh
request meets the same condition on block lists, then after `parseDeltaState` every player
has a non-empty block list that starts with its head.  When the delta is applied (no
missed round) and no two update records share an id, every player whose update record
carries a head other than the one the player has when the record is applied (the head from
before the call, or the one of its joined record) ends with that head, the length of the
record and at most `length` blocks; for a player that neither died nor joined, the head the
record is compared with is the one from before the call. -/
theorem parseDeltaState_invariant (c : CodingSnake) (delta : JsonDeltaState)
    (refresh : Option MapResponse)
    (hstate : ∀ s ∈ c.state.players, s.blocks.head? = some s.head)
    (hjoined : ∀ p ∈ delta.joined_players.getD [],
      p.blocks ≠ [] → p.blocks.head? = some p.head)
    (hupd : ∀ u ∈ delta.players.getD [], 1 ≤ u.length)
    (hmap : ∀ r, refresh = some r → ∀ p ∈ r.map_state.players,
      p.blocks ≠ [] → p.blocks.head? = some p.head) :
    (∀ s ∈ (c.parseDeltaState delta refresh).state.players,
      s.blocks ≠ [] ∧ s.blocks.head? = some s.head) ∧
    (¬ c.state.current_round + 1 < delta.round →
      ((delta.players.getD []).map JsonPlayerUpdate.id).Nodup →
      ∀ u ∈ delta.players.getD [], ∀ r,
        (c.state.beforeUpdates delta).find? (fun s => decide (s.id = u.id)) = some r →
        r.head ≠ u.head →
        ∃ s, (c.parseDeltaState delta refresh).state.findPlayerById u.id = some s ∧
          s.head = u.head ∧ s.length = u.length ∧ (s.blocks.length : Int) ≤ s.length) ∧
    (∀ i, i ∉ delta.died_players.getD [] →
      i ∉ (delta.joined_players.getD []).map JsonPlayer.id →
      (c.state.beforeUpdates delta).find? (fun s => decide (s.id = i)) =
        c.state.findPlayerById i) := by
  have hne : ∀ s : ClientSnake, s.blocks.head? = some s.head →
      s.blocks ≠ [] ∧ s.blocks.head? = some s.head := by
    intro s h
    refine ⟨?_, h⟩
    intro e
    rw [e] at h
    cases h
  refine ⟨?_, ?_, ?_⟩
  · intro s hs
    apply hne
    by_cases hgap : c.state.current_round + 1 < delta.round
    · have hres : (c.parseDeltaState delta refresh).state.players =
          (CodingSnake.fetchFullMap
            { c with state :=
                { c.state with next_round_timestamp :=
                    delta.next_round_timestamp.getD c.state.next_round_timestamp } }
            refresh).2.state.players := by
        unfold CodingSnake.parseDeltaState
        dsimp only
        rw [if_pos hgap]
      rw [hres] at hs
      rcases fetchFullMap_players _ refresh with h | ⟨r, hr, h⟩
      · rw [h] at hs
        exact hstate s hs
      · rw [h] at hs
        rcases mem_foldl_upsert _ _ _ hs with h1 | ⟨q, hq, e⟩
        · cases h1
        · rw [e]
          exact parsePlayer_head q (hmap r hr q hq)
    · rw [(parseDeltaState_applied c delta refresh hgap).1, beforeUpdates_players] at hs
      revert s
      apply foldl_updates_preserves (fun s => s.blocks.head? = some s.head)
      · intro s u hu h
        exact applyPlayerUpdate_head s u h (hupd u hu)
      · exact beforeUpdates_head _ delta hstate hjoined
  · intro hgap hnodup u hu r hr hmoved
    refine ⟨applyPlayerUpdate r u, ?_, ?_⟩
    · unfold ClientGameState.findPlayerById
      rw [(parseDeltaState_applied c delta refresh hgap).1, beforeUpdates_players,
        find_foldl_updates, filter_id_of_nodup _ hnodup u hu]
      have hb : ClientGameState.beforeUpdates
          { c.state with next_round_timestamp :=
              delta.next_round_timestamp.getD c.state.next_round_timestamp } delta =
          c.state.beforeUpdates delta := rfl
      rw [hb, hr]
      rfl
    · have h := applyPlayerUpdate_moved r u hmoved (by have := hupd u hu; omega)
      exact ⟨h.2.2, h.2.1, h.1⟩
  · intro i hd hj
    unfold ClientGameState.beforeUpdates ClientGameState.findPlayerById
    have hn : ((delta.died_players.getD []).foldl
        (fun ps i => ps.filter (fun s => decide (s.id ≠ i))) c.state.players).find?
        (fun s => decide (s.id = i)) = c.state.players.find? (fun s => decide (s.id = i)) := by
      rw [find_foldl_filter, if_neg hd]
    rw [← hn]
    exact find_foldl_upsert_notin i _ _ hj

/-- C32 on the client that knows "a" at (1,1) with three cells and "b": after the delta in
which "b" died, "c" joined without blocks and "a" moved to (2,1) with length 3, "a" has
the blocks (2,1),(1,1),(1,2) and "c" the single block (7,7); every block list starts with
the head. -/
theorem parseDeltaState_invariant_witness :
    (deltaClient.parseDeltaState moveDelta none).state.players.map
        (fun s => (s.id, s.head, s.blocks, s.length)) =
      [("a", ⟨2, 1⟩, [⟨2, 1⟩, ⟨1, 1⟩, ⟨1, 2⟩], 3), ("c", ⟨7, 7⟩, [⟨7, 7⟩], 1)] ∧
    (∃ s, (deltaClient.parseDeltaState moveDelta none).state.findPlayerById "a" = some s ∧
      s.head = ⟨2, 1⟩ ∧ s.length = 3 ∧ (s.blocks.length : Int) ≤ s.length) ∧
    (∀ s ∈ (deltaClient.parseDeltaState moveDelta none).state.players,
      s.blocks ≠ [] ∧ s.blocks.head? = some s.head) :=
  have h := parseDeltaState_invariant deltaClient moveDelta none (by decide) (by decide)
    (by decide) (fun r hr => by cases hr)
  ⟨by decide,
    h.2.1 (by decide) (by decide)
      { id := "a", head := ⟨2, 1⟩, length := 3, invincible_rounds := none } (by decide)
      { id := "a", name := "a", color := "#FFFFFF", head := ⟨1, 1⟩,
        blocks := [⟨1, 1⟩, ⟨1, 2⟩, ⟨1, 3⟩], length := 3, invincible_rounds := 0 }
      (by decide) (by decide),
    h.1⟩

/-! ## The same delta applied twice -/

theorem mem_foldl_removeFood (removed : List Point) (foods : List Point) (x : Point) :
    x ∈ removed.foldl (fun l f => l.filter (fun q => decide (q ≠ f))) foods ↔
      x ∈ foods ∧ x ∉ removed := by
  induction removed generalizing foods with
  | nil => simp
  | cons r removed ih =>
    simp only [List.foldl_cons, List.mem_cons, not_or]
    rw [ih, List.mem_filter]
    simp only [decide_eq_true_eq]
    tauto

theorem filter_id_cases (us : List JsonPlayerUpdate)
    (hn : (us.map JsonPlayerUpdate.id).Nodup) (i : String) :
    us.filter (fun v => decide (v.id = i)) = [] ∨
    ∃ u ∈ us, u.id = i ∧ us.filter (fun v => decide (v.id = i)) = [u] := by
  by_cases h : ∃ u ∈ us, u.id = i
  · obtain ⟨u, hu, e⟩ := h
    right
    refine ⟨u, hu, e, ?_⟩
    rw [← e]
    exact filter_id_of_nodup us hn u hu
  · left
    rw [List.filter_eq_nil_iff]
    intro v hv hvi
    exact h ⟨v, hv, by simpa using hvi⟩

theorem pad_fixed (B : List Point) (h : Point) (n : Int)
    (hB : (B.length : Int) = n ∨ (B ≠ [] ∧ n.toNat ≤ B.length)) :
    (if (B.length : Int) ≠ n then
        (if B = [] then [h] else B) ++
          List.replicate (n.toNat - (if B = [] then [h] else B).length)
            ((if B = [] then [h] else B).getLastD h)
      else B) = B := by
  by_cases e : (B.length : Int) = n
  · rw [if_neg (not_not.mpr e)]
  · rw [if_pos e]
    rcases hB with hB | ⟨hne, hle⟩
    · exact absurd hB e
    · rw [if_neg hne, Nat.sub_eq_zero_of_le hle]
      simp

theorem applyPlayerUpdate_idem (s : ClientSnake) (u : JsonPlayerUpdate)
    (h : s.head ≠ u.head → 0 ≤ u.length ∧ u.length ≤ s.blocks.length + 1) :
    applyPlayerUpdate (applyPlayerUpdate s u) u = applyPlayerUpdate s u := by
  have hfix : (applyPlayerUpdate s u).blocks.length = u.length ∨
      ((applyPlayerUpdate s u).blocks ≠ [] ∧
        u.length.toNat ≤ (applyPlayerUpdate s u).blocks.length) := by
    unfold applyPlayerUpdate
    dsimp only
    by_cases hm : s.head ≠ u.head
    · rw [if_pos hm]
      left
      obtain ⟨h0, h1⟩ := h hm
      rw [List.length_take, List.length_cons]
      omega
    · rw [if_neg hm]
      by_cases hl : (s.blocks.length : Int) ≠ u.length
      · rw [if_pos hl]
        right
        constructor
        · by_cases hb : s.blocks = []
          · simp [hb]
          · simp [hb]
        · rw [List.length_append, List.length_replicate]
          omega
      · rw [if_neg hl]
        left
        exact not_not.mp hl
  have hpad := pad_fixed (applyPlayerUpdate s u).blocks u.head u.length hfix
  have hstep : applyPlayerUpdate (applyPlayerUpdate s u) u =
      { applyPlayerUpdate s u with
        blocks :=
          if ((applyPlayerUpdate s u).blocks.length : Int) ≠ u.length then
            (if (applyPlayerUpdate s u).blocks = [] then [u.head]
              else (applyPlayerUpdate s u).blocks) ++
              List.replicate (u.length.toNat -
                (if (applyPlayerUpdate s u).blocks = [] then [u.head]
                  else (applyPlayerUpdate s u).blocks).length)
                ((if (applyPlayerUpdate s u).blocks = [] then [u.head]
                  else (applyPlayerUpdate s u).blocks).getLastD u.head)
          else (applyPlayerUpdate s u).blocks } := by
    have hh : (applyPlayerUpdate s u).head = u.head := rfl
    conv_lhs => unfold applyPlayerUpdate
    dsimp only
    rw [hh, if_neg (not_not.mpr rfl)]
    rfl
  rw [hstep, hpad]

/-- C35 fails as stated, on two inputs without a missed round.  (1) The client knows "b"
with the single block (5,5); the delta moves "b" to (6,5) with length 3: after one
application "b" has the blocks (6,5),(5,5), after the second (6,5),(5,5),(5,5).  (2) Two
update records for "a" in one delta, head (2,1) with length 5 and then 1: after one
application "a" has 4 blocks, after the second 5. -/
theorem parseDeltaState_twice_counterexample :
    ((deltaClient.parseDeltaState growDelta none).state.findPlayerById "b").map
        ClientSnake.blocks = some [⟨6, 5⟩, ⟨5, 5⟩] ∧
    (((deltaClient.parseDeltaState growDelta none).parseDeltaState growDelta
        none).state.findPlayerById "b").map ClientSnake.blocks =
      some [⟨6, 5⟩, ⟨5, 5⟩, ⟨5, 5⟩] ∧
    ¬ deltaClient.state.current_round + 1 < growDelta.round ∧
    ((deltaClient.parseDeltaState doubleUpdateDelta none).state.findPlayerById "a").map
        (fun s => s.blocks.length) = some 4 ∧
    (((deltaClient.parseDeltaState doubleUpdateDelta none).parseDeltaState doubleUpdateDelta
        none).state.findPlayerById "a").map (fun s => s.blocks.length) = some 5 ∧
    ¬ deltaClient.state.current_round + 1 < doubleUpdateDelta.round := by
  decide

/-- C35, amended: when the delta does not trigger the missed-round fallback, no two of its
update records share an id, and every update record that moves the head of a player the
client already knows (and that the delta lists neither as died nor as joined) has a
length between 0 and the number of blocks of that player plus one, then applying the
delta a second time changes nothing: the round, the next-round timestamp, the map size,
the in-game flag, the record found under every id (head, blocks, length, invincibility,
name, colour) and the set of foods are the same as after the first application.  The
order in which the map of players and the set of foods are stored is not modelled, so the
two are compared by lookup and by membership. -/
theorem parseDeltaState_twice (c : CodingSnake) (delta : JsonDeltaState)
    (r1 r2 : Option MapResponse)
    (hno : ¬ c.state.current_round + 1 < delta.round)
    (hnodup : ((delta.players.getD []).map JsonPlayerUpdate.id).Nodup)
    (hfit : ∀ u ∈ delta.players.getD [], ∀ s, c.state.findPlayerById u.id = some s →
      u.id ∉ delta.died_players.getD [] →
      u.id ∉ (delta.joined_players.getD []).map JsonPlayer.id →
      s.head ≠ u.head → 0 ≤ u.length ∧ u.length ≤ s.blocks.length + 1) :
    ((c.parseDeltaState delta r1).parseDeltaState delta r2).state.current_round =
      (c.parseDeltaState delta r1).state.current_round ∧
    ((c.parseDeltaState delta r1).parseDeltaState delta r2).state.next_round_timestamp =
      (c.parseDeltaState delta r1).state.next_round_timestamp ∧
    ((c.parseDeltaState delta r1).parseDeltaState delta r2).in_game =
      (c.parseDeltaState delta r1).in_game ∧
    (∀ i, ((c.parseDeltaState delta r1).parseDeltaState delta r2).state.findPlayerById i =
      (c.parseDeltaState delta r1).state.findPlayerById i) ∧
    (∀ f, f ∈ ((c.parseDeltaState delta r1).parseDeltaState delta r2).state.foods ↔
      f ∈ (c.parseDeltaState delta r1).state.foods) := by
  obtain ⟨hs1, hg1, hp1⟩ := parseDeltaState_applied c delta r1 hno
  have hround1 : (c.parseDeltaState delta r1).state.current_round = delta.round := by
    rw [hs1]
    exact (applyDelta_round _ _).1
  have hno2 : ¬ (c.parseDeltaState delta r1).state.current_round + 1 < delta.round := by
    rw [hround1]
    omega
  obtain ⟨hs2, hg2, hp2⟩ := parseDeltaState_applied (c.parseDeltaState delta r1) delta r2 hno2
  have hts1 : (c.parseDeltaState delta r1).state.next_round_timestamp =
      delta.next_round_timestamp.getD c.state.next_round_timestamp := by
    rw [hs1]
    exact (applyDelta_round _ _).2
  have hplayers : ∀ i,
      ((c.parseDeltaState delta r1).parseDeltaState delta r2).state.findPlayerById i =
        (c.parseDeltaState delta r1).state.findPlayerById i := by
    intro i
    unfold ClientGameState.findPlayerById
    rw [hs2, applyDelta_players, find_foldl_updates]
    dsimp only
    by_cases hj : i ∈ (delta.joined_players.getD []).map JsonPlayer.id
    · rw [find_foldl_upsert_congr i _ _
        ((delta.died_players.getD []).foldl
          (fun ps i => ps.filter (fun s => decide (s.id ≠ i))) c.state.players) (Or.inr hj)]
      rw [hs1, applyDelta_players, find_foldl_updates]
    · rw [find_foldl_upsert_notin i _ _ hj, find_foldl_filter]
      by_cases hd : i ∈ delta.died_players.getD []
      · rw [if_pos hd, hs1, applyDelta_players, find_foldl_updates,
          find_foldl_upsert_notin i _ _ hj, find_foldl_filter, if_pos hd]
      · rw [if_neg hd, hs1, applyDelta_players, find_foldl_updates,
          find_foldl_upsert_notin i _ _ hj, find_foldl_filter, if_neg hd]
        dsimp only
        cases hfind : c.state.players.find? (fun s => decide (s.id = i)) with
        | none => rfl
        | some s =>
          simp only [Option.map_some']
          rcases filter_id_cases _ hnodup i with he | ⟨u, hu, hui, he⟩
          · rw [he]
            rfl
          · rw [he]
            simp only [List.foldl_cons, List.foldl_nil]
            rw [applyPlayerUpdate_idem]
            intro hm
            subst hui
            exact hfit u hu s hfind hd hj hm
  refine ⟨?_, ?_, ?_, hplayers, ?_⟩
  · rw [hs2, (applyDelta_round _ _).1, hround1]
  · rw [hs2, (applyDelta_round _ _).2]
    dsimp only
    rw [hts1]
    cases delta.next_round_timestamp <;> rfl
  · rw [hg2, hg1, hp1, hplayers]
  · intro f
    rw [hs2, applyDelta_foods, mem_foldl_addFood, mem_foldl_removeFood]
    dsimp only
    rw [hs1, applyDelta_foods, mem_foldl_addFood, mem_foldl_removeFood]
    tauto

/-- C35 on the client that knows "a" and "b", with the delta in which "b" died, "c" joined
and "a" moved to (2,1): the second application gives the same client as the first. -/
theorem parseDeltaState_twice_witness :
    (deltaClient.parseDeltaState moveDelta none).parseDeltaState moveDelta none =
      deltaClient.parseDeltaState moveDelta none ∧
    ((deltaClient.parseDeltaState moveDelta none).parseDeltaState moveDelta
        none).state.findPlayerById "a" =
      (deltaClient.parseDeltaState moveDelta none).state.findPlayerById "a" ∧
    ((deltaClient.parseDeltaState moveDelta none).parseDeltaState moveDelta none).in_game =
      (deltaClient.parseDeltaState moveDelta none).in_game :=
  have h := parseDeltaState_twice deltaClient moveDelta none none (by decide) (by decide)
    (by decide)
  ⟨by decide, h.2.2.2.1 "a", h.2.2.1⟩

/-! ## The sliding window of the rate limiter -/

theorem timestamps_setRecord (key : String) (ts : List Int) (recs : List (String × List Int))
    (k : String) :
    RateLimiter.timestamps { records := setRecord key ts recs } k =
      if k = key then ts else RateLimiter.timestamps { records := recs } k := by
  induction recs with
  | nil =>
    unfold RateLimiter.timestamps
    simp only [setRecord, List.find?_cons, List.find?_nil]
    by_cases h : key = k
    · simp [h]
    · have h2 : ¬ k = key := fun e => h e.symm
      simp [h, h2]
  | cons r rs ih =>
    simp only [setRecord]
    by_cases hr : r.1 = key
    · rw [if_pos hr]
      unfold RateLimiter.timestamps
      by_cases hk : k = key
      · rw [if_pos hk]
        simp [hk]
      · rw [if_neg hk]
        have h1 : ¬ key = k := fun e => hk e.symm
        have h2 : ¬ r.1 = k := fun e => hk (e.symm.trans hr)
        simp [List.find?_cons, h1, h2]
    · rw [if_neg hr]
      unfold RateLimiter.timestamps at ih ⊢
      by_cases hrk : r.1 = k
      · have hk : ¬ k = key := fun e => hr (hrk.trans e)
        rw [if_neg hk]
        simp [List.find?_cons, hrk]
      · simp only [List.find?_cons, hrk, decide_False]
        exact ih

theorem checkLimit_other (tps : Int) (rl : RateLimiter) (key : String) (M W now : Int)
    (k : String) (hk : k ≠ key) :
    (rl.checkLimit tps key M W now).2.timestamps k = rl.timestamps k := by
  unfold RateLimiter.checkLimit
  dsimp only
  split_ifs
  · rfl
  · rw [timestamps_setRecord, if_neg hk]
  · rw [timestamps_setRecord, if_neg hk]

theorem checkLimit_same (tps : Int) (rl : RateLimiter) (key : String) (M W now : Int)
    (hM : 0 < M) (hW : 0 < W) :
    ((rl.checkLimit tps key M W now).1 = false ∧
      M ≤ (((rl.timestamps key).dropWhile (fun t => decide (t < now - W * tps))).length : Int) ∧
      (rl.checkLimit tps key M W now).2.timestamps key =
        (rl.timestamps key).dropWhile (fun t => decide (t < now - W * tps))) ∨
    ((rl.checkLimit tps key M W now).1 = true ∧
      (((rl.timestamps key).dropWhile (fun t => decide (t < now - W * tps))).length : Int) < M ∧
      (rl.checkLimit tps key M W now).2.timestamps key =
        (rl.timestamps key).dropWhile (fun t => decide (t < now - W * tps)) ++ [now]) := by
  unfold RateLimiter.checkLimit
  dsimp only
  rw [if_neg (by omega)]
  split_ifs with h
  · left
    refine ⟨rfl, h, ?_⟩
    rw [timestamps_setRecord, if_pos rfl]
  · right
    refine ⟨rfl, by omega, ?_⟩
    rw [timestamps_setRecord, if_pos rfl]

theorem countInWindow_append (span t : Int) (a b : List Int) :
    countInWindow span t (a ++ b) = countInWindow span t a + countInWindow span t b := by
  unfold countInWindow
  rw [List.filter_append, List.length_append]

theorem countInWindow_le (span t : Int) (a : List Int) :
    countInWindow span t a ≤ a.length := by
  unfold countInWindow
  exact List.length_filter_le _ _

theorem countInWindow_zero (span t : Int) (a : List Int) (h : ∀ x ∈ a, x < t - span) :
    countInWindow span t a = 0 := by
  unfold countInWindow
  rw [List.length_eq_zero, List.filter_eq_nil_iff]
  intro x hx hd
  have := h x hx
  simp only [decide_eq_true_eq] at hd
  omega

theorem acceptedTimes_window (tps : Int) (key : String) (M W : Int) (hM : 0 < M)
    (hW : 0 < W) (calls : List LimitCall) :
    ∀ (rl : RateLimiter) (acc pre : List Int),
      acc = pre ++ rl.timestamps key →
      (∀ x ∈ pre, ∀ c ∈ calls, c.key = key → x < c.now - W * tps) →
      (∀ t, (countInWindow (W * tps) t acc : Int) ≤ M) →
      calls.Pairwise (fun a b => a.now ≤ b.now) →
      (∀ c ∈ calls, c.key = key → c.maxRequests = M ∧ c.windowSeconds = W) →
      ∀ t, (countInWindow (W * tps) t
        (acc ++ RateLimiter.acceptedTimes tps rl calls key) : Int) ≤ M := by
  induction calls with
  | nil =>
    intro rl acc pre _ _ hcount _ _ t
    simp only [RateLimiter.acceptedTimes, List.append_nil]
    exact hcount t
  | cons c cs ih =>
    intro rl acc pre hacc hpre hcount hclock hparams t
    rw [List.pairwise_cons] at hclock
    have hparams2 : ∀ d ∈ cs, d.key = key → d.maxRequests = M ∧ d.windowSeconds = W :=
      fun d hd => hparams d (List.mem_cons_of_mem _ hd)
    simp only [RateLimiter.acceptedTimes]
    by_cases hk : c.key = key
    · obtain ⟨hm, hw⟩ := hparams c (List.mem_cons_self _ _) hk
      rw [hm, hw, hk]
      have hsplit : rl.timestamps key =
          (rl.timestamps key).takeWhile (fun t => decide (t < c.now - W * tps)) ++
          (rl.timestamps key).dropWhile (fun t => decide (t < c.now - W * tps)) :=
        (List.takeWhile_append_dropWhile _ _).symm
      have hpre2 : ∀ x ∈ pre ++
          (rl.timestamps key).takeWhile (fun t => decide (t < c.now - W * tps)),
          ∀ d ∈ cs, d.key = key → x < d.now - W * tps := by
        intro x hx d hd hdk
        rcases List.mem_append.mp hx with h | h
        · exact hpre x h d (List.mem_cons_of_mem _ hd) hdk
        · have h1 := List.mem_takeWhile_imp h
          simp only [decide_eq_true_eq] at h1
          have h2 := hclock.1 d hd
          omega
      rcases checkLimit_same tps rl key M W c.now hM hW with ⟨hr, _, hts⟩ | ⟨hr, hlen, hts⟩
      · rw [hr]
        simp only [Bool.false_eq_true, false_and, if_false, List.nil_append]
        apply ih _ acc
          (pre ++ (rl.timestamps key).takeWhile (fun t => decide (t < c.now - W * tps)))
          _ hpre2 hcount hclock.2 hparams2
        rw [hts, List.append_assoc, ← hsplit]
        exact hacc
      · rw [hr]
        simp only [true_and, if_true, List.singleton_append]
        have hgoal := ih (rl.checkLimit tps key M W c.now).2 (acc ++ [c.now])
          (pre ++ (rl.timestamps key).takeWhile (fun t => decide (t < c.now - W * tps)))
          (by
            rw [hts, hacc, List.append_assoc, List.append_assoc]
            congr 1
            rw [← List.append_assoc, ← hsplit])
          hpre2
          (by
            intro t2
            by_cases hin : t2 - W * tps ≤ c.now ∧ c.now ≤ t2
            · have hacc2 : acc = (pre ++
                  (rl.timestamps key).takeWhile (fun t => decide (t < c.now - W * tps))) ++
                  (rl.timestamps key).dropWhile (fun t => decide (t < c.now - W * tps)) := by
                rw [List.append_assoc, ← hsplit]
                exact hacc
              rw [countInWindow_append, hacc2, countInWindow_append]
              have hz : countInWindow (W * tps) t2 (pre ++
                  (rl.timestamps key).takeWhile (fun t => decide (t < c.now - W * tps))) =
                  0 := by
                apply countInWindow_zero
                intro x hx
                rcases List.mem_append.mp hx with h | h
                · have := hpre x h c (List.mem_cons_self _ _) hk
                  omega
                · have h1 := List.mem_takeWhile_imp h
                  simp only [decide_eq_true_eq] at h1
                  omega
              have hle := countInWindow_le (W * tps) t2
                ((rl.timestamps key).dropWhile (fun t => decide (t < c.now - W * tps)))
              have hone : countInWindow (W * tps) t2 [c.now] ≤ 1 :=
                countInWindow_le _ _ _
              rw [hz]
              push_cast
              omega
            · rw [countInWindow_append]
              have hz : countInWindow (W * tps) t2 [c.now] = 0 := by
                unfold countInWindow
                rw [List.length_eq_zero, List.filter_eq_nil_iff]
                intro x hx hd
                rw [List.mem_singleton] at hx
                subst hx
                simp only [decide_eq_true_eq] at hd
                exact hin hd
              rw [hz]
              exact hcount t2)
          hclock.2 hparams2 t
        rw [List.append_assoc] at hgoal
        exact hgoal
    · have hne : key ≠ c.key := fun e => hk e.symm
      simp only [hk, and_false, if_false, List.nil_append]
      apply ih _ acc pre _ (fun x hx d hd => hpre x hx d (List.mem_cons_of_mem _ hd))
        hcount hclock.2 hparams2
      rw [checkLimit_other _ _ _ _ _ _ _ hne]
      exact hacc

/-- C37: for every key, maxRequests > 0 and windowSeconds > 0, and every sequence of
`checkLimit` calls on a fresh limiter whose clock readings never decrease and whose calls
for the key carry these two arguments, the number of calls for the key that return true
with a clock reading inside any interval [t - windowSeconds, t] is at most maxRequests.
A call that returns false stores no time point: the deque of the key is the old one
without the expired entries, and the deques of the other keys are the old ones.  With
maxRequests ≤ 0 or windowSeconds ≤ 0 every call returns true and leaves the limiter as it
was. -/
theorem checkLimit_sliding_window (tps : Int) (key : String) (maxRequests windowSeconds : Int)
    (calls : List LimitCall) (hM : 0 < maxRequests) (hW : 0 < windowSeconds)
    (hclock : calls.Pairwise (fun a b => a.now ≤ b.now))
    (hparams : ∀ c ∈ calls, c.key = key →
      c.maxRequests = maxRequests ∧ c.windowSeconds = windowSeconds) :
    (∀ t, (countInWindow (windowSeconds * tps) t
      (RateLimiter.acceptedTimes tps { records := [] } calls key) : Int) ≤ maxRequests) ∧
    (∀ (rl : RateLimiter) (k : String) (m w now : Int),
      (rl.checkLimit tps k m w now).1 = false →
      (rl.checkLimit tps k m w now).2.timestamps k =
        (rl.timestamps k).dropWhile (fun x => decide (x < now - w * tps)) ∧
      now ∉ ((rl.checkLimit tps k m w now).2.timestamps k).filter
        (fun x => decide (x ∉ rl.timestamps k)) ∧
      ∀ k2, k2 ≠ k → (rl.checkLimit tps k m w now).2.timestamps k2 = rl.timestamps k2) ∧
    (∀ (rl : RateLimiter) (k : String) (m w now : Int), m ≤ 0 ∨ w ≤ 0 →
      rl.checkLimit tps k m w now = (true, rl)) := by
  refine ⟨?_, ?_, ?_⟩
  · intro t
    have h := acceptedTimes_window tps key maxRequests windowSeconds hM hW calls
      { records := [] } [] [] rfl (fun x hx => by cases hx)
      (fun t => by
        have : countInWindow (windowSeconds * tps) t [] = 0 := rfl
        rw [this]
        push_cast
        omega)
      hclock hparams t
    rw [List.nil_append] at h
    exact h
  · intro rl k m w now hrej
    have hpos : 0 < m ∧ 0 < w := by
      by_contra hcon
      have hor : m ≤ 0 ∨ w ≤ 0 := by omega
      unfold RateLimiter.checkLimit at hrej
      rw [if_pos hor] at hrej
      cases hrej
    have hts : (rl.checkLimit tps k m w now).2.timestamps k =
        (rl.timestamps k).dropWhile (fun x => decide (x < now - w * tps)) := by
      rcases checkLimit_same tps rl k m w now hpos.1 hpos.2 with ⟨_, _, h⟩ | ⟨hr, _, _⟩
      · exact h
      · rw [hr] at hrej
        cases hrej
    refine ⟨hts, ?_, fun k2 hk2 => checkLimit_other _ _ _ _ _ _ _ hk2⟩
    rw [hts]
    intro hmem
    rw [List.mem_filter] at hmem
    simp only [decide_eq_true_eq] at hmem
    exact hmem.2 ((List.dropWhile_sublist _).subset hmem.1)
  · intro rl k m w now hor
    unfold RateLimiter.checkLimit
    rw [if_pos hor]

/-- C37 on six calls for the key "ip" with at most 2 requests in 10 seconds, at the times
0, 3, 5, 10, 13, 13: the calls at 0, 3 and the first one at 13 are let through, and the
window [3, 13] holds 2 of them. -/
theorem checkLimit_sliding_window_witness :
    (RateLimiter.serve 1 { records := [] } burstCalls).1 =
      [true, true, true, false, false, true, false] ∧
    RateLimiter.acceptedTimes 1 { records := [] } burstCalls "ip" = [0, 3, 13] ∧
    (countInWindow (10 * 1) 13
      (RateLimiter.acceptedTimes 1 { records := [] } burstCalls "ip") : Int) ≤ 2 :=
  have h := checkLimit_sliding_window 1 "ip" 2 10 burstCalls (by decide) (by decide)
    (by decide) (by decide)
  ⟨by decide, by decide, h.1 13⟩

/-! ## A tick and the players that are out of game -/

theorem getPlayer_dropPlayer (pid i : String) (hi : i ≠ pid) (ps : List Player) :
    getPlayer (dropPlayer pid ps) i = getPlayer ps i := by
  unfold getPlayer dropPlayer
  induction ps with
  | nil => rfl
  | cons a ps ih =>
    by_cases ha : a.id = pid
    · have hai : ¬ a.id = i := fun e => hi (e.symm.trans ha)
      rw [List.filter_cons_of_neg (by simp [ha]), ih,
        List.find?_cons_of_neg _ (by simp [hai])]
    · rw [List.filter_cons_of_pos (by simp [ha])]
      by_cases hai : a.id = i
      · rw [List.find?_cons_of_pos _ (by simp [hai]), List.find?_cons_of_pos _ (by simp [hai])]
      · rw [List.find?_cons_of_neg _ (by simp [hai]), List.find?_cons_of_neg _ (by simp [hai]),
          ih]

theorem getPlayer_dropPlayer_self (pid : String) (ps : List Player) :
    getPlayer (dropPlayer pid ps) pid = none := by
  unfold getPlayer dropPlayer
  rw [List.find?_eq_none]
  intro q hq
  have := (List.mem_filter.mp hq).2
  simpa using this

theorem mem_modifyPlayer (f : Player → Player) (i : String) (ps : List Player) (q : Player)
    (h : q ∈ modifyPlayer f i ps) : q ∈ ps ∨ ∃ r ∈ ps, r.id = i ∧ q = f r := by
  induction ps with
  | nil => cases h
  | cons a ps ih =>
    simp only [modifyPlayer] at h
    split_ifs at h with ha
    · rcases List.mem_cons.mp h with h1 | h1
      · exact Or.inr ⟨a, List.mem_cons_self _ _, ha, h1⟩
      · exact Or.inl (List.mem_cons_of_mem _ h1)
    · rcases List.mem_cons.mp h with h1 | h1
      · exact Or.inl (h1 ▸ List.mem_cons_self _ _)
      · rcases ih h1 with h2 | ⟨r, hr, hri, e⟩
        · exact Or.inl (List.mem_cons_of_mem _ h2)
        · exact Or.inr ⟨r, List.mem_cons_of_mem _ hr, hri, e⟩

theorem dropPlayer_modifyPlayer (f : Player → Player) (hf : ∀ q, (f q).id = q.id)
    (pid i : String) (hi : i ≠ pid) (ps : List Player) :
    dropPlayer pid (modifyPlayer f i ps) = modifyPlayer f i (dropPlayer pid ps) := by
  unfold dropPlayer
  induction ps with
  | nil => rfl
  | cons a ps ih =>
    simp only [modifyPlayer]
    by_cases hai : a.id = i
    · have hap : ¬ a.id = pid := fun e => hi (hai.symm.trans e)
      have hfp : ¬ (f a).id = pid := fun e => hap ((hf a).symm.trans e)
      rw [if_pos hai, List.filter_cons_of_pos (by simp [hfp]),
        List.filter_cons_of_pos (by simp [hap])]
      simp only [modifyPlayer, if_pos hai]
    · rw [if_neg hai]
      by_cases hap : a.id = pid
      · rw [List.filter_cons_of_neg (by simp [hap]), List.filter_cons_of_neg (by simp [hap]),
          ih]
      · rw [List.filter_cons_of_pos (by simp [hap]), List.filter_cons_of_pos (by simp [hap])]
        simp only [modifyPlayer, if_neg hai]
        rw [ih]

theorem outOfGame_modifyPlayer (f : Player → Player) (hf : ∀ q, (f q).id = q.id)
    (pid i : String) (hi : i ≠ pid) (ps : List Player) (h : OutOfGame pid ps) :
    OutOfGame pid (modifyPlayer f i ps) := by
  intro q hq hqid
  rcases mem_modifyPlayer f i ps q hq with h1 | ⟨r, hr, hri, e⟩
  · exact h q h1 hqid
  · exfalso
    apply hi
    rw [← hri, ← hf r, ← e]
    exact hqid

theorem applyDirection_of_outOfGame (pid : String) (ps : List Player) (h : OutOfGame pid ps)
    (d : Direction) : applyDirection ps (pid, d) = ps := by
  unfold applyDirection
  dsimp only
  cases hg : getPlayer ps pid with
  | none => rfl
  | some q =>
    obtain ⟨hq, hid⟩ := getPlayer_some hg
    dsimp only
    rw [if_pos (h q hq hid)]

theorem applyDirection_drop (pid : String) (ps : List Player) (h : OutOfGame pid ps)
    (c : String × Direction) (hc : c.1 ≠ pid) :
    dropPlayer pid (applyDirection ps c) = applyDirection (dropPlayer pid ps) c ∧
    OutOfGame pid (applyDirection ps c) := by
  unfold applyDirection
  rw [getPlayer_dropPlayer pid c.1 hc]
  cases hg : getPlayer ps c.1 with
  | none => exact ⟨rfl, h⟩
  | some q =>
    dsimp only
    split_ifs
    · exact ⟨rfl, h⟩
    · exact ⟨rfl, h⟩
    · refine ⟨dropPlayer_modifyPlayer _ ?_ pid c.1 hc ps,
        outOfGame_modifyPlayer _ ?_ pid c.1 hc ps h⟩ <;> intro q <;> rfl

theorem applyDirections_drop (pid : String) (moves : List (String × Direction))
    (ps : List Player) (h : OutOfGame pid ps) :
    dropPlayer pid (applyDirections ps moves) =
      applyDirections (dropPlayer pid ps) (moves.filter (fun c => decide (c.1 ≠ pid))) ∧
    OutOfGame pid (applyDirections ps moves) := by
  unfold applyDirections
  induction moves generalizing ps with
  | nil => exact ⟨rfl, h⟩
  | cons c moves ih =>
    simp only [List.foldl_cons]
    by_cases hc : c.1 = pid
    · have hcd : c = (pid, c.2) := by
        rw [← hc]
      rw [List.filter_cons_of_neg (by simp [hc])]
      rw [hcd, applyDirection_of_outOfGame pid ps h]
      exact ih ps h
    · rw [List.filter_cons_of_pos (by simp [hc])]
      simp only [List.foldl_cons]
      obtain ⟨h1, h2⟩ := applyDirection_drop pid ps h c hc
      rw [← h1]
      exact ih _ h2

theorem filter_dropPlayer (pid : String) (P : Player → Bool)
    (hP : ∀ q, P q = true → q.inGame = true) (ps : List Player) (h : OutOfGame pid ps) :
    (dropPlayer pid ps).filter P = ps.filter P := by
  unfold dropPlayer
  induction ps with
  | nil => rfl
  | cons a ps ih =>
    have h2 : OutOfGame pid ps := fun q hq => h q (List.mem_cons_of_mem _ hq)
    by_cases ha : a.id = pid
    · have hout := h a (List.mem_cons_self _ _) ha
      have hPa : ¬ P a = true := by
        intro e
        rw [hP a e] at hout
        cases hout
      rw [List.filter_cons_of_neg (by simp [ha]), List.filter_cons_of_neg hPa]
      exact ih h2
    · rw [List.filter_cons_of_pos (by simp [ha])]
      by_cases hPa : P a = true
      · rw [List.filter_cons_of_pos hPa, List.filter_cons_of_pos hPa, ih h2]
      · rw [List.filter_cons_of_neg hPa, List.filter_cons_of_neg hPa, ih h2]

theorem filterMap_dropPlayer {β : Type} (pid : String) (g : Player → Option β)
    (hg : ∀ q, q.inGame = false → g q = none) (ps : List Player) (h : OutOfGame pid ps) :
    (dropPlayer pid ps).filterMap g = ps.filterMap g := by
  unfold dropPlayer
  induction ps with
  | nil => rfl
  | cons a ps ih =>
    have h2 : OutOfGame pid ps := fun q hq => h q (List.mem_cons_of_mem _ hq)
    by_cases ha : a.id = pid
    · have hout := h a (List.mem_cons_self _ _) ha
      rw [List.filter_cons_of_neg (by simp [ha]), List.filterMap_cons, hg a hout]
      exact ih h2
    · rw [List.filter_cons_of_pos (by simp [ha]), List.filterMap_cons, List.filterMap_cons,
        ih h2]

theorem findKiller_dropPlayer (pid : String) (ps : List Player) (h : OutOfGame pid ps)
    (victim : String) (occupants : List String) :
    findKiller (dropPlayer pid ps) victim occupants = findKiller ps victim occupants := by
  induction occupants with
  | nil => rfl
  | cons o rest ih =>
    simp only [findKiller]
    by_cases hv : o = victim
    · rw [if_pos hv, if_pos hv, ih]
    · rw [if_neg hv, if_neg hv]
      by_cases ho : o = pid
      · rw [ho, getPlayer_dropPlayer_self]
        cases hg : getPlayer ps pid with
        | none => exact ih
        | some k =>
          obtain ⟨hk, hid⟩ := getPlayer_some hg
          dsimp only
          rw [if_pos (h k hk hid)]
          exact ih
      · rw [getPlayer_dropPlayer pid o ho, ih]

theorem movePhase_drop (pid : String) (ps : List Player) (h : OutOfGame pid ps)
    (occ : CountMap) :
    movePhase (dropPlayer pid ps) occ = (dropPlayer pid (movePhase ps occ).1,
      (movePhase ps occ).2) ∧
    OutOfGame pid (movePhase ps occ).1 := by
  induction ps generalizing occ with
  | nil => exact ⟨rfl, h⟩
  | cons a ps ih =>
    have h2 : OutOfGame pid ps := fun q hq => h q (List.mem_cons_of_mem _ hq)
    have hmid : ∀ q : Player, (movePlayer q).id = q.id ∧ (movePlayer q).inGame = q.inGame := by
      intro q
      unfold movePlayer
      split_ifs <;> exact ⟨rfl, rfl⟩
    by_cases ha : a.id = pid
    · have hout := h a (List.mem_cons_self _ _) ha
      have hd : dropPlayer pid (a :: ps) = dropPlayer pid ps := by
        unfold dropPlayer
        rw [List.filter_cons_of_neg (by simp [ha])]
      rw [hd]
      simp only [movePhase, if_pos hout]
      have hm : movePlayer a = a := by
        unfold movePlayer
        rw [if_pos hout]
      obtain ⟨h3, h4⟩ := ih h2 occ
      constructor
      · rw [h3, hm]
        congr 1
        unfold dropPlayer
        rw [List.filter_cons_of_neg (by simp [ha])]
      · intro q hq hqid
        rcases List.mem_cons.mp hq with e | e
        · rw [e, hm]
          exact hout
        · exact h4 q e hqid
    · have hd : dropPlayer pid (a :: ps) = a :: dropPlayer pid ps := by
        unfold dropPlayer
        rw [List.filter_cons_of_pos (by simp [ha])]
      rw [hd]
      simp only [movePhase]
      obtain ⟨h3, h4⟩ := ih h2
        (if a.inGame = false then occ
          else if a.snake.direction ≠ Direction.NONE then
            applyMoveResult occ a.snake.moveWithDelta.2
          else occ)
      constructor
      · rw [h3]
        congr 1
        unfold dropPlayer
        rw [List.filter_cons_of_pos (by simp [(hmid a).1, ha])]
      · intro q hq hqid
        rcases List.mem_cons.mp hq with e | e
        · exfalso
          apply ha
          rw [← (hmid a).1, ← e]
          exact hqid
        · exact h4 q e hqid

theorem front_drop (pid : String) (m : GameManager) (h : OutOfGame pid m.gameState.players) :
    (((m.withoutPlayer pid).swapMoves).clearDelta).processMovements =
      (((m.swapMoves).clearDelta).processMovements).withoutPlayer pid ∧
    OutOfGame pid (((m.swapMoves).clearDelta).processMovements).gameState.players := by
  obtain ⟨h1, h2⟩ := applyDirections_drop pid m.currentMoves m.gameState.players h
  obtain ⟨h3, h4⟩ := movePhase_drop pid _ h2 m.occupiedCounts
  have h5 : predictSelfCollisions
      (dropPlayer pid (applyDirections m.gameState.players m.currentMoves)) =
      predictSelfCollisions (applyDirections m.gameState.players m.currentMoves) := by
    unfold predictSelfCollisions
    rw [filter_dropPlayer pid predictsSelfCollision _ _ h2]
    intro q hq
    unfold predictsSelfCollision at hq
    simp only [Bool.and_eq_true] at hq
    exact hq.1.1
  constructor
  · unfold GameManager.withoutPlayer GameManager.swapMoves GameManager.clearDelta
      GameManager.processMovements GameState.clearDeltaTracking
    dsimp only
    rw [← h1, h3, h5]
    rfl
  · exact h4

theorem deathEvents_drop (pid : String) (m : GameManager)
    (h : OutOfGame pid m.gameState.players) (occ : List (Point × List String))
    (player : Player) (ct : CollisionType) :
    deathEvents (m.withoutPlayer pid) occ player ct = deathEvents m occ player ct := by
  unfold deathEvents
  have hk : ∀ ids, findKiller (m.withoutPlayer pid).gameState.players player.id ids =
      findKiller m.gameState.players player.id ids :=
    fun ids => findKiller_dropPlayer pid _ h _ ids
  have hl : (m.withoutPlayer pid).hasLeaderboard = m.hasLeaderboard := rfl
  have hr : (m.withoutPlayer pid).gameState.currentRound = m.gameState.currentRound := rfl
  simp only [hk, hl, hr]

theorem resolveCollision_drop (pid : String) (occ : List (Point × List String))
    (m : GameManager) (h : OutOfGame pid m.gameState.players) (c : String × CollisionType)
    (hc : c.1 ≠ pid) :
    resolveCollision occ (m.withoutPlayer pid) c = (resolveCollision occ m c).withoutPlayer pid ∧
    OutOfGame pid (resolveCollision occ m c).gameState.players := by
  unfold resolveCollision
  have hp : (m.withoutPlayer pid).gameState.players = dropPlayer pid m.gameState.players := rfl
  rw [hp, getPlayer_dropPlayer pid c.1 hc]
  cases hg : getPlayer m.gameState.players c.1 with
  | none => exact ⟨rfl, h⟩
  | some player =>
    dsimp only
    by_cases hin : player.inGame = false
    · rw [if_pos hin, if_pos hin]
      exact ⟨rfl, h⟩
    · rw [if_neg hin, if_neg hin, deathEvents_drop pid m h]
      have hmod := dropPlayer_modifyPlayer (fun q => q.setInGame false) (fun _ => rfl) pid c.1 hc
        m.gameState.players
      have hout := outOfGame_modifyPlayer (fun q => q.setInGame false) (fun _ => rfl) pid c.1
        hc m.gameState.players h
      unfold GameManager.removeSnakeFromOccupancy
      by_cases hal : player.snake.alive = false
      · rw [if_pos hal, if_pos hal]
        refine ⟨?_, hout⟩
        unfold GameManager.withoutPlayer
        dsimp only
        rw [hmod]
      · rw [if_neg hal, if_neg hal]
        refine ⟨?_, hout⟩
        unfold GameManager.withoutPlayer
        dsimp only
        rw [hmod]

theorem resolveAll_drop (pid : String) (occ : List (Point × List String))
    (cs : List (String × CollisionType)) (hcs : ∀ c ∈ cs, c.1 ≠ pid) (m : GameManager)
    (h : OutOfGame pid m.gameState.players) :
    cs.foldl (resolveCollision occ) (m.withoutPlayer pid) =
      (cs.foldl (resolveCollision occ) m).withoutPlayer pid ∧
    OutOfGame pid (cs.foldl (resolveCollision occ) m).gameState.players := by
  induction cs generalizing m with
  | nil => exact ⟨rfl, h⟩
  | cons c cs ih =>
    simp only [List.foldl_cons]
    obtain ⟨h1, h2⟩ := resolveCollision_drop pid occ m h c (hcs c (List.mem_cons_self _ _))
    rw [h1]
    exact ih (fun d hd => hcs d (List.mem_cons_of_mem _ hd)) _ h2

theorem detectCollisions_drop (env : Env) (pid : String) (m : GameManager)
    (h : OutOfGame pid m.gameState.players) :
    detectCollisions env (m.withoutPlayer pid) = detectCollisions env m ∧
    ∀ c ∈ detectCollisions env m, c.1 ≠ pid := by
  constructor
  · unfold detectCollisions buildValidOccupiedCounts
    have hp : (m.withoutPlayer pid).gameState.players = dropPlayer pid m.gameState.players := rfl
    have hs : (m.withoutPlayer pid).pendingSelfCollisions = m.pendingSelfCollisions := rfl
    dsimp only
    rw [hp, hs, filter_dropPlayer pid isObstacle _ _ h]
    · apply filterMap_dropPlayer pid _ _ _ h
      intro q hq
      rw [if_pos hq]
    · intro q hq
      unfold isObstacle at hq
      simp only [Bool.and_eq_true] at hq
      exact hq.1
  · intro c hc hcp
    unfold detectCollisions at hc
    rw [List.mem_filterMap] at hc
    obtain ⟨q, hq, hqc⟩ := hc
    dsimp only at hqc
    by_cases hin : q.inGame = false
    · rw [if_pos hin] at hqc
      cases hqc
    · rw [if_neg hin] at hqc
      split_ifs at hqc
      have e : (q.id, classifyCollision env (buildValidOccupiedCounts m.gameState.players)
          m.pendingSelfCollisions q) = c := Option.some.inj hqc
      apply hin
      apply h q hq
      rw [← hcp, ← e]

theorem checkCollisions_drop (env : Env) (pid : String) (m : GameManager)
    (h : OutOfGame pid m.gameState.players) :
    (m.withoutPlayer pid).checkCollisions env = (m.checkCollisions env).withoutPlayer pid ∧
    OutOfGame pid (m.checkCollisions env).gameState.players := by
  unfold GameManager.checkCollisions
  dsimp only
  obtain ⟨h1, h2⟩ := detectCollisions_drop env pid m h
  have hocc : buildOccupancyByPlayer (m.withoutPlayer pid).gameState.players =
      buildOccupancyByPlayer m.gameState.players := by
    unfold buildOccupancyByPlayer
    have hp : (m.withoutPlayer pid).gameState.players = dropPlayer pid m.gameState.players := rfl
    rw [hp, filter_dropPlayer pid isObstacle _ _ h]
    intro q hq
    unfold isObstacle at hq
    simp only [Bool.and_eq_true] at hq
    exact hq.1
  obtain ⟨h3, h4⟩ := resolveAll_drop pid (buildOccupancyByPlayer m.gameState.players)
    (detectCollisions env m) h2 m h
  rw [h1, hocc, h3]
  exact ⟨rfl, h4⟩

theorem collectFood_drop (pid : String) (hasLb : Bool) (round : Int) (ps : List Player)
    (h : OutOfGame pid ps) (acc : List Point × List Point × List LbEvent) :
    collectFood hasLb round (dropPlayer pid ps) acc =
      (dropPlayer pid (collectFood hasLb round ps acc).1, (collectFood hasLb round ps acc).2) ∧
    OutOfGame pid (collectFood hasLb round ps acc).1 := by
  induction ps generalizing acc with
  | nil =>
    refine ⟨?_, ?_⟩
    · unfold dropPlayer
      simp only [List.filter_nil, collectFood]
    · simp only [collectFood]
      exact h
  | cons a ps ih =>
    obtain ⟨foods, removed, ev⟩ := acc
    have h2 : OutOfGame pid ps := fun q hq => h q (List.mem_cons_of_mem _ hq)
    by_cases ha : a.id = pid
    · have hout := h a (List.mem_cons_self _ _) ha
      have hd : dropPlayer pid (a :: ps) = dropPlayer pid ps := by
        unfold dropPlayer
        rw [List.filter_cons_of_neg (by simp [ha])]
      have hno : ¬ (a.inGame = true ∧ hasFoodAt foods a.snake.getHead = true) := by
        rw [hout]
        simp
      rw [hd]
      simp only [collectFood, if_neg hno]
      obtain ⟨h3, h4⟩ := ih h2 (foods, removed, ev)
      constructor
      · rw [h3]
        congr 1
        unfold dropPlayer
        rw [List.filter_cons_of_neg (by simp [ha])]
      · intro q hq hqid
        rcases List.mem_cons.mp hq with e | e
        · rw [e]
          exact hout
        · exact h4 q e hqid
    · have hd : dropPlayer pid (a :: ps) = a :: dropPlayer pid ps := by
        unfold dropPlayer
        rw [List.filter_cons_of_pos (by simp [ha])]
      rw [hd]
      simp only [collectFood]
      by_cases hf : a.inGame = true ∧ hasFoodAt foods a.snake.getHead = true
      · rw [if_pos hf, if_pos hf]
        dsimp only
        obtain ⟨h3, h4⟩ := ih h2
          (removeFood foods a.snake.getHead, setInsert a.snake.getHead removed,
            if hasLb = true then
              ev ++ [LbEvent.onRound a.uid a.name round (a.snake.grow).length 1 0]
            else ev)
        constructor
        · rw [h3]
          congr 1
          unfold dropPlayer
          rw [List.filter_cons_of_pos (by simp [ha])]
        · intro q hq hqid
          rcases List.mem_cons.mp hq with e | e
          · exfalso
            apply ha
            rw [← hqid, e]
          · exact h4 q e hqid
      · rw [if_neg hf, if_neg hf]
        dsimp only
        obtain ⟨h3, h4⟩ := ih h2 (foods, removed, ev)
        constructor
        · rw [h3]
          congr 1
          unfold dropPlayer
          rw [List.filter_cons_of_pos (by simp [ha])]
        · intro q hq hqid
          rcases List.mem_cons.mp hq with e | e
          · exfalso
            apply ha
            rw [← hqid, e]
          · exact h4 q e hqid

theorem handleFoodCollection_drop (pid : String) (m : GameManager)
    (h : OutOfGame pid m.gameState.players) :
    (m.withoutPlayer pid).handleFoodCollection = m.handleFoodCollection.withoutPlayer pid ∧
    OutOfGame pid m.handleFoodCollection.gameState.players := by
  obtain ⟨h1, h2⟩ := collectFood_drop pid m.hasLeaderboard m.gameState.currentRound
    m.gameState.players h (m.gameState.foods, m.gameState.removedFoods, m.lbEvents)
  constructor
  · unfold GameManager.handleFoodCollection GameManager.withoutPlayer
    dsimp only
    rw [h1]
  · exact h2

theorem generateFood_drop (env : Env) (pid : String) (m : GameManager)
    (h : OutOfGame pid m.gameState.players) :
    (m.withoutPlayer pid).generateFood env = (m.generateFood env).withoutPlayer pid ∧
    OutOfGame pid (m.generateFood env).gameState.players := by
  constructor
  · have hocc : authoritativeOccupied env (dropPlayer pid m.gameState.players) =
        authoritativeOccupied env m.gameState.players := by
      unfold authoritativeOccupied
      rw [filter_dropPlayer pid (fun p => p.inGame) (fun q hq => hq) _ h]
    unfold GameManager.generateFood GameManager.withoutPlayer
    dsimp only
    rw [hocc]
    split_ifs <;> rfl
  · rw [(generateFood_frame env m).2.2.2]
    exact h

theorem updateInvincibility_drop (pid : String) (m : GameManager) :
    (m.withoutPlayer pid).updateInvincibility = m.updateInvincibility.withoutPlayer pid := by
  have hmap : ∀ ps : List Player,
      (dropPlayer pid ps).map ageInvincibility = dropPlayer pid (ps.map ageInvincibility) := by
    intro ps
    unfold dropPlayer
    induction ps with
    | nil => rfl
    | cons a ps ih =>
      have hid : (ageInvincibility a).id = a.id := by
        unfold ageInvincibility
        split_ifs <;> rfl
      by_cases ha : a.id = pid
      · rw [List.filter_cons_of_neg (by simp [ha]), List.map_cons,
          List.filter_cons_of_neg (by simp [hid, ha]), ih]
      · rw [List.filter_cons_of_pos (by simp [ha]), List.map_cons, List.map_cons,
          List.filter_cons_of_pos (by simp [hid, ha]), ih]
  unfold GameManager.updateInvincibility GameManager.withoutPlayer
  dsimp only
  rw [hmap]

theorem tick_drop (env : Env) (pid : String) (m : GameManager)
    (h : OutOfGame pid m.gameState.players) :
    (m.withoutPlayer pid).tick env = (m.tick env).withoutPlayer pid := by
  unfold GameManager.tick GameManager.finishTick
  obtain ⟨h1, h2⟩ := front_drop pid m h
  obtain ⟨h3, h4⟩ := checkCollisions_drop env pid _ h2
  obtain ⟨h5, h6⟩ := handleFoodCollection_drop pid _ h4
  obtain ⟨h7, _⟩ := generateFood_drop env pid _ h6
  rw [h1, h3, h5, h7, updateInvincibility_drop]
  rfl

theorem getPlayer_modifyPlayer_other (f : Player → Player) (hf : ∀ q, (f q).id = q.id)
    (i pid : String) (hi : i ≠ pid) (ps : List Player) :
    getPlayer (modifyPlayer f i ps) pid = getPlayer ps pid := by
  unfold getPlayer
  induction ps with
  | nil => rfl
  | cons a ps ih =>
    simp only [modifyPlayer]
    by_cases hai : a.id = i
    · have hap : ¬ a.id = pid := fun e => hi (hai.symm.trans e)
      have hfp : ¬ (f a).id = pid := fun e => hap ((hf a).symm.trans e)
      rw [if_pos hai, List.find?_cons_of_neg _ (by simp [hfp]),
        List.find?_cons_of_neg _ (by simp [hap])]
    · rw [if_neg hai]
      by_cases hap : a.id = pid
      · rw [List.find?_cons_of_pos _ (by simp [hap]), List.find?_cons_of_pos _ (by simp [hap])]
      · rw [List.find?_cons_of_neg _ (by simp [hap]), List.find?_cons_of_neg _ (by simp [hap]),
          ih]

theorem getPlayer_map (f : Player → Player) (hf : ∀ q, (f q).id = q.id) (pid : String)
    (ps : List Player) : getPlayer (ps.map f) pid = (getPlayer ps pid).map f := by
  unfold getPlayer
  induction ps with
  | nil => rfl
  | cons a ps ih =>
    rw [List.map_cons]
    by_cases hap : a.id = pid
    · have hfp : (f a).id = pid := (hf a).trans hap
      rw [List.find?_cons_of_pos _ (by simp [hfp]), List.find?_cons_of_pos _ (by simp [hap])]
      rfl
    · have hfp : ¬ (f a).id = pid := fun e => hap ((hf a).symm.trans e)
      rw [List.find?_cons_of_neg _ (by simp [hfp]), List.find?_cons_of_neg _ (by simp [hap]),
        ih]

theorem applyDirection_keeps (ps : List Player) (p : Player)
    (hp : getPlayer ps p.id = some p) (hout : p.inGame = false) (c : String × Direction) :
    getPlayer (applyDirection ps c) p.id = some p := by
  unfold applyDirection
  by_cases hc : c.1 = p.id
  · rw [hc, hp]
    dsimp only
    rw [if_pos hout]
    exact hp
  · cases hg : getPlayer ps c.1 with
    | none => exact hp
    | some q =>
      dsimp only
      split_ifs
      · exact hp
      · exact hp
      · rw [getPlayer_modifyPlayer_other _ ?_ c.1 p.id hc]
        · exact hp
        · intro r
          rfl

theorem applyDirections_keeps (moves : List (String × Direction)) (ps : List Player)
    (p : Player) (hp : getPlayer ps p.id = some p) (hout : p.inGame = false) :
    getPlayer (applyDirections ps moves) p.id = some p := by
  unfold applyDirections
  induction moves generalizing ps with
  | nil => exact hp
  | cons c moves ih =>
    simp only [List.foldl_cons]
    exact ih _ (applyDirection_keeps ps p hp hout c)

theorem resolveCollision_keeps (occ : List (Point × List String)) (m : GameManager)
    (p : Player) (hp : getPlayer m.gameState.players p.id = some p) (hout : p.inGame = false)
    (c : String × CollisionType) :
    getPlayer (resolveCollision occ m c).gameState.players p.id = some p := by
  unfold resolveCollision
  by_cases hc : c.1 = p.id
  · rw [hc, hp]
    dsimp only
    rw [if_pos hout]
    exact hp
  · cases hg : getPlayer m.gameState.players c.1 with
    | none => exact hp
    | some q =>
      dsimp only
      split_ifs
      · exact hp
      · rw [(removeSnakeFromOccupancy_frame _ _).2.2.2.1]
        dsimp only
        rw [getPlayer_modifyPlayer_other _ ?_ c.1 p.id hc]
        · exact hp
        · intro r
          rfl

theorem resolveAll_keeps (occ : List (Point × List String))
    (cs : List (String × CollisionType)) (m : GameManager)
    (p : Player) (hp : getPlayer m.gameState.players p.id = some p) (hout : p.inGame = false) :
    getPlayer (cs.foldl (resolveCollision occ) m).gameState.players p.id = some p := by
  induction cs generalizing m with
  | nil => exact hp
  | cons c cs ih =>
    simp only [List.foldl_cons]
    exact ih _ (resolveCollision_keeps occ m p hp hout c)

theorem collectFood_keeps_player (hasLb : Bool) (round : Int) (ps : List Player)
    (p : Player) (hp : getPlayer ps p.id = some p) (hout : p.inGame = false)
    (acc : List Point × List Point × List LbEvent) :
    getPlayer (collectFood hasLb round ps acc).1 p.id = some p := by
  induction ps generalizing acc with
  | nil =>
    unfold getPlayer at hp
    cases hp
  | cons a ps ih =>
    obtain ⟨foods, removed, ev⟩ := acc
    unfold getPlayer at hp ih ⊢
    simp only [collectFood]
    by_cases ha : a.id = p.id
    · rw [List.find?_cons_of_pos _ (by simp [ha])] at hp
      have e : a = p := Option.some.inj hp
      have hno : ¬ (a.inGame = true ∧ hasFoodAt foods a.snake.getHead = true) := by
        rw [e, hout]
        simp
      rw [if_neg hno]
      dsimp only
      rw [List.find?_cons_of_pos _ (by simp [ha]), e]
    · rw [List.find?_cons_of_neg _ (by simp [ha])] at hp
      by_cases hf : a.inGame = true ∧ hasFoodAt foods a.snake.getHead = true
      · rw [if_pos hf]
        dsimp only
        rw [List.find?_cons_of_neg _ (by simp [ha])]
        exact ih hp _
      · rw [if_neg hf]
        dsimp only
        rw [List.find?_cons_of_neg _ (by simp [ha])]
        exact ih hp _

theorem tick_keeps (env : Env) (m : GameManager) (p : Player)
    (hp : getPlayer m.gameState.players p.id = some p) (hout : p.inGame = false) :
    getPlayer (m.tick env).gameState.players p.id = some p := by
  have hmove : movePlayer p = p := by
    unfold movePlayer
    rw [if_pos hout]
  have hage : ageInvincibility p = p := by
    unfold ageInvincibility
    rw [if_neg]
    rw [hout]
    simp
  have h1 : getPlayer (((m.swapMoves).clearDelta).processMovements).gameState.players p.id =
      some p := by
    rw [processMovements_players, getPlayer_map movePlayer movePlayer_id]
    have := applyDirections_keeps ((m.swapMoves).clearDelta).nextMoves
      ((m.swapMoves).clearDelta).gameState.players p hp hout
    rw [this]
    simp only [Option.map_some', hmove]
  have h2 : getPlayer
      ((((m.swapMoves).clearDelta).processMovements).checkCollisions env).gameState.players
      p.id = some p := by
    unfold GameManager.checkCollisions
    dsimp only
    exact resolveAll_keeps _ _ _ p h1 hout
  have h3 : getPlayer
      (((((m.swapMoves).clearDelta).processMovements).checkCollisions
        env).handleFoodCollection).gameState.players p.id = some p := by
    unfold GameManager.handleFoodCollection
    dsimp only
    exact collectFood_keeps_player _ _ _ p h2 hout _
  unfold GameManager.tick
  rw [finishTick_players, getPlayer_map ageInvincibility, h3]
  · simp only [Option.map_some', hage]
  · intro q
    unfold ageInvincibility
    split_ifs <;> rfl

/-- C33: a player that is out of game when a tick starts (player ids being distinct) is
found unchanged after the tick, with the same body, facing, length, invincibility and
still out of game, and the tick does to everything else exactly what it does in the world
without this player and without its pending command: the tick of the manager without the
player is the manager without the player after the tick.  So the foods, the died players
and the leaderboard calls after the tick are those of the tick without the player: it eats
no food, causes no death, and its command has no effect. -/
theorem tick_ignores_out_of_game (env : Env) (m : GameManager) (p : Player)
    (hids : (m.gameState.players.map Player.id).Nodup)
    (hp : p ∈ m.gameState.players) (hout : p.inGame = false) :
    getPlayer (m.tick env).gameState.players p.id = some p ∧
    (m.withoutPlayer p.id).tick env = (m.tick env).withoutPlayer p.id ∧
    (m.tick env).gameState.foods = ((m.withoutPlayer p.id).tick env).gameState.foods ∧
    (m.tick env).gameState.diedPlayers =
      ((m.withoutPlayer p.id).tick env).gameState.diedPlayers ∧
    (m.tick env).lbEvents = ((m.withoutPlayer p.id).tick env).lbEvents ∧
    (m.tick env).occupiedCounts = ((m.withoutPlayer p.id).tick env).occupiedCounts := by
  have hog : OutOfGame p.id m.gameState.players := by
    intro q hq hid
    rw [player_eq_of_id_eq hids hq hp hid]
    exact hout
  have hdrop := tick_drop env p.id m hog
  refine ⟨tick_keeps env m p (getPlayer_of_mem hids hp) hout, hdrop, ?_, ?_, ?_, ?_⟩ <;>
    rw [hdrop] <;> rfl

/-- C33 on the snake "s1" that moves onto the food (5,5), where the out-of-game player
"ghost" has its last head and a pending command "left": after the tick "ghost" is the
same record, "s1" has eaten the food and nobody died. -/
theorem tick_ignores_out_of_game_witness :
    getPlayer (spectatorManager.tick scenarioEnv).gameState.players "ghost" =
      some ghostPlayer ∧
    (spectatorManager.withoutPlayer "ghost").tick scenarioEnv =
      (spectatorManager.tick scenarioEnv).withoutPlayer "ghost" ∧
    (spectatorManager.tick scenarioEnv).gameState.diedPlayers = [] ∧
    (spectatorManager.tick scenarioEnv).gameState.removedFoods = [⟨5, 5⟩] ∧
    (spectatorManager.tick scenarioEnv).gameState.foods = [] ∧
    (getPlayer (spectatorManager.tick scenarioEnv).gameState.players "s1").map
      (fun q => (q.snake.blocks, q.snake.length)) = some ([⟨5, 5⟩, ⟨4, 5⟩], 3) :=
  have h := tick_ignores_out_of_game scenarioEnv spectatorManager ghostPlayer (by decide)
    (by decide) (by decide)
  ⟨h.1, h.2.1, by decide, by decide, by decide, by decide⟩

/-! ## The bot strategies and the safety of their answer -/

theorem chooseStep_fst_mem (state : ClientGameState) (src target : Point) (safeOnly : Bool)
    (dirs : List String) (best : String × Int) :
    (dirs.foldl (bot.chooseStep state src target safeOnly) best).1 = best.1 ∨
    (dirs.foldl (bot.chooseStep state src target safeOnly) best).1 ∈ dirs := by
  induction dirs generalizing best with
  | nil => exact Or.inl rfl
  | cons d dirs ih =>
    simp only [List.foldl_cons]
    rcases ih (bot.chooseStep state src target safeOnly best d) with h | h
    · rw [h]
      unfold bot.chooseStep
      dsimp only
      split_ifs
      · exact Or.inl rfl
      · exact Or.inl rfl
      · exact Or.inr (List.mem_cons_self _ _)
      · exact Or.inl rfl
    · exact Or.inr (List.mem_cons_of_mem _ h)

theorem chooseDirectionToward_mem (state : ClientGameState) (src target : Point)
    (safeOnly : Bool) :
    bot.chooseDirectionToward state src target safeOnly ∈ bot.allDirections := by
  unfold bot.chooseDirectionToward
  rcases chooseStep_fst_mem state src target safeOnly bot.allDirections ("right", bot.intMax)
    with h | h
  · rw [h]
    decide
  · exact h

theorem firstSafeDirection_spec (state : ClientGameState) (head : Point) :
    bot.firstSafeDirection state head ∈ bot.allDirections ∧
    ((∃ d ∈ bot.allDirections, bot.isSafeDirection state head d = true) →
      bot.isSafeDirection state head (bot.firstSafeDirection state head) = true) := by
  unfold bot.firstSafeDirection
  cases h : bot.allDirections.find? (fun candidate => bot.isSafeDirection state head candidate)
    with
  | none =>
    refine ⟨by decide, ?_⟩
    rintro ⟨d, hd, hs⟩
    have := List.find?_eq_none.mp h d hd
    exact absurd hs this
  | some c =>
    refine ⟨List.mem_of_find?_eq_some h, fun _ => ?_⟩
    exact List.find?_some h

/-- Once `bfsFirstStep` has returned one of the four directions, `decidePatroller` returns
one of the four directions, and a safe one whenever a safe one exists. -/
theorem patrolChoice_spec (state : ClientGameState) (head target : Point) (dir : String)
    (hdir : dir ∈ bot.allDirections) :
    bot.patrolChoice state head target dir ∈ bot.allDirections ∧
    ((∃ d ∈ bot.allDirections, bot.isSafeDirection state head d = true) →
      bot.isSafeDirection state head (bot.patrolChoice state head target dir) = true) := by
  obtain ⟨hf1, hf2⟩ := firstSafeDirection_spec state head
  have hc := chooseDirectionToward_mem state head target true
  unfold bot.patrolChoice
  dsimp only
  by_cases h1 : bot.isSafeDirection state head dir = false
  · rw [if_pos h1]
    by_cases h2 : bot.isSafeDirection state head
        (bot.chooseDirectionToward state head target true) = true
    · rw [if_pos h2]
      exact ⟨hc, fun _ => h2⟩
    · rw [if_neg h2]
      exact ⟨hf1, hf2⟩
  · rw [if_neg h1]
    have h3 : bot.isSafeDirection state head dir = true := by
      cases hb : bot.isSafeDirection state head dir
      · exact absurd hb h1
      · rfl
    rw [if_pos h3]
    exact ⟨hdir, fun _ => h3⟩

/-- `decideParasite` returns one of the four directions, and a safe one whenever a safe
one exists, for every state that holds the own snake. -/
theorem decideParasite_spec (state : ClientGameState) (memory : ParasiteMemory)
    (me : ClientSnake) (hme : state.getMySnake = some me) :
    ∃ d, (bot.decideParasite state memory).1 = BotResult.direction d ∧
      d ∈ bot.allDirections ∧
      ((∃ c ∈ bot.allDirections, bot.isSafeDirection state me.head c = true) →
        bot.isSafeDirection state me.head d = true) := by
  obtain ⟨hf1, hf2⟩ := firstSafeDirection_spec state me.head
  unfold bot.decideParasite
  rw [hme]
  dsimp only
  split_ifs with h1 h2 h3 h4
  all_goals first
    | exact ⟨_, rfl, chooseDirectionToward_mem _ _ _ _, fun _ => by assumption⟩
    | exact ⟨_, rfl, hf1, hf2⟩

theorem interceptorStep_spec (state : ClientGameState) (head predicted : Point)
    (dirs : List String) (best : String × Int) :
    (dirs.foldl (bot.interceptorStep state head predicted) best = best ∨
      ((dirs.foldl (bot.interceptorStep state head predicted) best).1 ∈ dirs ∧
        bot.isSafeDirection state head
          (dirs.foldl (bot.interceptorStep state head predicted) best).1 = true)) ∧
    (dirs.foldl (bot.interceptorStep state head predicted) best).2 ≤ best.2 ∧
    ∀ d ∈ dirs, bot.isSafeDirection state head d = true →
      (dirs.foldl (bot.interceptorStep state head predicted) best).2 ≤
        (bot.nextPoint head d).distance predicted := by
  induction dirs generalizing best with
  | nil =>
    refine ⟨Or.inl rfl, le_refl _, ?_⟩
    intro d hd
    cases hd
  | cons a dirs ih =>
    simp only [List.foldl_cons]
    obtain ⟨h1, h2, h3⟩ := ih (bot.interceptorStep state head predicted best a)
    have hstep : (bot.interceptorStep state head predicted best a = best ∧
          (bot.isSafeDirection state head a = true →
            best.2 ≤ (bot.nextPoint head a).distance predicted)) ∨
        (bot.interceptorStep state head predicted best a =
            (a, (bot.nextPoint head a).distance predicted) ∧
          bot.isSafeDirection state head a = true ∧
          (bot.nextPoint head a).distance predicted < best.2) := by
      unfold bot.interceptorStep
      dsimp only
      by_cases hs : bot.isSafeDirection state head a = false
      · rw [if_pos hs]
        left
        refine ⟨rfl, ?_⟩
        intro ht
        rw [hs] at ht
        cases ht
      · rw [if_neg hs]
        have hs2 : bot.isSafeDirection state head a = true := by
          cases hb : bot.isSafeDirection state head a
          · exact absurd hb hs
          · rfl
        by_cases hlt : (bot.nextPoint head a).distance predicted < best.2
        · rw [if_pos hlt]
          exact Or.inr ⟨rfl, hs2, hlt⟩
        · rw [if_neg hlt]
          exact Or.inl ⟨rfl, fun _ => not_lt.mp hlt⟩
    rcases hstep with ⟨he, hle⟩ | ⟨he, hsafe, hlt⟩
    · rw [he] at h1 h2 h3 ⊢
      refine ⟨?_, h2, ?_⟩
      · rcases h1 with h | ⟨h, hs⟩
        · exact Or.inl h
        · exact Or.inr ⟨List.mem_cons_of_mem _ h, hs⟩
      · intro d hd hs
        rcases List.mem_cons.mp hd with e | e
        · rw [e] at hs ⊢
          exact le_trans h2 (hle hs)
        · exact h3 d e hs
    · rw [he] at h1 h2 h3 ⊢
      refine ⟨?_, ?_, ?_⟩
      · right
        rcases h1 with h | ⟨h, hs⟩
        · rw [h]
          exact ⟨List.mem_cons_self _ _, hsafe⟩
        · exact ⟨List.mem_cons_of_mem _ h, hs⟩
      · exact le_trans h2 (le_of_lt hlt)
      · intro d hd hs
        rcases List.mem_cons.mp hd with e | e
        · rw [e]
          exact h2
        · exact h3 d e hs

/-- `decideInterceptor` returns one of the four directions for every state that holds
the own snake; the choice among the safe directions is the one returned whenever a safe
direction lies at a distance below the largest `int` from the predicted point. -/
theorem decideInterceptor_spec (state : ClientGameState) (me : ClientSnake)
    (hme : state.getMySnake = some me) :
    (∃ d, bot.decideInterceptor state = BotResult.direction d ∧ d ∈ bot.allDirections) ∧
    ∀ predicted : Point,
      (∃ c ∈ bot.allDirections, bot.isSafeDirection state me.head c = true ∧
        (bot.nextPoint me.head c).distance predicted < bot.intMax) →
      (bot.allDirections.foldl (bot.interceptorStep state me.head predicted)
        ("right", bot.intMax)).2 ≠ bot.intMax ∧
      bot.isSafeDirection state me.head
        (bot.allDirections.foldl (bot.interceptorStep state me.head predicted)
          ("right", bot.intMax)).1 = true := by
  constructor
  · unfold bot.decideInterceptor
    rw [hme]
    dsimp only
    cases state.getOtherPlayers with
    | nil => exact ⟨"right", rfl, by decide⟩
    | cons front rest =>
      dsimp only
      split_ifs with h
      · refine ⟨_, rfl, ?_⟩
        rcases (interceptorStep_spec state me.head _ bot.allDirections
          ("right", bot.intMax)).1 with e | ⟨e, _⟩
        · rw [e]
          decide
        · exact e
      · exact ⟨_, rfl, chooseDirectionToward_mem _ _ _ _⟩
  · rintro predicted ⟨c, hc, hs, hlt⟩
    obtain ⟨h1, h2, h3⟩ := interceptorStep_spec state me.head predicted bot.allDirections
      ("right", bot.intMax)
    have hlt2 := lt_of_le_of_lt (h3 c hc hs) hlt
    have hne : (bot.allDirections.foldl (bot.interceptorStep state me.head predicted)
        ("right", bot.intMax)).2 ≠ bot.intMax := ne_of_lt hlt2
    refine ⟨hne, ?_⟩
    rcases h1 with e | ⟨_, e⟩
    · rw [e] at hne
      exact absurd rfl hne
    · exact e

/-- The write `prev[id(start)]` of `bfsFirstStep` is outside the vector whenever the
start is not the target, the map is not empty and `start.y * width + start.x` is not in
`[0, width * height)`; no amount of fuel changes this. -/
theorem bfsFirstStep_out_of_range (fuel : Nat) (state : ClientGameState)
    (start target : Point) (hne : ¬ (start.x = target.x ∧ start.y = target.y))
    (hw : 0 < state.map_width) (hh : 0 < state.map_height)
    (hid : bot.cellId state.map_width start.x start.y < 0 ∨
      state.map_width * state.map_height ≤ bot.cellId state.map_width start.x start.y) :
    bot.bfsFirstStep fuel state start target =
      BotResult.outOfRange (bot.cellId state.map_width start.x start.y) := by
  unfold bot.bfsFirstStep
  rw [if_neg hne]
  dsimp only
  rw [if_neg (by omega)]
  have hpos : 0 ≤ state.map_width * state.map_height := by positivity
  have hset : bot.vecSet (List.replicate (state.map_width * state.map_height).toNat (-1 : Int))
      (bot.cellId state.map_width start.x start.y)
      (bot.cellId state.map_width start.x start.y) = none := by
    unfold bot.vecSet
    rw [if_neg]
    rw [List.length_replicate, Int.toNat_of_nonneg hpos]
    omega
  rw [hset]

/-- C38 fails for `decidePatroller`.  On the 10 x 10 grid the own snake, invincible, has
the blocks (5,-1), (6,-1), (6,0): the server publishes exactly this snake after a snake
spawned at (6,0) was sent up and then left, because invincible snakes are not checked
against the walls.  The direction "down" is safe for the head (5,-1).  On the first call
of `decidePatroller` the patrol corner is (14,4), and `bfsFirstStep` writes `prev[-5]` in
a vector of 100 entries before it looks at any cell, whatever the fuel: the call does not
return a direction.  The end of `decidePatroller` would return the safe "down" for any of
the four directions `bfsFirstStep` could return, and `decideParasite` returns the safe
"down" on the same state. -/
theorem decidePatroller_off_map_out_of_range :
    (∀ fuel, bot.decidePatroller fuel offMapState PatrolState.initial =
      (BotResult.outOfRange (-5),
        { inited := true, minX := 14, maxX := 15, minY := 4, maxY := 5, index := 0 })) ∧
    (offMapState.getMySnake).map (fun s => (s.head, s.blocks)) =
      some (⟨5, -1⟩, [⟨5, -1⟩, ⟨6, -1⟩, ⟨6, 0⟩]) ∧
    bot.isSafeDirection offMapState ⟨5, -1⟩ "down" = true ∧
    bot.cellId offMapState.map_width 5 (-1) = -5 ∧
    (bot.allDirections.map (bot.patrolChoice offMapState ⟨5, -1⟩ ⟨14, 4⟩) =
      ["down", "down", "down", "down"]) ∧
    (bot.decideParasite offMapState ParasiteMemory.initial).1 = BotResult.direction "down" ∧
    (freshClient.parseFullMapState (offMapServer.gameState.toJson 0 0)).state.players =
      offMapState.players ∧
    (freshClient.parseFullMapState (offMapServer.gameState.toJson 0 0)).state.map_width =
      offMapState.map_width ∧
    (freshClient.parseFullMapState (offMapServer.gameState.toJson 0 0)).state.map_height =
      offMapState.map_height ∧
    (freshClient.parseFullMapState (offMapServer.gameState.toJson 0 0)).state.my_id =
      offMapState.my_id :=
  ⟨fun _ => rfl, by decide, by decide, by decide, by decide, by decide, by decide, by decide,
    by decide, by decide⟩

end snake
